import Mathlib

/-!
SH-2 dynamic recompiler (`cpu/sh2/compiler.c`): a shallow embedding.

The C code is translated function by function.  Machine integers are `Nat`
(or `Int` where the source uses `int`) with explicit reductions modulo `2^16`
or `2^32` where the source type wraps.  Static arrays indexed by small
integers are total functions `Nat → α` together with explicit bounds; code
emitted through the `emith_*` macros (whose host-specific definitions live in
`emit_arm.c` / `emit_x86.c`) is recorded as a list of emitter calls.
Aborts (`exit(1)`) and out-of-bounds accesses make a function return `none`.
-/

namespace Sh2Drc

/-! ## Host register tracking (compiler.c 65-79) -/

/-- Type tag of a host register slot (`HR_*` enum). -/
inductive HRType
  | HR_FREE
  | HR_CACHED
  | HR_CACHED_DIRTY
  | HR_CONST
  | HR_TEMP
  deriving DecidableEq, Repr

/-- One entry of `reg_temp[]` (`temp_reg_t`): `reg` is `u8`, `stamp` is `u16`, `val` is `u32`. -/
structure temp_reg_t where
  reg : Nat
  type : HRType
  stamp : Nat
  val : Nat
  deriving DecidableEq, Repr

/-- Access intent of `rcache_get_reg` (`rc_gr_mode`). -/
inductive rc_gr_mode
  | RC_GR_READ
  | RC_GR_WRITE
  | RC_GR_RMW
  deriving DecidableEq, Repr

/-! ## Guest registers (`sh2_reg_e`): R0..R15, PC, PPC, PR, SR, GBR, VBR, MACH, MACL -/

def SHR_R0 : Nat := 0
def SHR_SP : Nat := 15
def SHR_PC : Nat := 16
def SHR_PPC : Nat := 17
def SHR_PR : Nat := 18
def SHR_SR : Nat := 19
def SHR_GBR : Nat := 20
def SHR_VBR : Nat := 21
def SHR_MACH : Nat := 22
def SHR_MACL : Nat := 23

/-! ## Emitted host code

Every `emith_*` / `EMITH_*` macro call is one record: the macro and its
arguments in source order. -/

/-- Names of the emitter macros used by the translator. -/
inductive EmitOp
  | ctx_read | ctx_write | ctx_read_multiple | ctx_write_multiple
  | move_r_r | move_r_imm | move_r_imm_s8 | move_r_imm_c
  | add_r_imm | add_r_imm_c | sub_r_imm | sub_r_imm_c | subf_r_imm
  | add_r_r | sub_r_r | addf_r_r | subf_r_r | adcf_r_r | sbcf_r_r | negcf_r_r | neg_r_r
  | and_r_r | and_r_imm | and_r_r_imm | or_r_r | or_r_imm | or_r_imm_c | or_r_r_lsl
  | eor_r_r | eor_r_imm | eor_r_imm_c | eor_r_r_r | eor_r_r_lsr | eorf_r_r | mvn_r_r
  | bic_r_imm | tst_r_imm | tst_r_r | teq_r_r | cmp_r_imm | cmp_r_r
  | sext | clear_msb | clear_msb_c
  | lsl | lsr | asr | rol | lslf | lsrf | asrf | rolf | rorf | rolcf | rorcf
  | mul | mul_u64 | mul_s64 | mula_s64
  | tpop_carry | tpush_carry | write_sr
  | sh2_test_t | sh2_dtbf_loop | sh2_div1_step | sh2_drc_entry | sh2_drc_exit
  | sjmp_start | sjmp_end | jmp_start | jmp_end
  | jump | jump_reg | call | pass_arg_r | pass_arg_imm
  deriving DecidableEq, Repr

/-- One emitter call. -/
structure Emit where
  op : EmitOp
  args : List Int
  deriving DecidableEq, Repr

def emith_ctx_read (r : Nat) (offs : Nat) : Emit := ⟨.ctx_read, [r, offs]⟩
def emith_ctx_write (r : Nat) (offs : Nat) : Emit := ⟨.ctx_write, [r, offs]⟩

/-! ## Build configuration

Everything the file takes from headers and emitter sources that are not part
of `compiler.c`. -/

/-- Host/build parameters. -/
structure Config where
  /-- `reg_map_g2h[]`: static guest-to-host mapping, `-1` when none. -/
  reg_map_g2h : Nat → Int
  /-- `host_arg2reg(r, arg)`: host register of C argument `arg`. -/
  host_arg2reg : Nat → Nat
  CONTEXT_REG : Nat
  SH2_DRCBLK_RAM_SHIFT : Nat
  SH2_DRCBLK_DA_SHIFT : Nat
  DRC_TCACHE_SIZE : Nat
  /-- whether `DRC_DEBUG_INTERP` is defined -/
  DRC_DEBUG_INTERP : Bool
  /-- `offsetof(SH2, drc_tmp)` -/
  offsetof_drc_tmp : Nat
  /-- number of bytes an emitter call writes to the translation cache -/
  emit_size : Emit → Nat

/-! ## Register cache (compiler.c 219-429) -/

/-- The register cache globals (`reg_temp[]`, `rcache_counter`) and the code emitted so far. -/
structure RCache where
  reg_temp : List temp_reg_t
  rcache_counter : Nat
  code : List Emit
  deriving DecidableEq, Repr

/-- Append one emitter call to the output. -/
def RCache.emit (s : RCache) (e : Emit) : RCache := { s with code := s.code ++ [e] }

/-- The test `type == HR_CACHED || type == HR_CACHED_DIRTY`. -/
def is_cached (t : temp_reg_t) : Bool :=
  t.type == .HR_CACHED || t.type == .HR_CACHED_DIRTY

/-- The test `type == HR_FREE || type == HR_CONST`. -/
def is_free (t : temp_reg_t) : Bool :=
  t.type == .HR_FREE || t.type == .HR_CONST

/-- The `u32` product `val * 4` used as context offset. -/
def ctx_offs (val : Nat) : Nat := val * 4 % 4294967296

/-- Loop of `rcache_evict`: scans slots `i, i+1, ...` carrying `(oldest, min_stamp)`;
`oldest = -1` is `none`. -/
def evict_scan : List temp_reg_t → Nat → Option Nat × Nat → Option Nat × Nat
  | [], _, acc => acc
  | t :: ts, i, acc =>
    if is_cached t && decide (t.stamp ≤ acc.2) then evict_scan ts (i + 1) (some i, t.stamp)
    else evict_scan ts (i + 1) acc

/-- Model of `rcache_evict`: index of the evicted slot, `none` for the abort. -/
def rcache_evict (s : RCache) : Option (Nat × RCache) :=
  match (evict_scan s.reg_temp 0 (none, 65535)).1 with
  | none => none
  | some i =>
    match s.reg_temp[i]? with
    | none => none
    | some t =>
      if t.type = .HR_CACHED_DIRTY then
        some (i, s.emit (emith_ctx_write t.reg (ctx_offs t.val)))
      else some (i, s)

/-- Downward scan `for (i = n - 1; i >= 0; i--) if (p reg_temp[i]) ...`: first hit from the top. -/
def scan_down (p : temp_reg_t → Bool) (rt : List temp_reg_t) : Nat → Option Nat
  | 0 => none
  | i + 1 =>
    match rt[i]? with
    | some t => if p t then some i else scan_down p rt i
    | none => scan_down p rt i

/-- The `do_alloc:` tail of `rcache_get_reg` on slot `i`. -/
def get_reg_alloc (s : RCache) (i : Nat) (r : Nat) (mode : rc_gr_mode) : Option (Int × RCache) :=
  match s.reg_temp[i]? with
  | none => none
  | some tr =>
    let s1 := if mode ≠ .RC_GR_WRITE then s.emit (emith_ctx_read tr.reg (r * 4)) else s
    let tr1 : temp_reg_t :=
      { reg := tr.reg
        type := if mode ≠ .RC_GR_READ then .HR_CACHED_DIRTY else .HR_CACHED
        stamp := s.rcache_counter
        val := r }
    some ((tr.reg : Int), { s1 with reg_temp := s1.reg_temp.set i tr1 })

/-- Model of `rcache_get_reg`. -/
def rcache_get_reg (cfg : Config) (s : RCache) (r : Nat) (mode : rc_gr_mode) :
    Option (Int × RCache) :=
  if cfg.reg_map_g2h r ≠ -1 then some (cfg.reg_map_g2h r, s)
  else
    let s0 : RCache := { s with rcache_counter := (s.rcache_counter + 1) % 65536 }
    match scan_down (fun t => is_cached t && t.val == r) s0.reg_temp s0.reg_temp.length with
    | some i =>
      match s0.reg_temp[i]? with
      | none => none
      | some t =>
        let t1 : temp_reg_t :=
          { t with
            stamp := s0.rcache_counter
            type := if mode ≠ .RC_GR_READ then .HR_CACHED_DIRTY else t.type }
        some ((t.reg : Int), { s0 with reg_temp := s0.reg_temp.set i t1 })
    | none =>
      match scan_down is_free s0.reg_temp s0.reg_temp.length with
      | some i => get_reg_alloc s0 i r mode
      | none =>
        match rcache_evict s0 with
        | none => none
        | some (i, s1) => get_reg_alloc s1 i r mode

/-- Loop of `rcache_clean` over the slots, in index order. -/
def clean_slots : List temp_reg_t → List temp_reg_t × List Emit
  | [] => ([], [])
  | t :: ts =>
    let rest := clean_slots ts
    if t.type = .HR_CACHED_DIRTY then
      ({ t with type := .HR_CACHED } :: rest.1, emith_ctx_write t.reg (ctx_offs t.val) :: rest.2)
    else (t :: rest.1, rest.2)

/-- Model of `rcache_clean`. -/
def rcache_clean (s : RCache) : RCache :=
  { s with
    reg_temp := (clean_slots s.reg_temp).1
    code := s.code ++ (clean_slots s.reg_temp).2 }

/-- Model of `rcache_invalidate`. -/
def rcache_invalidate (s : RCache) : RCache :=
  { s with
    reg_temp := s.reg_temp.map (fun t => { t with type := .HR_FREE })
    rcache_counter := 0 }

/-- Model of `rcache_flush`. -/
def rcache_flush (s : RCache) : RCache := rcache_invalidate (rcache_clean s)

/-- Upward scan `for (i = 0; i < n; i++) if (p reg_temp[i]) break`: first hit from the bottom. -/
def scan_up (p : temp_reg_t → Bool) : List temp_reg_t → Nat → Option Nat
  | [], _ => none
  | t :: ts, i => if p t then some i else scan_up p ts (i + 1)

/-- Model of `rcache_get_tmp`. -/
def rcache_get_tmp (s : RCache) : Option (Int × RCache) :=
  let pick : Option (Nat × RCache) :=
    match scan_up is_free s.reg_temp 0 with
    | some i => some (i, s)
    | none => rcache_evict s
  match pick with
  | none => none
  | some (i, s1) =>
    match s1.reg_temp[i]? with
    | none => none
    | some tr =>
      some ((tr.reg : Int), { s1 with reg_temp := s1.reg_temp.set i { tr with type := .HR_TEMP } })

/-- Model of `rcache_get_arg_id`; an argument register outside the pool comes back
as its own number, as in the source. -/
def rcache_get_arg_id (cfg : Config) (s : RCache) (arg : Nat) : Option (Nat × RCache) :=
  let r := cfg.host_arg2reg arg
  match scan_up (fun t => t.reg == r) s.reg_temp 0 with
  | none => some (r, s)
  | some i =>
    match s.reg_temp[i]? with
    | none => none
    | some t =>
      if t.type = .HR_CACHED_DIRTY then
        some (i, s.emit (emith_ctx_write t.reg (ctx_offs t.val)))
      else if t.type = .HR_TEMP then none
      else some (i, s)

/-- Model of `rcache_get_tmp_arg`. -/
def rcache_get_tmp_arg (cfg : Config) (s : RCache) (arg : Nat) : Option (Int × RCache) :=
  match rcache_get_arg_id cfg s arg with
  | none => none
  | some (id, s1) =>
    match s1.reg_temp[id]? with
    | none => none
    | some t =>
      some ((t.reg : Int), { s1 with reg_temp := s1.reg_temp.set id { t with type := .HR_TEMP } })

/-- Model of `rcache_get_reg_arg`. -/
def rcache_get_reg_arg (cfg : Config) (s : RCache) (arg : Nat) (r : Nat) :
    Option (Int × RCache) :=
  match rcache_get_arg_id cfg s arg with
  | none => none
  | some (dstid, s1) =>
    match s1.reg_temp[dstid]? with
    | none => none
    | some dt =>
      let dstr : Int := dt.reg
      let found : Option Int :=
        if cfg.reg_map_g2h r ≠ -1 then some (cfg.reg_map_g2h r)
        else
          match scan_down (fun t => is_cached t && t.val == r) s1.reg_temp s1.reg_temp.length with
          | some i => (s1.reg_temp[i]?).map (fun t => (t.reg : Int))
          | none => none
      let s2 : RCache :=
        match found with
        | some srcr => if srcr ≠ dstr then s1.emit ⟨.move_r_r, [dstr, srcr]⟩ else s1
        | none => s1.emit (emith_ctx_read dt.reg (r * 4))
      let ctr := (s2.rcache_counter + 1) % 65536
      some (dstr,
        { s2 with
          rcache_counter := ctr
          reg_temp := s2.reg_temp.set dstid
            { reg := dt.reg, type := .HR_CACHED, stamp := ctr, val := r } })

/-- Model of `rcache_free_tmp`; the failure branch only prints. -/
def rcache_free_tmp (s : RCache) (hr : Int) : RCache :=
  match scan_up (fun t => decide ((t.reg : Int) = hr)) s.reg_temp 0 with
  | none => s
  | some i =>
    match s.reg_temp[i]? with
    | none => s
    | some t =>
      if t.type ≠ .HR_TEMP then s
      else { s with reg_temp := s.reg_temp.set i { t with type := .HR_FREE } }

/-! ## Block manager (compiler.c 46-60, 135-215) -/

def BLOCK_CYCLE_LIMIT : Nat := 100
def MAX_BLOCK_SIZE : Nat := BLOCK_CYCLE_LIMIT * 6 * 6
def MAX_HASH_ENTRIES : Nat := 1024
def HASH_MASK : Nat := MAX_HASH_ENTRIES - 1

/-- `tcache_sizes[]`. -/
def tcache_sizes (cfg : Config) (i : Nat) : Nat :=
  [cfg.DRC_TCACHE_SIZE * 6 / 8, cfg.DRC_TCACHE_SIZE / 8, cfg.DRC_TCACHE_SIZE / 8].getD i 0

/-- `block_max_counts[]`. -/
def block_max_counts (i : Nat) : Nat := [4 * 1024, 256, 256].getD i 0

/-- Offset of `block_tables[i]` inside the one descriptor array that `sh2_drc_init`
allocates (`block_tables[i] = block_tables[i - 1] + block_max_counts[i - 1]`). -/
def block_tables_base (i : Nat) : Nat :=
  [0, block_max_counts 0, block_max_counts 0 + block_max_counts 1].getD i 0

/-- Number of descriptors in that array. -/
def BLOCK_TABLE_LEN : Nat := block_max_counts 0 + block_max_counts 1 + block_max_counts 2

/-- A `block_desc`; pointers to descriptors are indices into the descriptor
array (`none` is `NULL`), `tcache_ptr` is a host address (`0` is `NULL`). -/
structure block_desc where
  addr : Nat
  end_addr : Nat
  tcache_ptr : Nat
  next : Option Nat
  deriving DecidableEq, Repr

/-- Number of `u16` slots of `Pico32xMem->drcblk_ram` (256 KiB of DRAM). -/
def drcblk_ram_len (cfg : Config) : Nat := 0x40000 >>> cfg.SH2_DRCBLK_RAM_SHIFT

/-- Number of `u16` slots of `Pico32xMem->drcblk_da[i]` (4 KiB of data array). -/
def drcblk_da_len (cfg : Config) : Nat := 0x1000 >>> cfg.SH2_DRCBLK_DA_SHIFT

/-- The module-level state of the recompiler. -/
structure Drc where
  tcache_bases : Nat → Nat
  tcache_ptrs : Nat → Nat
  block_tab : Nat → block_desc
  block_counts : Nat → Nat
  hash_table : Nat → Option Nat
  drcblk_ram : Nat → Nat
  drcblk_da : Nat → Nat → Nat
  reg_temp : List temp_reg_t
  rcache_counter : Nat

/-- The fields of `SH2` that compiler.c itself reads or writes. -/
structure SH2 where
  pc : Nat
  sr : Nat := 0
  is_slave : Nat := 0
  cycles_aim : Nat := 0
  cycles_done : Nat := 0
  pending_level : Nat := 0
  pending_irl : Nat := 0
  pending_int_irq : Nat := 0
  pending_int_vector : Nat := 0
  deriving DecidableEq, Repr

/-- Model of `flush_tcache`. -/
def flush_tcache (d : Drc) (tcid : Nat) : Drc :=
  let d1 : Drc :=
    { d with
      block_counts := Function.update d.block_counts tcid 0
      tcache_ptrs := Function.update d.tcache_ptrs tcid (d.tcache_bases tcid) }
  if tcid = 0 then
    { d1 with hash_table := fun _ => none, drcblk_ram := fun _ => 0 }
  else
    { d1 with drcblk_da := Function.update d1.drcblk_da (tcid - 1) (fun _ => 0) }

/-- Loop of `dr_find_block`, entered with `tab` already advanced to `tab->next`.
The fuel bounds the chain walk; `none` stands for a walk that does not end. -/
def dr_find_block_loop (bt : Nat → block_desc) (addr : Nat) : Nat → Option Nat → Option Nat
  | 0, _ => none
  | _ + 1, none => some 0
  | fuel + 1, some tab =>
    if (bt tab).addr = addr then some (bt tab).tcache_ptr
    else dr_find_block_loop bt addr fuel (bt tab).next

/-- Model of `dr_find_block`: the translated entry or `0` (`NULL`, "block miss"). -/
def dr_find_block (bt : Nat → block_desc) (tab : Nat) (addr : Nat) : Option Nat :=
  dr_find_block_loop bt addr (BLOCK_TABLE_LEN + 1) (bt tab).next

/-- Model of `dr_add_block`, with the emitter pointer `tcache_ptr` passed in:
the new descriptor (as pointer and as `*blk_id`) or `none` for `NULL`. -/
def dr_add_block (d : Drc) (tcache_ptr addr tcache_id : Nat) : Option (Nat × Nat) × Drc :=
  let bcount := d.block_counts tcache_id
  if bcount ≥ block_max_counts tcache_id then (none, d)
  else
    let bd := block_tables_base tcache_id + bcount
    (some (bd, bcount),
      { d with
        block_tab := Function.update d.block_tab bd
          { d.block_tab bd with addr := addr, tcache_ptr := tcache_ptr }
        block_counts := Function.update d.block_counts tcache_id (bcount + 1) })

/-- `HASH_FUNC(hash_tab, addr)`: the bucket index. -/
def HASH_FUNC (addr : Nat) : Nat := addr &&& HASH_MASK

/-- The translator's test for "data array or BIOS" (compiler.c 635, 1787). -/
def is_da_bios (pc : Nat) : Bool :=
  (pc &&& 0xe0000000) == 0xc0000000 || (pc &&& 0xfffff000) == 0

/-- The translation cache the translator picks for `pc` (compiler.c 635-638). -/
def tcache_id_of (pc is_slave : Nat) : Nat :=
  if is_da_bios pc then 1 + is_slave else 0

/-! ## Translator state and emit helpers (compiler.c 431-542, 597-625) -/

def T : Nat := 0x00000001
def S : Nat := 0x00000002
def I : Nat := 0x000000f0
def Q : Nat := 0x00000100
def M : Nat := 0x00000200
def Q_SHIFT : Nat := 8
def M_SHIFT : Nat := 9

/-! Host condition codes `DCOND_*` (numbered as the ARM condition field). -/

def DCOND_EQ : Int := 0
def DCOND_NE : Int := 1
def DCOND_HS : Int := 2
def DCOND_LO : Int := 3
def DCOND_MI : Int := 4
def DCOND_PL : Int := 5
def DCOND_VS : Int := 6
def DCOND_VC : Int := 7
def DCOND_HI : Int := 8
def DCOND_LS : Int := 9
def DCOND_GE : Int := 10
def DCOND_LT : Int := 11
def DCOND_GT : Int := 12
def DCOND_LE : Int := 13

/-! Targets of `emith_call` / `emith_jump`, as tags. -/

def p32x_sh2_read8 : Int := 1
def p32x_sh2_read16 : Int := 2
def p32x_sh2_read32 : Int := 3
def p32x_sh2_write8 : Int := 4
def p32x_sh2_write16 : Int := 5
def p32x_sh2_write32 : Int := 6
def sh2_do_op : Int := 7
def sh2_test_irq_fn : Int := 8
def sh2_drc_exit : Int := 9

/-- An immediate operand computed in unsigned arithmetic. -/
def imm (n : Nat) : Int := n

/-- Reduction of a C `unsigned int` expression. -/
def u32 (x : Int) : Nat := (x % 4294967296).toNat

/-- Reading of a 32-bit word as `signed int`. -/
def s32 (x : Nat) : Int :=
  if x % 4294967296 < 2147483648 then (x % 4294967296 : Nat) else ((x % 4294967296 : Nat) : Int) - 4294967296

/-- Locals of `sh2_translate` that the opcode handlers update, with the register cache. -/
structure TState where
  rc : RCache
  pc : Nat
  cycles : Int
  delayed_op : Nat
  test_irq : Nat
  deriving DecidableEq, Repr

/-- Translator actions: state passing, `none` for an abort. -/
def TM (α : Type) : Type := TState → Option (α × TState)

/-- Return without touching the state. -/
def TM.pure {α : Type} (a : α) : TM α := fun st => some (a, st)

/-- Sequencing: an abort of the first action aborts the whole. -/
def TM.bind {α β : Type} (m : TM α) (f : α → TM β) : TM β := fun st =>
  match m st with
  | none => none
  | some (a, st1) => f a st1

instance : Monad TM where
  pure := TM.pure
  bind := TM.bind

/-- Run a register cache function inside the translator. -/
def lift_rc {α : Type} (f : RCache → Option (α × RCache)) : TM α := fun st =>
  match f st.rc with
  | none => none
  | some (a, rc) => some (a, { st with rc := rc })

/-- Emit one host instruction. -/
def E (op : EmitOp) (args : List Int) : TM Unit := fun st =>
  some ((), { st with rc := st.rc.emit ⟨op, args⟩ })

def get_reg (cfg : Config) (r : Nat) (mode : rc_gr_mode) : TM Int :=
  lift_rc (fun rc => rcache_get_reg cfg rc r mode)
def get_tmp : TM Int := lift_rc rcache_get_tmp
def get_tmp_arg (cfg : Config) (arg : Nat) : TM Int :=
  lift_rc (fun rc => rcache_get_tmp_arg cfg rc arg)
def get_reg_arg (cfg : Config) (arg : Nat) (r : Nat) : TM Int :=
  lift_rc (fun rc => rcache_get_reg_arg cfg rc arg r)
def free_tmp (hr : Int) : TM Unit := fun st =>
  some ((), { st with rc := rcache_free_tmp st.rc hr })
def clean : TM Unit := fun st => some ((), { st with rc := rcache_clean st.rc })
def invalidate : TM Unit := fun st => some ((), { st with rc := rcache_invalidate st.rc })
def flush : TM Unit := fun st => some ((), { st with rc := rcache_flush st.rc })

/-- `cycles += n`. -/
def add_cycles (n : Int) : TM Unit := fun st => some ((), { st with cycles := st.cycles + n })
/-- `DELAYED_OP`. -/
def DELAYED_OP : TM Unit := fun st => some ((), { st with delayed_op := 2 })
/-- `test_irq = 1`. -/
def set_test_irq : TM Unit := fun st => some ((), { st with test_irq := 1 })
/-- The local `pc` (already advanced past the current opcode), as a `u32`. -/
def get_pc : TM Nat := fun st => some (st.pc, st)
def get_delayed_op : TM Nat := fun st => some (st.delayed_op, st)

def emit_move_r_imm32 (cfg : Config) (dst : Nat) (imm : Nat) : TM Unit := do
  let hr ← get_reg cfg dst .RC_GR_WRITE
  E .move_r_imm [hr, imm]

def emit_move_r_r (cfg : Config) (dst src : Nat) : TM Unit := do
  let hr_d ← get_reg cfg dst .RC_GR_WRITE
  let hr_s ← get_reg cfg src .RC_GR_READ
  E .move_r_r [hr_d, hr_s]

def emit_or_t_if_eq (srr : Int) : TM Unit := do
  E .sjmp_start [DCOND_NE]
  E .or_r_imm_c [DCOND_EQ, srr, T]
  E .sjmp_end [DCOND_NE]

/-- `switch (size)` of the memory handlers: the callee for sizes 0, 1, 2. -/
def emit_memcall (f8 f16 f32 : Int) (size : Nat) : TM Unit :=
  match size with
  | 0 => E .call [f8]
  | 1 => E .call [f16]
  | 2 => E .call [f32]
  | _ => pure ()

def emit_memhandler_read (cfg : Config) (size : Nat) : TM Int := do
  E .move_r_r [cfg.host_arg2reg 1, cfg.CONTEXT_REG]
  emit_memcall p32x_sh2_read8 p32x_sh2_read16 p32x_sh2_read32 size
  invalidate
  get_tmp_arg cfg 0

def emit_memhandler_write (cfg : Config) (size : Nat) : TM Unit := do
  E .move_r_r [cfg.host_arg2reg 2, cfg.CONTEXT_REG]
  emit_memcall p32x_sh2_write8 p32x_sh2_write16 p32x_sh2_write32 size
  invalidate

def emit_indirect_indexed_read (cfg : Config) (rx ry size : Nat) : TM Int := do
  clean
  let a0 ← get_reg_arg cfg 0 rx
  let t ← get_reg cfg ry .RC_GR_READ
  E .add_r_r [a0, t]
  emit_memhandler_read cfg size

def emit_indirect_indexed_write (cfg : Config) (tmp_wr : Int) (rx ry size : Nat) : TM Unit := do
  clean
  let t ← get_tmp_arg cfg 1
  E .move_r_r [t, tmp_wr]
  let a0 ← get_reg_arg cfg 0 rx
  let t ← get_reg cfg ry .RC_GR_READ
  E .add_r_r [a0, t]
  emit_memhandler_write cfg size

/-- Model of `emit_indirect_read_double`: returns `(*rnr, *rmr)`. -/
def emit_indirect_read_double (cfg : Config) (rn rm size : Nat) : TM (Int × Int) := do
  clean
  let _ ← get_reg_arg cfg 0 rn
  let tmp ← emit_memhandler_read cfg size
  E .ctx_write [tmp, cfg.offsetof_drc_tmp]
  free_tmp tmp
  let tmp ← get_reg cfg rn .RC_GR_RMW
  E .add_r_imm [tmp, imm (1 <<< size)]
  clean
  let _ ← get_reg_arg cfg 0 rm
  let rmr ← emit_memhandler_read cfg size
  let rnr ← get_tmp
  E .ctx_read [rnr, cfg.offsetof_drc_tmp]
  let tmp ← get_reg cfg rm .RC_GR_RMW
  E .add_r_imm [tmp, imm (1 <<< size)]
  pure (rnr, rmr)

/-! ## Opcode handlers (compiler.c 600-1759)

Each handler is the body of one `case` of the outer `switch ((op >> 12) & 0x0f)`.
A handler of type `TM Unit` always continues at `end_op`. -/

def GET_Fx (op : Nat) : Nat := (op >>> 4) &&& 0x0f
def GET_Rm (op : Nat) : Nat := GET_Fx op
def GET_Rn (op : Nat) : Nat := (op >>> 8) &&& 0x0f

/-- `cycles = n`. -/
def set_cycles (n : Int) : TM Unit := fun st => some ((), { st with cycles := n })

/-- The `default_:` label: the anomaly log, and the interpreter call when
`DRC_DEBUG_INTERP` is defined. -/
def default_ (cfg : Config) (op : Nat) : TM Unit := do
  if cfg.DRC_DEBUG_INTERP then
    let pc ← get_pc
    emit_move_r_imm32 cfg SHR_PC (u32 ((pc : Int) - 2))
    flush
    E .pass_arg_r [0, cfg.CONTEXT_REG]
    E .pass_arg_imm [1, op]
    E .call [sh2_do_op]
  else pure ()

/-- `case 0x00:` of the outer switch. -/
def op_0 (cfg : Config) (op : Nat) : TM Unit := do
  match op &&& 0x0f with
  | 0x02 =>
    let tmp ← get_reg cfg (GET_Rn op) .RC_GR_WRITE
    let sel : Option Nat :=
      match GET_Fx op with
      | 0 => some SHR_SR   -- STC SR,Rn
      | 1 => some SHR_GBR  -- STC GBR,Rn
      | 2 => some SHR_VBR  -- STC VBR,Rn
      | _ => none
    match sel with
    | none => default_ cfg op
    | some tmp2 =>
      let tmp3 ← get_reg cfg tmp2 .RC_GR_READ
      E .move_r_r [tmp, tmp3]
      if tmp2 = SHR_SR then E .clear_msb [tmp, tmp, 20] else pure ()
  | 0x03 =>
    if op &&& 0xd0 ≠ 0 then default_ cfg op
    else
      -- BRAF Rm / BSRF Rm
      DELAYED_OP
      let pc ← get_pc
      if op &&& 0x20 = 0 then emit_move_r_imm32 cfg SHR_PR (u32 ((pc : Int) + 2)) else pure ()
      let tmp ← get_reg cfg SHR_PPC .RC_GR_WRITE
      let tmp2 ← get_reg cfg (GET_Rn op) .RC_GR_READ
      E .move_r_r [tmp, tmp2]
      E .add_r_imm [tmp, imm (u32 ((pc : Int) + 2))]
      add_cycles 1
  | 0x04 | 0x05 | 0x06 =>
    -- MOV.[BWL] Rm,@(R0,Rn)
    let tmp ← get_reg cfg (GET_Rm op) .RC_GR_READ
    emit_indirect_indexed_write cfg tmp SHR_R0 (GET_Rn op) (op &&& 3)
  | 0x07 =>
    -- MUL.L Rm,Rn
    let tmp ← get_reg cfg (GET_Rn op) .RC_GR_READ
    let tmp2 ← get_reg cfg (GET_Rm op) .RC_GR_READ
    let tmp3 ← get_reg cfg SHR_MACL .RC_GR_WRITE
    E .mul [tmp3, tmp2, tmp]
    add_cycles 1
  | 0x08 =>
    if op &&& 0xf00 ≠ 0 then default_ cfg op
    else
      match GET_Fx op with
      | 0 =>  -- CLRT
        let sr ← get_reg cfg SHR_SR .RC_GR_RMW
        E .bic_r_imm [sr, T]
      | 1 =>  -- SETT
        let sr ← get_reg cfg SHR_SR .RC_GR_RMW
        E .or_r_imm [sr, T]
      | 2 =>  -- CLRMAC
        let tmp ← get_reg cfg SHR_MACL .RC_GR_WRITE
        E .move_r_imm [tmp, 0]
        let tmp ← get_reg cfg SHR_MACH .RC_GR_WRITE
        E .move_r_imm [tmp, 0]
      | _ => default_ cfg op
  | 0x09 =>
    match GET_Fx op with
    | 0 =>  -- NOP
      if op &&& 0xf00 ≠ 0 then default_ cfg op else pure ()
    | 1 =>  -- DIV0U
      if op &&& 0xf00 ≠ 0 then default_ cfg op
      else
        let sr ← get_reg cfg SHR_SR .RC_GR_RMW
        E .bic_r_imm [sr, imm (M ||| Q ||| T)]
    | 2 =>  -- MOVT Rn
      let sr ← get_reg cfg SHR_SR .RC_GR_READ
      let tmp2 ← get_reg cfg (GET_Rn op) .RC_GR_WRITE
      E .clear_msb [tmp2, sr, 31]
    | _ => default_ cfg op
  | 0x0a =>
    let tmp ← get_reg cfg (GET_Rn op) .RC_GR_WRITE
    let sel : Option Nat :=
      match GET_Fx op with
      | 0 => some SHR_MACH  -- STS MACH,Rn
      | 1 => some SHR_MACL  -- STS MACL,Rn
      | 2 => some SHR_PR    -- STS PR,Rn
      | _ => none
    match sel with
    | none => default_ cfg op
    | some tmp2 =>
      let tmp2 ← get_reg cfg tmp2 .RC_GR_READ
      E .move_r_r [tmp, tmp2]
  | 0x0b =>
    if op &&& 0xf00 ≠ 0 then default_ cfg op
    else
      match GET_Fx op with
      | 0 =>  -- RTS
        DELAYED_OP
        emit_move_r_r cfg SHR_PPC SHR_PR
        add_cycles 1
      | 1 =>  -- SLEEP
        let pc ← get_pc
        emit_move_r_imm32 cfg SHR_PC (u32 ((pc : Int) - 2))
        let tmp ← get_reg cfg SHR_SR .RC_GR_RMW
        E .clear_msb [tmp, tmp, 20]
        set_test_irq
        set_cycles 1
      | 2 =>  -- RTE
        DELAYED_OP
        clean
        let _ ← get_reg_arg cfg 0 SHR_SP
        let tmp ← emit_memhandler_read cfg 2
        let tmp2 ← get_reg cfg SHR_PPC .RC_GR_WRITE
        E .move_r_r [tmp2, tmp]
        free_tmp tmp
        clean
        let tmp ← get_reg_arg cfg 0 SHR_SP
        E .add_r_imm [tmp, 4]
        let tmp ← emit_memhandler_read cfg 2
        E .write_sr [tmp]
        free_tmp tmp
        let tmp ← get_reg cfg SHR_SP .RC_GR_RMW
        E .add_r_imm [tmp, 4 * 2]
        set_test_irq
        add_cycles 3
      | _ => default_ cfg op
  | 0x0c | 0x0d | 0x0e =>
    -- MOV.[BWL] @(R0,Rm),Rn
    let tmp ← emit_indirect_indexed_read cfg SHR_R0 (GET_Rm op) (op &&& 3)
    let tmp2 ← get_reg cfg (GET_Rn op) .RC_GR_WRITE
    if op &&& 3 ≠ 2 then E .sext [tmp2, tmp, if op &&& 1 ≠ 0 then 16 else 8]
    else E .move_r_r [tmp2, tmp]
    free_tmp tmp
  | 0x0f =>
    -- MAC.L @Rm+,@Rn+
    let (tmp, tmp2) ← emit_indirect_read_double cfg (GET_Rn op) (GET_Rm op) 2
    let sr ← get_reg cfg SHR_SR .RC_GR_READ
    let tmp4 ← get_reg cfg SHR_MACH .RC_GR_RMW
    E .tst_r_imm [sr, S]
    E .sjmp_start [DCOND_EQ]
    E .clear_msb_c [DCOND_NE, tmp4, tmp4, 16]
    E .sjmp_end [DCOND_EQ]
    let tmp3 ← get_reg cfg SHR_MACL .RC_GR_RMW
    E .mula_s64 [tmp3, tmp4, tmp, tmp2]
    free_tmp tmp2
    let sr ← get_reg cfg SHR_SR .RC_GR_READ
    E .tst_r_imm [sr, S]
    E .jmp_start [DCOND_EQ]
    E .asr [tmp, tmp4, 15]
    E .cmp_r_imm [tmp, -1]
    E .sjmp_start [DCOND_GE]
    E .move_r_imm_c [DCOND_LT, tmp4, 0x8000]
    E .move_r_imm_c [DCOND_LT, tmp3, 0x0000]
    E .sjmp_end [DCOND_GE]
    E .cmp_r_imm [tmp, 0]
    E .sjmp_start [DCOND_LE]
    E .move_r_imm_c [DCOND_GT, tmp4, 0x00007fff]
    E .move_r_imm_c [DCOND_GT, tmp3, 0xffffffff]
    E .sjmp_end [DCOND_LE]
    E .jmp_end [DCOND_EQ]
    free_tmp tmp
    add_cycles 3
  | _ => default_ cfg op

/-- `case 0x01:` MOV.L Rm,@(disp,Rn). -/
def op_1 (cfg : Config) (op : Nat) : TM Unit := do
  clean
  let tmp ← get_reg_arg cfg 0 (GET_Rn op)
  let _ ← get_reg_arg cfg 1 (GET_Rm op)
  E .add_r_imm [tmp, imm ((op &&& 0x0f) * 4)]
  emit_memhandler_write cfg 2

/-- The `sr |= T` under a host condition: `EMITH_SJMP_START(skip); emith_or_r_imm_c(c, sr, bit);
EMITH_SJMP_END(skip)`. -/
def emit_or_bit_c (skip c : Int) (sr : Int) (bit : Nat) : TM Unit := do
  E .sjmp_start [skip]
  E .or_r_imm_c [c, sr, bit]
  E .sjmp_end [skip]

/-- `case 0x02:` of the outer switch. -/
def op_2 (cfg : Config) (op : Nat) : TM Unit := do
  match op &&& 0x0f with
  | 0x00 | 0x01 | 0x02 =>
    -- MOV.[BWL] Rm,@Rn
    clean
    let _ ← get_reg_arg cfg 0 (GET_Rn op)
    let _ ← get_reg_arg cfg 1 (GET_Rm op)
    emit_memhandler_write cfg (op &&& 3)
  | 0x04 | 0x05 | 0x06 =>
    -- MOV.[BWL] Rm,@-Rn
    let tmp ← get_reg cfg (GET_Rn op) .RC_GR_RMW
    E .sub_r_imm [tmp, imm (1 <<< (op &&& 3))]
    clean
    let _ ← get_reg_arg cfg 0 (GET_Rn op)
    let _ ← get_reg_arg cfg 1 (GET_Rm op)
    emit_memhandler_write cfg (op &&& 3)
  | 0x07 =>
    -- DIV0S Rm,Rn
    let sr ← get_reg cfg SHR_SR .RC_GR_RMW
    let tmp2 ← get_reg cfg (GET_Rn op) .RC_GR_READ
    let tmp3 ← get_reg cfg (GET_Rm op) .RC_GR_READ
    E .bic_r_imm [sr, imm (M ||| Q ||| T)]
    E .tst_r_imm [tmp2, imm (1 <<< 31)]
    emit_or_bit_c DCOND_EQ DCOND_NE sr Q
    E .tst_r_imm [tmp3, imm (1 <<< 31)]
    emit_or_bit_c DCOND_EQ DCOND_NE sr M
    E .teq_r_r [tmp2, tmp3]
    emit_or_bit_c DCOND_PL DCOND_MI sr T
  | 0x08 =>
    -- TST Rm,Rn
    let sr ← get_reg cfg SHR_SR .RC_GR_RMW
    let tmp2 ← get_reg cfg (GET_Rn op) .RC_GR_READ
    let tmp3 ← get_reg cfg (GET_Rm op) .RC_GR_READ
    E .bic_r_imm [sr, T]
    E .tst_r_r [tmp2, tmp3]
    emit_or_t_if_eq sr
  | 0x09 =>
    -- AND Rm,Rn
    let tmp ← get_reg cfg (GET_Rn op) .RC_GR_RMW
    let tmp2 ← get_reg cfg (GET_Rm op) .RC_GR_READ
    E .and_r_r [tmp, tmp2]
  | 0x0a =>
    -- XOR Rm,Rn
    let tmp ← get_reg cfg (GET_Rn op) .RC_GR_RMW
    let tmp2 ← get_reg cfg (GET_Rm op) .RC_GR_READ
    E .eor_r_r [tmp, tmp2]
  | 0x0b =>
    -- OR Rm,Rn
    let tmp ← get_reg cfg (GET_Rn op) .RC_GR_RMW
    let tmp2 ← get_reg cfg (GET_Rm op) .RC_GR_READ
    E .or_r_r [tmp, tmp2]
  | 0x0c =>
    -- CMP/STR Rm,Rn
    let tmp ← get_tmp
    let tmp2 ← get_reg cfg (GET_Rn op) .RC_GR_READ
    let tmp3 ← get_reg cfg (GET_Rm op) .RC_GR_READ
    E .eor_r_r_r [tmp, tmp2, tmp3]
    let sr ← get_reg cfg SHR_SR .RC_GR_RMW
    E .bic_r_imm [sr, T]
    E .tst_r_imm [tmp, 0x000000ff]
    emit_or_t_if_eq tmp
    E .tst_r_imm [tmp, 0x0000ff00]
    emit_or_t_if_eq tmp
    E .tst_r_imm [tmp, 0x00ff0000]
    emit_or_t_if_eq tmp
    E .tst_r_imm [tmp, 0xff000000]
    emit_or_t_if_eq tmp
    free_tmp tmp
  | 0x0d =>
    -- XTRCT Rm,Rn
    let tmp ← get_reg cfg (GET_Rn op) .RC_GR_RMW
    let tmp2 ← get_reg cfg (GET_Rm op) .RC_GR_READ
    E .lsr [tmp, tmp, 16]
    E .or_r_r_lsl [tmp, tmp2, 16]
  | 0x0e | 0x0f =>
    -- MULU.W / MULS.W Rm,Rn
    let tmp2 ← get_reg cfg (GET_Rn op) .RC_GR_READ
    let tmp ← get_reg cfg SHR_MACL .RC_GR_WRITE
    if op &&& 1 ≠ 0 then E .sext [tmp, tmp2, 16] else E .clear_msb [tmp, tmp2, 16]
    let tmp3 ← get_reg cfg (GET_Rm op) .RC_GR_READ
    let tmp2 ← get_tmp
    if op &&& 1 ≠ 0 then E .sext [tmp2, tmp3, 16] else E .clear_msb [tmp2, tmp3, 16]
    E .mul [tmp, tmp, tmp2]
    free_tmp tmp2
  | _ => default_ cfg op

/-- `case 0x03:` of the outer switch. -/
def op_3 (cfg : Config) (op : Nat) : TM Unit := do
  match op &&& 0x0f with
  | 0x00 | 0x02 | 0x03 | 0x06 | 0x07 =>
    -- CMP/EQ, CMP/HS, CMP/GE, CMP/HI, CMP/GT Rm,Rn
    let sr ← get_reg cfg SHR_SR .RC_GR_RMW
    let tmp2 ← get_reg cfg (GET_Rn op) .RC_GR_READ
    let tmp3 ← get_reg cfg (GET_Rm op) .RC_GR_READ
    E .bic_r_imm [sr, T]
    E .cmp_r_r [tmp2, tmp3]
    match op &&& 0x07 with
    | 0x00 => emit_or_t_if_eq sr
    | 0x02 => emit_or_bit_c DCOND_LO DCOND_HS sr T
    | 0x03 => emit_or_bit_c DCOND_LT DCOND_GE sr T
    | 0x06 => emit_or_bit_c DCOND_LS DCOND_HI sr T
    | 0x07 => emit_or_bit_c DCOND_LE DCOND_GT sr T
    | _ => pure ()
  | 0x04 =>
    -- DIV1 Rm,Rn
    let tmp2 ← get_reg cfg (GET_Rn op) .RC_GR_RMW
    let tmp3 ← get_reg cfg (GET_Rm op) .RC_GR_READ
    let sr ← get_reg cfg SHR_SR .RC_GR_RMW
    E .tpop_carry [sr, 0]
    E .adcf_r_r [tmp2, tmp2]
    E .tpush_carry [sr, 0]
    let tmp4 ← get_tmp
    E .and_r_r_imm [tmp4, sr, M]
    E .eor_r_r_lsr [sr, tmp4, imm (M_SHIFT - Q_SHIFT)]
    free_tmp tmp4
    E .sh2_div1_step [tmp2, tmp3, sr]
    E .bic_r_imm [sr, Q]
    E .tst_r_imm [sr, M]
    emit_or_bit_c DCOND_EQ DCOND_NE sr Q
    E .tst_r_imm [sr, T]
    E .sjmp_start [DCOND_EQ]
    E .eor_r_imm_c [DCOND_NE, sr, Q]
    E .sjmp_end [DCOND_EQ]
    E .eor_r_imm [sr, T]
  | 0x05 =>
    -- DMULU.L Rm,Rn
    let tmp ← get_reg cfg (GET_Rn op) .RC_GR_READ
    let tmp2 ← get_reg cfg (GET_Rm op) .RC_GR_READ
    let tmp3 ← get_reg cfg SHR_MACL .RC_GR_WRITE
    let tmp4 ← get_reg cfg SHR_MACH .RC_GR_WRITE
    E .mul_u64 [tmp3, tmp4, tmp, tmp2]
  | 0x08 | 0x0c =>
    -- SUB / ADD Rm,Rn
    let tmp ← get_reg cfg (GET_Rn op) .RC_GR_RMW
    let tmp2 ← get_reg cfg (GET_Rm op) .RC_GR_READ
    if op &&& 4 ≠ 0 then E .add_r_r [tmp, tmp2] else E .sub_r_r [tmp, tmp2]
  | 0x0a | 0x0e =>
    -- SUBC / ADDC Rm,Rn
    let tmp ← get_reg cfg (GET_Rn op) .RC_GR_RMW
    let tmp2 ← get_reg cfg (GET_Rm op) .RC_GR_READ
    let sr ← get_reg cfg SHR_SR .RC_GR_RMW
    if op &&& 4 ≠ 0 then
      E .tpop_carry [sr, 0]
      E .adcf_r_r [tmp, tmp2]
      E .tpush_carry [sr, 0]
    else
      E .tpop_carry [sr, 1]
      E .sbcf_r_r [tmp, tmp2]
      E .tpush_carry [sr, 1]
  | 0x0b | 0x0f =>
    -- SUBV / ADDV Rm,Rn
    let tmp ← get_reg cfg (GET_Rn op) .RC_GR_RMW
    let tmp2 ← get_reg cfg (GET_Rm op) .RC_GR_READ
    let sr ← get_reg cfg SHR_SR .RC_GR_RMW
    E .bic_r_imm [sr, T]
    if op &&& 4 ≠ 0 then E .addf_r_r [tmp, tmp2] else E .subf_r_r [tmp, tmp2]
    emit_or_bit_c DCOND_VC DCOND_VS sr T
  | 0x0d =>
    -- DMULS.L Rm,Rn
    let tmp ← get_reg cfg (GET_Rn op) .RC_GR_READ
    let tmp2 ← get_reg cfg (GET_Rm op) .RC_GR_READ
    let tmp3 ← get_reg cfg SHR_MACL .RC_GR_WRITE
    let tmp4 ← get_reg cfg SHR_MACH .RC_GR_WRITE
    E .mul_s64 [tmp3, tmp4, tmp, tmp2]
  | _ => default_ cfg op

/-- `case 0x04:` of the outer switch; `mem` is `p32x_sh2_read16(_, sh2)`. -/
def op_4 (cfg : Config) (mem : Nat → Nat) (op : Nat) : TM Unit := do
  match op &&& 0x0f with
  | 0x00 =>
    match GET_Fx op with
    | 0 | 2 =>
      -- SHLL Rn / SHAL Rn
      let tmp ← get_reg cfg (GET_Rn op) .RC_GR_RMW
      let sr ← get_reg cfg SHR_SR .RC_GR_RMW
      E .tpop_carry [sr, 0]
      E .lslf [tmp, tmp, 1]
      E .tpush_carry [sr, 0]
    | 1 =>
      -- DT Rn
      let pc ← get_pc
      if mem pc = 0x8bfd then E .sh2_dtbf_loop []
      else
        let tmp ← get_reg cfg (GET_Rn op) .RC_GR_RMW
        let sr ← get_reg cfg SHR_SR .RC_GR_RMW
        E .bic_r_imm [sr, T]
        E .subf_r_imm [tmp, 1]
        emit_or_t_if_eq sr
    | _ => default_ cfg op
  | 0x01 =>
    match GET_Fx op with
    | 0 | 2 =>
      -- SHLR Rn / SHAR Rn
      let tmp ← get_reg cfg (GET_Rn op) .RC_GR_RMW
      let sr ← get_reg cfg SHR_SR .RC_GR_RMW
      E .tpop_carry [sr, 0]
      if op &&& 0x20 ≠ 0 then E .asrf [tmp, tmp, 1] else E .lsrf [tmp, tmp, 1]
      E .tpush_carry [sr, 0]
    | 1 =>
      -- CMP/PZ Rn
      let tmp ← get_reg cfg (GET_Rn op) .RC_GR_RMW
      let sr ← get_reg cfg SHR_SR .RC_GR_RMW
      E .bic_r_imm [sr, T]
      E .cmp_r_imm [tmp, 0]
      emit_or_bit_c DCOND_LT DCOND_GE sr T
    | _ => default_ cfg op
  | 0x02 | 0x03 =>
    let sel : Option Nat :=
      match op &&& 0x3f with
      | 0x02 => some SHR_MACH  -- STS.L MACH,@-Rn
      | 0x12 => some SHR_MACL  -- STS.L MACL,@-Rn
      | 0x22 => some SHR_PR    -- STS.L PR,@-Rn
      | 0x03 => some SHR_SR    -- STC.L SR,@-Rn
      | 0x13 => some SHR_GBR   -- STC.L GBR,@-Rn
      | 0x23 => some SHR_VBR   -- STC.L VBR,@-Rn
      | _ => none
    match sel with
    | none => default_ cfg op
    | some tmp =>
      let tmp2 ← get_reg cfg (GET_Rn op) .RC_GR_RMW
      E .sub_r_imm [tmp2, 4]
      clean
      let _ ← get_reg_arg cfg 0 (GET_Rn op)
      let tmp3 ← get_reg_arg cfg 1 tmp
      if tmp = SHR_SR then E .clear_msb [tmp3, tmp3, 20] else pure ()
      emit_memhandler_write cfg 2
  | 0x04 | 0x05 =>
    match op &&& 0x3f with
    | 0x04 | 0x05 =>
      -- ROTL Rn / ROTR Rn
      let tmp ← get_reg cfg (GET_Rn op) .RC_GR_RMW
      let sr ← get_reg cfg SHR_SR .RC_GR_RMW
      E .tpop_carry [sr, 0]
      if op &&& 1 ≠ 0 then E .rorf [tmp, tmp, 1] else E .rolf [tmp, tmp, 1]
      E .tpush_carry [sr, 0]
    | 0x24 | 0x25 =>
      -- ROTCL Rn / ROTCR Rn
      let tmp ← get_reg cfg (GET_Rn op) .RC_GR_RMW
      let sr ← get_reg cfg SHR_SR .RC_GR_RMW
      E .tpop_carry [sr, 0]
      if op &&& 1 ≠ 0 then E .rorcf [tmp] else E .rolcf [tmp]
      E .tpush_carry [sr, 0]
    | 0x15 =>
      -- CMP/PL Rn
      let tmp ← get_reg cfg (GET_Rn op) .RC_GR_RMW
      let sr ← get_reg cfg SHR_SR .RC_GR_RMW
      E .bic_r_imm [sr, T]
      E .cmp_r_imm [tmp, 0]
      emit_or_bit_c DCOND_LE DCOND_GT sr T
    | _ => default_ cfg op
  | 0x06 | 0x07 =>
    let sel : Option Nat :=
      match op &&& 0x3f with
      | 0x06 => some SHR_MACH  -- LDS.L @Rm+,MACH
      | 0x16 => some SHR_MACL  -- LDS.L @Rm+,MACL
      | 0x26 => some SHR_PR    -- LDS.L @Rm+,PR
      | 0x07 => some SHR_SR    -- LDC.L @Rm+,SR
      | 0x17 => some SHR_GBR   -- LDC.L @Rm+,GBR
      | 0x27 => some SHR_VBR   -- LDC.L @Rm+,VBR
      | _ => none
    match sel with
    | none => default_ cfg op
    | some tmp =>
      clean
      let _ ← get_reg_arg cfg 0 (GET_Rn op)
      let tmp2 ← emit_memhandler_read cfg 2
      if tmp = SHR_SR then
        E .write_sr [tmp2]
        set_test_irq
      else
        let tmp ← get_reg cfg tmp .RC_GR_WRITE
        E .move_r_r [tmp, tmp2]
      free_tmp tmp2
      let tmp ← get_reg cfg (GET_Rn op) .RC_GR_RMW
      E .add_r_imm [tmp, 4]
  | 0x08 | 0x09 =>
    let sel : Option Nat :=
      match GET_Fx op with
      | 0 => some 2   -- SHLL2 / SHLR2 Rn
      | 1 => some 8   -- SHLL8 / SHLR8 Rn
      | 2 => some 16  -- SHLL16 / SHLR16 Rn
      | _ => none
    match sel with
    | none => default_ cfg op
    | some tmp =>
      let tmp2 ← get_reg cfg (GET_Rn op) .RC_GR_RMW
      if op &&& 1 ≠ 0 then E .lsr [tmp2, tmp2, tmp] else E .lsl [tmp2, tmp2, tmp]
  | 0x0a =>
    let sel : Option Nat :=
      match GET_Fx op with
      | 0 => some SHR_MACH  -- LDS Rm,MACH
      | 1 => some SHR_MACL  -- LDS Rm,MACL
      | 2 => some SHR_PR    -- LDS Rm,PR
      | _ => none
    match sel with
    | none => default_ cfg op
    | some tmp2 => emit_move_r_r cfg tmp2 (GET_Rn op)
  | 0x0b =>
    match GET_Fx op with
    | 0 | 2 =>
      -- JSR @Rm / JMP @Rm
      DELAYED_OP
      let pc ← get_pc
      if op &&& 0x20 = 0 then emit_move_r_imm32 cfg SHR_PR (u32 ((pc : Int) + 2)) else pure ()
      emit_move_r_r cfg SHR_PPC ((op >>> 8) &&& 0x0f)
      add_cycles 1
    | 1 =>
      -- TAS.B @Rn
      clean
      let _ ← get_reg_arg cfg 0 (GET_Rn op)
      let tmp ← emit_memhandler_read cfg 0
      let sr ← get_reg cfg SHR_SR .RC_GR_RMW
      E .bic_r_imm [sr, T]
      E .cmp_r_imm [tmp, 0]
      emit_or_t_if_eq sr
      clean
      E .or_r_imm [tmp, 0x80]
      let tmp2 ← get_tmp_arg cfg 1
      E .move_r_r [tmp2, tmp]
      free_tmp tmp
      let _ ← get_reg_arg cfg 0 (GET_Rn op)
      emit_memhandler_write cfg 0
      add_cycles 3
    | _ => default_ cfg op
  | 0x0e =>
    let tmp ← get_reg cfg (GET_Rn op) .RC_GR_READ
    let sel : Option Nat :=
      match GET_Fx op with
      | 0 => some SHR_SR   -- LDC Rm,SR
      | 1 => some SHR_GBR  -- LDC Rm,GBR
      | 2 => some SHR_VBR  -- LDC Rm,VBR
      | _ => none
    match sel with
    | none => default_ cfg op
    | some tmp2 =>
      if tmp2 = SHR_SR then
        E .write_sr [tmp]
        set_test_irq
      else
        let tmp2 ← get_reg cfg tmp2 .RC_GR_WRITE
        E .move_r_r [tmp2, tmp]
  | 0x0f =>
    -- MAC.W @Rm+,@Rn+
    let (tmp, tmp2) ← emit_indirect_read_double cfg (GET_Rn op) (GET_Rm op) 1
    E .sext [tmp, tmp, 16]
    E .sext [tmp2, tmp2, 16]
    let tmp3 ← get_reg cfg SHR_MACL .RC_GR_RMW
    let tmp4 ← get_reg cfg SHR_MACH .RC_GR_RMW
    E .mula_s64 [tmp3, tmp4, tmp, tmp2]
    free_tmp tmp2
    let sr ← get_reg cfg SHR_SR .RC_GR_READ
    E .tst_r_imm [sr, S]
    E .jmp_start [DCOND_EQ]
    E .asr [tmp, tmp3, 31]
    E .eorf_r_r [tmp, tmp4]
    E .jmp_start [DCOND_EQ]
    E .move_r_imm [tmp3, 0x80000000]
    E .tst_r_r [tmp4, tmp4]
    E .sjmp_start [DCOND_MI]
    E .sub_r_imm_c [DCOND_PL, tmp3, 1]
    E .sjmp_end [DCOND_MI]
    E .jmp_end [DCOND_EQ]
    E .jmp_end [DCOND_EQ]
    free_tmp tmp
    add_cycles 2
  | _ => default_ cfg op

/-- `case 0x05:` MOV.L @(disp,Rm),Rn. -/
def op_5 (cfg : Config) (op : Nat) : TM Unit := do
  clean
  let tmp ← get_reg_arg cfg 0 (GET_Rm op)
  E .add_r_imm [tmp, imm ((op &&& 0x0f) * 4)]
  let tmp ← emit_memhandler_read cfg 2
  let tmp2 ← get_reg cfg (GET_Rn op) .RC_GR_WRITE
  E .move_r_r [tmp2, tmp]
  free_tmp tmp

/-- `case 0x06:` of the outer switch. -/
def op_6 (cfg : Config) (op : Nat) : TM Unit := do
  match op &&& 0x0f with
  | 0x00 | 0x01 | 0x02 | 0x04 | 0x05 | 0x06 =>
    -- MOV.[BWL] @Rm,Rn / MOV.[BWL] @Rm+,Rn
    clean
    let _ ← get_reg_arg cfg 0 (GET_Rm op)
    let tmp ← emit_memhandler_read cfg (op &&& 3)
    let tmp2 ← get_reg cfg (GET_Rn op) .RC_GR_WRITE
    if op &&& 3 ≠ 2 then E .sext [tmp2, tmp, if op &&& 1 ≠ 0 then 16 else 8]
    else E .move_r_r [tmp2, tmp]
    free_tmp tmp
    if (op &&& 7) ≥ 4 ∧ GET_Rn op ≠ GET_Rm op then
      let tmp ← get_reg cfg (GET_Rm op) .RC_GR_RMW
      E .add_r_imm [tmp, imm (1 <<< (op &&& 3))]
    else pure ()
  | _ =>
    let tmp ← get_reg cfg (GET_Rm op) .RC_GR_READ
    let tmp2 ← get_reg cfg (GET_Rn op) .RC_GR_WRITE
    match op &&& 0x0f with
    | 0x03 => E .move_r_r [tmp2, tmp]   -- MOV Rm,Rn
    | 0x07 => E .mvn_r_r [tmp2, tmp]    -- NOT Rm,Rn
    | 0x08 =>
      -- SWAP.B Rm,Rn
      let tmp3 ← if tmp = tmp2 then get_tmp else pure tmp2
      let tmp4 ← get_tmp
      E .lsr [tmp3, tmp, 16]
      E .or_r_r_lsl [tmp3, tmp, 24]
      E .and_r_r_imm [tmp4, tmp, 0xff00]
      E .or_r_r_lsl [tmp3, tmp4, 8]
      E .rol [tmp2, tmp3, 16]
      free_tmp tmp4
      if tmp = tmp2 then free_tmp tmp3 else pure ()
    | 0x09 => E .rol [tmp2, tmp, 16]    -- SWAP.W Rm,Rn
    | 0x0a =>
      -- NEGC Rm,Rn
      let sr ← get_reg cfg SHR_SR .RC_GR_RMW
      E .tpop_carry [sr, 1]
      E .negcf_r_r [tmp2, tmp]
      E .tpush_carry [sr, 1]
    | 0x0b => E .neg_r_r [tmp2, tmp]        -- NEG Rm,Rn
    | 0x0c => E .clear_msb [tmp2, tmp, 24]  -- EXTU.B Rm,Rn
    | 0x0d => E .clear_msb [tmp2, tmp, 16]  -- EXTU.W Rm,Rn
    | 0x0e => E .sext [tmp2, tmp, 8]        -- EXTS.B Rm,Rn
    | 0x0f => E .sext [tmp2, tmp, 16]       -- EXTS.W Rm,Rn
    | _ => pure ()

/-- `case 0x07:` ADD #imm,Rn. -/
def op_7 (cfg : Config) (op : Nat) : TM Unit := do
  let tmp ← get_reg cfg (GET_Rn op) .RC_GR_RMW
  if op &&& 0x80 ≠ 0 then E .sub_r_imm [tmp, imm (u32 (-(op : Int)) &&& 0xff)]
  else E .add_r_imm [tmp, imm (op &&& 0xff)]

/-- How an opcode handler leaves the `switch`. -/
inductive OpExit
  | end_op
  | end_block_btf
  deriving DecidableEq, Repr

/-- `(signed int)(x << (32 - bits)) >> (31 - bits)`: twice the sign-extended low `bits` bits. -/
def disp2 (op : Nat) (bits : Nat) : Int :=
  s32 (u32 ((op : Int) * 2 ^ (32 - bits))) / 2 ^ (31 - bits)

/-- The block shared by `case 0x0900:` / `case 0x0b00:` (BT, BF) and, by fall-through,
`case 0x0d00:` / `case 0x0f00:` (BT/S, BF/S) (compiler.c 1567-1588). -/
def op_8_branch (cfg : Config) (op : Nat) : TM OpExit := do
  -- jmp_cond ~ cond when guest doesn't jump
  let jmp_cond := if op &&& 0x0200 ≠ 0 then DCOND_NE else DCOND_EQ
  let insn_cond := if op &&& 0x0200 ≠ 0 then DCOND_EQ else DCOND_NE
  let offs : Int := disp2 op 8
  let delayed_op ← get_delayed_op
  let pc ← get_pc
  let tmp ← get_reg cfg (if delayed_op ≠ 0 then SHR_PPC else SHR_PC) .RC_GR_WRITE
  E .move_r_imm [tmp, imm (u32 ((pc : Int) + (if delayed_op ≠ 0 then 2 else 0)))]
  E .sh2_test_t []
  E .sjmp_start [jmp_cond]
  let offs := if delayed_op = 0 then offs + 2 else offs
  if offs < 0 then E .sub_r_imm_c [insn_cond, tmp, -offs]
  else E .add_r_imm_c [insn_cond, tmp, offs]
  E .sjmp_end [jmp_cond]
  add_cycles 2
  if delayed_op = 0 then pure .end_block_btf else pure .end_op

/-- `case 0x08:` of the outer switch. -/
def op_8 (cfg : Config) (op : Nat) : TM OpExit := do
  match op &&& 0x0f00 with
  | 0x0000 | 0x0100 =>
    -- MOV.[BW] R0,@(disp,Rn)
    clean
    let tmp ← get_reg_arg cfg 0 (GET_Rm op)
    let _ ← get_reg_arg cfg 1 SHR_R0
    let tmp3 := (op &&& 0x100) >>> 8
    E .add_r_imm [tmp, imm ((op &&& 0x0f) <<< tmp3)]
    emit_memhandler_write cfg tmp3
    pure .end_op
  | 0x0400 | 0x0500 =>
    -- MOV.[BW] @(disp,Rm),R0
    clean
    let tmp ← get_reg_arg cfg 0 (GET_Rm op)
    let tmp3 := (op &&& 0x100) >>> 8
    E .add_r_imm [tmp, imm ((op &&& 0x0f) <<< tmp3)]
    let tmp ← emit_memhandler_read cfg tmp3
    let tmp2 ← get_reg cfg 0 .RC_GR_WRITE
    E .sext [tmp2, tmp, imm (8 <<< tmp3)]
    free_tmp tmp
    pure .end_op
  | 0x0800 =>
    -- CMP/EQ #imm,R0
    let tmp ← get_tmp
    let tmp2 ← get_reg cfg 0 .RC_GR_READ
    let sr ← get_reg cfg SHR_SR .RC_GR_RMW
    E .move_r_imm_s8 [tmp, imm (op &&& 0xff)]
    E .bic_r_imm [sr, T]
    E .cmp_r_r [tmp2, tmp]
    emit_or_t_if_eq sr
    free_tmp tmp
    pure .end_op
  | 0x0d00 | 0x0f00 =>
    -- BT/S label, BF/S label: falls through into BT, BF
    DELAYED_OP
    add_cycles (-1)
    op_8_branch cfg op
  | 0x0900 | 0x0b00 =>
    -- BT label, BF label
    op_8_branch cfg op
  | _ =>
    default_ cfg op
    pure .end_op

/-- `case 0x09:` MOV.W @(disp,PC),Rn. -/
def op_9 (cfg : Config) (op : Nat) : TM Unit := do
  clean
  let tmp ← get_tmp_arg cfg 0
  let pc ← get_pc
  E .move_r_imm [tmp, imm (u32 ((pc : Int) + ((op &&& 0xff) * 2 : Nat) + 2))]
  let tmp ← emit_memhandler_read cfg 1
  let tmp2 ← get_reg cfg (GET_Rn op) .RC_GR_WRITE
  E .sext [tmp2, tmp, 16]
  free_tmp tmp

/-- The `do_bra:` label shared by BRA and BSR. -/
def do_bra (cfg : Config) (op : Nat) : TM Unit := do
  let tmp : Nat := u32 (disp2 op 12)
  let pc ← get_pc
  emit_move_r_imm32 cfg SHR_PPC (u32 ((pc : Int) + tmp + 2))
  add_cycles 1

/-- `case 0x0a:` BRA label. -/
def op_A (cfg : Config) (op : Nat) : TM Unit := do
  DELAYED_OP
  do_bra cfg op

/-- `case 0x0b:` BSR label. -/
def op_B (cfg : Config) (op : Nat) : TM Unit := do
  DELAYED_OP
  let pc ← get_pc
  emit_move_r_imm32 cfg SHR_PR (u32 ((pc : Int) + 2))
  do_bra cfg op

/-- The `end_rmw_op:` label of `case 0x0c:`. -/
def end_rmw_op (cfg : Config) (tmp : Int) : TM Unit := do
  let tmp2 ← get_tmp_arg cfg 1
  E .move_r_r [tmp2, tmp]
  free_tmp tmp
  let tmp3 ← get_reg_arg cfg 0 SHR_GBR
  let tmp4 ← get_reg cfg SHR_R0 .RC_GR_READ
  E .add_r_r [tmp3, tmp4]
  emit_memhandler_write cfg 0
  add_cycles 2

/-- `case 0x0c:` of the outer switch. -/
def op_C (cfg : Config) (op : Nat) : TM OpExit := do
  match op &&& 0x0f00 with
  | 0x0000 | 0x0100 | 0x0200 =>
    -- MOV.[BWL] R0,@(disp,GBR)
    clean
    let tmp ← get_reg_arg cfg 0 SHR_GBR
    let _ ← get_reg_arg cfg 1 SHR_R0
    let tmp3 := (op &&& 0x300) >>> 8
    E .add_r_imm [tmp, imm ((op &&& 0xff) <<< tmp3)]
    emit_memhandler_write cfg tmp3
    pure .end_op
  | 0x0400 | 0x0500 | 0x0600 =>
    -- MOV.[BWL] @(disp,GBR),R0
    clean
    let tmp ← get_reg_arg cfg 0 SHR_GBR
    let tmp3 := (op &&& 0x300) >>> 8
    E .add_r_imm [tmp, imm ((op &&& 0xff) <<< tmp3)]
    let tmp ← emit_memhandler_read cfg tmp3
    let tmp2 ← get_reg cfg 0 .RC_GR_WRITE
    if tmp3 ≠ 2 then E .sext [tmp2, tmp, imm (8 <<< tmp3)] else E .move_r_r [tmp2, tmp]
    free_tmp tmp
    pure .end_op
  | 0x0300 =>
    -- TRAPA #imm
    let tmp ← get_reg cfg SHR_SP .RC_GR_RMW
    E .sub_r_imm [tmp, 4 * 2]
    clean
    -- push SR
    let tmp ← get_reg_arg cfg 0 SHR_SP
    E .add_r_imm [tmp, 4]
    let tmp ← get_reg_arg cfg 1 SHR_SR
    E .clear_msb [tmp, tmp, 20]
    emit_memhandler_write cfg 2
    -- push PC
    let _ ← get_reg_arg cfg 0 SHR_SP
    let tmp ← get_tmp_arg cfg 1
    let pc ← get_pc
    E .move_r_imm [tmp, imm pc]
    emit_memhandler_write cfg 2
    -- obtain new PC
    let tmp ← get_reg_arg cfg 0 SHR_VBR
    E .add_r_imm [tmp, imm ((op &&& 0xff) * 4)]
    let tmp ← emit_memhandler_read cfg 2
    let tmp2 ← get_reg cfg SHR_PC .RC_GR_WRITE
    E .move_r_r [tmp2, tmp]
    free_tmp tmp
    add_cycles 7
    pure .end_block_btf
  | 0x0700 =>
    -- MOVA @(disp,PC),R0
    let pc ← get_pc
    emit_move_r_imm32 cfg SHR_R0 (u32 ((pc : Int) + ((op &&& 0xff) * 4 : Nat) + 2) &&& 0xfffffffc)
    pure .end_op
  | 0x0800 =>
    -- TST #imm,R0
    let tmp ← get_reg cfg SHR_R0 .RC_GR_READ
    let sr ← get_reg cfg SHR_SR .RC_GR_RMW
    E .bic_r_imm [sr, T]
    E .tst_r_imm [tmp, imm (op &&& 0xff)]
    emit_or_t_if_eq sr
    pure .end_op
  | 0x0900 =>
    -- AND #imm,R0
    let tmp ← get_reg cfg SHR_R0 .RC_GR_RMW
    E .and_r_imm [tmp, imm (op &&& 0xff)]
    pure .end_op
  | 0x0a00 =>
    -- XOR #imm,R0
    let tmp ← get_reg cfg SHR_R0 .RC_GR_RMW
    E .eor_r_imm [tmp, imm (op &&& 0xff)]
    pure .end_op
  | 0x0b00 =>
    -- OR #imm,R0
    let tmp ← get_reg cfg SHR_R0 .RC_GR_RMW
    E .or_r_imm [tmp, imm (op &&& 0xff)]
    pure .end_op
  | 0x0c00 =>
    -- TST.B #imm,@(R0,GBR)
    let tmp ← emit_indirect_indexed_read cfg SHR_R0 SHR_GBR 0
    let sr ← get_reg cfg SHR_SR .RC_GR_RMW
    E .bic_r_imm [sr, T]
    E .tst_r_imm [tmp, imm (op &&& 0xff)]
    emit_or_t_if_eq sr
    free_tmp tmp
    add_cycles 2
    pure .end_op
  | 0x0d00 =>
    -- AND.B #imm,@(R0,GBR)
    let tmp ← emit_indirect_indexed_read cfg SHR_R0 SHR_GBR 0
    E .and_r_imm [tmp, imm (op &&& 0xff)]
    end_rmw_op cfg tmp
    pure .end_op
  | 0x0e00 =>
    -- XOR.B #imm,@(R0,GBR)
    let tmp ← emit_indirect_indexed_read cfg SHR_R0 SHR_GBR 0
    E .eor_r_imm [tmp, imm (op &&& 0xff)]
    end_rmw_op cfg tmp
    pure .end_op
  | 0x0f00 =>
    -- OR.B #imm,@(R0,GBR)
    let tmp ← emit_indirect_indexed_read cfg SHR_R0 SHR_GBR 0
    E .or_r_imm [tmp, imm (op &&& 0xff)]
    end_rmw_op cfg tmp
    pure .end_op
  | _ =>
    default_ cfg op
    pure .end_op

/-- `case 0x0d:` MOV.L @(disp,PC),Rn. -/
def op_D (cfg : Config) (op : Nat) : TM Unit := do
  clean
  let tmp ← get_tmp_arg cfg 0
  let pc ← get_pc
  E .move_r_imm [tmp, imm (u32 ((pc : Int) + ((op &&& 0xff) * 4 : Nat) + 2) &&& 0xfffffffc)]
  let tmp ← emit_memhandler_read cfg 2
  let tmp2 ← get_reg cfg (GET_Rn op) .RC_GR_WRITE
  E .move_r_r [tmp2, tmp]
  free_tmp tmp

/-- `case 0x0e:` MOV #imm,Rn. -/
def op_E (cfg : Config) (op : Nat) : TM Unit := do
  let tmp ← get_reg cfg (GET_Rn op) .RC_GR_WRITE
  E .move_r_imm_s8 [tmp, imm (op &&& 0xff)]

/-- Discard a handler's unit result and continue at `end_op`. -/
def to_end_op (m : TM Unit) : TM OpExit := TM.bind m (fun _ => TM.pure .end_op)

/-- The outer `switch ((op >> 12) & 0x0f)` of the translation loop. -/
def translate_op (cfg : Config) (mem : Nat → Nat) (op : Nat) : TM OpExit :=
  match (op >>> 12) &&& 0x0f with
  | 0x00 => to_end_op (op_0 cfg op)
  | 0x01 => to_end_op (op_1 cfg op)
  | 0x02 => to_end_op (op_2 cfg op)
  | 0x03 => to_end_op (op_3 cfg op)
  | 0x04 => to_end_op (op_4 cfg mem op)
  | 0x05 => to_end_op (op_5 cfg op)
  | 0x06 => to_end_op (op_6 cfg op)
  | 0x07 => to_end_op (op_7 cfg op)
  | 0x08 => op_8 cfg op
  | 0x09 => to_end_op (op_9 cfg op)
  | 0x0a => to_end_op (op_A cfg op)
  | 0x0b => to_end_op (op_B cfg op)
  | 0x0c => op_C cfg op
  | 0x0d => to_end_op (op_D cfg op)
  | 0x0e => to_end_op (op_E cfg op)
  | _ => to_end_op (default_ cfg op)

/-! ## Translation loop and `sh2_translate` (compiler.c 617-1838) -/

/-- How the translation loop is left. -/
inductive LoopExit
  | done            -- the `while` condition failed
  | brk             -- `break` after a delay slot
  | end_block_btf   -- `goto end_block_btf`
  deriving DecidableEq, Repr

def get_test_irq : TM Nat := fun st => some (st.test_irq, st)

/-- The `end_op:` part of the loop body; `none` continues the loop. -/
def end_op (cfg : Config) : TM (Option LoopExit) := do
  let delayed_op ← get_delayed_op
  (if delayed_op = 1 then emit_move_r_r cfg SHR_PC SHR_PPC else pure ())
  let test_irq ← get_test_irq
  if test_irq ≠ 0 ∧ delayed_op ≠ 2 then
    (if delayed_op = 0 then get_pc >>= fun pc => emit_move_r_imm32 cfg SHR_PC pc else pure ())
    flush
    E .pass_arg_r [0, cfg.CONTEXT_REG]
    E .call [sh2_test_irq_fn]
    pure (some .end_block_btf)
  else if delayed_op = 1 then pure (some .brk)
  else pure none

/-- Head of the loop body: `if (delayed_op > 0) delayed_op--; op = read16(pc); pc += 2; cycles++`. -/
def fetch_op (mem : Nat → Nat) : TM Nat := fun st =>
  some (mem st.pc,
    { st with
      delayed_op := if st.delayed_op > 0 then st.delayed_op - 1 else st.delayed_op
      pc := (st.pc + 2) % 4294967296
      cycles := st.cycles + 1 })

/-- The loop `while (cycles < BLOCK_CYCLE_LIMIT || delayed_op)`; the fuel bounds the
number of iterations, `none` when it runs out or a handler aborts. -/
def translate_loop (cfg : Config) (mem : Nat → Nat) : Nat → TM LoopExit
  | 0 => fun _ => none
  | fuel + 1 => fun st =>
    if st.cycles < BLOCK_CYCLE_LIMIT ∨ st.delayed_op ≠ 0 then
      (do
        let op ← fetch_op mem
        let ex ← translate_op cfg mem op
        match ex with
        | .end_block_btf => pure LoopExit.end_block_btf
        | .end_op =>
          let r ← end_op cfg
          match r with
          | some e => pure e
          | none => translate_loop cfg mem fuel) st
    else some (.done, st)

/-- Loop plus the statement after it: `if (!delayed_op) emit_move_r_imm32(SHR_PC, pc)`,
skipped on `goto end_block_btf`. -/
def translate_body (cfg : Config) (mem : Nat → Nat) (fuel : Nat) : TM Unit := do
  let ex ← translate_loop cfg mem fuel
  if ex = .end_block_btf then pure ()
  else
    let delayed_op ← get_delayed_op
    if delayed_op = 0 then
      let pc ← get_pc
      emit_move_r_imm32 cfg SHR_PC pc
    else pure ()

/-- Block epilogue (compiler.c 1810-1813). -/
def translate_epilogue (cfg : Config) : TM Unit := do
  let tmp ← get_reg cfg SHR_SR .RC_GR_RMW
  let cycles ← (fun st => some (st.cycles, st) : TM Int)
  E .sub_r_imm [tmp, cycles * 4096]
  flush
  E .jump [sh2_drc_exit]

/-- Marking loop `for (++tmp; tmp < tmp2; tmp++) { if (drcblk[tmp]) break; drcblk[tmp] = v; }`. -/
def smc_mark_rest (v tmp2 : Nat) : Nat → (Nat → Nat) → Nat → (Nat → Nat)
  | 0, bm, _ => bm
  | fuel + 1, bm, tmp =>
    if tmp < tmp2 then
      if bm tmp ≠ 0 then bm
      else smc_mark_rest v tmp2 fuel (Function.update bm tmp v) (tmp + 1)
    else bm

/-- Marking of one block in a `u16` bitmap: head slot `(blkid << 1) | 1`, then the loop. -/
def smc_mark (bm : Nat → Nat) (blkid tmp tmp2 : Nat) : Nat → Nat :=
  smc_mark_rest ((blkid <<< 1) % 65536) tmp2 (tmp2 - tmp)
    (Function.update bm tmp (((blkid <<< 1) ||| 1) % 65536)) (tmp + 1)

/-- Result of `sh2_translate`: the returned `block_entry`, the new module state and,
for inspection, the descriptor, its id, the host code of the block and the final
values of the locals `pc` and `cycles`. -/
structure Translated where
  block_entry : Nat
  drc : Drc
  this_block : Nat
  blkid : Nat
  code : List Emit
  end_pc : Nat
  cycles : Int

/-- The flush test of `sh2_translate` (compiler.c 643-644): cache `tcache_id` has less
than `MAX_BLOCK_SIZE` bytes left (unsigned comparison), or `dr_add_block`
returned `NULL`. -/
def flush_needed (cfg : Config) (d : Drc) (tcache_id : Nat) : Prop :=
  u32 ((d.tcache_ptrs tcache_id : Int) - d.tcache_bases tcache_id) >
      u32 ((tcache_sizes cfg tcache_id : Int) - MAX_BLOCK_SIZE) ∨
    d.block_counts tcache_id ≥ block_max_counts tcache_id

instance (cfg : Config) (d : Drc) (tcache_id : Nat) : Decidable (flush_needed cfg d tcache_id) := by
  unfold flush_needed
  exact inferInstance

/-- Descriptor allocation of `sh2_translate` (compiler.c 640-649) with the
flush-and-retry: the state, `this_block`, `blkid`, `tcache_ptr` and the
`other_block` that survives. -/
def translate_alloc (cfg : Config) (d : Drc) (pc tcache_id : Nat) (other_block : Option Nat) :
    Option (Drc × Nat × Nat × Nat × Option Nat) :=
  let r1 := dr_add_block d (d.tcache_ptrs tcache_id) pc tcache_id
  if flush_needed cfg d tcache_id then
    let d2 := flush_tcache r1.2 tcache_id
    let r2 := dr_add_block d2 (d2.tcache_ptrs tcache_id) pc tcache_id
    r2.1.map (fun b => (r2.2, b.1, b.2, d2.tcache_ptrs tcache_id, none))
  else r1.1.map (fun b => (r1.2, b.1, b.2, d.tcache_ptrs tcache_id, other_block))

/-- Block set-up of `sh2_translate` (compiler.c 627-655): validation, choice of the
cache, descriptor allocation, chain link and hash insert.
Returns the state, the cache id, the descriptor with its id, and `block_entry`. -/
def translate_begin (cfg : Config) (d : Drc) (sh2 : SH2) (other_block : Option Nat) :
    Option (Drc × Nat × Nat × Nat × Nat) :=
  if (sh2.pc >>> 29 ≠ 0 ∧ sh2.pc >>> 29 ≠ 1 ∧ sh2.pc >>> 29 ≠ 6) ∨ sh2.pc = 0 then none
  else
    match translate_alloc cfg d sh2.pc (tcache_id_of sh2.pc sh2.is_slave) other_block with
    | none => none
    | some (d2, this_block, blkid, tcache_ptr, other_block) =>
      let d3 : Drc :=
        { d2 with
          block_tab := Function.update d2.block_tab this_block
            { d2.block_tab this_block with next := other_block } }
      let d4 : Drc :=
        if (sh2.pc &&& 0xc6000000) = 0x02000000 then
          { d3 with hash_table := Function.update d3.hash_table (HASH_FUNC sh2.pc) (some this_block) }
        else d3
      some (d4, tcache_id_of sh2.pc sh2.is_slave, this_block, blkid, tcache_ptr)

/-- The `end_block_btf:` bookkeeping (compiler.c 1784-1808): `end_addr` and the SMC marks. -/
def translate_mark (cfg : Config) (d : Drc) (sh2 : SH2) (this_block blkid pc : Nat) : Drc :=
  let d1 : Drc :=
    { d with
      block_tab := Function.update d.block_tab this_block
        { d.block_tab this_block with end_addr := pc } }
  let bd := d1.block_tab this_block
  if is_da_bios sh2.pc then
    let tmp := (bd.addr &&& 0xfff) >>> cfg.SH2_DRCBLK_DA_SHIFT
    let tmp2 := (bd.end_addr &&& 0xfff) >>> cfg.SH2_DRCBLK_DA_SHIFT
    { d1 with
      drcblk_da := Function.update d1.drcblk_da sh2.is_slave
        (smc_mark (d1.drcblk_da sh2.is_slave) blkid tmp tmp2) }
  else if (bd.addr &&& 0xc7fc0000) = 0x06000000 then
    let tmp := (bd.addr &&& 0x3ffff) >>> cfg.SH2_DRCBLK_RAM_SHIFT
    let tmp2 := (bd.end_addr &&& 0x3ffff) >>> cfg.SH2_DRCBLK_RAM_SHIFT
    { d1 with drcblk_ram := smc_mark d1.drcblk_ram blkid tmp tmp2 }
  else d1

/-- Model of `sh2_translate`. -/
def sh2_translate (cfg : Config) (mem : Nat → Nat) (fuel : Nat) (d : Drc) (sh2 : SH2)
    (other_block : Option Nat) : Option Translated :=
  match translate_begin cfg d sh2 other_block with
  | none => none
  | some (d1, tcache_id, this_block, blkid, block_entry) =>
    let st0 : TState :=
      { rc := ⟨d1.reg_temp, d1.rcache_counter, []⟩
        pc := sh2.pc, cycles := 0, delayed_op := 0, test_irq := 0 }
    match translate_body cfg mem fuel st0 with
    | none => none
    | some (_, st1) =>
      let d2 := translate_mark cfg d1 sh2 this_block blkid st1.pc
      match translate_epilogue cfg st1 with
      | none => none
      | some (_, st2) =>
        some
          { block_entry := block_entry
            drc :=
              { d2 with
                tcache_ptrs := Function.update d2.tcache_ptrs tcache_id
                  (block_entry + (st2.rc.code.map cfg.emit_size).sum)
                reg_temp := st2.rc.reg_temp
                rcache_counter := st2.rc.rcache_counter }
            this_block := this_block
            blkid := blkid
            code := st2.rc.code
            end_pc := st1.pc
            cycles := st1.cycles }

/-! ## Dispatcher, SMC invalidation, `sh2_execute` (compiler.c 1840-1964) -/

/-- The block lookup at the head of the dispatcher loop (compiler.c 1847-1880):
the pair `(block, bd)`, with `0` for a `NULL` block; `none` when a descriptor
index falls outside the descriptor array or a chain walk does not end. -/
def dispatcher_lookup (cfg : Config) (d : Drc) (sh2 : SH2) : Option (Nat × Option Nat) :=
  if (sh2.pc &&& 0xff000000) = 0xc0000000 ∨ (sh2.pc &&& 0xfffff000) = 0 then
    -- data array, BIOS
    let blkid := d.drcblk_da sh2.is_slave ((sh2.pc &&& 0xfff) >>> cfg.SH2_DRCBLK_DA_SHIFT)
    if blkid &&& 1 ≠ 0 then
      let bd := block_tables_base (1 + sh2.is_slave) + (blkid >>> 1)
      if bd < BLOCK_TABLE_LEN then some ((d.block_tab bd).tcache_ptr, some bd) else none
    else some (0, none)
  else if (sh2.pc &&& 0xc6000000) = 0x06000000 then
    -- RAM
    let blkid := d.drcblk_ram ((sh2.pc &&& 0x3ffff) >>> cfg.SH2_DRCBLK_RAM_SHIFT)
    if blkid &&& 1 ≠ 0 then
      let bd := block_tables_base 0 + (blkid >>> 1)
      if bd < BLOCK_TABLE_LEN then some ((d.block_tab bd).tcache_ptr, some bd) else none
    else some (0, none)
  else if (sh2.pc &&& 0xc6000000) = 0x02000000 then
    -- ROM
    match d.hash_table (HASH_FUNC sh2.pc) with
    | none => some (0, none)
    | some bd =>
      if (d.block_tab bd).addr = sh2.pc then some ((d.block_tab bd).tcache_ptr, some bd)
      else (dr_find_block d.block_tab bd sh2.pc).map (fun block => (block, some bd))
  else some (0, none)

/-- Loop `while (p > drcblk && (p[-1] >> 1) == id) p--` of `sh2_smc_rm_block`, from slot `p`
of the bitmap `bm`: the slot at which it stops, slot 0 at the latest. -/
def smc_walk_back (bm : Nat → Nat) (id : Nat) : Nat → Nat
  | 0 => 0
  | p + 1 => if bm p >>> 1 = id then smc_walk_back bm id p else p + 1

/-- Loop `do { *p++ = 0; } while ((*p >> 1) == id)` of `sh2_smc_rm_block` on the `u16`
words `m i` at `drcblk[i]`, `p` being the index of the first word written.  The loop has no
test against the end of the bitmap: it goes on for as long as the next word holds the id.
The fuel bounds the number of words written; `none` stands for a loop that needs more. -/
def smc_zero_fwd (id : Nat) : Nat → (Int → Nat) → Int → Option (Int → Nat)
  | 0, _, _ => none
  | fuel + 1, m, p =>
    if (Function.update m p 0) (p + 1) >>> 1 = id then
      smc_zero_fwd id fuel (Function.update m p 0) (p + 1)
    else some (Function.update m p 0)

/-- Model of `sh2_smc_rm_block` on the `u16` words `m i` at `drcblk[i]` and the descriptors
`bt`, with `btab` the offset of the region's descriptors; `p` is the index of the slot.  The
function is not given the length of the bitmap nor that of the descriptor array: `m i` for an
`i` below 0 or past the last slot is the word that lies there in memory, and `bt` past the
array what lies behind it.  The walk back runs while `p > drcblk`, so from a positive index
only and down to index 0 at most.  The test `p > 0` on a pointer always holds, so `p[-1]`
is read wherever the walk back stopped, at index 0 too.  The fuel bounds the depth of the
recursion and the length of each zeroing loop; `none` stands for a call that needs more. -/
def sh2_smc_rm_block (btab : Nat) :
    Nat → (Int → Nat) × (Nat → block_desc) → Int → Nat →
      Option ((Int → Nat) × (Nat → block_desc))
  | 0, _, _, _ => none
  | fuel + 1, (m, bt), p, a =>
    let id := m p >>> 1
    let bt1 := Function.update bt (btab + id) { bt (btab + id) with addr := 0, end_addr := 0 }
    let p1 : Int := if 0 < p then (smc_walk_back (fun n : Nat => m n) id p.toNat : Nat) else p
    let prev := m (p1 - 1)
    let inner : Option ((Int → Nat) × (Nat → block_desc)) :=
      if prev ≠ 0 then
        if (bt1 (btab + (prev >>> 1))).addr ≤ a ∧ a < (bt1 (btab + (prev >>> 1))).end_addr then
          sh2_smc_rm_block btab fuel (m, bt1) (p1 - 1) a
        else some (m, bt1)
      else some (m, bt1)
    match inner with
    | none => none
    | some (m2, bt2) => (smc_zero_fwd id (fuel + 1) m2 p1).map (fun m3 => (m3, bt2))

/-- The `u16` words at `drcblk[i]` for a bitmap `bm` of `len` slots: slot `i` for
`0 ≤ i < len`, and `nbr i` for every other `i`.  The bitmaps are fields of `Pico32xMem`,
which compiler.c does not declare: `nbr` stands for the words that lie before and behind the
bitmap there. -/
def smc_mem (len : Nat) (bm : Nat → Nat) (nbr : Int → Nat) : Int → Nat :=
  fun i => if 0 ≤ i ∧ i < (len : Int) then bm i.toNat else nbr i

/-- The bitmap of `len` slots read back from the words `m`. -/
def smc_slots (len : Nat) (bm : Nat → Nat) (m : Int → Nat) : Nat → Nat :=
  fun n => if n < len then m (n : Int) else bm n

/-- Model of `sh2_drc_wcheck_ram`, with `nbr` the words next to the DRAM bitmap at the time of
the call.  Result: the recompiler state and the words at `drcblk[i]` after the call, those
next to the bitmap included. -/
def sh2_drc_wcheck_ram (cfg : Config) (fuel : Nat) (nbr : Int → Nat) (d : Drc) (a : Nat) :
    Option (Drc × (Int → Nat)) :=
  (sh2_smc_rm_block (block_tables_base 0) fuel
      (smc_mem (drcblk_ram_len cfg) d.drcblk_ram nbr, d.block_tab)
      (((a &&& 0x3ffff) >>> cfg.SH2_DRCBLK_RAM_SHIFT : Nat) : Int) a).map
    (fun r => ({ d with drcblk_ram := smc_slots (drcblk_ram_len cfg) d.drcblk_ram r.1,
                        block_tab := r.2 }, r.1))

/-- Model of `sh2_drc_wcheck_da`, with `nbr` the words next to the data-array bitmap of
`cpuid` at the time of the call.  Result: as for `sh2_drc_wcheck_ram`. -/
def sh2_drc_wcheck_da (cfg : Config) (fuel : Nat) (nbr : Int → Nat) (d : Drc) (a : Nat)
    (cpuid : Nat) : Option (Drc × (Int → Nat)) :=
  (sh2_smc_rm_block (block_tables_base (1 + cpuid)) fuel
      (smc_mem (drcblk_da_len cfg) (d.drcblk_da cpuid) nbr, d.block_tab)
      (((a &&& 0xfff) >>> cfg.SH2_DRCBLK_DA_SHIFT : Nat) : Int) a).map
    (fun r => ({ d with drcblk_da := Function.update d.drcblk_da cpuid
                          (smc_slots (drcblk_da_len cfg) (d.drcblk_da cpuid) r.1),
                        block_tab := r.2 }, r.1))

/-- What the dispatcher calls but compiler.c does not define: the interrupt
acceptance `sh2_do_irq`, the guest memory seen by the translator, and the run
of a translated block through `sh2_drc_entry` (which may write guest memory
and thereby change the recompiler state). -/
structure Host where
  sh2_do_irq : SH2 → Nat → Nat → SH2
  mem : Drc → SH2 → Nat → Nat
  sh2_drc_entry : Nat → Drc × SH2 → Option (Drc × SH2)

/-- Model of `sh2_test_irq`. -/
def sh2_test_irq (h : Host) (sh2 : SH2) : SH2 :=
  if sh2.pending_level > ((sh2.sr >>> 4) &&& 0x0f) then
    if sh2.pending_irl > sh2.pending_int_irq then
      h.sh2_do_irq sh2 sh2.pending_irl (64 + sh2.pending_irl / 2)
    else
      let s1 := h.sh2_do_irq sh2 sh2.pending_int_irq sh2.pending_int_vector
      { s1 with pending_int_irq := 0, pending_level := s1.pending_irl }
  else sh2

/-- First half of the dispatcher loop body: the lookup, and `sh2_translate` when it
gave `block == NULL`; returns the block to enter and the state. -/
def dispatcher_get_block (cfg : Config) (h : Host) (tfuel : Nat) (d : Drc) (sh2 : SH2) :
    Option (Nat × Drc) :=
  match dispatcher_lookup cfg d sh2 with
  | none => none
  | some (block, bd) =>
    if block = 0 then
      (sh2_translate cfg (h.mem d sh2) tfuel d sh2 bd).map (fun t => (t.block_entry, t.drc))
    else some (block, d)

/-- The loop of `sh2_drc_dispatcher`; `tfuel` bounds each translation, the first
argument the number of blocks entered. -/
def dispatcher_loop (cfg : Config) (h : Host) (tfuel : Nat) : Nat → Drc × SH2 → Option (Drc × SH2)
  | 0, _ => none
  | fuel + 1, (d, sh2) =>
    if s32 sh2.sr / 4096 > 0 then
      match dispatcher_get_block cfg h tfuel d sh2 with
      | none => none
      | some (block, d1) =>
        match h.sh2_drc_entry block (d1, sh2) with
        | none => none
        | some st => dispatcher_loop cfg h tfuel fuel st
    else some (d, sh2)

/-- Model of `sh2_drc_dispatcher`. -/
def sh2_drc_dispatcher (cfg : Config) (h : Host) (tfuel fuel : Nat) (st : Drc × SH2) :
    Option (Drc × SH2) :=
  dispatcher_loop cfg h tfuel fuel (st.1, sh2_test_irq h st.2)

/-- Model of `sh2_execute`; `cycles_aim`, `cycles_done` and `sr` are 32-bit words. -/
def sh2_execute (cfg : Config) (h : Host) (tfuel fuel : Nat) (st : Drc × SH2) (cycles : Int) :
    Option (Drc × SH2) :=
  let aim := u32 ((st.2.cycles_aim : Int) + cycles)
  let cycles1 : Int := s32 (u32 ((aim : Int) - st.2.cycles_done))
  let sr1 := (st.2.sr &&& 0x3f3) ||| u32 (cycles1 * 4096)
  match sh2_drc_dispatcher cfg h tfuel fuel (st.1, { st.2 with cycles_aim := aim, sr := sr1 }) with
  | none => none
  | some (d, s) =>
    some (d, { s with cycles_done := u32 ((s.cycles_done : Int) + (cycles1 - s32 s.sr / 4096)) })

/-- Model of `sh2_drc_flush_all`. -/
def sh2_drc_flush_all (d : Drc) : Drc := flush_tcache (flush_tcache (flush_tcache d 0) 1) 2

/-- State after `sh2_drc_init` followed by `sh2_drc_flush_all`: zeroed descriptors and
hash table, empty caches laid out one after the other from `base` (the address
after the entry/exit trampolines), the register pool `rt` all free. -/
def drc_init (cfg : Config) (base : Nat) (rt : List temp_reg_t) : Drc :=
  sh2_drc_flush_all
    { tcache_bases := fun i =>
        [base, base + tcache_sizes cfg 0, base + tcache_sizes cfg 0 + tcache_sizes cfg 1].getD i 0
      tcache_ptrs := fun i =>
        [base, base + tcache_sizes cfg 0, base + tcache_sizes cfg 0 + tcache_sizes cfg 1].getD i 0
      block_tab := fun _ => ⟨0, 0, 0, none⟩
      block_counts := fun _ => 0
      hash_table := fun _ => none
      drcblk_ram := fun _ => 0
      drcblk_da := fun _ _ => 0
      reg_temp := (rcache_invalidate ⟨rt, 0, []⟩).reg_temp
      rcache_counter := 0 }

/-! ## The ARM build: tables of compiler.c 86-102 -/

/-- ARM `reg_map_g2h[]`. -/
def reg_map_g2h_arm (r : Nat) : Int :=
  [4, 5, 6, 7, 8, -1, -1, -1, -1, -1, -1, -1, -1, -1, -1, 9,
   -1, -1, -1, 10, -1, -1, -1, -1].getD r (-1)

/-- ARM `reg_temp[]` as statically initialised. -/
def reg_temp_arm : List temp_reg_t :=
  [0, 1, 12, 14, 2, 3].map (fun h => ⟨h, .HR_FREE, 0, 0⟩)

/-- ARM build parameters.  `reg_map_g2h` is the table of compiler.c; the other
fields come from `emit_arm.c` and `pico_int.h` (r11 as context register,
arguments in r0..r3, 2-byte SMC granules, one 4-byte instruction per emitter
call). -/
def arm_cfg : Config where
  reg_map_g2h := reg_map_g2h_arm
  host_arg2reg := fun n => n
  CONTEXT_REG := 11
  SH2_DRCBLK_RAM_SHIFT := 1
  SH2_DRCBLK_DA_SHIFT := 1
  DRC_TCACHE_SIZE := 2097152
  DRC_DEBUG_INTERP := false
  offsetof_drc_tmp := 156
  emit_size := fun _ => 4

/-! ## Specification vocabulary for translator actions -/

/-- Every run of `m` relates the state before to the state after by `R`. -/
def Steps {α : Type} (R : TState → TState → Prop) (m : TM α) : Prop :=
  ∀ st a st1, m st = some (a, st1) → R st st1

/-- Partial-correctness triple for a translator action. -/
def Hoare {α : Type} (P : TState → Prop) (m : TM α) (Q : α → TState → Prop) : Prop :=
  ∀ st a st1, P st → m st = some (a, st1) → Q a st1

/-- What a handler may do to `delayed_op`: leave it, or set it to 2 (`DELAYED_OP`). -/
def Rdl (st st1 : TState) : Prop :=
  st1.delayed_op = st.delayed_op ∨ st1.delayed_op = 2

/-- The block's code holds, or is bound to receive, a context write of `SHR_PC`:
a slot caches `SHR_PC` dirty, or a write to offset `SHR_PC * 4` is already emitted. -/
def PCw (rc : RCache) : Prop :=
  (∃ (j : Nat) (t : temp_reg_t),
      rc.reg_temp[j]? = some t ∧ t.type = .HR_CACHED_DIRTY ∧ t.val = SHR_PC) ∨
    (∃ hr, emith_ctx_write hr (SHR_PC * 4) ∈ rc.code)

/-- Keeping a pending write of `SHR_PC` (see `PCw`). -/
def Rpc (st st1 : TState) : Prop := PCw st.rc → PCw st1.rc

/-- Ending with a pending write of `SHR_PC`, whatever the state before. -/
def Rest (_ st1 : TState) : Prop := PCw st1.rc

/-- A handler that leaves through `end_block_btf` has a pending write of `SHR_PC`. -/
def Btf (m : TM OpExit) : Prop :=
  ∀ st ex st1, m st = some (ex, st1) → ex = .end_block_btf → PCw st1.rc

/-! ## Sequences of register-cache calls, descriptor chains -/

/-- One call of the register-cache interface. -/
inductive RcOp
  | get_reg (r : Nat) (mode : rc_gr_mode)
  | get_tmp
  | get_tmp_arg (arg : Nat)
  | get_reg_arg (arg : Nat) (r : Nat)
  | free_tmp (hr : Int)
  | clean
  | invalidate
  deriving DecidableEq, Repr

/-- The cache state after one call; `none` when the call aborts. -/
def rc_step (cfg : Config) (s : RCache) : RcOp → Option RCache
  | .get_reg r mode => (rcache_get_reg cfg s r mode).map Prod.snd
  | .get_tmp => (rcache_get_tmp s).map Prod.snd
  | .get_tmp_arg arg => (rcache_get_tmp_arg cfg s arg).map Prod.snd
  | .get_reg_arg arg r => (rcache_get_reg_arg cfg s arg r).map Prod.snd
  | .free_tmp hr => some (rcache_free_tmp s hr)
  | .clean => some (rcache_clean s)
  | .invalidate => some (rcache_invalidate s)

/-- The cache state after a sequence of calls, left to right. -/
def rc_run (cfg : Config) : RCache → List RcOp → Option RCache
  | s, [] => some s
  | s, op :: ops =>
    match rc_step cfg s op with
    | none => none
    | some s1 => rc_run cfg s1 ops

/-- Slot `j` of the pool caches guest register `r` (clean or dirty). -/
def caches_at (rt : List temp_reg_t) (j r : Nat) : Bool :=
  match rt[j]? with
  | some t => is_cached t && t.val == r
  | none => false

/-- At most one slot of the pool caches guest register `r`. -/
def cached_once (rt : List temp_reg_t) (r : Nat) : Bool :=
  (List.range rt.length).all (fun i =>
    (List.range rt.length).all (fun j =>
      !(caches_at rt i r && caches_at rt j r) || i == j))

/-- No `rcache_get_reg` of the sequence, run from `s`, asks for write or
read-modify-write access to a guest register that two slots cache at that
moment (the copies `rcache_get_reg_arg` makes are for reading). -/
def writes_unshared (cfg : Config) : RCache → List RcOp → Bool
  | _, [] => true
  | s, op :: ops =>
    (match op with
      | .get_reg r mode => mode == .RC_GR_READ || cached_once s.reg_temp r
      | _ => true) &&
    (match rc_step cfg s op with
      | none => true
      | some s1 => writes_unshared cfg s1 ops)

/-- Every `rcache_get_reg_arg` of the sequence is for a guest register without static
mapping. -/
def args_unmapped (cfg : Config) (ops : List RcOp) : Bool :=
  ops.all (fun op =>
    match op with
    | .get_reg_arg _ r => decide (cfg.reg_map_g2h r = -1)
    | _ => true)

/-- At most one slot caches each guest register dirty. -/
def dirty_unique (rt : List temp_reg_t) : Prop :=
  ∀ (i j : Nat) (ti tj : temp_reg_t), rt[i]? = some ti → rt[j]? = some tj →
    ti.type = .HR_CACHED_DIRTY → tj.type = .HR_CACHED_DIRTY → ti.val = tj.val → i = j

/-- No dirty slot caches a statically mapped guest register. -/
def no_static_dirty (cfg : Config) (rt : List temp_reg_t) : Prop :=
  ∀ (i : Nat) (t : temp_reg_t), rt[i]? = some t → t.type = .HR_CACHED_DIRTY →
    cfg.reg_map_g2h t.val = -1

/-- No cached slot, clean or dirty, caches a statically mapped guest register. -/
def no_static_cached (cfg : Config) (rt : List temp_reg_t) : Prop :=
  ∀ (i : Nat) (t : temp_reg_t), rt[i]? = some t → is_cached t = true →
    cfg.reg_map_g2h t.val = -1

/-- The descriptors met by following `next` from `start`, in order, up to `NULL`. -/
def is_chain (bt : Nat → block_desc) : Option Nat → List Nat → Bool
  | none, [] => true
  | some b, c :: cs => b == c && is_chain bt (bt b).next cs
  | _, _ => false

/-! ## Opcode classes and the per-opcode frame -/

/-- The delayed branches, by the decode conditions of the translator's switch:
BRAF/BSRF (`0x0n03`, `0x0n23`), RTS/RTE (`0x000b`, `0x002b`), JSR/JMP (`0x4n0b`, `0x4n2b`),
BT/S and BF/S (`0x8d..`, `0x8f..`), BRA (`0xa...`), BSR (`0xb...`). -/
def is_delayed_branch (op : Nat) : Prop :=
  ((op >>> 12) &&& 0x0f = 0x00 ∧
      ((op &&& 0x0f = 0x03 ∧ op &&& 0xd0 = 0) ∨
        (op &&& 0x0f = 0x0b ∧ op &&& 0xf00 = 0 ∧ (GET_Fx op = 0 ∨ GET_Fx op = 2)))) ∨
    ((op >>> 12) &&& 0x0f = 0x04 ∧ op &&& 0x0f = 0x0b ∧ (GET_Fx op = 0 ∨ GET_Fx op = 2)) ∨
    ((op >>> 12) &&& 0x0f = 0x08 ∧ (op &&& 0x0f00 = 0x0d00 ∨ op &&& 0x0f00 = 0x0f00)) ∨
    (op >>> 12) &&& 0x0f = 0x0a ∨ (op >>> 12) &&& 0x0f = 0x0b

instance : DecidablePred is_delayed_branch := fun op => by
  unfold is_delayed_branch
  exact inferInstance

/-- SLEEP (`0x001b`), by the decode conditions of the translator's switch. -/
def is_sleep (op : Nat) : Prop :=
  (op >>> 12) &&& 0x0f = 0x00 ∧ op &&& 0x0f = 0x0b ∧ op &&& 0xf00 = 0 ∧ GET_Fx op = 1

instance : DecidablePred is_sleep := fun op => by
  unfold is_sleep
  exact inferInstance

/-- BT and BF (`0x89..`, `0x8b..`), by the decode conditions of the translator's switch. -/
def is_bt_bf (op : Nat) : Prop :=
  (op >>> 12) &&& 0x0f = 0x08 ∧ (op &&& 0x0f00 = 0x0900 ∨ op &&& 0x0f00 = 0x0b00)

instance : DecidablePred is_bt_bf := fun op => by
  unfold is_bt_bf
  exact inferInstance

/-- TRAPA (`0xc3..`), by the decode conditions of the translator's switch. -/
def is_trapa (op : Nat) : Prop :=
  (op >>> 12) &&& 0x0f = 0x0c ∧ op &&& 0x0f00 = 0x0300

instance : DecidablePred is_trapa := fun op => by
  unfold is_trapa
  exact inferInstance

/-- What one opcode handler may do to the locals of the translation loop: `pc` stays;
`delayed_op` stays unless `br`; `cycles` does not go down unless `sl`. -/
def Rop (br sl : Prop) (st st1 : TState) : Prop :=
  st1.pc = st.pc ∧ (br ∨ st1.delayed_op = st.delayed_op) ∧ (sl ∨ st.cycles ≤ st1.cycles)

/-- The body shared by BT, BF, BT/S, BF/S: `pc` and `delayed_op` stay, two cycles more. -/
def Rcy2 (st st1 : TState) : Prop :=
  st1.pc = st.pc ∧ st1.delayed_op = st.delayed_op ∧ st1.cycles = st.cycles + 2

/-- Leaving the locals `pc`, `delayed_op` and `cycles` of the translation loop as they are. -/
def Req (st st1 : TState) : Prop :=
  st1.pc = st.pc ∧ st1.delayed_op = st.delayed_op ∧ st1.cycles = st.cycles

/-- Every run of the handler `m` leaves the switch through the exit `e`. -/
def Exq (e : OpExit) (m : TM OpExit) : Prop :=
  ∀ st ex st1, m st = some (ex, st1) → ex = e

/-- Ending with `delayed_op = 2`, whatever the state before. -/
def Rd2 (_ st1 : TState) : Prop := st1.delayed_op = 2

/-- The state after `n` iterations of the translation loop over one-cycle straight-line
opcodes: each opcode is fetched and its handler leaves through `end_op`
without changing `cycles`, `delayed_op` or `test_irq`; `none` when one of the
`n` opcodes is not of that kind (or its handler aborts). -/
def plain_run (cfg : Config) (mem : Nat → Nat) : Nat → TState → Option TState
  | 0, st => some st
  | n + 1, st =>
    match fetch_op mem st with
    | none => none
    | some (op, s1) =>
      match translate_op cfg mem op s1 with
      | some (.end_op, s2) =>
        if s2.cycles = s1.cycles ∧ s2.delayed_op = s1.delayed_op ∧ s2.test_irq = s1.test_irq then
          plain_run cfg mem n s2
        else none
      | _ => none

/-! ## Branch targets: sign extension, pending register writes, host run of BT/BF -/

/-- Sign extension of an 8-bit field. -/
def sext8 (d : Nat) : Int := if d % 256 < 128 then (d % 256 : Nat) else (d % 256 : Nat) - 256

/-- Sign extension of a 12-bit field. -/
def sext12 (d : Nat) : Int :=
  if d % 4096 < 2048 then (d % 4096 : Nat) else (d % 4096 : Nat) - 4096

/-- Guest register `r` is cached dirty in host register `hr`: the value the emitted code
leaves in `hr` is what the next write-back stores to the context slot of `r`. -/
def Pend (r : Nat) (hr : Int) (rc : RCache) : Prop :=
  ∃ (i : Nat) (u : temp_reg_t),
    rc.reg_temp[i]? = some u ∧ (u.reg : Int) = hr ∧ u.type = .HR_CACHED_DIRTY ∧ u.val = r

/-- What the host run of the BT/BF sequence looks at: the host registers, the T bit of
the guest SR, and the T bit as tested by the last `emith_sh2_test_t`. -/
structure HostSt where
  regs : Int → Nat
  T : Bool
  flagT : Bool

/-- Modelled from the spec: the emitter is not part of `compiler.c`, so the run of the
emitter calls that BT/BF use follows the emitter interface of the
specification: an immediate load, the test of SR.T, the short forward jump
(`sjmp_start c` ... `sjmp_end c` skips the calls in between when condition `c`
holds) and the predicated add/subtract of an immediate (done when its
condition holds).  `cond c t` says whether host condition code `c` holds
after the test of a T bit `t`; the second argument is the condition of a
forward jump being taken.  `none` for any other emitter call. -/
def host_run (cond : Int → Bool → Bool) : List Emit → Option Int → HostSt → Option HostSt
  | [], skip, h => if skip = none then some h else none
  | e :: es, some c, h =>
    if e = ⟨.sjmp_end, [c]⟩ then host_run cond es none h else host_run cond es (some c) h
  | e :: es, none, h =>
    match e with
    | ⟨.move_r_imm, [r, i]⟩ =>
      host_run cond es none { h with regs := Function.update h.regs r (u32 i) }
    | ⟨.sh2_test_t, []⟩ => host_run cond es none { h with flagT := h.T }
    | ⟨.sjmp_start, [c]⟩ => host_run cond es (if cond c h.flagT then some c else none) h
    | ⟨.sjmp_end, [_]⟩ => host_run cond es none h
    | ⟨.add_r_imm_c, [c, r, i]⟩ =>
      host_run cond es none
        (if cond c h.flagT then
          { h with regs := Function.update h.regs r (u32 (h.regs r + i)) }
        else h)
    | ⟨.sub_r_imm_c, [c, r, i]⟩ =>
      host_run cond es none
        (if cond c h.flagT then
          { h with regs := Function.update h.regs r (u32 (h.regs r - i)) }
        else h)
    | _ => none

/-- An opcode that is none of the branches: not a delayed branch, not BT/BF, not TRAPA. -/
def is_plain_op (op : Nat) : Prop :=
  ¬is_delayed_branch op ∧ ¬is_bt_bf op ∧ ¬is_trapa op

instance : DecidablePred is_plain_op := fun op => by
  unfold is_plain_op
  exact inferInstance

/-- What the loop does for a delayed branch and its delay slot, written straight-line:
the branch opcode is fetched and translated, then exactly one more opcode,
then `emit_move_r_r(SHR_PC, SHR_PPC)`, then the block ends: through the IRQ
test call when `test_irq` is set, by `break` otherwise. -/
def delay_slot_seq (cfg : Config) (mem : Nat → Nat) : TM LoopExit := do
  let op ← fetch_op mem
  let _ ← translate_op cfg mem op
  let op ← fetch_op mem
  let _ ← translate_op cfg mem op
  emit_move_r_r cfg SHR_PC SHR_PPC
  let test_irq ← get_test_irq
  if test_irq ≠ 0 then
    flush
    E .pass_arg_r [0, cfg.CONTEXT_REG]
    E .call [sh2_test_irq_fn]
    pure .end_block_btf
  else pure .brk

/-- The block's code holds, or is bound to receive, a context write of guest register
`r0`: a slot caches `r0` dirty, or a write to offset `r0 * 4` is already
emitted (`PCw` is the case `r0 = SHR_PC`). -/
def Pw (r0 : Nat) (rc : RCache) : Prop :=
  (∃ (j : Nat) (t : temp_reg_t),
      rc.reg_temp[j]? = some t ∧ t.type = .HR_CACHED_DIRTY ∧ t.val = r0) ∨
    (∃ hr, emith_ctx_write hr (r0 * 4) ∈ rc.code)

/-- The emitted code only grows: the code of `s1` is the code of `s` with more appended. -/
def Cm (s s1 : RCache) : Prop := ∃ l, s1.code = s.code ++ l

/-- A translator action only appends to the emitted code. -/
def Rcm (st st1 : TState) : Prop := Cm st.rc st1.rc

/-- Keeping a pending write of guest register `r0` (see `Pw`). -/
def Rpw (r0 : Nat) (st st1 : TState) : Prop := Pw r0 st.rc → Pw r0 st1.rc

/-- Ending with a pending write of guest register `r0`, whatever the state before. -/
def Rew (r0 : Nat) (_ st1 : TState) : Prop := Pw r0 st1.rc

/-! ## Concrete inputs used by the witnesses -/

/-- State after initialisation on the ARM build, translation caches from `0x1000000`. -/
def drc0 : Drc := drc_init arm_cfg 0x1000000 reg_temp_arm

/-- A host with no interrupts whose guest memory holds `BT` (`0x8900`) everywhere, so
that every block is one opcode of three cycles, and whose run of a block
takes those three cycles off the SR cycle field and leaves `pc` in place. -/
def host_bt : Host where
  sh2_do_irq := fun s _ _ => s
  mem := fun _ _ _ => 0x8900
  sh2_drc_entry := fun _ st => some (st.1, { st.2 with sr := u32 (s32 st.2.sr - 3 * 4096) })

/-- A host whose guest memory holds `BT` in ROM and, in DRAM, `NOP`s with one `BRA` at
`0x06000018`: a block entered at `0x06000010` or at `0x06000014` ends after
the delay slot at `0x0600001a`. -/
def host_ov : Host where
  sh2_do_irq := fun s _ _ => s
  mem := fun _ _ a =>
    if a &&& 0xc6000000 = 0x02000000 then 0x8900 else if a = 0x06000018 then 0xa000 else 0x0009
  sh2_drc_entry := fun _ st => some st

/-- The dispatcher translates a ROM block (id 0), then the DRAM block at
`0x06000010` (id 1, up to `0x0600001c`), then, entered in its middle, the DRAM
block at `0x06000014` (id 2); the guest then writes to `0x06000018` and
`sh2_drc_wcheck_ram` runs.  Reported: address range and translated entry of
block 1 before the write, the bitmap slots 8..13 after it, and what the
dispatcher's lookup at `0x06000010` returns after it.  (The call stays inside the bitmap;
the words next to it are taken as zero.) -/
def smc_overlay_run : Option ((Nat × Nat × Nat) × (List Nat × Nat × Option Nat)) :=
  match dispatcher_get_block arm_cfg host_ov 200 drc0 { pc := 0x02000000 } with
  | none => none
  | some (_, d1) =>
    match dispatcher_get_block arm_cfg host_ov 200 d1 { pc := 0x06000010 } with
    | none => none
    | some (_, d2) =>
      match dispatcher_get_block arm_cfg host_ov 200 d2 { pc := 0x06000014 } with
      | none => none
      | some (_, d3) =>
        match sh2_drc_wcheck_ram arm_cfg 100 (fun _ => 0) d3 0x06000018 with
        | none => none
        | some (d4, _) =>
          match dispatcher_lookup arm_cfg d4 { pc := 0x06000010 } with
          | none => none
          | some (block, bd) =>
            some (((d3.block_tab 1).addr, (d3.block_tab 1).end_addr, (d3.block_tab 1).tcache_ptr),
              ((List.range 6).map (fun i => d4.drcblk_ram (8 + i)), block, bd))

/-- The initial ARM state with every translation cache filled up to 100 bytes before
its end. -/
def drc_full : Drc :=
  { drc0 with tcache_ptrs := fun i => drc0.tcache_bases i + tcache_sizes arm_cfg i - 100 }

/-- The dispatcher translates a ROM block at `0x02000000` (id 0), the DRAM block at
`0x06000010` (id 1) and the DRAM block at `0x06000040` (id 2); the guest then
writes to `0x06000020`, whose bitmap slot (16) is zero, and
`sh2_drc_wcheck_ram` runs.  Reported: that slot and descriptor 0 (`addr`,
`end_addr`) before the call; descriptor 0 and the dispatcher's lookup at
`0x02000000` after it; whether the bitmap slots 0..39 are the same before and
after.  (The call stays inside the bitmap; the words next to it are taken as zero.) -/
def smc_zero_slot_run :
    Option ((Nat × Nat × Nat) × (Nat × Nat) × (Nat × Option Nat) × Bool) :=
  match dispatcher_get_block arm_cfg host_ov 200 drc0 { pc := 0x02000000 } with
  | none => none
  | some (_, d1) =>
    match dispatcher_get_block arm_cfg host_ov 200 d1 { pc := 0x06000010 } with
    | none => none
    | some (_, d2) =>
      match dispatcher_get_block arm_cfg host_ov 200 d2 { pc := 0x06000040 } with
      | none => none
      | some (_, d3) =>
        match sh2_drc_wcheck_ram arm_cfg 100 (fun _ => 0) d3 0x06000020 with
        | none => none
        | some (d4, _) =>
          match dispatcher_lookup arm_cfg d4 { pc := 0x02000000 } with
          | none => none
          | some r =>
            some ((d3.drcblk_ram 16, (d3.block_tab 0).addr, (d3.block_tab 0).end_addr),
              ((d4.block_tab 0).addr, (d4.block_tab 0).end_addr), r,
              (List.range 40).all (fun i => d4.drcblk_ram i == d3.drcblk_ram i))

/-- Translator state at the head of a block at `0x06000010` on the fresh ARM state, after
the fetch of its first opcode. -/
def tstate0 : TState :=
  { rc := ⟨drc0.reg_temp, drc0.rcache_counter, []⟩
    pc := 0x06000012, cycles := 1, delayed_op := 0, test_irq := 0 }

/-- Guest memory with `BSR` to `+4` bytes past its delay slot (`0xb002`) at `0x06000100`,
`ADD #1,R3` (`0x7301`) in the delay slot, and NOPs elsewhere. -/
def mem_bsr : Nat → Nat :=
  fun a => if a = 0x06000100 then 0xb002 else if a = 0x06000102 then 0x7301 else 0x0009

/-- Guest memory with 110 `BRA` opcodes (`0xa000`) from `0x06000100` on, each one in the delay
slot of the one before, and NOPs after them. -/
def mem_bra_chain : Nat → Nat :=
  fun a => if a < 0x060001dc then 0xa000 else 0x0009

/-- Slot index of the read `p[-1]` in the overlay check `if (p > 0 && p[-1] != 0)` of
`sh2_smc_rm_block` entered at slot `p`: one below the slot where the walk back
stopped (the test `p > 0` on a pointer always holds). -/
def smc_overlay_index (bm : Nat → Nat) (p : Nat) : Int :=
  (smc_walk_back bm (bm p >>> 1) p : Int) - 1

/-- The dispatcher translates a ROM block (id 0), the DRAM block at `0x06000000` (id 1,
head in slot 0 of the DRAM bitmap), the DRAM block at `0x06000040` (id 2) and the DRAM
block at `0x0603fffe` (id 3, head in the last slot `L - 1` of the bitmap); then
`sh2_drc_wcheck_ram` runs for a write to `0x0603fffe`, the word behind the bitmap (index
`L`) holding 6, which decodes to id 3, and every other word next to the bitmap being zero.
Reported: slot 0, the last slot and slot `0x20` before the call; the words at index
`L - 1`, `L` and `L + 1` before it; the same three words after it. -/
def smc_edge_run : Option ((Nat × Nat × Nat) × (Nat × Nat × Nat) × (Nat × Nat × Nat)) :=
  match dispatcher_get_block arm_cfg host_ov 200 drc0 { pc := 0x02000000 } with
  | none => none
  | some (_, d1) =>
    match dispatcher_get_block arm_cfg host_ov 200 d1 { pc := 0x06000000 } with
    | none => none
    | some (_, d2) =>
      match dispatcher_get_block arm_cfg host_ov 200 d2 { pc := 0x06000040 } with
      | none => none
      | some (_, d3) =>
        match dispatcher_get_block arm_cfg host_ov 200 d3 { pc := 0x0603fffe } with
        | none => none
        | some (_, d4) =>
          let len := drcblk_ram_len arm_cfg
          let nbr : Int → Nat := fun i => if i = (len : Int) then 6 else 0
          let m0 := smc_mem len d4.drcblk_ram nbr
          match sh2_drc_wcheck_ram arm_cfg 100 nbr d4 0x0603fffe with
          | none => none
          | some (_, m1) =>
            some ((d4.drcblk_ram 0, d4.drcblk_ram (len - 1), d4.drcblk_ram 0x20),
              (m0 ((len : Int) - 1), m0 len, m0 ((len : Int) + 1)),
              (m1 ((len : Int) - 1), m1 len, m1 ((len : Int) + 1)))

/-- A call of `sh2_smc_rm_block` at slot 0 for a write to `0x06000000`: slot 0 holds 3 (the
head of block 1), the word before the bitmap holds `w`, every other word is zero, and the
descriptors 1 and 2 both have the range `0x06000000..0x06000010`.  Reported: the words at
index `-1` and `0` after the call, and `addr` of descriptor 1 and of descriptor 2 after it. -/
def smc_before_run (w : Nat) : Option ((Nat × Nat) × (Nat × Nat)) :=
  (sh2_smc_rm_block 0 10
      (fun i => if i = 0 then 3 else if i = -1 then w else 0,
       fun k => if k = 1 ∨ k = 2 then ⟨0x06000000, 0x06000010, 0x1000000, none⟩
         else ⟨0, 0, 0, none⟩)
      0 0x06000000).map
    (fun r => ((r.1 (-1), r.1 0), ((r.2 1).addr, (r.2 2).addr)))

/-- The dispatcher translates the DRAM block at the cache-through address `0x26000010`; then
the lookup runs at `0x06000010`.  Reported: the block the lookup returns, its descriptor and
that descriptor's `addr`. -/
def lookup_alias_run : Option (Nat × Option Nat × Nat) :=
  match dispatcher_get_block arm_cfg host_ov 200 drc0 { pc := 0x26000010 } with
  | none => none
  | some (_, d1) =>
    match dispatcher_lookup arm_cfg d1 { pc := 0x06000010 } with
    | none => none
    | some (block, bd) => some (block, bd, (d1.block_tab (bd.getD 0)).addr)

/-- The state of `smc_overlay_run` after the write to `0x06000018`; then the lookup runs at
`0x06000010`.  Reported: the block the lookup returns, its descriptor and that descriptor's
`addr` and `end_addr`. -/
def lookup_stale_run : Option (Nat × Option Nat × Nat × Nat) :=
  match dispatcher_get_block arm_cfg host_ov 200 drc0 { pc := 0x02000000 } with
  | none => none
  | some (_, d1) =>
    match dispatcher_get_block arm_cfg host_ov 200 d1 { pc := 0x06000010 } with
    | none => none
    | some (_, d2) =>
      match dispatcher_get_block arm_cfg host_ov 200 d2 { pc := 0x06000014 } with
      | none => none
      | some (_, d3) =>
        match sh2_drc_wcheck_ram arm_cfg 100 (fun _ => 0) d3 0x06000018 with
        | none => none
        | some (d4, _) =>
          match dispatcher_lookup arm_cfg d4 { pc := 0x06000010 } with
          | none => none
          | some (block, bd) =>
            some (block, bd, (d4.block_tab (bd.getD 0)).addr, (d4.block_tab (bd.getD 0)).end_addr)

/-- The dispatcher is run twice at `pc = 0xc1000000` on the master CPU, with the lookup in
between.  Reported: the block built first, the block count of cache 1 and the head slot
(slot 0 of the master's data-array bitmap) after it; what the lookup at the same pc then
returns; the block the second dispatch gives and the block count after it. -/
def lookup_da_mirror_run : Option ((Nat × Nat × Nat) × (Nat × Option Nat) × (Nat × Nat)) :=
  match dispatcher_get_block arm_cfg host_ov 200 drc0 { pc := 0xc1000000 } with
  | none => none
  | some (b1, d1) =>
    match dispatcher_lookup arm_cfg d1 { pc := 0xc1000000 } with
    | none => none
    | some r =>
      match dispatcher_get_block arm_cfg host_ov 200 d1 { pc := 0xc1000000 } with
      | none => none
      | some (b2, d2) =>
        some ((b1, d1.block_counts 1, d1.drcblk_da 0 0), r, (b2, d2.block_counts 1))

/-! ## Stamps of the register cache -/

/-- The calls that stamp a slot: `rcache_get_reg` and `rcache_get_reg_arg`. -/
def is_get_call : RcOp → Bool
  | .get_reg _ _ => true
  | .get_reg_arg _ _ => true
  | _ => false

/-- Any two distinct cached slots have distinct stamps. -/
def stamps_distinct (rt : List temp_reg_t) : Prop :=
  ∀ (i j : Nat) (t u : temp_reg_t), rt[i]? = some t → rt[j]? = some u →
    is_cached t = true → is_cached u = true → i ≠ j → t.stamp ≠ u.stamp

/-- Slot `i` is cached and its stamp is larger than that of every other cached slot. -/
def newest_at (rt : List temp_reg_t) (i : Nat) : Prop :=
  ∃ t, rt[i]? = some t ∧ is_cached t = true ∧
    ∀ (j : Nat) (u : temp_reg_t), j ≠ i → rt[j]? = some u → is_cached u = true →
      u.stamp < t.stamp

/-- Slot `k` is cached and its stamp is smaller than that of every other cached slot. -/
def oldest_at (rt : List temp_reg_t) (k : Nat) : Prop :=
  ∃ t, rt[k]? = some t ∧ is_cached t = true ∧
    ∀ (j : Nat) (u : temp_reg_t), j ≠ k → rt[j]? = some u → is_cached u = true →
      t.stamp < u.stamp

/-- What holds after at most `n` stamping calls since `rcache_invalidate`: the counter is at
most `n`, no cached slot has a stamp above the counter, cached slots have distinct stamps,
and every slot is free or cached. -/
def StampInv (n : Nat) (s : RCache) : Prop :=
  s.rcache_counter ≤ n ∧
  (∀ (i : Nat) (t : temp_reg_t), s.reg_temp[i]? = some t → is_cached t = true →
    t.stamp ≤ s.rcache_counter) ∧
  stamps_distinct s.reg_temp ∧
  (∀ (i : Nat) (t : temp_reg_t), s.reg_temp[i]? = some t →
    is_cached t = true ∨ t.type = .HR_FREE)

/-! ## Reachable recompiler states -/

/-- One state change by `sh2_translate`, `sh2_drc_wcheck_ram`, `sh2_drc_wcheck_da` or
`flush_tcache`.  A write check is a step for every call that returns, whatever the words
next to its bitmap hold.  The words it zeroes outside its own bitmap may be slots of
another bitmap (the bitmaps are neighbouring fields of `Pico32xMem`): `spill` is the step in
which any slots of the bitmaps turn zero. -/
inductive DrcStep (cfg : Config) : Drc → Drc → Prop
  | translate (mem : Nat → Nat) (fuel : Nat) (d : Drc) (sh2 : SH2) (other : Option Nat)
      (t : Translated) (h : sh2_translate cfg mem fuel d sh2 other = some t) :
      DrcStep cfg d t.drc
  | wcheck_ram (fuel : Nat) (nbr : Int → Nat) (d : Drc) (a : Nat) (d1 : Drc) (m1 : Int → Nat)
      (h : sh2_drc_wcheck_ram cfg fuel nbr d a = some (d1, m1)) : DrcStep cfg d d1
  | wcheck_da (fuel : Nat) (nbr : Int → Nat) (d : Drc) (a cpuid : Nat) (d1 : Drc)
      (m1 : Int → Nat) (h : sh2_drc_wcheck_da cfg fuel nbr d a cpuid = some (d1, m1)) :
      DrcStep cfg d d1
  | flush (d : Drc) (tcid : Nat) : DrcStep cfg d (flush_tcache d tcid)
  | spill (d : Drc) (zr : Nat → Bool) (zd : Nat → Nat → Bool) :
      DrcStep cfg d
        { d with drcblk_ram := fun i => if zr i then 0 else d.drcblk_ram i
                 drcblk_da := fun c i => if zd c i then 0 else d.drcblk_da c i }

/-- The states reached from `d0` by such changes. -/
inductive DrcReach (cfg : Config) (d0 : Drc) : Drc → Prop
  | init : DrcReach cfg d0 d0
  | step (d d1 : Drc) (h : DrcReach cfg d0 d) (hs : DrcStep cfg d d1) : DrcReach cfg d0 d1

/-- Block counts within the caps, and every non-zero bitmap slot holds an id below the block
count of its region (region 0 for DRAM, region `1 + cpu` for the data array of `cpu`). -/
def DrcInv (d : Drc) : Prop :=
  (∀ r, d.block_counts r ≤ block_max_counts r) ∧
  (∀ i, d.drcblk_ram i ≠ 0 → d.drcblk_ram i >>> 1 < d.block_counts 0) ∧
  (∀ cpu i, d.drcblk_da cpu i ≠ 0 → d.drcblk_da cpu i >>> 1 < d.block_counts (1 + cpu))

/-! ## Opcodes that set `test_irq` -/

/-- What a handler may do to `test_irq`: leave it, or set it to 1. -/
def Rti (st st1 : TState) : Prop :=
  st1.test_irq = st.test_irq ∨ st1.test_irq = 1

/-- Ending with `test_irq = 1`, whatever the state before. -/
def Rt1 (_ st1 : TState) : Prop := st1.test_irq = 1

/-- RTE (`0x002b`), by the decode conditions of the translator's switch. -/
def is_rte (op : Nat) : Prop :=
  (op >>> 12) &&& 0x0f = 0x00 ∧ op &&& 0x0f = 0x0b ∧ op &&& 0xf00 = 0 ∧ GET_Fx op = 2

instance : DecidablePred is_rte := fun op => by
  unfold is_rte
  exact inferInstance

/-- LDC Rm,SR (`0x4m0e`), by the decode conditions of the translator's switch. -/
def is_ldc_sr (op : Nat) : Prop :=
  (op >>> 12) &&& 0x0f = 0x04 ∧ op &&& 0x0f = 0x0e ∧ GET_Fx op = 0

instance : DecidablePred is_ldc_sr := fun op => by
  unfold is_ldc_sr
  exact inferInstance

/-- LDC.L @Rm+,SR (`0x4m07`), by the decode conditions of the translator's switch. -/
def is_ldcl_sr (op : Nat) : Prop :=
  (op >>> 12) &&& 0x0f = 0x04 ∧ op &&& 0x0f = 0x07 ∧ op &&& 0x3f = 0x07

instance : DecidablePred is_ldcl_sr := fun op => by
  unfold is_ldcl_sr
  exact inferInstance

/-- The IRQ poll at the end of a block: `rcache_flush()`, the context pointer as argument 0,
the call of `sh2_test_irq`, and `goto end_block_btf`. -/
def irq_end (cfg : Config) : TM LoopExit := do
  flush
  E .pass_arg_r [0, cfg.CONTEXT_REG]
  E .call [sh2_test_irq_fn]
  pure .end_block_btf

/-- What the loop does for an opcode outside a delay slot that sets `test_irq` and is no
branch, written straight-line: the opcode is fetched and translated, the constant `pc` (the
address after the opcode) is stored to `SHR_PC`, then the IRQ poll ends the block. -/
def test_irq_seq (cfg : Config) (mem : Nat → Nat) : TM LoopExit := do
  let op ← fetch_op mem
  let _ ← translate_op cfg mem op
  let pc ← get_pc
  emit_move_r_imm32 cfg SHR_PC pc
  irq_end cfg

/-- What the loop does for RTE and its delay slot, written straight-line: RTE is fetched and
translated, then exactly one more opcode, then `emit_move_r_r(SHR_PC, SHR_PPC)`, then the
IRQ poll ends the block. -/
def rte_seq (cfg : Config) (mem : Nat → Nat) : TM LoopExit := do
  let op ← fetch_op mem
  let _ ← translate_op cfg mem op
  let op ← fetch_op mem
  let _ ← translate_op cfg mem op
  emit_move_r_r cfg SHR_PC SHR_PPC
  irq_end cfg

/-! ## Copies of SR -/

/-- STC SR,Rn (`0x0n02`), by the decode conditions of the translator's switch. -/
def is_stc_sr (op : Nat) : Prop :=
  (op >>> 12) &&& 0x0f = 0x00 ∧ op &&& 0x0f = 0x02 ∧ GET_Fx op = 0

instance : DecidablePred is_stc_sr := fun op => by
  unfold is_stc_sr
  exact inferInstance

/-- STC.L SR,@-Rn (`0x4n03`), by the decode conditions of the translator's switch. -/
def is_stcl_sr (op : Nat) : Prop :=
  (op >>> 12) &&& 0x0f = 0x04 ∧ op &&& 0x0f = 0x03 ∧ op &&& 0x3f = 0x03

instance : DecidablePred is_stcl_sr := fun op => by
  unfold is_stcl_sr
  exact inferInstance

/-- The two emitter calls that copy SR to host register `a` and clear the cycle field of the
copy: `emith_move_r_r(a, sr)` and `emith_clear_msb(a, a, 20)`. -/
def sr_copy (a sr : Int) : List Emit :=
  [⟨.move_r_r, [a, sr]⟩, ⟨.clear_msb, [a, a, 20]⟩]

/-- The call of the 32-bit write handler as `emit_memhandler_write(2)` emits it. -/
def write32_call (cfg : Config) : List Emit :=
  [⟨.move_r_r, [cfg.host_arg2reg 2, cfg.CONTEXT_REG]⟩, ⟨.call, [p32x_sh2_write32]⟩]

/-- No slot of the pool is host register `hr`. -/
def pool_avoids (hr : Int) (rt : List temp_reg_t) : Prop :=
  ∀ (i : Nat) (t : temp_reg_t), rt[i]? = some t → (t.reg : Int) ≠ hr

/-- Modelled from the spec: the emitter is not part of `compiler.c`, so the run of the two
emitter calls of an SR copy follows the emitter interface of the specification and the
use the translator makes of them: a register-register move copies the source register, and
`emith_clear_msb(d, s, n)` gives `d` the 32-bit value of `s` with its `n` most significant
bits cleared.  The host registers after a list of such calls; `none` for any other
emitter call. -/
def host_copy_run : List Emit → (Int → Nat) → Option (Int → Nat)
  | [], h => some h
  | e :: es, h =>
    match e with
    | ⟨.move_r_r, [d, s]⟩ => host_copy_run es (Function.update h d (h s))
    | ⟨.clear_msb, [d, s, n]⟩ =>
      host_copy_run es (Function.update h d (h s % 4294967296 % 2 ^ (32 - n.toNat)))
    | _ => none

/-- Some slot of the pool is host register `hr`. -/
def pool_has (hr : Nat) (rt : List temp_reg_t) : Prop :=
  ∃ (i : Nat) (t : temp_reg_t), rt[i]? = some t ∧ t.reg = hr

/-- Keeping the pool clear of host register `hr` (see `pool_avoids`). -/
def Rpa (hr : Int) (st st1 : TState) : Prop :=
  pool_avoids hr st.rc.reg_temp → pool_avoids hr st1.rc.reg_temp

/-! # Theorems -/

/-! ## Register cache -/

theorem scan_down_eq_some (p : temp_reg_t → Bool) (rt : List temp_reg_t) (n i : Nat)
    (t : temp_reg_t) (hi : rt[i]? = some t) (hp : p t = true) (hin : i < n)
    (hlast : ∀ j u, i < j → rt[j]? = some u → p u = false) :
    scan_down p rt n = some i := by
  induction n with
  | zero => omega
  | succ n ih =>
    unfold scan_down
    by_cases hn : i = n
    · subst hn
      simp [hi, hp]
    · have hlt : i < n := by omega
      cases hget : rt[n]? with
      | none => simpa using ih hlt
      | some u =>
        have := hlast n u hlt hget
        simpa [this] using ih hlt

theorem scan_down_eq_none (p : temp_reg_t → Bool) (rt : List temp_reg_t) (n : Nat)
    (h : ∀ (j : Nat) (u : temp_reg_t), rt[j]? = some u → p u = false) :
    scan_down p rt n = none := by
  induction n with
  | zero => rfl
  | succ n ih =>
    unfold scan_down
    cases hget : rt[n]? with
    | none => simpa using ih
    | some u => simpa [h n u hget] using ih

theorem clean_slots_eq (ts : List temp_reg_t) :
    clean_slots ts =
      (ts.map (fun t => if t.type = .HR_CACHED_DIRTY then { t with type := .HR_CACHED } else t),
       (ts.filter (fun t => decide (t.type = .HR_CACHED_DIRTY))).map
          (fun t => emith_ctx_write t.reg (ctx_offs t.val))) := by
  induction ts with
  | nil => rfl
  | cons t ts ih =>
    unfold clean_slots
    by_cases h : t.type = .HR_CACHED_DIRTY
    · simp [ih, h]
    · simp [ih, h]

theorem evict_scan_spec (ts : List temp_reg_t) :
    ∀ (i : Nat) (acc : Option Nat × Nat),
      (evict_scan ts i acc = acc ∧ ∀ u ∈ ts, is_cached u = true → acc.2 < u.stamp) ∨
      (∃ k t, ts[k]? = some t ∧ is_cached t = true ∧
        evict_scan ts i acc = (some (i + k), t.stamp) ∧ t.stamp ≤ acc.2 ∧
        (∀ (j : Nat) (u : temp_reg_t), ts[j]? = some u → is_cached u = true →
          t.stamp ≤ u.stamp) ∧
        (∀ (j : Nat) (u : temp_reg_t), k < j → ts[j]? = some u → is_cached u = true →
          t.stamp < u.stamp)) := by
  induction ts with
  | nil => intro i acc; left; simp [evict_scan]
  | cons t ts ih =>
    intro i acc
    unfold evict_scan
    by_cases hc : (is_cached t && decide (t.stamp ≤ acc.2)) = true
    · rw [if_pos hc]
      simp only [Bool.and_eq_true, decide_eq_true_eq] at hc
      right
      rcases ih (i + 1) (some i, t.stamp) with ⟨heq, hall⟩ | ⟨k, t1, hk, hc1, heq, hle, hmin, hlate⟩
      · refine ⟨0, t, by simp, hc.1, by simpa using heq, hc.2, ?_, ?_⟩
        · intro j u hj hu
          cases j with
          | zero => simp at hj; subst hj; exact le_refl _
          | succ j =>
            simp at hj
            exact le_of_lt (hall u (List.getElem?_mem hj) hu)
        · intro j u hlt hj hu
          cases j with
          | zero => omega
          | succ j =>
            simp at hj
            exact hall u (List.getElem?_mem hj) hu
      · refine ⟨k + 1, t1, by simpa using hk, hc1, ?_, ?_, ?_, ?_⟩
        · rw [heq]; congr 2; omega
        · exact le_trans hle hc.2
        · intro j u hj hu
          cases j with
          | zero => simp at hj; subst hj; exact hle
          | succ j => simp at hj; exact hmin j u hj hu
        · intro j u hlt hj hu
          cases j with
          | zero => omega
          | succ j => simp at hj; exact hlate j u (by omega) hj hu
    · rw [if_neg hc]
      have hc2 : is_cached t = true → acc.2 < t.stamp := by
        intro h
        simp only [h, Bool.true_and, decide_eq_true_eq] at hc
        omega
      rcases ih (i + 1) acc with ⟨heq, hall⟩ | ⟨k, t1, hk, hc1, heq, hle, hmin, hlate⟩
      · left
        refine ⟨heq, ?_⟩
        intro u hu hcu
        rcases List.mem_cons.mp hu with rfl | hu
        · exact hc2 hcu
        · exact hall u hu hcu
      · right
        refine ⟨k + 1, t1, by simpa using hk, hc1, ?_, hle, ?_, ?_⟩
        · rw [heq]; congr 2; omega
        · intro j u hj hu
          cases j with
          | zero =>
            simp at hj; subst hj
            have := hc2 hu
            omega
          | succ j => simp at hj; exact hmin j u hj hu
        · intro j u hlt hj hu
          cases j with
          | zero => omega
          | succ j => simp at hj; exact hlate j u (by omega) hj hu

theorem rcache_evict_frame (s s1 : RCache) (i : Nat) (h : rcache_evict s = some (i, s1)) :
    s1.reg_temp = s.reg_temp ∧ s1.rcache_counter = s.rcache_counter ∧
      ∃ t, s.reg_temp[i]? = some t := by
  unfold rcache_evict at h
  split at h
  · simp at h
  · rename_i k hk
    split at h
    · simp at h
    · rename_i t ht
      split at h <;>
      · simp only [Option.some.injEq, Prod.mk.injEq] at h
        rcases h with ⟨rfl, rfl⟩
        simp [RCache.emit, ht]

/-- C8: for a guest register with a static host mapping (`reg_map_g2h[r] != -1`),
`rcache_get_reg` returns that host register for every mode, emits nothing and
leaves all slots and the stamp counter as they were. -/
theorem rcache_get_reg_static (cfg : Config) (s : RCache) (r : Nat) (mode : rc_gr_mode)
    (h : cfg.reg_map_g2h r ≠ -1) :
    rcache_get_reg cfg s r mode = some (cfg.reg_map_g2h r, s) := by
  simp [rcache_get_reg, h]

theorem rcache_get_reg_static_witness :
    arm_cfg.reg_map_g2h SHR_SR ≠ -1 ∧
    rcache_get_reg arm_cfg ⟨reg_temp_arm, 7, []⟩ SHR_SR .RC_GR_RMW =
      some (10, ⟨reg_temp_arm, 7, []⟩) :=
  ⟨by decide, rcache_get_reg_static arm_cfg ⟨reg_temp_arm, 7, []⟩ SHR_SR .RC_GR_RMW (by decide)⟩

/-- C7: for a guest register `r` without static mapping that is cached in slot `i`
(the highest such slot, which is the one the downward scan meets first),
`rcache_get_reg` returns that slot's host register, emits no host code, stamps
the slot with the incremented (16-bit) counter, makes it dirty for write and
read-modify-write and keeps its type on read, and changes no other slot. -/
theorem rcache_get_reg_hit (cfg : Config) (s : RCache) (r : Nat) (mode : rc_gr_mode)
    (i : Nat) (t : temp_reg_t)
    (hmap : cfg.reg_map_g2h r = -1)
    (hi : s.reg_temp[i]? = some t)
    (hc : is_cached t = true) (hv : t.val = r)
    (hlast : ∀ (j : Nat) (u : temp_reg_t), i < j → s.reg_temp[j]? = some u →
      ¬ (is_cached u = true ∧ u.val = r)) :
    rcache_get_reg cfg s r mode =
      some ((t.reg : Int),
        { reg_temp := s.reg_temp.set i
            { reg := t.reg
              type := if mode = .RC_GR_READ then t.type else .HR_CACHED_DIRTY
              stamp := (s.rcache_counter + 1) % 65536
              val := t.val }
          rcache_counter := (s.rcache_counter + 1) % 65536
          code := s.code }) := by
  have hlen : i < s.reg_temp.length := by
    rcases List.getElem?_eq_some.mp hi with ⟨h, _⟩
    exact h
  have hscan : scan_down (fun t => is_cached t && t.val == r) s.reg_temp s.reg_temp.length
      = some i := by
    apply scan_down_eq_some _ _ _ _ t hi (by simp [hc, hv]) hlen
    intro j u hj hu
    have := hlast j u hj hu
    by_cases hcu : is_cached u = true
    · simp [hcu] at this ⊢
      exact this
    · simp [hcu]
  unfold rcache_get_reg
  simp only [hmap, ne_eq, not_true_eq_false, if_false, hscan, hi]
  cases mode <;> simp

theorem rcache_get_reg_hit_witness :
    rcache_get_reg arm_cfg
        ⟨[⟨0, .HR_CACHED, 3, 5⟩, ⟨1, .HR_CACHED_DIRTY, 4, 6⟩, ⟨12, .HR_FREE, 0, 0⟩], 4, []⟩
        5 .RC_GR_RMW =
      some (0,
        ⟨[⟨0, .HR_CACHED_DIRTY, 5, 5⟩, ⟨1, .HR_CACHED_DIRTY, 4, 6⟩, ⟨12, .HR_FREE, 0, 0⟩],
          5, []⟩) :=
  rcache_get_reg_hit arm_cfg
    ⟨[⟨0, .HR_CACHED, 3, 5⟩, ⟨1, .HR_CACHED_DIRTY, 4, 6⟩, ⟨12, .HR_FREE, 0, 0⟩], 4, []⟩
    5 .RC_GR_RMW 0 ⟨0, .HR_CACHED, 3, 5⟩ (by decide) (by decide) (by decide) (by decide)
    (by
      intro j u hj hu
      match j, hj with
      | 1, _ => simp at hu; subst hu; decide
      | 2, _ => simp at hu; subst hu; decide
      | (n + 3), _ => simp at hu)

/-- C9: when some slot is cached or cached-dirty (stamps being 16-bit),
`rcache_evict` returns the slot `i` whose stamp is smallest among those slots,
the highest index among equal smallest stamps; it leaves the slots as they are
and emits exactly one context write (host register of the slot, offset
`val * 4`) when the slot was dirty and nothing when it was clean. -/
theorem rcache_evict_oldest (s : RCache)
    (hex : ∃ (j : Nat) (u : temp_reg_t), s.reg_temp[j]? = some u ∧ is_cached u = true)
    (hst : ∀ (j : Nat) (u : temp_reg_t), s.reg_temp[j]? = some u → u.stamp ≤ 65535) :
    ∃ (i : Nat) (t : temp_reg_t), s.reg_temp[i]? = some t ∧ is_cached t = true ∧
      (∀ (j : Nat) (u : temp_reg_t), s.reg_temp[j]? = some u → is_cached u = true →
        t.stamp ≤ u.stamp) ∧
      (∀ (j : Nat) (u : temp_reg_t), i < j → s.reg_temp[j]? = some u → is_cached u = true →
        t.stamp < u.stamp) ∧
      rcache_evict s = some (i,
        { reg_temp := s.reg_temp
          rcache_counter := s.rcache_counter
          code := s.code ++
            (if t.type = .HR_CACHED_DIRTY then [emith_ctx_write t.reg (t.val * 4 % 4294967296)]
             else []) }) := by
  rcases evict_scan_spec s.reg_temp 0 (none, 65535) with ⟨_, hall⟩ | ⟨k, t, hk, hc, heq, _, hmin, hlate⟩
  · exfalso
    rcases hex with ⟨j, u, hj, hu⟩
    have h1 := hall u (List.getElem?_mem hj) hu
    have h2 := hst j u hj
    simp at h1
    omega
  · refine ⟨k, t, hk, hc, hmin, hlate, ?_⟩
    unfold rcache_evict
    rw [heq]
    simp only [Nat.zero_add, hk]
    by_cases hd : t.type = .HR_CACHED_DIRTY
    · simp [hd, RCache.emit, ctx_offs]
    · simp [hd]

theorem rcache_evict_oldest_witness :
    ∃ (i : Nat) (t : temp_reg_t),
      ([⟨0, .HR_CACHED, 3, 5⟩, ⟨1, .HR_CACHED_DIRTY, 2, 6⟩, ⟨12, .HR_CACHED_DIRTY, 2, 7⟩,
        ⟨14, .HR_TEMP, 0, 0⟩] : List temp_reg_t)[i]? = some t ∧ is_cached t = true ∧
      (∀ (j : Nat) (u : temp_reg_t),
        ([⟨0, .HR_CACHED, 3, 5⟩, ⟨1, .HR_CACHED_DIRTY, 2, 6⟩, ⟨12, .HR_CACHED_DIRTY, 2, 7⟩,
          ⟨14, .HR_TEMP, 0, 0⟩] : List temp_reg_t)[j]? = some u → is_cached u = true →
        t.stamp ≤ u.stamp) ∧
      (∀ (j : Nat) (u : temp_reg_t), i < j →
        ([⟨0, .HR_CACHED, 3, 5⟩, ⟨1, .HR_CACHED_DIRTY, 2, 6⟩, ⟨12, .HR_CACHED_DIRTY, 2, 7⟩,
          ⟨14, .HR_TEMP, 0, 0⟩] : List temp_reg_t)[j]? = some u → is_cached u = true →
        t.stamp < u.stamp) ∧
      rcache_evict
          ⟨[⟨0, .HR_CACHED, 3, 5⟩, ⟨1, .HR_CACHED_DIRTY, 2, 6⟩, ⟨12, .HR_CACHED_DIRTY, 2, 7⟩,
            ⟨14, .HR_TEMP, 0, 0⟩], 3, []⟩ =
        some (i,
          { reg_temp := [⟨0, .HR_CACHED, 3, 5⟩, ⟨1, .HR_CACHED_DIRTY, 2, 6⟩,
              ⟨12, .HR_CACHED_DIRTY, 2, 7⟩, ⟨14, .HR_TEMP, 0, 0⟩]
            rcache_counter := 3
            code := [] ++
              (if t.type = .HR_CACHED_DIRTY then
                [emith_ctx_write t.reg (t.val * 4 % 4294967296)]
               else []) }) :=
  rcache_evict_oldest
    ⟨[⟨0, .HR_CACHED, 3, 5⟩, ⟨1, .HR_CACHED_DIRTY, 2, 6⟩, ⟨12, .HR_CACHED_DIRTY, 2, 7⟩,
      ⟨14, .HR_TEMP, 0, 0⟩], 3, []⟩
    ⟨0, ⟨0, .HR_CACHED, 3, 5⟩, by decide, by decide⟩
    (by
      intro j u hu
      match j with
      | 0 => simp at hu; subst hu; decide
      | 1 => simp at hu; subst hu; decide
      | 2 => simp at hu; subst hu; decide
      | 3 => simp at hu; subst hu; decide
      | (n + 4) => simp at hu)

/-- C10: `rcache_clean` emits, in slot order, exactly one context write per dirty
slot (the slot's host register to offset `val * 4` of its guest register),
turns every dirty slot into a clean cached one and leaves every other slot
(type, val, stamp) and the counter untouched; `rcache_flush` emits the same
writes and leaves every slot free with the counter reset. -/
theorem rcache_clean_flush_spec (s : RCache) :
    rcache_clean s =
      { reg_temp := s.reg_temp.map
          (fun t => if t.type = .HR_CACHED_DIRTY then { t with type := .HR_CACHED } else t)
        rcache_counter := s.rcache_counter
        code := s.code ++
          (s.reg_temp.filter (fun t => decide (t.type = .HR_CACHED_DIRTY))).map
            (fun t => emith_ctx_write t.reg (t.val * 4 % 4294967296)) } ∧
    rcache_flush s =
      { reg_temp := s.reg_temp.map (fun t => { t with type := .HR_FREE })
        rcache_counter := 0
        code := s.code ++
          (s.reg_temp.filter (fun t => decide (t.type = .HR_CACHED_DIRTY))).map
            (fun t => emith_ctx_write t.reg (t.val * 4 % 4294967296)) } := by
  have h1 : rcache_clean s =
      { reg_temp := s.reg_temp.map
          (fun t => if t.type = .HR_CACHED_DIRTY then { t with type := .HR_CACHED } else t)
        rcache_counter := s.rcache_counter
        code := s.code ++
          (s.reg_temp.filter (fun t => decide (t.type = .HR_CACHED_DIRTY))).map
            (fun t => emith_ctx_write t.reg (t.val * 4 % 4294967296)) } := by
    unfold rcache_clean
    rw [clean_slots_eq]
    rfl
  refine ⟨h1, ?_⟩
  unfold rcache_flush
  rw [h1]
  unfold rcache_invalidate
  simp only [List.map_map, RCache.mk.injEq, and_true, true_and]
  apply List.map_congr_left
  intro t _
  by_cases h : t.type = .HR_CACHED_DIRTY <;> simp [h]

/-- C6: for a guest register `r` with no static mapping that no slot caches,
`rcache_get_reg` takes the highest free (or constant) slot when there is one,
without evicting, and otherwise the slot `rcache_evict` hands back (aborting
when that aborts); it emits a context read of offset `r * 4` into the slot's
host register exactly when the mode is not write, leaves the slot caching `r`,
dirty iff the mode is not read, stamped with the incremented counter, leaves
the other slots alone and returns the slot's host register. -/
theorem rcache_get_reg_miss (cfg : Config) (s : RCache) (r : Nat) (mode : rc_gr_mode)
    (hmap : cfg.reg_map_g2h r = -1)
    (hmiss : ∀ (j : Nat) (u : temp_reg_t), s.reg_temp[j]? = some u →
      ¬ (is_cached u = true ∧ u.val = r)) :
    (∀ (i : Nat) (t : temp_reg_t), s.reg_temp[i]? = some t → is_free t = true →
      (∀ (j : Nat) (u : temp_reg_t), i < j → s.reg_temp[j]? = some u → is_free u = false) →
      rcache_get_reg cfg s r mode =
        some ((t.reg : Int),
          { reg_temp := s.reg_temp.set i
              { reg := t.reg
                type := if mode = .RC_GR_READ then .HR_CACHED else .HR_CACHED_DIRTY
                stamp := (s.rcache_counter + 1) % 65536
                val := r }
            rcache_counter := (s.rcache_counter + 1) % 65536
            code := s.code ++
              (if mode = .RC_GR_WRITE then [] else [emith_ctx_read t.reg (r * 4)]) })) ∧
    ((∀ (j : Nat) (u : temp_reg_t), s.reg_temp[j]? = some u → is_free u = false) →
      (rcache_evict { s with rcache_counter := (s.rcache_counter + 1) % 65536 } = none →
        rcache_get_reg cfg s r mode = none) ∧
      (∀ (i : Nat) (s1 : RCache),
        rcache_evict { s with rcache_counter := (s.rcache_counter + 1) % 65536 } = some (i, s1) →
        ∃ t, s.reg_temp[i]? = some t ∧
          rcache_get_reg cfg s r mode =
            some ((t.reg : Int),
              { reg_temp := s.reg_temp.set i
                  { reg := t.reg
                    type := if mode = .RC_GR_READ then .HR_CACHED else .HR_CACHED_DIRTY
                    stamp := (s.rcache_counter + 1) % 65536
                    val := r }
                rcache_counter := (s.rcache_counter + 1) % 65536
                code := s1.code ++
                  (if mode = .RC_GR_WRITE then [] else [emith_ctx_read t.reg (r * 4)]) }))) := by
  have hscan : scan_down (fun t => is_cached t && t.val == r) s.reg_temp s.reg_temp.length
      = none := by
    apply scan_down_eq_none
    intro j u hu
    have := hmiss j u hu
    by_cases hcu : is_cached u = true
    · simp [hcu] at this ⊢
      exact this
    · simp [hcu]
  refine ⟨?_, ?_⟩
  · intro i t hi hf hlast
    have hlen : i < s.reg_temp.length := by
      rcases List.getElem?_eq_some.mp hi with ⟨h, _⟩
      exact h
    have hfree : scan_down is_free s.reg_temp s.reg_temp.length = some i :=
      scan_down_eq_some _ _ _ _ t hi hf hlen hlast
    unfold rcache_get_reg
    simp only [hmap, ne_eq, not_true_eq_false, if_false, hscan, hfree, get_reg_alloc, hi]
    cases mode <;> simp [RCache.emit]
  · intro hnofree
    have hfree : scan_down is_free s.reg_temp s.reg_temp.length = none :=
      scan_down_eq_none _ _ _ hnofree
    refine ⟨?_, ?_⟩
    · intro hev
      unfold rcache_get_reg
      simp only [hmap, ne_eq, not_true_eq_false, if_false, hscan, hfree, hev]
    · intro i s1 hev
      rcases rcache_evict_frame _ _ _ hev with ⟨hrt, hctr, t, ht⟩
      simp only at hrt hctr ht
      refine ⟨t, ht, ?_⟩
      unfold rcache_get_reg
      simp only [hmap, ne_eq, not_true_eq_false, if_false, hscan, hfree, hev, get_reg_alloc,
        hrt, ht, hctr]
      cases mode <;> simp [RCache.emit, hrt, hctr]

theorem rcache_get_reg_miss_witness :
    rcache_get_reg arm_cfg
        ⟨[⟨0, .HR_FREE, 0, 0⟩, ⟨1, .HR_CACHED_DIRTY, 1, 5⟩], 1, []⟩ 6 .RC_GR_READ =
      some (0,
        ⟨[⟨0, .HR_CACHED, 2, 6⟩, ⟨1, .HR_CACHED_DIRTY, 1, 5⟩], 2, [emith_ctx_read 0 24]⟩) ∧
    rcache_get_reg arm_cfg
        ⟨[⟨0, .HR_TEMP, 0, 0⟩, ⟨1, .HR_CACHED_DIRTY, 1, 5⟩], 1, []⟩ 6 .RC_GR_WRITE =
      some (1,
        ⟨[⟨0, .HR_TEMP, 0, 0⟩, ⟨1, .HR_CACHED_DIRTY, 2, 6⟩], 2, [emith_ctx_write 1 20]⟩) := by
  constructor
  · exact (rcache_get_reg_miss arm_cfg
      ⟨[⟨0, .HR_FREE, 0, 0⟩, ⟨1, .HR_CACHED_DIRTY, 1, 5⟩], 1, []⟩ 6 .RC_GR_READ (by decide)
      (by
        intro j u hu
        match j with
        | 0 => simp at hu; subst hu; decide
        | 1 => simp at hu; subst hu; decide
        | (n + 2) => simp at hu)).1 0 ⟨0, .HR_FREE, 0, 0⟩ (by decide) (by decide)
      (by
        intro j u hj hu
        match j, hj with
        | 1, _ => simp at hu; subst hu; decide
        | (n + 2), _ => simp at hu)
  · have h := ((rcache_get_reg_miss arm_cfg
      ⟨[⟨0, .HR_TEMP, 0, 0⟩, ⟨1, .HR_CACHED_DIRTY, 1, 5⟩], 1, []⟩ 6 .RC_GR_WRITE (by decide)
      (by
        intro j u hu
        match j with
        | 0 => simp at hu; subst hu; decide
        | 1 => simp at hu; subst hu; decide
        | (n + 2) => simp at hu)).2
      (by
        intro j u hu
        match j with
        | 0 => simp at hu; subst hu; decide
        | 1 => simp at hu; subst hu; decide
        | (n + 2) => simp at hu)).2 1
        ⟨[⟨0, .HR_TEMP, 0, 0⟩, ⟨1, .HR_CACHED_DIRTY, 1, 5⟩], 2, [emith_ctx_write 1 20]⟩
        (by decide)
    rcases h with ⟨t, ht, hres⟩
    simp at ht
    subst ht
    exact hres

/-! ## Flush and lookup -/

theorem land_of_land (x m1 m2 v : Nat) (h : x &&& m1 = v) (hm : m1 &&& m2 = m2) :
    x &&& m2 = v &&& m2 := by
  rw [← h, Nat.land_assoc, hm]

theorem da_of_dispatch_da (pc : Nat) (h : pc &&& 0xff000000 = 0xc0000000) :
    pc &&& 0xe0000000 = 0xc0000000 := by
  have := land_of_land pc 0xff000000 0xe0000000 0xc0000000 h (by decide)
  simpa using this

theorem not_da_of_ram_rom (pc v : Nat) (h : pc &&& 0xc6000000 = v)
    (hv : v &&& 0xc0000000 = 0) : pc &&& 0xe0000000 ≠ 0xc0000000 := by
  intro h2
  have h3 := land_of_land pc 0xc6000000 0xc0000000 v h (by decide)
  have h4 := land_of_land pc 0xe0000000 0xc0000000 0xc0000000 h2 (by decide)
  rw [h3, hv] at h4
  revert h4
  decide

/-- C2: after `flush_tcache` of the cache that `pc` belongs to, the dispatcher's
lookup at `pc` finds no block (`block == NULL`, no descriptor), whichever of
its three paths (data array/BIOS bitmap, DRAM bitmap, ROM hash bucket) the
address takes; the dispatcher therefore gets its block for that `pc` from
`sh2_translate`. -/
theorem flush_tcache_lookup_miss (cfg : Config) (d : Drc) (sh2 : SH2) :
    dispatcher_lookup cfg (flush_tcache d (tcache_id_of sh2.pc sh2.is_slave)) sh2 = some (0, none) ∧
    ∀ (h : Host) (tfuel : Nat),
      dispatcher_get_block cfg h tfuel (flush_tcache d (tcache_id_of sh2.pc sh2.is_slave)) sh2 =
        (sh2_translate cfg (h.mem (flush_tcache d (tcache_id_of sh2.pc sh2.is_slave)) sh2) tfuel
          (flush_tcache d (tcache_id_of sh2.pc sh2.is_slave)) sh2 none).map
          (fun t => (t.block_entry, t.drc)) := by
  have hlook : dispatcher_lookup cfg (flush_tcache d (tcache_id_of sh2.pc sh2.is_slave)) sh2
      = some (0, none) := by
    unfold dispatcher_lookup
    by_cases hda : (sh2.pc &&& 0xff000000) = 0xc0000000 ∨ (sh2.pc &&& 0xfffff000) = 0
    · have hid : tcache_id_of sh2.pc sh2.is_slave = 1 + sh2.is_slave := by
        unfold tcache_id_of is_da_bios
        rcases hda with h | h
        · simp [da_of_dispatch_da _ h]
        · simp [h]
      rw [if_pos hda, hid]
      simp [flush_tcache]
    · rw [if_neg hda]
      by_cases hram : (sh2.pc &&& 0xc6000000) = 0x06000000
      · have hid : tcache_id_of sh2.pc sh2.is_slave = 0 := by
          unfold tcache_id_of is_da_bios
          have h1 := not_da_of_ram_rom _ _ hram (by decide)
          have h2 : ¬ (sh2.pc &&& 0xfffff000) = 0 := fun h => hda (Or.inr h)
          simp [h1, h2]
        rw [if_pos hram, hid]
        simp [flush_tcache]
      · rw [if_neg hram]
        by_cases hrom : (sh2.pc &&& 0xc6000000) = 0x02000000
        · have hid : tcache_id_of sh2.pc sh2.is_slave = 0 := by
            unfold tcache_id_of is_da_bios
            have h1 := not_da_of_ram_rom _ _ hrom (by decide)
            have h2 : ¬ (sh2.pc &&& 0xfffff000) = 0 := fun h => hda (Or.inr h)
            simp [h1, h2]
          rw [if_pos hrom, hid]
          simp [flush_tcache]
        · rw [if_neg hrom]
  refine ⟨hlook, ?_⟩
  intro h tfuel
  simp only [dispatcher_get_block, hlook, if_true]

/-! ## `sh2_execute` -/

theorem sh2_test_irq_cycles_done (h : Host) (sh2 : SH2)
    (hirq : ∀ (s : SH2) (l v : Nat), (h.sh2_do_irq s l v).cycles_done = s.cycles_done) :
    (sh2_test_irq h sh2).cycles_done = sh2.cycles_done := by
  unfold sh2_test_irq
  split
  · split
    · exact hirq _ _ _
    · exact hirq _ _ _
  · rfl

theorem dispatcher_loop_cycles_done (cfg : Config) (h : Host) (tfuel : Nat)
    (hentry : ∀ (b : Nat) (st st1 : Drc × SH2), h.sh2_drc_entry b st = some st1 →
      st1.2.cycles_done = st.2.cycles_done) :
    ∀ (fuel : Nat) (st st1 : Drc × SH2), dispatcher_loop cfg h tfuel fuel st = some st1 →
      st1.2.cycles_done = st.2.cycles_done := by
  intro fuel
  induction fuel with
  | zero => intro st st1 hrun; simp [dispatcher_loop] at hrun
  | succ fuel ih =>
    intro st st1 hrun
    obtain ⟨d, sh2⟩ := st
    unfold dispatcher_loop at hrun
    split at hrun
    · split at hrun
      · simp at hrun
      · rename_i block d1 _
        split at hrun
        · simp at hrun
        · rename_i st2 hent
          rw [ih st2 st1 hrun, hentry _ _ _ hent]
    · simp only [Option.some.injEq] at hrun
      rw [← hrun]

/-- C3 (as the code has it): when the host callbacks leave `cycles_done` alone and
`sh2_execute(cpu, N)` returns, `cycles_done` has grown, modulo `2^32`, by
exactly `B` minus the signed value `sr >> 12` left in SR by the dispatcher,
where `B = (int)(cycles_aim + N - cycles_done)` is the budget computed from the
values at entry; `B = N` when `cycles_aim = cycles_done` at entry. -/
theorem sh2_execute_cycles_done (cfg : Config) (h : Host) (tfuel fuel : Nat) (d d1 : Drc)
    (sh2 s1 : SH2) (N : Int)
    (hirq : ∀ (s : SH2) (l v : Nat), (h.sh2_do_irq s l v).cycles_done = s.cycles_done)
    (hentry : ∀ (b : Nat) (st st1 : Drc × SH2), h.sh2_drc_entry b st = some st1 →
      st1.2.cycles_done = st.2.cycles_done)
    (hrun : sh2_execute cfg h tfuel fuel (d, sh2) N = some (d1, s1)) :
    s1.cycles_done =
        u32 ((sh2.cycles_done : Int) +
          (s32 (u32 ((u32 ((sh2.cycles_aim : Int) + N) : Int) - sh2.cycles_done))
            - s32 s1.sr / 4096)) ∧
      (sh2.cycles_aim = sh2.cycles_done → sh2.cycles_done < 4294967296 →
        -2147483648 ≤ N → N < 2147483648 →
        s32 (u32 ((u32 ((sh2.cycles_aim : Int) + N) : Int) - sh2.cycles_done)) = N) := by
  constructor
  · unfold sh2_execute at hrun
    simp only at hrun
    split at hrun
    · simp at hrun
    · rename_i d2 s2 hdisp
      simp only [Option.some.injEq, Prod.mk.injEq] at hrun
      obtain ⟨_, rfl⟩ := hrun
      unfold sh2_drc_dispatcher at hdisp
      have h1 := dispatcher_loop_cycles_done cfg h tfuel hentry _ _ _ hdisp
      simp only at h1
      rw [sh2_test_irq_cycles_done h _ hirq] at h1
      simp only at h1 ⊢
      rw [h1]
  · intro haim hlt hlo hhi
    rw [haim]
    unfold s32 u32
    have e1 : (((sh2.cycles_done : Int) + N) % 4294967296).toNat =
        ((sh2.cycles_done : Int) + N) % 4294967296 := by
      apply Int.toNat_of_nonneg
      omega
    rw [e1]
    have e2 : (((sh2.cycles_done : Int) + N) % 4294967296 - sh2.cycles_done) % 4294967296
        = N % 4294967296 := by
      omega
    rw [e2]
    have e3 : ((N % 4294967296).toNat : Int) = N % 4294967296 := by
      apply Int.toNat_of_nonneg
      omega
    have e4 : ((N % 4294967296).toNat % 4294967296 : Nat) = (N % 4294967296).toNat := by
      apply Nat.mod_eq_of_lt
      omega
    rw [e4]
    split
    · rename_i hc
      rw [e3]
      omega
    · rename_i hc
      rw [e3]
      omega

set_option maxRecDepth 100000 in
/-- C3, counterexample: two calls `sh2_execute(cpu, 100)` in a row on a fresh CPU whose
blocks take 3 cycles each.  The first leaves `cycles_aim = 100`,
`cycles_done = 102`; the second then adds 99 to `cycles_done` while `N` minus
the value left in `sr >> 12` is 101. -/
theorem sh2_execute_increment_differs :
    (sh2_execute arm_cfg host_bt 200 100 (drc0, { pc := 0x02000000 }) 100).bind
      (fun r1 => (sh2_execute arm_cfg host_bt 200 100 r1 100).map
        (fun r2 => (r1.2.cycles_aim, r1.2.cycles_done,
          (r2.2.cycles_done : Int) - r1.2.cycles_done, 100 - s32 r2.2.sr / 4096))) =
      some (100, 102, 99, 101) := by
  decide

set_option maxRecDepth 100000 in
theorem sh2_execute_cycles_done_witness :
    ∃ r, sh2_execute arm_cfg host_bt 200 100
        (drc0, { pc := 0x02000000, cycles_aim := 100, cycles_done := 102 }) 100 = some r ∧
      r.2.cycles_done =
        u32 (((102 : Nat) : Int) +
          (s32 (u32 ((u32 (((100 : Nat) : Int) + 100) : Int) - (102 : Nat))) - s32 r.2.sr / 4096)) := by
  have hs : (sh2_execute arm_cfg host_bt 200 100
      (drc0, { pc := 0x02000000, cycles_aim := 100, cycles_done := 102 }) 100).isSome = true := by
    decide
  obtain ⟨r, hr⟩ := Option.isSome_iff_exists.mp hs
  exact ⟨r, hr,
    (sh2_execute_cycles_done arm_cfg host_bt 200 100 drc0 r.1
      { pc := 0x02000000, cycles_aim := 100, cycles_done := 102 } r.2 100
      (by intros; rfl)
      (by
        intro b st st1 h
        simp only [host_bt, Option.some.injEq] at h
        rw [← h])
      hr).1⟩


/-! ## Block set-up and the ROM hash chain -/

theorem sh2_translate_some (cfg : Config) (mem : Nat → Nat) (fuel : Nat) (d : Drc) (sh2 : SH2)
    (other : Option Nat) (t : Translated)
    (h : sh2_translate cfg mem fuel d sh2 other = some t) :
    ∃ d1 tcid st1 st2,
      translate_begin cfg d sh2 other = some (d1, tcid, t.this_block, t.blkid, t.block_entry) ∧
      translate_body cfg mem fuel
        { rc := ⟨d1.reg_temp, d1.rcache_counter, []⟩
          pc := sh2.pc, cycles := 0, delayed_op := 0, test_irq := 0 } = some ((), st1) ∧
      translate_epilogue cfg st1 = some ((), st2) ∧
      t.code = st2.rc.code ∧ t.end_pc = st1.pc ∧ t.cycles = st1.cycles ∧
      t.drc =
        { translate_mark cfg d1 sh2 t.this_block t.blkid st1.pc with
          tcache_ptrs := Function.update
            (translate_mark cfg d1 sh2 t.this_block t.blkid st1.pc).tcache_ptrs tcid
            (t.block_entry + (st2.rc.code.map cfg.emit_size).sum)
          reg_temp := st2.rc.reg_temp
          rcache_counter := st2.rc.rcache_counter } := by
  unfold sh2_translate at h
  split at h
  · simp at h
  · rename_i d1 tcid tb blkid entry hb
    simp only at h
    split at h
    · simp at h
    · rename_i u st1 hbody
      split at h
      · simp at h
      · rename_i u2 st2 hepi
        simp only [Option.some.injEq] at h
        subst h
        exact ⟨d1, tcid, st1, st2, hb, hbody, hepi, rfl, rfl, rfl, rfl⟩

theorem rom_not_da_bios (pc : Nat) (h : pc &&& 0xc6000000 = 0x02000000) :
    is_da_bios pc = false := by
  unfold is_da_bios
  have h1 := not_da_of_ram_rom pc _ h (by decide)
  have h2 : pc &&& 0xfffff000 ≠ 0 := by
    intro h0
    have h3 := land_of_land pc 0xfffff000 0x02000000 0 h0 (by decide)
    have h4 := land_of_land pc 0xc6000000 0x02000000 0x02000000 h (by decide)
    rw [h3] at h4
    revert h4
    decide
  simp [h1, h2]

theorem rom_not_dram (pc : Nat) (h : pc &&& 0xc6000000 = 0x02000000) :
    pc &&& 0xc7fc0000 ≠ 0x06000000 := by
  intro h0
  have h3 := land_of_land pc 0xc7fc0000 0x04000000 _ h0 (by decide)
  have h4 := land_of_land pc 0xc6000000 0x04000000 _ h (by decide)
  rw [h3] at h4
  revert h4
  decide

theorem rom_dispatch_path (cfg : Config) (d : Drc) (sh2 : SH2)
    (h : sh2.pc &&& 0xc6000000 = 0x02000000) :
    dispatcher_lookup cfg d sh2 =
      match d.hash_table (HASH_FUNC sh2.pc) with
      | none => some (0, none)
      | some bd =>
        if (d.block_tab bd).addr = sh2.pc then some ((d.block_tab bd).tcache_ptr, some bd)
        else (dr_find_block d.block_tab bd sh2.pc).map (fun block => (block, some bd)) := by
  have hnd := rom_not_da_bios _ h
  unfold is_da_bios at hnd
  simp only [Bool.or_eq_false_iff, beq_eq_false_iff_ne, ne_eq] at hnd
  have h1 : ¬ ((sh2.pc &&& 0xff000000) = 0xc0000000 ∨ (sh2.pc &&& 0xfffff000) = 0) := by
    rintro (h1 | h1)
    · exact hnd.1 (da_of_dispatch_da _ h1)
    · exact hnd.2 h1
  have h2 : ¬ (sh2.pc &&& 0xc6000000) = 0x06000000 := by
    rw [h]; decide
  unfold dispatcher_lookup
  rw [if_neg h1, if_neg h2, if_pos h]


theorem translate_mark_rom (cfg : Config) (d : Drc) (sh2 : SH2) (tb blkid pc : Nat)
    (hnda : is_da_bios sh2.pc = false)
    (haddr : (d.block_tab tb).addr &&& 0xc7fc0000 ≠ 0x06000000) :
    translate_mark cfg d sh2 tb blkid pc =
      { d with
        block_tab := Function.update d.block_tab tb { d.block_tab tb with end_addr := pc } } := by
  unfold translate_mark
  simp [hnda, haddr]

theorem dr_add_block_ok (d : Drc) (ptr pc tcid : Nat)
    (h : d.block_counts tcid < block_max_counts tcid) :
    dr_add_block d ptr pc tcid =
      (some (block_tables_base tcid + d.block_counts tcid, d.block_counts tcid),
        { d with
          block_tab := Function.update d.block_tab (block_tables_base tcid + d.block_counts tcid)
            { d.block_tab (block_tables_base tcid + d.block_counts tcid) with
              addr := pc, tcache_ptr := ptr }
          block_counts := Function.update d.block_counts tcid (d.block_counts tcid + 1) }) := by
  have h1 : ¬ (d.block_counts tcid ≥ block_max_counts tcid) := by omega
  simp [dr_add_block, h1]

theorem flush_tcache_counts (d : Drc) (tcid : Nat) :
    (flush_tcache d tcid).block_counts tcid = 0 ∧
      (flush_tcache d tcid).tcache_ptrs tcid = d.tcache_bases tcid := by
  unfold flush_tcache
  split <;> simp

theorem translate_alloc_spec (cfg : Config) (d : Drc) (pc tcid : Nat) (other : Option Nat)
    (d2 : Drc) (tb blkid ptr : Nat) (other2 : Option Nat) (htc : tcid < 3)
    (h : translate_alloc cfg d pc tcid other = some (d2, tb, blkid, ptr, other2)) :
    tb = block_tables_base tcid + blkid ∧ d2.block_counts tcid = blkid + 1 ∧
      (d2.block_tab tb).addr = pc ∧ (d2.block_tab tb).tcache_ptr = ptr ∧
      (¬ flush_needed cfg d tcid →
        blkid = d.block_counts tcid ∧ other2 = other ∧ ptr = d.tcache_ptrs tcid ∧
        (∀ k, k ≠ tb → d2.block_tab k = d.block_tab k) ∧
        d2.hash_table = d.hash_table ∧ d2.drcblk_ram = d.drcblk_ram ∧
        d2.drcblk_da = d.drcblk_da) := by
  unfold translate_alloc at h
  by_cases hf : flush_needed cfg d tcid
  · simp only [hf, if_true] at h
    have hc := flush_tcache_counts (dr_add_block d (d.tcache_ptrs tcid) pc tcid).2 tcid
    have hmax : (flush_tcache (dr_add_block d (d.tcache_ptrs tcid) pc tcid).2 tcid).block_counts tcid
        < block_max_counts tcid := by
      rw [hc.1]
      interval_cases tcid <;> decide
    rw [dr_add_block_ok _ _ _ _ hmax] at h
    simp only [Option.map_some', Option.some.injEq, Prod.mk.injEq] at h
    obtain ⟨rfl, rfl, rfl, rfl, rfl⟩ := h
    refine ⟨rfl, by simp, by simp, by simp, ?_⟩
    intro hno
    exact absurd hf hno
  · simp only [hf, if_false] at h
    have hcnt : d.block_counts tcid < block_max_counts tcid := by
      have : ¬ (d.block_counts tcid ≥ block_max_counts tcid) := fun h => hf (Or.inr h)
      omega
    rw [dr_add_block_ok _ _ _ _ hcnt] at h
    simp only [Option.map_some', Option.some.injEq, Prod.mk.injEq] at h
    obtain ⟨rfl, rfl, rfl, rfl, rfl⟩ := h
    refine ⟨rfl, by simp, by simp, by simp, ?_⟩
    intro _
    refine ⟨rfl, rfl, rfl, ?_, rfl, rfl, rfl⟩
    intro k hk
    simp [Function.update, hk]

theorem translate_begin_rom (cfg : Config) (d : Drc) (sh2 : SH2) (other : Option Nat)
    (d1 : Drc) (tcid tb blkid entry : Nat)
    (hrom : sh2.pc &&& 0xc6000000 = 0x02000000)
    (hb : translate_begin cfg d sh2 other = some (d1, tcid, tb, blkid, entry)) :
    tcid = 0 ∧ d1.hash_table (HASH_FUNC sh2.pc) = some tb ∧
      (d1.block_tab tb).addr = sh2.pc ∧ (d1.block_tab tb).tcache_ptr = entry ∧
      tb = block_tables_base 0 + blkid ∧ d1.block_counts 0 = blkid + 1 ∧
      (¬ flush_needed cfg d 0 →
        blkid = d.block_counts 0 ∧ (d1.block_tab tb).next = other ∧
        ∀ k, k ≠ tb → d1.block_tab k = d.block_tab k) := by
  have hid : tcache_id_of sh2.pc sh2.is_slave = 0 := by
    simp [tcache_id_of, rom_not_da_bios _ hrom]
  unfold translate_begin at hb
  split at hb
  · simp at hb
  · rw [hid] at hb
    split at hb
    · simp at hb
    · rename_i d2 tb2 blkid2 ptr2 other2 halloc
      have hs := translate_alloc_spec cfg d sh2.pc 0 other d2 tb2 blkid2 ptr2 other2 (by decide) halloc
      simp only [hrom, if_true, Option.some.injEq, Prod.mk.injEq] at hb
      obtain ⟨rfl, rfl, rfl, rfl, rfl⟩ := hb
      obtain ⟨h1, h2, h3, h4, h5⟩ := hs
      refine ⟨rfl, by simp, by simp [h3], by simp [h4], h1, h2, ?_⟩
      intro hno
      obtain ⟨h6, h7, _, h8, _⟩ := h5 hno
      refine ⟨h6, by simp [h7], ?_⟩
      intro k hk
      simp [Function.update, hk, h8 k hk]

theorem sh2_translate_rom_spec (cfg : Config) (mem : Nat → Nat) (fuel : Nat) (d : Drc)
    (sh2 : SH2) (other : Option Nat) (t : Translated)
    (hrom : sh2.pc &&& 0xc6000000 = 0x02000000)
    (ht : sh2_translate cfg mem fuel d sh2 other = some t) :
    t.drc.hash_table (HASH_FUNC sh2.pc) = some t.this_block ∧
      (t.drc.block_tab t.this_block).addr = sh2.pc ∧
      (t.drc.block_tab t.this_block).tcache_ptr = t.block_entry ∧
      t.this_block = block_tables_base 0 + t.blkid ∧ t.drc.block_counts 0 = t.blkid + 1 ∧
      (¬ flush_needed cfg d 0 →
        t.blkid = d.block_counts 0 ∧ (t.drc.block_tab t.this_block).next = other ∧
        ∀ k, k ≠ t.this_block → t.drc.block_tab k = d.block_tab k) := by
  obtain ⟨d1, tcid, st1, st2, hb, _, _, _, _, _, hdrc⟩ := sh2_translate_some _ _ _ _ _ _ _ ht
  obtain ⟨_, h1, h2, h3, h4, h5, h6⟩ := translate_begin_rom _ _ _ _ _ _ _ _ _ hrom hb
  have hmark := translate_mark_rom cfg d1 sh2 t.this_block t.blkid st1.pc
    (rom_not_da_bios _ hrom) (by rw [h2]; exact rom_not_dram _ hrom)
  rw [hmark] at hdrc
  rw [hdrc]
  refine ⟨h1, by simp [h2], by simp [h3], h4, h5, ?_⟩
  intro hno
  obtain ⟨h7, h8, h9⟩ := h6 hno
  refine ⟨h7, by simp [h8], ?_⟩
  intro k hk
  simp [Function.update, hk, h9 k hk]

/-- C4: a ROM block at `p1` is translated, then the dispatcher misses on a ROM address
`p2 ≠ p1` of the same hash bucket and translates it with the bucket head it
found, no flush taking place in that second translation.  Afterwards the
dispatcher's lookup returns the first block's entry for `p1` (through the
chain, by `dr_find_block`) and the second block's entry for `p2` (at the bucket
head). -/
theorem rom_hash_chain_both_found (cfg : Config) (mem1 mem2 : Nat → Nat) (fuel1 fuel2 : Nat)
    (d : Drc) (sh2a sh2b : SH2) (other bd : Option Nat) (t1 t2 : Translated)
    (hroma : sh2a.pc &&& 0xc6000000 = 0x02000000)
    (hromb : sh2b.pc &&& 0xc6000000 = 0x02000000)
    (hne : sh2a.pc ≠ sh2b.pc)
    (hhash : sh2a.pc &&& 0x3ff = sh2b.pc &&& 0x3ff)
    (ht1 : sh2_translate cfg mem1 fuel1 d sh2a other = some t1)
    (hmiss : dispatcher_lookup cfg t1.drc sh2b = some (0, bd))
    (hnf : ¬ flush_needed cfg t1.drc 0)
    (ht2 : sh2_translate cfg mem2 fuel2 t1.drc sh2b bd = some t2) :
    dispatcher_lookup cfg t2.drc sh2a = some (t1.block_entry, some t2.this_block) ∧
      dispatcher_lookup cfg t2.drc sh2b = some (t2.block_entry, some t2.this_block) := by
  have hH : HASH_FUNC sh2a.pc = HASH_FUNC sh2b.pc := by
    unfold HASH_FUNC
    have : HASH_MASK = 0x3ff := by decide
    rw [this]
    exact hhash
  obtain ⟨a1, a2, a3, a4, a5, _⟩ := sh2_translate_rom_spec _ _ _ _ _ _ _ hroma ht1
  obtain ⟨b1, b2, b3, b4, _, b6⟩ := sh2_translate_rom_spec _ _ _ _ _ _ _ hromb ht2
  obtain ⟨b7, b8, b9⟩ := b6 hnf
  -- the bucket head handed to the second translation is the first block
  have hbd : bd = some t1.this_block := by
    rw [rom_dispatch_path _ _ _ hromb, ← hH, a1] at hmiss
    simp only [a2, hne, if_false] at hmiss
    cases hfind : dr_find_block t1.drc.block_tab t1.this_block sh2b.pc with
    | none => rw [hfind] at hmiss; simp at hmiss
    | some b =>
      rw [hfind] at hmiss
      simp only [Option.map_some', Option.some.injEq, Prod.mk.injEq] at hmiss
      exact hmiss.2.symm
  have hdist : t1.this_block ≠ t2.this_block := by
    rw [a4, b4, b7, a5]
    omega
  have hkeep := b9 t1.this_block hdist
  constructor
  · rw [rom_dispatch_path _ _ _ hroma, hH, b1]
    have hne2 : ¬ (t2.drc.block_tab t2.this_block).addr = sh2a.pc := by
      rw [b2]; exact fun h => hne h.symm
    simp only [hne2, if_false]
    unfold dr_find_block
    rw [b8, hbd]
    simp [dr_find_block_loop, hkeep, a2, a3]
  · rw [rom_dispatch_path _ _ _ hromb, b1]
    simp [b2, b3]


theorem of_map_decide {α : Type} (o : Option α) (P : α → Prop) [DecidablePred P]
    (h : o.map (fun a => decide (P a)) = some true) (a : α) (ha : o = some a) : P a := by
  subst ha
  simpa using h

set_option maxRecDepth 100000 in
theorem rom_hash_chain_both_found_witness :
    ∃ t1 t2,
      sh2_translate arm_cfg (fun _ => 0x8900) 200 drc0 { pc := 0x02000000 } none = some t1 ∧
      sh2_translate arm_cfg (fun _ => 0x8900) 200 t1.drc { pc := 0x02000400 }
        (some t1.this_block) = some t2 ∧
      dispatcher_lookup arm_cfg t2.drc { pc := 0x02000000 } =
        some (t1.block_entry, some t2.this_block) ∧
      dispatcher_lookup arm_cfg t2.drc { pc := 0x02000400 } =
        some (t2.block_entry, some t2.this_block) := by
  cases e1 : sh2_translate arm_cfg (fun _ => 0x8900) 200 drc0 { pc := 0x02000000 } none with
  | none =>
    have : (sh2_translate arm_cfg (fun _ => 0x8900) 200 drc0 { pc := 0x02000000 } none).isSome
        = true := by decide!
    rw [e1] at this
    simp at this
  | some t1 =>
    have hsome := of_map_decide _
      (fun t : Translated => (sh2_translate arm_cfg (fun _ => 0x8900) 200 t.drc
        { pc := 0x02000400 } (some t.this_block)).isSome = true) (by decide!) t1 e1
    have hmiss := of_map_decide _
      (fun t : Translated => dispatcher_lookup arm_cfg t.drc { pc := 0x02000400 } =
        some (0, some t.this_block)) (by decide!) t1 e1
    have hnf := of_map_decide _
      (fun t : Translated => ¬ flush_needed arm_cfg t.drc 0) (by decide!) t1 e1
    obtain ⟨t2, e2⟩ := Option.isSome_iff_exists.mp hsome
    exact ⟨t1, t2, rfl, e2,
      rom_hash_chain_both_found arm_cfg (fun _ => 0x8900) (fun _ => 0x8900) 200 200 drc0
        { pc := 0x02000000 } { pc := 0x02000400 } none (some t1.this_block) t1 t2
        (by decide) (by decide) (by decide) (by decide) e1 hmiss hnf e2⟩

/-! ## SMC invalidation -/

set_option maxRecDepth 100000 in
/-- C1, at a state the dispatcher reaches: block 1 covers `0x06000010..0x0600001c`,
block 2 was translated from `0x06000014` inside it (its head slot overwrote
one slot of block 1).  After `sh2_drc_wcheck_ram(0x06000018)` the backward walk
from the written slot stops at block 2's head, so the head slot of block 1
(slot 8, value 3) survives and the dispatcher's lookup at `0x06000010` still
returns block 1's translated entry `0x1000020`, although `0x06000018` lay
inside block 1. -/
theorem smc_overlay_leaves_stale_block :
    smc_overlay_run =
      some ((0x06000010, 0x0600001c, 0x1000020), ([3, 2, 0, 0, 0, 0], 0x1000020, some 1)) := by
  decide!

/-! ## Frame rules for translator actions -/

/-! ## Translator actions: composition rules and the `delayed_op` frame -/

theorem steps_pure {α : Type} (R : TState → TState → Prop) (hrefl : ∀ st, R st st) (a : α) :
    Steps R (pure a : TM α) := by
  intro st b st1 h
  simp only [pure, TM.pure, Option.some.injEq, Prod.mk.injEq] at h
  rw [← h.2]
  exact hrefl st

theorem steps_bind {α β : Type} (R : TState → TState → Prop)
    (htrans : ∀ a b c, R a b → R b c → R a c) (m : TM α) (f : α → TM β)
    (h1 : Steps R m) (h2 : ∀ a, Steps R (f a)) : Steps R (m >>= f) := by
  intro st b st2 h
  simp only [bind, TM.bind] at h
  split at h
  · simp at h
  · rename_i a st1 hm
    exact htrans _ _ _ (h1 _ _ _ hm) (h2 a _ _ _ h)

theorem steps_ite {α : Type} (R : TState → TState → Prop) (c : Prop) [Decidable c]
    (a b : TM α) (h1 : Steps R a) (h2 : Steps R b) : Steps R (if c then a else b) := by
  split <;> assumption

theorem rdl_refl (st : TState) : Rdl st st := Or.inl rfl

theorem rdl_trans (a b c : TState) (h1 : Rdl a b) (h2 : Rdl b c) : Rdl a c := by
  unfold Rdl at *
  rcases h2 with h2 | h2
  · rcases h1 with h1 | h1
    · left; rw [h2, h1]
    · right; rw [h2, h1]
  · right; exact h2

theorem rdl_lift_rc {α : Type} (f : RCache → Option (α × RCache)) : Steps Rdl (lift_rc f) := by
  intro st a st1 h
  unfold lift_rc at h
  split at h
  · simp at h
  · simp only [Option.some.injEq, Prod.mk.injEq] at h
    rw [← h.2]
    exact Or.inl rfl

theorem rdl_of_eq {α : Type} (m : TM α)
    (h : ∀ st a st1, m st = some (a, st1) → st1.delayed_op = st.delayed_op) : Steps Rdl m :=
  fun st a st1 hm => Or.inl (h st a st1 hm)

theorem rdl_E (op : EmitOp) (args : List Int) : Steps Rdl (E op args) := by
  apply rdl_of_eq
  intro st a st1 h
  simp only [E, Option.some.injEq, Prod.mk.injEq] at h
  rw [← h.2]

theorem rdl_get_reg (cfg : Config) (r : Nat) (mode : rc_gr_mode) :
    Steps Rdl (get_reg cfg r mode) := rdl_lift_rc _

theorem rdl_get_tmp : Steps Rdl get_tmp := rdl_lift_rc _

theorem rdl_get_tmp_arg (cfg : Config) (arg : Nat) : Steps Rdl (get_tmp_arg cfg arg) :=
  rdl_lift_rc _

theorem rdl_get_reg_arg (cfg : Config) (arg r : Nat) : Steps Rdl (get_reg_arg cfg arg r) :=
  rdl_lift_rc _

theorem rdl_free_tmp (hr : Int) : Steps Rdl (free_tmp hr) := by
  apply rdl_of_eq
  intro st a st1 h
  simp only [free_tmp, Option.some.injEq, Prod.mk.injEq] at h
  rw [← h.2]

theorem rdl_clean : Steps Rdl clean := by
  apply rdl_of_eq
  intro st a st1 h
  simp only [clean, Option.some.injEq, Prod.mk.injEq] at h
  rw [← h.2]

theorem rdl_invalidate : Steps Rdl invalidate := by
  apply rdl_of_eq
  intro st a st1 h
  simp only [invalidate, Option.some.injEq, Prod.mk.injEq] at h
  rw [← h.2]

theorem rdl_flush : Steps Rdl flush := by
  apply rdl_of_eq
  intro st a st1 h
  simp only [flush, Option.some.injEq, Prod.mk.injEq] at h
  rw [← h.2]

theorem rdl_add_cycles (n : Int) : Steps Rdl (add_cycles n) := by
  apply rdl_of_eq
  intro st a st1 h
  simp only [add_cycles, Option.some.injEq, Prod.mk.injEq] at h
  rw [← h.2]

theorem rdl_set_cycles (n : Int) : Steps Rdl (set_cycles n) := by
  apply rdl_of_eq
  intro st a st1 h
  simp only [set_cycles, Option.some.injEq, Prod.mk.injEq] at h
  rw [← h.2]

theorem rdl_set_test_irq : Steps Rdl set_test_irq := by
  apply rdl_of_eq
  intro st a st1 h
  simp only [set_test_irq, Option.some.injEq, Prod.mk.injEq] at h
  rw [← h.2]

theorem rdl_get_pc : Steps Rdl get_pc := by
  apply rdl_of_eq
  intro st a st1 h
  simp only [get_pc, Option.some.injEq, Prod.mk.injEq] at h
  rw [← h.2]

theorem rdl_get_delayed_op : Steps Rdl get_delayed_op := by
  apply rdl_of_eq
  intro st a st1 h
  simp only [get_delayed_op, Option.some.injEq, Prod.mk.injEq] at h
  rw [← h.2]

theorem rdl_DELAYED_OP : Steps Rdl DELAYED_OP := by
  intro st a st1 h
  simp only [DELAYED_OP, Option.some.injEq, Prod.mk.injEq] at h
  rw [← h.2]
  exact Or.inr rfl

theorem rdl_emit_move_r_imm32 (cfg : Config) (dst i : Nat) :
    Steps Rdl (emit_move_r_imm32 cfg dst i) := by
  unfold emit_move_r_imm32
  repeat' with_reducible first
    | exact rdl_E _ _
    | exact rdl_get_reg _ _ _
    | exact rdl_get_tmp
    | exact rdl_get_tmp_arg _ _
    | exact rdl_get_reg_arg _ _ _
    | exact rdl_free_tmp _
    | exact rdl_clean
    | exact rdl_invalidate
    | exact rdl_flush
    | exact rdl_add_cycles _
    | exact rdl_set_cycles _
    | exact rdl_set_test_irq
    | exact rdl_get_pc
    | exact rdl_get_delayed_op
    | exact rdl_DELAYED_OP
    | apply steps_pure Rdl rdl_refl
    | apply steps_bind Rdl rdl_trans
    | apply steps_ite Rdl
    | intro _
    | dsimp only
    | split

theorem rdl_emit_move_r_r (cfg : Config) (dst src : Nat) :
    Steps Rdl (emit_move_r_r cfg dst src) := by
  unfold emit_move_r_r
  repeat' with_reducible first
    | exact rdl_E _ _
    | exact rdl_get_reg _ _ _
    | exact rdl_get_tmp
    | exact rdl_get_tmp_arg _ _
    | exact rdl_get_reg_arg _ _ _
    | exact rdl_free_tmp _
    | exact rdl_clean
    | exact rdl_invalidate
    | exact rdl_flush
    | exact rdl_add_cycles _
    | exact rdl_set_cycles _
    | exact rdl_set_test_irq
    | exact rdl_get_pc
    | exact rdl_get_delayed_op
    | exact rdl_DELAYED_OP
    | exact rdl_emit_move_r_imm32 _ _ _
    | apply steps_pure Rdl rdl_refl
    | apply steps_bind Rdl rdl_trans
    | apply steps_ite Rdl
    | intro _
    | dsimp only
    | split

theorem rdl_emit_or_t_if_eq (srr : Int) :
    Steps Rdl (emit_or_t_if_eq srr) := by
  unfold emit_or_t_if_eq
  repeat' with_reducible first
    | exact rdl_E _ _
    | exact rdl_get_reg _ _ _
    | exact rdl_get_tmp
    | exact rdl_get_tmp_arg _ _
    | exact rdl_get_reg_arg _ _ _
    | exact rdl_free_tmp _
    | exact rdl_clean
    | exact rdl_invalidate
    | exact rdl_flush
    | exact rdl_add_cycles _
    | exact rdl_set_cycles _
    | exact rdl_set_test_irq
    | exact rdl_get_pc
    | exact rdl_get_delayed_op
    | exact rdl_DELAYED_OP
    | exact rdl_emit_move_r_imm32 _ _ _
    | exact rdl_emit_move_r_r _ _ _
    | apply steps_pure Rdl rdl_refl
    | apply steps_bind Rdl rdl_trans
    | apply steps_ite Rdl
    | intro _
    | dsimp only
    | split

theorem rdl_emit_or_bit_c (skip c sr : Int) (bit : Nat) :
    Steps Rdl (emit_or_bit_c skip c sr bit) := by
  unfold emit_or_bit_c
  repeat' with_reducible first
    | exact rdl_E _ _
    | exact rdl_get_reg _ _ _
    | exact rdl_get_tmp
    | exact rdl_get_tmp_arg _ _
    | exact rdl_get_reg_arg _ _ _
    | exact rdl_free_tmp _
    | exact rdl_clean
    | exact rdl_invalidate
    | exact rdl_flush
    | exact rdl_add_cycles _
    | exact rdl_set_cycles _
    | exact rdl_set_test_irq
    | exact rdl_get_pc
    | exact rdl_get_delayed_op
    | exact rdl_DELAYED_OP
    | exact rdl_emit_move_r_imm32 _ _ _
    | exact rdl_emit_move_r_r _ _ _
    | exact rdl_emit_or_t_if_eq _
    | apply steps_pure Rdl rdl_refl
    | apply steps_bind Rdl rdl_trans
    | apply steps_ite Rdl
    | intro _
    | dsimp only
    | split

theorem rdl_emit_memcall (f8 f16 f32 : Int) (size : Nat) :
    Steps Rdl (emit_memcall f8 f16 f32 size) := by
  unfold emit_memcall
  repeat' with_reducible first
    | exact rdl_E _ _
    | exact rdl_get_reg _ _ _
    | exact rdl_get_tmp
    | exact rdl_get_tmp_arg _ _
    | exact rdl_get_reg_arg _ _ _
    | exact rdl_free_tmp _
    | exact rdl_clean
    | exact rdl_invalidate
    | exact rdl_flush
    | exact rdl_add_cycles _
    | exact rdl_set_cycles _
    | exact rdl_set_test_irq
    | exact rdl_get_pc
    | exact rdl_get_delayed_op
    | exact rdl_DELAYED_OP
    | exact rdl_emit_move_r_imm32 _ _ _
    | exact rdl_emit_move_r_r _ _ _
    | exact rdl_emit_or_t_if_eq _
    | exact rdl_emit_or_bit_c _ _ _ _
    | apply steps_pure Rdl rdl_refl
    | apply steps_bind Rdl rdl_trans
    | apply steps_ite Rdl
    | intro _
    | dsimp only
    | split

theorem rdl_emit_memhandler_read (cfg : Config) (size : Nat) :
    Steps Rdl (emit_memhandler_read cfg size) := by
  unfold emit_memhandler_read
  repeat' with_reducible first
    | exact rdl_E _ _
    | exact rdl_get_reg _ _ _
    | exact rdl_get_tmp
    | exact rdl_get_tmp_arg _ _
    | exact rdl_get_reg_arg _ _ _
    | exact rdl_free_tmp _
    | exact rdl_clean
    | exact rdl_invalidate
    | exact rdl_flush
    | exact rdl_add_cycles _
    | exact rdl_set_cycles _
    | exact rdl_set_test_irq
    | exact rdl_get_pc
    | exact rdl_get_delayed_op
    | exact rdl_DELAYED_OP
    | exact rdl_emit_move_r_imm32 _ _ _
    | exact rdl_emit_move_r_r _ _ _
    | exact rdl_emit_or_t_if_eq _
    | exact rdl_emit_or_bit_c _ _ _ _
    | exact rdl_emit_memcall _ _ _ _
    | apply steps_pure Rdl rdl_refl
    | apply steps_bind Rdl rdl_trans
    | apply steps_ite Rdl
    | intro _
    | dsimp only
    | split

theorem rdl_emit_memhandler_write (cfg : Config) (size : Nat) :
    Steps Rdl (emit_memhandler_write cfg size) := by
  unfold emit_memhandler_write
  repeat' with_reducible first
    | exact rdl_E _ _
    | exact rdl_get_reg _ _ _
    | exact rdl_get_tmp
    | exact rdl_get_tmp_arg _ _
    | exact rdl_get_reg_arg _ _ _
    | exact rdl_free_tmp _
    | exact rdl_clean
    | exact rdl_invalidate
    | exact rdl_flush
    | exact rdl_add_cycles _
    | exact rdl_set_cycles _
    | exact rdl_set_test_irq
    | exact rdl_get_pc
    | exact rdl_get_delayed_op
    | exact rdl_DELAYED_OP
    | exact rdl_emit_move_r_imm32 _ _ _
    | exact rdl_emit_move_r_r _ _ _
    | exact rdl_emit_or_t_if_eq _
    | exact rdl_emit_or_bit_c _ _ _ _
    | exact rdl_emit_memcall _ _ _ _
    | exact rdl_emit_memhandler_read _ _
    | apply steps_pure Rdl rdl_refl
    | apply steps_bind Rdl rdl_trans
    | apply steps_ite Rdl
    | intro _
    | dsimp only
    | split

theorem rdl_emit_indirect_indexed_read (cfg : Config) (rx ry size : Nat) :
    Steps Rdl (emit_indirect_indexed_read cfg rx ry size) := by
  unfold emit_indirect_indexed_read
  repeat' with_reducible first
    | exact rdl_E _ _
    | exact rdl_get_reg _ _ _
    | exact rdl_get_tmp
    | exact rdl_get_tmp_arg _ _
    | exact rdl_get_reg_arg _ _ _
    | exact rdl_free_tmp _
    | exact rdl_clean
    | exact rdl_invalidate
    | exact rdl_flush
    | exact rdl_add_cycles _
    | exact rdl_set_cycles _
    | exact rdl_set_test_irq
    | exact rdl_get_pc
    | exact rdl_get_delayed_op
    | exact rdl_DELAYED_OP
    | exact rdl_emit_move_r_imm32 _ _ _
    | exact rdl_emit_move_r_r _ _ _
    | exact rdl_emit_or_t_if_eq _
    | exact rdl_emit_or_bit_c _ _ _ _
    | exact rdl_emit_memcall _ _ _ _
    | exact rdl_emit_memhandler_read _ _
    | exact rdl_emit_memhandler_write _ _
    | apply steps_pure Rdl rdl_refl
    | apply steps_bind Rdl rdl_trans
    | apply steps_ite Rdl
    | intro _
    | dsimp only
    | split

theorem rdl_emit_indirect_indexed_write (cfg : Config) (tmp_wr : Int) (rx ry size : Nat) :
    Steps Rdl (emit_indirect_indexed_write cfg tmp_wr rx ry size) := by
  unfold emit_indirect_indexed_write
  repeat' with_reducible first
    | exact rdl_E _ _
    | exact rdl_get_reg _ _ _
    | exact rdl_get_tmp
    | exact rdl_get_tmp_arg _ _
    | exact rdl_get_reg_arg _ _ _
    | exact rdl_free_tmp _
    | exact rdl_clean
    | exact rdl_invalidate
    | exact rdl_flush
    | exact rdl_add_cycles _
    | exact rdl_set_cycles _
    | exact rdl_set_test_irq
    | exact rdl_get_pc
    | exact rdl_get_delayed_op
    | exact rdl_DELAYED_OP
    | exact rdl_emit_move_r_imm32 _ _ _
    | exact rdl_emit_move_r_r _ _ _
    | exact rdl_emit_or_t_if_eq _
    | exact rdl_emit_or_bit_c _ _ _ _
    | exact rdl_emit_memcall _ _ _ _
    | exact rdl_emit_memhandler_read _ _
    | exact rdl_emit_memhandler_write _ _
    | exact rdl_emit_indirect_indexed_read _ _ _ _
    | apply steps_pure Rdl rdl_refl
    | apply steps_bind Rdl rdl_trans
    | apply steps_ite Rdl
    | intro _
    | dsimp only
    | split

theorem rdl_emit_indirect_read_double (cfg : Config) (rn rm size : Nat) :
    Steps Rdl (emit_indirect_read_double cfg rn rm size) := by
  unfold emit_indirect_read_double
  repeat' with_reducible first
    | exact rdl_E _ _
    | exact rdl_get_reg _ _ _
    | exact rdl_get_tmp
    | exact rdl_get_tmp_arg _ _
    | exact rdl_get_reg_arg _ _ _
    | exact rdl_free_tmp _
    | exact rdl_clean
    | exact rdl_invalidate
    | exact rdl_flush
    | exact rdl_add_cycles _
    | exact rdl_set_cycles _
    | exact rdl_set_test_irq
    | exact rdl_get_pc
    | exact rdl_get_delayed_op
    | exact rdl_DELAYED_OP
    | exact rdl_emit_move_r_imm32 _ _ _
    | exact rdl_emit_move_r_r _ _ _
    | exact rdl_emit_or_t_if_eq _
    | exact rdl_emit_or_bit_c _ _ _ _
    | exact rdl_emit_memcall _ _ _ _
    | exact rdl_emit_memhandler_read _ _
    | exact rdl_emit_memhandler_write _ _
    | exact rdl_emit_indirect_indexed_read _ _ _ _
    | exact rdl_emit_indirect_indexed_write _ _ _ _ _
    | apply steps_pure Rdl rdl_refl
    | apply steps_bind Rdl rdl_trans
    | apply steps_ite Rdl
    | intro _
    | dsimp only
    | split

theorem rdl_default_ (cfg : Config) (op : Nat) :
    Steps Rdl (default_ cfg op) := by
  unfold default_
  repeat' with_reducible first
    | exact rdl_E _ _
    | exact rdl_get_reg _ _ _
    | exact rdl_get_tmp
    | exact rdl_get_tmp_arg _ _
    | exact rdl_get_reg_arg _ _ _
    | exact rdl_free_tmp _
    | exact rdl_clean
    | exact rdl_invalidate
    | exact rdl_flush
    | exact rdl_add_cycles _
    | exact rdl_set_cycles _
    | exact rdl_set_test_irq
    | exact rdl_get_pc
    | exact rdl_get_delayed_op
    | exact rdl_DELAYED_OP
    | exact rdl_emit_move_r_imm32 _ _ _
    | exact rdl_emit_move_r_r _ _ _
    | exact rdl_emit_or_t_if_eq _
    | exact rdl_emit_or_bit_c _ _ _ _
    | exact rdl_emit_memcall _ _ _ _
    | exact rdl_emit_memhandler_read _ _
    | exact rdl_emit_memhandler_write _ _
    | exact rdl_emit_indirect_indexed_read _ _ _ _
    | exact rdl_emit_indirect_indexed_write _ _ _ _ _
    | exact rdl_emit_indirect_read_double _ _ _ _
    | apply steps_pure Rdl rdl_refl
    | apply steps_bind Rdl rdl_trans
    | apply steps_ite Rdl
    | intro _
    | dsimp only
    | split

theorem rdl_op_0 (cfg : Config) (op : Nat) :
    Steps Rdl (op_0 cfg op) := by
  unfold op_0
  repeat' with_reducible first
    | exact rdl_E _ _
    | exact rdl_get_reg _ _ _
    | exact rdl_get_tmp
    | exact rdl_get_tmp_arg _ _
    | exact rdl_get_reg_arg _ _ _
    | exact rdl_free_tmp _
    | exact rdl_clean
    | exact rdl_invalidate
    | exact rdl_flush
    | exact rdl_add_cycles _
    | exact rdl_set_cycles _
    | exact rdl_set_test_irq
    | exact rdl_get_pc
    | exact rdl_get_delayed_op
    | exact rdl_DELAYED_OP
    | exact rdl_emit_move_r_imm32 _ _ _
    | exact rdl_emit_move_r_r _ _ _
    | exact rdl_emit_or_t_if_eq _
    | exact rdl_emit_or_bit_c _ _ _ _
    | exact rdl_emit_memcall _ _ _ _
    | exact rdl_emit_memhandler_read _ _
    | exact rdl_emit_memhandler_write _ _
    | exact rdl_emit_indirect_indexed_read _ _ _ _
    | exact rdl_emit_indirect_indexed_write _ _ _ _ _
    | exact rdl_emit_indirect_read_double _ _ _ _
    | exact rdl_default_ _ _
    | apply steps_pure Rdl rdl_refl
    | apply steps_bind Rdl rdl_trans
    | apply steps_ite Rdl
    | intro _
    | dsimp only
    | split

theorem rdl_op_1 (cfg : Config) (op : Nat) :
    Steps Rdl (op_1 cfg op) := by
  unfold op_1
  repeat' with_reducible first
    | exact rdl_E _ _
    | exact rdl_get_reg _ _ _
    | exact rdl_get_tmp
    | exact rdl_get_tmp_arg _ _
    | exact rdl_get_reg_arg _ _ _
    | exact rdl_free_tmp _
    | exact rdl_clean
    | exact rdl_invalidate
    | exact rdl_flush
    | exact rdl_add_cycles _
    | exact rdl_set_cycles _
    | exact rdl_set_test_irq
    | exact rdl_get_pc
    | exact rdl_get_delayed_op
    | exact rdl_DELAYED_OP
    | exact rdl_emit_move_r_imm32 _ _ _
    | exact rdl_emit_move_r_r _ _ _
    | exact rdl_emit_or_t_if_eq _
    | exact rdl_emit_or_bit_c _ _ _ _
    | exact rdl_emit_memcall _ _ _ _
    | exact rdl_emit_memhandler_read _ _
    | exact rdl_emit_memhandler_write _ _
    | exact rdl_emit_indirect_indexed_read _ _ _ _
    | exact rdl_emit_indirect_indexed_write _ _ _ _ _
    | exact rdl_emit_indirect_read_double _ _ _ _
    | exact rdl_default_ _ _
    | exact rdl_op_0 _ _
    | apply steps_pure Rdl rdl_refl
    | apply steps_bind Rdl rdl_trans
    | apply steps_ite Rdl
    | intro _
    | dsimp only
    | split

theorem rdl_op_2 (cfg : Config) (op : Nat) :
    Steps Rdl (op_2 cfg op) := by
  unfold op_2
  repeat' with_reducible first
    | exact rdl_E _ _
    | exact rdl_get_reg _ _ _
    | exact rdl_get_tmp
    | exact rdl_get_tmp_arg _ _
    | exact rdl_get_reg_arg _ _ _
    | exact rdl_free_tmp _
    | exact rdl_clean
    | exact rdl_invalidate
    | exact rdl_flush
    | exact rdl_add_cycles _
    | exact rdl_set_cycles _
    | exact rdl_set_test_irq
    | exact rdl_get_pc
    | exact rdl_get_delayed_op
    | exact rdl_DELAYED_OP
    | exact rdl_emit_move_r_imm32 _ _ _
    | exact rdl_emit_move_r_r _ _ _
    | exact rdl_emit_or_t_if_eq _
    | exact rdl_emit_or_bit_c _ _ _ _
    | exact rdl_emit_memcall _ _ _ _
    | exact rdl_emit_memhandler_read _ _
    | exact rdl_emit_memhandler_write _ _
    | exact rdl_emit_indirect_indexed_read _ _ _ _
    | exact rdl_emit_indirect_indexed_write _ _ _ _ _
    | exact rdl_emit_indirect_read_double _ _ _ _
    | exact rdl_default_ _ _
    | exact rdl_op_0 _ _
    | exact rdl_op_1 _ _
    | apply steps_pure Rdl rdl_refl
    | apply steps_bind Rdl rdl_trans
    | apply steps_ite Rdl
    | intro _
    | dsimp only
    | split

theorem rdl_op_3 (cfg : Config) (op : Nat) :
    Steps Rdl (op_3 cfg op) := by
  unfold op_3
  repeat' with_reducible first
    | exact rdl_E _ _
    | exact rdl_get_reg _ _ _
    | exact rdl_get_tmp
    | exact rdl_get_tmp_arg _ _
    | exact rdl_get_reg_arg _ _ _
    | exact rdl_free_tmp _
    | exact rdl_clean
    | exact rdl_invalidate
    | exact rdl_flush
    | exact rdl_add_cycles _
    | exact rdl_set_cycles _
    | exact rdl_set_test_irq
    | exact rdl_get_pc
    | exact rdl_get_delayed_op
    | exact rdl_DELAYED_OP
    | exact rdl_emit_move_r_imm32 _ _ _
    | exact rdl_emit_move_r_r _ _ _
    | exact rdl_emit_or_t_if_eq _
    | exact rdl_emit_or_bit_c _ _ _ _
    | exact rdl_emit_memcall _ _ _ _
    | exact rdl_emit_memhandler_read _ _
    | exact rdl_emit_memhandler_write _ _
    | exact rdl_emit_indirect_indexed_read _ _ _ _
    | exact rdl_emit_indirect_indexed_write _ _ _ _ _
    | exact rdl_emit_indirect_read_double _ _ _ _
    | exact rdl_default_ _ _
    | exact rdl_op_0 _ _
    | exact rdl_op_1 _ _
    | exact rdl_op_2 _ _
    | apply steps_pure Rdl rdl_refl
    | apply steps_bind Rdl rdl_trans
    | apply steps_ite Rdl
    | intro _
    | dsimp only
    | split

theorem rdl_op_4 (cfg : Config) (mem : Nat → Nat) (op : Nat) :
    Steps Rdl (op_4 cfg mem op) := by
  unfold op_4
  repeat' with_reducible first
    | exact rdl_E _ _
    | exact rdl_get_reg _ _ _
    | exact rdl_get_tmp
    | exact rdl_get_tmp_arg _ _
    | exact rdl_get_reg_arg _ _ _
    | exact rdl_free_tmp _
    | exact rdl_clean
    | exact rdl_invalidate
    | exact rdl_flush
    | exact rdl_add_cycles _
    | exact rdl_set_cycles _
    | exact rdl_set_test_irq
    | exact rdl_get_pc
    | exact rdl_get_delayed_op
    | exact rdl_DELAYED_OP
    | exact rdl_emit_move_r_imm32 _ _ _
    | exact rdl_emit_move_r_r _ _ _
    | exact rdl_emit_or_t_if_eq _
    | exact rdl_emit_or_bit_c _ _ _ _
    | exact rdl_emit_memcall _ _ _ _
    | exact rdl_emit_memhandler_read _ _
    | exact rdl_emit_memhandler_write _ _
    | exact rdl_emit_indirect_indexed_read _ _ _ _
    | exact rdl_emit_indirect_indexed_write _ _ _ _ _
    | exact rdl_emit_indirect_read_double _ _ _ _
    | exact rdl_default_ _ _
    | exact rdl_op_0 _ _
    | exact rdl_op_1 _ _
    | exact rdl_op_2 _ _
    | exact rdl_op_3 _ _
    | apply steps_pure Rdl rdl_refl
    | apply steps_bind Rdl rdl_trans
    | apply steps_ite Rdl
    | intro _
    | dsimp only
    | split

theorem rdl_op_5 (cfg : Config) (op : Nat) :
    Steps Rdl (op_5 cfg op) := by
  unfold op_5
  repeat' with_reducible first
    | exact rdl_E _ _
    | exact rdl_get_reg _ _ _
    | exact rdl_get_tmp
    | exact rdl_get_tmp_arg _ _
    | exact rdl_get_reg_arg _ _ _
    | exact rdl_free_tmp _
    | exact rdl_clean
    | exact rdl_invalidate
    | exact rdl_flush
    | exact rdl_add_cycles _
    | exact rdl_set_cycles _
    | exact rdl_set_test_irq
    | exact rdl_get_pc
    | exact rdl_get_delayed_op
    | exact rdl_DELAYED_OP
    | exact rdl_emit_move_r_imm32 _ _ _
    | exact rdl_emit_move_r_r _ _ _
    | exact rdl_emit_or_t_if_eq _
    | exact rdl_emit_or_bit_c _ _ _ _
    | exact rdl_emit_memcall _ _ _ _
    | exact rdl_emit_memhandler_read _ _
    | exact rdl_emit_memhandler_write _ _
    | exact rdl_emit_indirect_indexed_read _ _ _ _
    | exact rdl_emit_indirect_indexed_write _ _ _ _ _
    | exact rdl_emit_indirect_read_double _ _ _ _
    | exact rdl_default_ _ _
    | exact rdl_op_0 _ _
    | exact rdl_op_1 _ _
    | exact rdl_op_2 _ _
    | exact rdl_op_3 _ _
    | exact rdl_op_4 _ _ _
    | apply steps_pure Rdl rdl_refl
    | apply steps_bind Rdl rdl_trans
    | apply steps_ite Rdl
    | intro _
    | dsimp only
    | split

theorem rdl_op_6 (cfg : Config) (op : Nat) :
    Steps Rdl (op_6 cfg op) := by
  unfold op_6
  repeat' with_reducible first
    | exact rdl_E _ _
    | exact rdl_get_reg _ _ _
    | exact rdl_get_tmp
    | exact rdl_get_tmp_arg _ _
    | exact rdl_get_reg_arg _ _ _
    | exact rdl_free_tmp _
    | exact rdl_clean
    | exact rdl_invalidate
    | exact rdl_flush
    | exact rdl_add_cycles _
    | exact rdl_set_cycles _
    | exact rdl_set_test_irq
    | exact rdl_get_pc
    | exact rdl_get_delayed_op
    | exact rdl_DELAYED_OP
    | exact rdl_emit_move_r_imm32 _ _ _
    | exact rdl_emit_move_r_r _ _ _
    | exact rdl_emit_or_t_if_eq _
    | exact rdl_emit_or_bit_c _ _ _ _
    | exact rdl_emit_memcall _ _ _ _
    | exact rdl_emit_memhandler_read _ _
    | exact rdl_emit_memhandler_write _ _
    | exact rdl_emit_indirect_indexed_read _ _ _ _
    | exact rdl_emit_indirect_indexed_write _ _ _ _ _
    | exact rdl_emit_indirect_read_double _ _ _ _
    | exact rdl_default_ _ _
    | exact rdl_op_0 _ _
    | exact rdl_op_1 _ _
    | exact rdl_op_2 _ _
    | exact rdl_op_3 _ _
    | exact rdl_op_4 _ _ _
    | exact rdl_op_5 _ _
    | apply steps_pure Rdl rdl_refl
    | apply steps_bind Rdl rdl_trans
    | apply steps_ite Rdl
    | intro _
    | dsimp only
    | split

theorem rdl_op_7 (cfg : Config) (op : Nat) :
    Steps Rdl (op_7 cfg op) := by
  unfold op_7
  repeat' with_reducible first
    | exact rdl_E _ _
    | exact rdl_get_reg _ _ _
    | exact rdl_get_tmp
    | exact rdl_get_tmp_arg _ _
    | exact rdl_get_reg_arg _ _ _
    | exact rdl_free_tmp _
    | exact rdl_clean
    | exact rdl_invalidate
    | exact rdl_flush
    | exact rdl_add_cycles _
    | exact rdl_set_cycles _
    | exact rdl_set_test_irq
    | exact rdl_get_pc
    | exact rdl_get_delayed_op
    | exact rdl_DELAYED_OP
    | exact rdl_emit_move_r_imm32 _ _ _
    | exact rdl_emit_move_r_r _ _ _
    | exact rdl_emit_or_t_if_eq _
    | exact rdl_emit_or_bit_c _ _ _ _
    | exact rdl_emit_memcall _ _ _ _
    | exact rdl_emit_memhandler_read _ _
    | exact rdl_emit_memhandler_write _ _
    | exact rdl_emit_indirect_indexed_read _ _ _ _
    | exact rdl_emit_indirect_indexed_write _ _ _ _ _
    | exact rdl_emit_indirect_read_double _ _ _ _
    | exact rdl_default_ _ _
    | exact rdl_op_0 _ _
    | exact rdl_op_1 _ _
    | exact rdl_op_2 _ _
    | exact rdl_op_3 _ _
    | exact rdl_op_4 _ _ _
    | exact rdl_op_5 _ _
    | exact rdl_op_6 _ _
    | apply steps_pure Rdl rdl_refl
    | apply steps_bind Rdl rdl_trans
    | apply steps_ite Rdl
    | intro _
    | dsimp only
    | split

theorem rdl_op_8_branch (cfg : Config) (op : Nat) :
    Steps Rdl (op_8_branch cfg op) := by
  unfold op_8_branch
  repeat' with_reducible first
    | exact rdl_E _ _
    | exact rdl_get_reg _ _ _
    | exact rdl_get_tmp
    | exact rdl_get_tmp_arg _ _
    | exact rdl_get_reg_arg _ _ _
    | exact rdl_free_tmp _
    | exact rdl_clean
    | exact rdl_invalidate
    | exact rdl_flush
    | exact rdl_add_cycles _
    | exact rdl_set_cycles _
    | exact rdl_set_test_irq
    | exact rdl_get_pc
    | exact rdl_get_delayed_op
    | exact rdl_DELAYED_OP
    | exact rdl_emit_move_r_imm32 _ _ _
    | exact rdl_emit_move_r_r _ _ _
    | exact rdl_emit_or_t_if_eq _
    | exact rdl_emit_or_bit_c _ _ _ _
    | exact rdl_emit_memcall _ _ _ _
    | exact rdl_emit_memhandler_read _ _
    | exact rdl_emit_memhandler_write _ _
    | exact rdl_emit_indirect_indexed_read _ _ _ _
    | exact rdl_emit_indirect_indexed_write _ _ _ _ _
    | exact rdl_emit_indirect_read_double _ _ _ _
    | exact rdl_default_ _ _
    | exact rdl_op_0 _ _
    | exact rdl_op_1 _ _
    | exact rdl_op_2 _ _
    | exact rdl_op_3 _ _
    | exact rdl_op_4 _ _ _
    | exact rdl_op_5 _ _
    | exact rdl_op_6 _ _
    | exact rdl_op_7 _ _
    | apply steps_pure Rdl rdl_refl
    | apply steps_bind Rdl rdl_trans
    | apply steps_ite Rdl
    | intro _
    | dsimp only
    | split

theorem rdl_op_8 (cfg : Config) (op : Nat) :
    Steps Rdl (op_8 cfg op) := by
  unfold op_8
  repeat' with_reducible first
    | exact rdl_E _ _
    | exact rdl_get_reg _ _ _
    | exact rdl_get_tmp
    | exact rdl_get_tmp_arg _ _
    | exact rdl_get_reg_arg _ _ _
    | exact rdl_free_tmp _
    | exact rdl_clean
    | exact rdl_invalidate
    | exact rdl_flush
    | exact rdl_add_cycles _
    | exact rdl_set_cycles _
    | exact rdl_set_test_irq
    | exact rdl_get_pc
    | exact rdl_get_delayed_op
    | exact rdl_DELAYED_OP
    | exact rdl_emit_move_r_imm32 _ _ _
    | exact rdl_emit_move_r_r _ _ _
    | exact rdl_emit_or_t_if_eq _
    | exact rdl_emit_or_bit_c _ _ _ _
    | exact rdl_emit_memcall _ _ _ _
    | exact rdl_emit_memhandler_read _ _
    | exact rdl_emit_memhandler_write _ _
    | exact rdl_emit_indirect_indexed_read _ _ _ _
    | exact rdl_emit_indirect_indexed_write _ _ _ _ _
    | exact rdl_emit_indirect_read_double _ _ _ _
    | exact rdl_default_ _ _
    | exact rdl_op_0 _ _
    | exact rdl_op_1 _ _
    | exact rdl_op_2 _ _
    | exact rdl_op_3 _ _
    | exact rdl_op_4 _ _ _
    | exact rdl_op_5 _ _
    | exact rdl_op_6 _ _
    | exact rdl_op_7 _ _
    | exact rdl_op_8_branch _ _
    | apply steps_pure Rdl rdl_refl
    | apply steps_bind Rdl rdl_trans
    | apply steps_ite Rdl
    | intro _
    | dsimp only
    | split

theorem rdl_op_9 (cfg : Config) (op : Nat) :
    Steps Rdl (op_9 cfg op) := by
  unfold op_9
  repeat' with_reducible first
    | exact rdl_E _ _
    | exact rdl_get_reg _ _ _
    | exact rdl_get_tmp
    | exact rdl_get_tmp_arg _ _
    | exact rdl_get_reg_arg _ _ _
    | exact rdl_free_tmp _
    | exact rdl_clean
    | exact rdl_invalidate
    | exact rdl_flush
    | exact rdl_add_cycles _
    | exact rdl_set_cycles _
    | exact rdl_set_test_irq
    | exact rdl_get_pc
    | exact rdl_get_delayed_op
    | exact rdl_DELAYED_OP
    | exact rdl_emit_move_r_imm32 _ _ _
    | exact rdl_emit_move_r_r _ _ _
    | exact rdl_emit_or_t_if_eq _
    | exact rdl_emit_or_bit_c _ _ _ _
    | exact rdl_emit_memcall _ _ _ _
    | exact rdl_emit_memhandler_read _ _
    | exact rdl_emit_memhandler_write _ _
    | exact rdl_emit_indirect_indexed_read _ _ _ _
    | exact rdl_emit_indirect_indexed_write _ _ _ _ _
    | exact rdl_emit_indirect_read_double _ _ _ _
    | exact rdl_default_ _ _
    | exact rdl_op_0 _ _
    | exact rdl_op_1 _ _
    | exact rdl_op_2 _ _
    | exact rdl_op_3 _ _
    | exact rdl_op_4 _ _ _
    | exact rdl_op_5 _ _
    | exact rdl_op_6 _ _
    | exact rdl_op_7 _ _
    | exact rdl_op_8 _ _
    | apply steps_pure Rdl rdl_refl
    | apply steps_bind Rdl rdl_trans
    | apply steps_ite Rdl
    | intro _
    | dsimp only
    | split

theorem rdl_do_bra (cfg : Config) (op : Nat) :
    Steps Rdl (do_bra cfg op) := by
  unfold do_bra
  repeat' with_reducible first
    | exact rdl_E _ _
    | exact rdl_get_reg _ _ _
    | exact rdl_get_tmp
    | exact rdl_get_tmp_arg _ _
    | exact rdl_get_reg_arg _ _ _
    | exact rdl_free_tmp _
    | exact rdl_clean
    | exact rdl_invalidate
    | exact rdl_flush
    | exact rdl_add_cycles _
    | exact rdl_set_cycles _
    | exact rdl_set_test_irq
    | exact rdl_get_pc
    | exact rdl_get_delayed_op
    | exact rdl_DELAYED_OP
    | exact rdl_emit_move_r_imm32 _ _ _
    | exact rdl_emit_move_r_r _ _ _
    | exact rdl_emit_or_t_if_eq _
    | exact rdl_emit_or_bit_c _ _ _ _
    | exact rdl_emit_memcall _ _ _ _
    | exact rdl_emit_memhandler_read _ _
    | exact rdl_emit_memhandler_write _ _
    | exact rdl_emit_indirect_indexed_read _ _ _ _
    | exact rdl_emit_indirect_indexed_write _ _ _ _ _
    | exact rdl_emit_indirect_read_double _ _ _ _
    | exact rdl_default_ _ _
    | exact rdl_op_0 _ _
    | exact rdl_op_1 _ _
    | exact rdl_op_2 _ _
    | exact rdl_op_3 _ _
    | exact rdl_op_4 _ _ _
    | exact rdl_op_5 _ _
    | exact rdl_op_6 _ _
    | exact rdl_op_7 _ _
    | exact rdl_op_8 _ _
    | exact rdl_op_9 _ _
    | apply steps_pure Rdl rdl_refl
    | apply steps_bind Rdl rdl_trans
    | apply steps_ite Rdl
    | intro _
    | dsimp only
    | split

theorem rdl_op_A (cfg : Config) (op : Nat) :
    Steps Rdl (op_A cfg op) := by
  unfold op_A
  repeat' with_reducible first
    | exact rdl_E _ _
    | exact rdl_get_reg _ _ _
    | exact rdl_get_tmp
    | exact rdl_get_tmp_arg _ _
    | exact rdl_get_reg_arg _ _ _
    | exact rdl_free_tmp _
    | exact rdl_clean
    | exact rdl_invalidate
    | exact rdl_flush
    | exact rdl_add_cycles _
    | exact rdl_set_cycles _
    | exact rdl_set_test_irq
    | exact rdl_get_pc
    | exact rdl_get_delayed_op
    | exact rdl_DELAYED_OP
    | exact rdl_emit_move_r_imm32 _ _ _
    | exact rdl_emit_move_r_r _ _ _
    | exact rdl_emit_or_t_if_eq _
    | exact rdl_emit_or_bit_c _ _ _ _
    | exact rdl_emit_memcall _ _ _ _
    | exact rdl_emit_memhandler_read _ _
    | exact rdl_emit_memhandler_write _ _
    | exact rdl_emit_indirect_indexed_read _ _ _ _
    | exact rdl_emit_indirect_indexed_write _ _ _ _ _
    | exact rdl_emit_indirect_read_double _ _ _ _
    | exact rdl_default_ _ _
    | exact rdl_op_0 _ _
    | exact rdl_op_1 _ _
    | exact rdl_op_2 _ _
    | exact rdl_op_3 _ _
    | exact rdl_op_4 _ _ _
    | exact rdl_op_5 _ _
    | exact rdl_op_6 _ _
    | exact rdl_op_7 _ _
    | exact rdl_op_8 _ _
    | exact rdl_op_9 _ _
    | exact rdl_do_bra _ _
    | apply steps_pure Rdl rdl_refl
    | apply steps_bind Rdl rdl_trans
    | apply steps_ite Rdl
    | intro _
    | dsimp only
    | split

theorem rdl_op_B (cfg : Config) (op : Nat) :
    Steps Rdl (op_B cfg op) := by
  unfold op_B
  repeat' with_reducible first
    | exact rdl_E _ _
    | exact rdl_get_reg _ _ _
    | exact rdl_get_tmp
    | exact rdl_get_tmp_arg _ _
    | exact rdl_get_reg_arg _ _ _
    | exact rdl_free_tmp _
    | exact rdl_clean
    | exact rdl_invalidate
    | exact rdl_flush
    | exact rdl_add_cycles _
    | exact rdl_set_cycles _
    | exact rdl_set_test_irq
    | exact rdl_get_pc
    | exact rdl_get_delayed_op
    | exact rdl_DELAYED_OP
    | exact rdl_emit_move_r_imm32 _ _ _
    | exact rdl_emit_move_r_r _ _ _
    | exact rdl_emit_or_t_if_eq _
    | exact rdl_emit_or_bit_c _ _ _ _
    | exact rdl_emit_memcall _ _ _ _
    | exact rdl_emit_memhandler_read _ _
    | exact rdl_emit_memhandler_write _ _
    | exact rdl_emit_indirect_indexed_read _ _ _ _
    | exact rdl_emit_indirect_indexed_write _ _ _ _ _
    | exact rdl_emit_indirect_read_double _ _ _ _
    | exact rdl_default_ _ _
    | exact rdl_op_0 _ _
    | exact rdl_op_1 _ _
    | exact rdl_op_2 _ _
    | exact rdl_op_3 _ _
    | exact rdl_op_4 _ _ _
    | exact rdl_op_5 _ _
    | exact rdl_op_6 _ _
    | exact rdl_op_7 _ _
    | exact rdl_op_8 _ _
    | exact rdl_op_9 _ _
    | exact rdl_do_bra _ _
    | exact rdl_op_A _ _
    | apply steps_pure Rdl rdl_refl
    | apply steps_bind Rdl rdl_trans
    | apply steps_ite Rdl
    | intro _
    | dsimp only
    | split

theorem rdl_end_rmw_op (cfg : Config) (tmp : Int) :
    Steps Rdl (end_rmw_op cfg tmp) := by
  unfold end_rmw_op
  repeat' with_reducible first
    | exact rdl_E _ _
    | exact rdl_get_reg _ _ _
    | exact rdl_get_tmp
    | exact rdl_get_tmp_arg _ _
    | exact rdl_get_reg_arg _ _ _
    | exact rdl_free_tmp _
    | exact rdl_clean
    | exact rdl_invalidate
    | exact rdl_flush
    | exact rdl_add_cycles _
    | exact rdl_set_cycles _
    | exact rdl_set_test_irq
    | exact rdl_get_pc
    | exact rdl_get_delayed_op
    | exact rdl_DELAYED_OP
    | exact rdl_emit_move_r_imm32 _ _ _
    | exact rdl_emit_move_r_r _ _ _
    | exact rdl_emit_or_t_if_eq _
    | exact rdl_emit_or_bit_c _ _ _ _
    | exact rdl_emit_memcall _ _ _ _
    | exact rdl_emit_memhandler_read _ _
    | exact rdl_emit_memhandler_write _ _
    | exact rdl_emit_indirect_indexed_read _ _ _ _
    | exact rdl_emit_indirect_indexed_write _ _ _ _ _
    | exact rdl_emit_indirect_read_double _ _ _ _
    | exact rdl_default_ _ _
    | exact rdl_op_0 _ _
    | exact rdl_op_1 _ _
    | exact rdl_op_2 _ _
    | exact rdl_op_3 _ _
    | exact rdl_op_4 _ _ _
    | exact rdl_op_5 _ _
    | exact rdl_op_6 _ _
    | exact rdl_op_7 _ _
    | exact rdl_op_8 _ _
    | exact rdl_op_9 _ _
    | exact rdl_do_bra _ _
    | exact rdl_op_A _ _
    | exact rdl_op_B _ _
    | apply steps_pure Rdl rdl_refl
    | apply steps_bind Rdl rdl_trans
    | apply steps_ite Rdl
    | intro _
    | dsimp only
    | split

theorem rdl_op_C (cfg : Config) (op : Nat) :
    Steps Rdl (op_C cfg op) := by
  unfold op_C
  repeat' with_reducible first
    | exact rdl_E _ _
    | exact rdl_get_reg _ _ _
    | exact rdl_get_tmp
    | exact rdl_get_tmp_arg _ _
    | exact rdl_get_reg_arg _ _ _
    | exact rdl_free_tmp _
    | exact rdl_clean
    | exact rdl_invalidate
    | exact rdl_flush
    | exact rdl_add_cycles _
    | exact rdl_set_cycles _
    | exact rdl_set_test_irq
    | exact rdl_get_pc
    | exact rdl_get_delayed_op
    | exact rdl_DELAYED_OP
    | exact rdl_emit_move_r_imm32 _ _ _
    | exact rdl_emit_move_r_r _ _ _
    | exact rdl_emit_or_t_if_eq _
    | exact rdl_emit_or_bit_c _ _ _ _
    | exact rdl_emit_memcall _ _ _ _
    | exact rdl_emit_memhandler_read _ _
    | exact rdl_emit_memhandler_write _ _
    | exact rdl_emit_indirect_indexed_read _ _ _ _
    | exact rdl_emit_indirect_indexed_write _ _ _ _ _
    | exact rdl_emit_indirect_read_double _ _ _ _
    | exact rdl_default_ _ _
    | exact rdl_op_0 _ _
    | exact rdl_op_1 _ _
    | exact rdl_op_2 _ _
    | exact rdl_op_3 _ _
    | exact rdl_op_4 _ _ _
    | exact rdl_op_5 _ _
    | exact rdl_op_6 _ _
    | exact rdl_op_7 _ _
    | exact rdl_op_8 _ _
    | exact rdl_op_9 _ _
    | exact rdl_do_bra _ _
    | exact rdl_op_A _ _
    | exact rdl_op_B _ _
    | exact rdl_end_rmw_op _ _
    | apply steps_pure Rdl rdl_refl
    | apply steps_bind Rdl rdl_trans
    | apply steps_ite Rdl
    | intro _
    | dsimp only
    | split

theorem rdl_op_D (cfg : Config) (op : Nat) :
    Steps Rdl (op_D cfg op) := by
  unfold op_D
  repeat' with_reducible first
    | exact rdl_E _ _
    | exact rdl_get_reg _ _ _
    | exact rdl_get_tmp
    | exact rdl_get_tmp_arg _ _
    | exact rdl_get_reg_arg _ _ _
    | exact rdl_free_tmp _
    | exact rdl_clean
    | exact rdl_invalidate
    | exact rdl_flush
    | exact rdl_add_cycles _
    | exact rdl_set_cycles _
    | exact rdl_set_test_irq
    | exact rdl_get_pc
    | exact rdl_get_delayed_op
    | exact rdl_DELAYED_OP
    | exact rdl_emit_move_r_imm32 _ _ _
    | exact rdl_emit_move_r_r _ _ _
    | exact rdl_emit_or_t_if_eq _
    | exact rdl_emit_or_bit_c _ _ _ _
    | exact rdl_emit_memcall _ _ _ _
    | exact rdl_emit_memhandler_read _ _
    | exact rdl_emit_memhandler_write _ _
    | exact rdl_emit_indirect_indexed_read _ _ _ _
    | exact rdl_emit_indirect_indexed_write _ _ _ _ _
    | exact rdl_emit_indirect_read_double _ _ _ _
    | exact rdl_default_ _ _
    | exact rdl_op_0 _ _
    | exact rdl_op_1 _ _
    | exact rdl_op_2 _ _
    | exact rdl_op_3 _ _
    | exact rdl_op_4 _ _ _
    | exact rdl_op_5 _ _
    | exact rdl_op_6 _ _
    | exact rdl_op_7 _ _
    | exact rdl_op_8 _ _
    | exact rdl_op_9 _ _
    | exact rdl_do_bra _ _
    | exact rdl_op_A _ _
    | exact rdl_op_B _ _
    | exact rdl_end_rmw_op _ _
    | exact rdl_op_C _ _
    | apply steps_pure Rdl rdl_refl
    | apply steps_bind Rdl rdl_trans
    | apply steps_ite Rdl
    | intro _
    | dsimp only
    | split

theorem rdl_op_E (cfg : Config) (op : Nat) :
    Steps Rdl (op_E cfg op) := by
  unfold op_E
  repeat' with_reducible first
    | exact rdl_E _ _
    | exact rdl_get_reg _ _ _
    | exact rdl_get_tmp
    | exact rdl_get_tmp_arg _ _
    | exact rdl_get_reg_arg _ _ _
    | exact rdl_free_tmp _
    | exact rdl_clean
    | exact rdl_invalidate
    | exact rdl_flush
    | exact rdl_add_cycles _
    | exact rdl_set_cycles _
    | exact rdl_set_test_irq
    | exact rdl_get_pc
    | exact rdl_get_delayed_op
    | exact rdl_DELAYED_OP
    | exact rdl_emit_move_r_imm32 _ _ _
    | exact rdl_emit_move_r_r _ _ _
    | exact rdl_emit_or_t_if_eq _
    | exact rdl_emit_or_bit_c _ _ _ _
    | exact rdl_emit_memcall _ _ _ _
    | exact rdl_emit_memhandler_read _ _
    | exact rdl_emit_memhandler_write _ _
    | exact rdl_emit_indirect_indexed_read _ _ _ _
    | exact rdl_emit_indirect_indexed_write _ _ _ _ _
    | exact rdl_emit_indirect_read_double _ _ _ _
    | exact rdl_default_ _ _
    | exact rdl_op_0 _ _
    | exact rdl_op_1 _ _
    | exact rdl_op_2 _ _
    | exact rdl_op_3 _ _
    | exact rdl_op_4 _ _ _
    | exact rdl_op_5 _ _
    | exact rdl_op_6 _ _
    | exact rdl_op_7 _ _
    | exact rdl_op_8 _ _
    | exact rdl_op_9 _ _
    | exact rdl_do_bra _ _
    | exact rdl_op_A _ _
    | exact rdl_op_B _ _
    | exact rdl_end_rmw_op _ _
    | exact rdl_op_C _ _
    | exact rdl_op_D _ _
    | apply steps_pure Rdl rdl_refl
    | apply steps_bind Rdl rdl_trans
    | apply steps_ite Rdl
    | intro _
    | dsimp only
    | split

theorem rdl_to_end_op (m : TM Unit) (h : Steps Rdl m) : Steps Rdl (to_end_op m) := by
  intro st a st2 hm
  simp only [to_end_op, TM.bind, TM.pure] at hm
  split at hm
  · simp at hm
  · rename_i u st1 h1
    simp only [Option.some.injEq, Prod.mk.injEq] at hm
    rw [← hm.2]
    exact h _ _ _ h1

theorem rdl_translate_op (cfg : Config) (mem : Nat → Nat) (op : Nat) :
    Steps Rdl (translate_op cfg mem op) := by
  unfold translate_op
  split
  all_goals with_reducible first
    | exact rdl_op_8 _ _
    | exact rdl_op_C _ _
    | (apply rdl_to_end_op
       first
        | exact rdl_op_0 _ _ | exact rdl_op_1 _ _ | exact rdl_op_2 _ _ | exact rdl_op_3 _ _
        | exact rdl_op_4 _ _ _ | exact rdl_op_5 _ _ | exact rdl_op_6 _ _ | exact rdl_op_7 _ _
        | exact rdl_op_9 _ _ | exact rdl_op_A _ _ | exact rdl_op_B _ _ | exact rdl_op_D _ _
        | exact rdl_op_E _ _ | exact rdl_default_ _ _)

/-! ## The store of the guest PC -/

/-! ## The pending write of `SHR_PC` -/

theorem scan_down_some_spec (p : temp_reg_t → Bool) (rt : List temp_reg_t) (n i : Nat)
    (h : scan_down p rt n = some i) : ∃ t, rt[i]? = some t ∧ p t = true := by
  induction n with
  | zero => simp [scan_down] at h
  | succ n ih =>
    unfold scan_down at h
    split at h
    · rename_i t ht
      split at h
      · rename_i hp
        simp only [Option.some.injEq] at h
        subst h
        exact ⟨t, ht, hp⟩
      · exact ih h
    · exact ih h

theorem scan_up_some_spec (p : temp_reg_t → Bool) (rt : List temp_reg_t) :
    ∀ (k i : Nat), scan_up p rt k = some i → ∃ t, rt[i - k]? = some t ∧ p t = true ∧ k ≤ i := by
  induction rt with
  | nil => intro k i h; simp [scan_up] at h
  | cons t ts ih =>
    intro k i h
    unfold scan_up at h
    split at h
    · rename_i hp
      simp only [Option.some.injEq] at h
      subst h
      exact ⟨t, by simp, hp, le_refl _⟩
    · obtain ⟨u, hu, hpu, hle⟩ := ih (k + 1) i h
      refine ⟨u, ?_, hpu, by omega⟩
      have : i - k = (i - (k + 1)) + 1 := by omega
      rw [this]
      simpa using hu

theorem rcache_evict_spec (s s1 : RCache) (i : Nat) (h : rcache_evict s = some (i, s1)) :
    ∃ t, s.reg_temp[i]? = some t ∧
      s1 = (if t.type = .HR_CACHED_DIRTY then s.emit (emith_ctx_write t.reg (ctx_offs t.val))
            else s) := by
  unfold rcache_evict at h
  split at h
  · simp at h
  · split at h
    · simp at h
    · rename_i t ht
      split at h
      · rename_i hd
        simp only [Option.some.injEq, Prod.mk.injEq] at h
        obtain ⟨rfl, rfl⟩ := h
        exact ⟨t, ht, by simp [hd]⟩
      · rename_i hd
        simp only [Option.some.injEq, Prod.mk.injEq] at h
        obtain ⟨rfl, rfl⟩ := h
        exact ⟨t, ht, by simp [hd]⟩

theorem pcw_mono (rc rc1 : RCache) (h : PCw rc)
    (hslots : ∀ (j : Nat) (u : temp_reg_t), rc.reg_temp[j]? = some u →
      u.type = .HR_CACHED_DIRTY → u.val = SHR_PC →
      (∃ u1, rc1.reg_temp[j]? = some u1 ∧ u1.type = .HR_CACHED_DIRTY ∧ u1.val = SHR_PC) ∨
        ∃ hr, emith_ctx_write hr (SHR_PC * 4) ∈ rc1.code)
    (hcode : ∀ e, e ∈ rc.code → e ∈ rc1.code) : PCw rc1 := by
  rcases h with ⟨j, u, hu, hd, hv⟩ | ⟨hr, hmem⟩
  · rcases hslots j u hu hd hv with ⟨u1, h1, h2, h3⟩ | h4
    · exact Or.inl ⟨j, u1, h1, h2, h3⟩
    · exact Or.inr h4
  · exact Or.inr ⟨hr, hcode _ hmem⟩

theorem pcw_emit (rc : RCache) (e : Emit) (h : PCw rc) : PCw (rc.emit e) := by
  apply pcw_mono rc _ h
  · intro j u hu hd hv
    exact Or.inl ⟨u, hu, hd, hv⟩
  · intro e1 he
    simp [RCache.emit, he]

theorem pcw_set_other (rc : RCache) (i : Nat) (x : temp_reg_t) (code1 : List Emit) (ctr : Nat)
    (h : PCw rc)
    (hi : ∀ u, rc.reg_temp[i]? = some u → u.type = .HR_CACHED_DIRTY → u.val = SHR_PC →
      (x.type = .HR_CACHED_DIRTY ∧ x.val = SHR_PC) ∨
        ∃ hr, emith_ctx_write hr (SHR_PC * 4) ∈ code1)
    (hcode : ∀ e, e ∈ rc.code → e ∈ code1) :
    PCw { reg_temp := rc.reg_temp.set i x, rcache_counter := ctr, code := code1 } := by
  apply pcw_mono rc _ h
  · intro j u hu hd hv
    by_cases hji : i = j
    · subst hji
      rcases hi u hu hd hv with ⟨h1, h2⟩ | h3
      · left
        refine ⟨x, ?_, h1, h2⟩
        have hlen : i < rc.reg_temp.length := (List.getElem?_eq_some.mp hu).1
        simp [List.getElem?_set_self hlen]
      · exact Or.inr h3
    · left
      exact ⟨u, by simpa [List.getElem?_set_ne hji] using hu, hd, hv⟩
  · exact hcode

theorem pcw_get_reg_alloc (s s1 : RCache) (i r : Nat) (mode : rc_gr_mode) (hr : Int)
    (h : PCw s)
    (hi : ∀ u, s.reg_temp[i]? = some u → u.type = .HR_CACHED_DIRTY → u.val = SHR_PC →
      ∃ hr, emith_ctx_write hr (SHR_PC * 4) ∈ s.code)
    (ha : get_reg_alloc s i r mode = some (hr, s1)) : PCw s1 := by
  unfold get_reg_alloc at ha
  split at ha
  · simp at ha
  · rename_i tr htr
    simp only [Option.some.injEq, Prod.mk.injEq] at ha
    obtain ⟨_, rfl⟩ := ha
    by_cases hm : mode = .RC_GR_WRITE
    · simp only [hm, ne_eq, not_true_eq_false, if_false]
      apply pcw_set_other s i _ _ _ h
      · intro u hu hd hv
        exact Or.inr (hi u hu hd hv)
      · intro e he; exact he
    · simp only [hm, ne_eq, not_false_eq_true, if_true, RCache.emit]
      apply pcw_set_other s i _ _ _ h
      · intro u hu hd hv
        obtain ⟨w, hw⟩ := hi u hu hd hv
        exact Or.inr ⟨w, by simp [hw]⟩
      · intro e he; simp [he]

theorem pcw_rcache_evict (s s1 : RCache) (i : Nat) (h : PCw s)
    (he : rcache_evict s = some (i, s1)) :
    PCw s1 ∧ ∀ u, s1.reg_temp[i]? = some u → u.type = .HR_CACHED_DIRTY → u.val = SHR_PC →
      ∃ hr, emith_ctx_write hr (SHR_PC * 4) ∈ s1.code := by
  obtain ⟨t, ht, hs1⟩ := rcache_evict_spec _ _ _ he
  by_cases hd : t.type = .HR_CACHED_DIRTY
  · simp only [hd, if_true] at hs1
    subst hs1
    refine ⟨pcw_emit _ _ h, ?_⟩
    intro u hu _ hv
    simp only [RCache.emit] at hu
    rw [ht] at hu
    simp only [Option.some.injEq] at hu
    subst hu
    refine ⟨t.reg, ?_⟩
    simp [RCache.emit, ctx_offs, hv, SHR_PC]
  · simp only [hd, if_false] at hs1
    subst hs1
    refine ⟨h, ?_⟩
    intro u hu hdu _
    rw [ht] at hu
    simp only [Option.some.injEq] at hu
    subst hu
    exact absurd hdu hd

theorem pcw_rcache_get_reg (cfg : Config) (s s1 : RCache) (r : Nat) (mode : rc_gr_mode)
    (hr : Int) (h : PCw s) (hg : rcache_get_reg cfg s r mode = some (hr, s1)) : PCw s1 := by
  unfold rcache_get_reg at hg
  split at hg
  · simp only [Option.some.injEq, Prod.mk.injEq] at hg
    rw [← hg.2]; exact h
  · have h0 : PCw { s with rcache_counter := (s.rcache_counter + 1) % 65536 } := h
    simp only at hg
    split at hg
    · rename_i i hscan
      split at hg
      · simp at hg
      · rename_i t ht
        simp only [Option.some.injEq, Prod.mk.injEq] at hg
        obtain ⟨_, rfl⟩ := hg
        apply pcw_set_other _ i _ _ _ h0
        · intro u hu hd hv
          rw [ht] at hu
          simp only [Option.some.injEq] at hu
          subst hu
          left
          by_cases hm : mode = .RC_GR_READ <;> simp [hm, hd, hv]
        · intro e he; exact he
    · rename_i hscan
      split at hg
      · rename_i i hfree
        apply pcw_get_reg_alloc _ _ i r mode hr h0 _ hg
        intro u hu hd _
        obtain ⟨t, ht, hf⟩ := scan_down_some_spec _ _ _ _ hfree
        rw [ht] at hu
        simp only [Option.some.injEq] at hu
        subst hu
        simp [is_free, hd] at hf
      · split at hg
        · simp at hg
        · rename_i i s2 hev
          obtain ⟨h2, h3⟩ := pcw_rcache_evict _ _ _ h0 hev
          exact pcw_get_reg_alloc _ _ i r mode hr h2 h3 hg

theorem pcw_rcache_get_reg_pc (cfg : Config) (s s1 : RCache) (hr : Int)
    (hpc : cfg.reg_map_g2h SHR_PC = -1)
    (hg : rcache_get_reg cfg s SHR_PC .RC_GR_WRITE = some (hr, s1)) : PCw s1 := by
  left
  unfold rcache_get_reg at hg
  simp only [hpc, ne_eq, not_true_eq_false, if_false] at hg
  have halloc : ∀ (s2 s3 : RCache) (i : Nat) (h : Int),
      get_reg_alloc s2 i SHR_PC .RC_GR_WRITE = some (h, s3) →
      ∃ (j : Nat) (t : temp_reg_t), s3.reg_temp[j]? = some t ∧ t.type = .HR_CACHED_DIRTY ∧
        t.val = SHR_PC := by
    intro s2 s3 i h ha
    unfold get_reg_alloc at ha
    split at ha
    · simp at ha
    · rename_i tr htr
      simp only [Option.some.injEq, Prod.mk.injEq] at ha
      obtain ⟨_, rfl⟩ := ha
      have hlen : i < s2.reg_temp.length := (List.getElem?_eq_some.mp htr).1
      exact ⟨i, _, List.getElem?_set_self hlen, rfl, rfl⟩
  split at hg
  · rename_i i hscan
    split at hg
    · simp at hg
    · rename_i t ht
      simp only [Option.some.injEq, Prod.mk.injEq] at hg
      obtain ⟨_, rfl⟩ := hg
      obtain ⟨t1, ht1, hp⟩ := scan_down_some_spec _ _ _ _ hscan
      rw [ht] at ht1
      simp only [Option.some.injEq] at ht1
      subst ht1
      have hlen : i < s.reg_temp.length := (List.getElem?_eq_some.mp ht).1
      simp only [Bool.and_eq_true, beq_iff_eq] at hp
      exact ⟨i, _, List.getElem?_set_self hlen, rfl, hp.2⟩
  · split at hg
    · exact halloc _ _ _ _ hg
    · split at hg
      · simp at hg
      · exact halloc _ _ _ _ hg

theorem pcw_rcache_free_tmp (s : RCache) (hr : Int) (h : PCw s) : PCw (rcache_free_tmp s hr) := by
  unfold rcache_free_tmp
  split
  · exact h
  · rename_i i _
    split
    · exact h
    · rename_i t ht
      split
      · exact h
      · rename_i htmp
        simp only [ne_eq, not_not] at htmp
        apply pcw_set_other s i _ _ _ h
        · intro u hu hd _
          rw [ht] at hu
          simp only [Option.some.injEq] at hu
          subst hu
          rw [htmp] at hd
          exact absurd hd (by decide)
        · intro e he; exact he

theorem pcw_rcache_clean (s : RCache) (h : PCw s) :
    ∃ hr, emith_ctx_write hr (SHR_PC * 4) ∈ (rcache_clean s).code := by
  rcases h with ⟨j, u, hu, hd, hv⟩ | ⟨hr, hmem⟩
  · refine ⟨u.reg, ?_⟩
    unfold rcache_clean
    rw [clean_slots_eq]
    simp only [List.mem_append, List.mem_map, List.mem_filter, decide_eq_true_eq]
    right
    exact ⟨u, ⟨List.getElem?_mem hu, hd⟩, by simp [ctx_offs, hv, SHR_PC]⟩
  · exact ⟨hr, by simp [rcache_clean, hmem]⟩

theorem pcw_rcache_flush (s : RCache) (h : PCw s) : PCw (rcache_flush s) := by
  right
  obtain ⟨hr, hmem⟩ := pcw_rcache_clean s h
  exact ⟨hr, by simpa [rcache_flush, rcache_invalidate] using hmem⟩

theorem rpc_refl (st : TState) : Rpc st st := fun h => h

theorem rpc_trans (a b c : TState) (h1 : Rpc a b) (h2 : Rpc b c) : Rpc a c :=
  fun h => h2 (h1 h)

theorem rpc_of_rc_eq {α : Type} (m : TM α)
    (h : ∀ st a st1, m st = some (a, st1) → st1.rc = st.rc) : Steps Rpc m := by
  intro st a st1 hm hp
  rw [h st a st1 hm]; exact hp

theorem rpc_E (op : EmitOp) (args : List Int) : Steps Rpc (E op args) := by
  intro st a st1 h hp
  simp only [E, Option.some.injEq, Prod.mk.injEq] at h
  rw [← h.2]; exact pcw_emit _ _ hp

theorem rpc_get_reg (cfg : Config) (r : Nat) (mode : rc_gr_mode) :
    Steps Rpc (get_reg cfg r mode) := by
  intro st a st1 h hp
  simp only [get_reg, lift_rc] at h
  split at h
  · simp at h
  · rename_i hr rc1 hg
    simp only [Option.some.injEq, Prod.mk.injEq] at h
    rw [← h.2]
    exact pcw_rcache_get_reg _ _ _ _ _ _ hp hg

theorem rpc_free_tmp (hr : Int) : Steps Rpc (free_tmp hr) := by
  intro st a st1 h hp
  simp only [free_tmp, Option.some.injEq, Prod.mk.injEq] at h
  rw [← h.2]; exact pcw_rcache_free_tmp _ _ hp

theorem rpc_flush : Steps Rpc flush := by
  intro st a st1 h hp
  simp only [flush, Option.some.injEq, Prod.mk.injEq] at h
  rw [← h.2]; exact pcw_rcache_flush _ hp

theorem rpc_add_cycles (n : Int) : Steps Rpc (add_cycles n) := by
  apply rpc_of_rc_eq
  intro st a st1 h
  simp only [add_cycles, Option.some.injEq, Prod.mk.injEq] at h
  rw [← h.2]

theorem rpc_get_pc : Steps Rpc get_pc := by
  apply rpc_of_rc_eq
  intro st a st1 h
  simp only [get_pc, Option.some.injEq, Prod.mk.injEq] at h
  rw [← h.2]

theorem rpc_get_test_irq : Steps Rpc get_test_irq := by
  apply rpc_of_rc_eq
  intro st a st1 h
  simp only [get_test_irq, Option.some.injEq, Prod.mk.injEq] at h
  rw [← h.2]

theorem rest_get_reg_pc (cfg : Config) (hpc : cfg.reg_map_g2h SHR_PC = -1) :
    Steps Rest (get_reg cfg SHR_PC .RC_GR_WRITE) := by
  intro st a st1 h
  simp only [get_reg, lift_rc] at h
  split at h
  · simp at h
  · rename_i hr rc1 hg
    simp only [Option.some.injEq, Prod.mk.injEq] at h
    rw [← h.2]
    exact pcw_rcache_get_reg_pc _ _ _ _ hpc hg

theorem rest_bind {α β : Type} (m : TM α) (f : α → TM β) (h1 : Steps Rest m)
    (h2 : ∀ a, Steps Rpc (f a)) : Steps Rest (m >>= f) := by
  intro st b st2 h
  simp only [bind, TM.bind] at h
  split at h
  · simp at h
  · rename_i a st1 hm
    show PCw st2.rc
    exact h2 a st1 b st2 h (h1 st a st1 hm)

theorem rest_bind_right {α β : Type} (m : TM α) (f : α → TM β)
    (h2 : ∀ a, Steps Rest (f a)) : Steps Rest (m >>= f) := by
  intro st b st2 h
  simp only [bind, TM.bind] at h
  split at h
  · simp at h
  · rename_i a st1 hm
    show PCw st2.rc
    exact h2 a st1 b st2 h

theorem rest_emit_move_r_imm32 (cfg : Config) (hpc : cfg.reg_map_g2h SHR_PC = -1) (i : Nat) :
    Steps Rest (emit_move_r_imm32 cfg SHR_PC i) := by
  unfold emit_move_r_imm32
  apply rest_bind _ _ (rest_get_reg_pc cfg hpc)
  intro a
  exact rpc_E _ _

theorem rest_emit_move_r_r (cfg : Config) (hpc : cfg.reg_map_g2h SHR_PC = -1) (src : Nat) :
    Steps Rest (emit_move_r_r cfg SHR_PC src) := by
  unfold emit_move_r_r
  apply rest_bind _ _ (rest_get_reg_pc cfg hpc)
  intro a
  apply steps_bind Rpc rpc_trans _ _ (rpc_get_reg _ _ _)
  intro b
  exact rpc_E _ _

theorem btf_pure_end_op : Btf (pure OpExit.end_op : TM OpExit) := by
  intro st ex st1 h hex
  simp only [pure, TM.pure, Option.some.injEq, Prod.mk.injEq] at h
  rw [← h.1] at hex
  exact absurd hex (by decide)

theorem btf_bind_right {α : Type} (m : TM α) (f : α → TM OpExit) (h2 : ∀ a, Btf (f a)) :
    Btf (m >>= f) := by
  intro st ex st2 h hex
  simp only [bind, TM.bind] at h
  split at h
  · simp at h
  · rename_i a st1 hm
    exact h2 a st1 ex st2 h hex

theorem btf_of_rest (m : TM OpExit) (h : Steps Rest m) : Btf m :=
  fun st ex st1 hm _ => h st ex st1 hm

theorem btf_to_end_op (m : TM Unit) : Btf (to_end_op m) := by
  intro st ex st2 h hex
  simp only [to_end_op, TM.bind, TM.pure] at h
  split at h
  · simp at h
  · simp only [Option.some.injEq, Prod.mk.injEq] at h
    rw [← h.1] at hex
    exact absurd hex (by decide)

theorem btf_ite (c : Prop) [Decidable c] (a b : TM OpExit) (h1 : Btf a) (h2 : Btf b) :
    Btf (if c then a else b) := by
  split <;> assumption

theorem btf_op_8_branch (cfg : Config) (hpc : cfg.reg_map_g2h SHR_PC = -1) (op : Nat) :
    Btf (op_8_branch cfg op) := by
  unfold op_8_branch
  dsimp only
  apply btf_bind_right
  intro d
  apply btf_bind_right
  intro pc
  by_cases hd : d = 0
  · subst hd
    simp only [ne_eq, not_true_eq_false, if_false, if_true]
    apply btf_of_rest
    apply rest_bind _ _ (rest_get_reg_pc cfg hpc)
    repeat' with_reducible first
      | exact rpc_E _ _
      | exact rpc_add_cycles _
      | apply steps_pure Rpc rpc_refl
      | apply steps_bind Rpc rpc_trans
      | apply steps_ite Rpc
      | refine fun _ => ?_
      | dsimp only
  · simp only [hd, if_false]
    repeat' with_reducible first
      | exact btf_pure_end_op
      | apply btf_ite
      | apply btf_bind_right
      | refine fun _ => ?_
      | dsimp only

theorem btf_op_8 (cfg : Config) (hpc : cfg.reg_map_g2h SHR_PC = -1) (op : Nat) :
    Btf (op_8 cfg op) := by
  unfold op_8
  split
  all_goals
    repeat' with_reducible first
      | exact btf_pure_end_op
      | exact btf_op_8_branch cfg hpc op
      | apply btf_bind_right
      | refine fun _ => ?_
      | dsimp only

theorem btf_op_C (cfg : Config) (hpc : cfg.reg_map_g2h SHR_PC = -1) (op : Nat) :
    Btf (op_C cfg op) := by
  unfold op_C
  split
  all_goals
    repeat' with_reducible first
      | exact btf_pure_end_op
      | exact rpc_E _ _
      | exact rpc_free_tmp _
      | exact rpc_add_cycles _
      | (apply btf_of_rest; apply rest_bind _ _ (rest_get_reg_pc cfg hpc))
      | apply steps_pure Rpc rpc_refl
      | apply steps_bind Rpc rpc_trans
      | apply btf_ite
      | apply btf_bind_right
      | refine fun _ => ?_
      | dsimp only

theorem btf_translate_op (cfg : Config) (hpc : cfg.reg_map_g2h SHR_PC = -1) (mem : Nat → Nat)
    (op : Nat) : Btf (translate_op cfg mem op) := by
  unfold translate_op
  split
  all_goals first
    | exact btf_op_8 cfg hpc op
    | exact btf_op_C cfg hpc op
    | exact btf_to_end_op _

/-! ## The end of every translated block -/

theorem tm_bind_eq_some {α β : Type} (m : TM α) (f : α → TM β) (st st2 : TState) (b : β) :
    (m >>= f) st = some (b, st2) ↔ ∃ a st1, m st = some (a, st1) ∧ f a st1 = some (b, st2) := by
  simp only [bind, TM.bind]
  constructor
  · intro h
    split at h
    · simp at h
    · rename_i a st1 hm
      exact ⟨a, st1, hm, h⟩
  · rintro ⟨a, st1, hm, hf⟩
    rw [hm]
    exact hf

theorem tm_pure_eq_some {α : Type} (a b : α) (st st1 : TState) :
    (pure a : TM α) st = some (b, st1) ↔ a = b ∧ st = st1 := by
  simp [pure, TM.pure]

theorem rpc_get_delayed_op : Steps Rpc get_delayed_op := by
  apply rpc_of_rc_eq
  intro st a st1 h
  simp only [get_delayed_op, Option.some.injEq, Prod.mk.injEq] at h
  rw [← h.2]

theorem rdl_get_test_irq : Steps Rdl get_test_irq := by
  apply rdl_of_eq
  intro st a st1 h
  simp only [get_test_irq, Option.some.injEq, Prod.mk.injEq] at h
  rw [← h.2]

theorem rdl_end_op (cfg : Config) : Steps Rdl (end_op cfg) := by
  unfold end_op
  repeat' with_reducible first
    | exact rdl_E _ _
    | exact rdl_flush
    | exact rdl_get_pc
    | exact rdl_get_delayed_op
    | exact rdl_get_test_irq
    | exact rdl_emit_move_r_imm32 _ _ _
    | exact rdl_emit_move_r_r _ _ _
    | apply steps_pure Rdl rdl_refl
    | apply steps_bind Rdl rdl_trans
    | apply steps_ite Rdl
    | refine fun _ => ?_
    | dsimp only

theorem rdl_le_two (st st1 : TState) (h : Rdl st st1) (hd : st.delayed_op ≤ 2) :
    st1.delayed_op ≤ 2 := by
  rcases h with h | h <;> omega

theorem end_op_spec (cfg : Config) (hpc : cfg.reg_map_g2h SHR_PC = -1) (st st1 : TState)
    (r : Option LoopExit) (hd : st.delayed_op ≤ 2) (h : end_op cfg st = some (r, st1)) :
    (r = some .end_block_btf → PCw st1.rc) ∧ (r = some .brk → PCw st1.rc) ∧
      r ≠ some .done ∧ st1.delayed_op ≤ 2 := by
  have hle := rdl_le_two _ _ (rdl_end_op cfg _ _ _ h) hd
  unfold end_op at h
  rw [tm_bind_eq_some] at h
  obtain ⟨d, s0, h0, h⟩ := h
  simp only [get_delayed_op, Option.some.injEq, Prod.mk.injEq] at h0
  obtain ⟨rfl, rfl⟩ := h0
  rw [tm_bind_eq_some] at h
  obtain ⟨u, s1, h1, h⟩ := h
  rw [tm_bind_eq_some] at h
  obtain ⟨ti, s1b, h2, h⟩ := h
  simp only [get_test_irq, Option.some.injEq, Prod.mk.injEq] at h2
  obtain ⟨rfl, rfl⟩ := h2
  have hP1 : st.delayed_op = 1 → PCw s1.rc := by
    intro hd1
    rw [if_pos hd1] at h1
    exact rest_emit_move_r_r cfg hpc _ _ _ _ h1
  by_cases hc : s1.test_irq ≠ 0 ∧ st.delayed_op ≠ 2
  · rw [if_pos hc, tm_bind_eq_some] at h
    obtain ⟨u2, s2, h3, h⟩ := h
    have hP2 : PCw s2.rc := by
      by_cases hd0 : st.delayed_op = 0
      · rw [if_pos hd0] at h3
        exact rest_bind_right _ _ (fun pc => rest_emit_move_r_imm32 cfg hpc pc) _ _ _ h3
      · rw [if_neg hd0, tm_pure_eq_some] at h3
        rw [← h3.2]
        exact hP1 (by omega)
    have hk : Steps Rpc (flush >>= fun _ => E .pass_arg_r [0, (cfg.CONTEXT_REG : Int)] >>= fun _ =>
        E .call [sh2_test_irq_fn] >>= fun _ => (pure (some LoopExit.end_block_btf) : TM _)) := by
      repeat' with_reducible first
        | exact rpc_E _ _
        | exact rpc_flush
        | apply steps_pure Rpc rpc_refl
        | apply steps_bind Rpc rpc_trans
        | refine fun _ => ?_
    have hP3 : PCw st1.rc := hk _ _ _ h hP2
    have hr : r = some .end_block_btf := by
      rw [tm_bind_eq_some] at h
      obtain ⟨_, _, _, h⟩ := h
      rw [tm_bind_eq_some] at h
      obtain ⟨_, _, _, h⟩ := h
      rw [tm_bind_eq_some] at h
      obtain ⟨_, _, _, h⟩ := h
      rw [tm_pure_eq_some] at h
      exact h.1.symm
    refine ⟨fun _ => hP3, fun _ => hP3, ?_, hle⟩
    rw [hr]; decide
  · rw [if_neg hc] at h
    by_cases hd1 : st.delayed_op = 1
    · rw [if_pos hd1, tm_pure_eq_some] at h
      obtain ⟨rfl, rfl⟩ := h
      exact ⟨fun _ => hP1 hd1, fun _ => hP1 hd1, by decide, hle⟩
    · rw [if_neg hd1, tm_pure_eq_some] at h
      obtain ⟨rfl, rfl⟩ := h
      exact ⟨fun h => by simp at h, fun h => by simp at h, by decide, hle⟩

theorem translate_loop_spec (cfg : Config) (hpc : cfg.reg_map_g2h SHR_PC = -1)
    (mem : Nat → Nat) :
    ∀ (fuel : Nat) (st st1 : TState) (ex : LoopExit), st.delayed_op ≤ 2 →
      translate_loop cfg mem fuel st = some (ex, st1) →
      (ex = .end_block_btf → PCw st1.rc) ∧ (ex = .brk → PCw st1.rc) ∧
        (ex = .done → st1.delayed_op = 0) := by
  intro fuel
  induction fuel with
  | zero => intro st st1 ex _ h; simp [translate_loop] at h
  | succ fuel ih =>
    intro st st1 ex hd h
    unfold translate_loop at h
    split at h
    · rw [tm_bind_eq_some] at h
      obtain ⟨op, s1, h1, h⟩ := h
      have hd1 : s1.delayed_op ≤ 2 := by
        simp only [fetch_op, Option.some.injEq, Prod.mk.injEq] at h1
        rw [← h1.2]
        simp only
        split <;> omega
      rw [tm_bind_eq_some] at h
      obtain ⟨ex1, s2, h2, h⟩ := h
      have hd2 := rdl_le_two _ _ (rdl_translate_op cfg mem op _ _ _ h2) hd1
      have hb := btf_translate_op cfg hpc mem op _ _ _ h2
      cases ex1 with
      | end_block_btf =>
        simp only [tm_pure_eq_some] at h
        obtain ⟨rfl, rfl⟩ := h
        exact ⟨fun _ => hb rfl, fun h => by simp at h, fun h => by simp at h⟩
      | end_op =>
        simp only at h
        rw [tm_bind_eq_some] at h
        obtain ⟨r, s3, h3, h⟩ := h
        obtain ⟨e1, e2, e3, e4⟩ := end_op_spec cfg hpc _ _ _ hd2 h3
        cases r with
        | none => exact ih _ _ _ e4 h
        | some e =>
          simp only [tm_pure_eq_some] at h
          obtain ⟨rfl, rfl⟩ := h
          refine ⟨fun he => e1 (by rw [he]), fun he => e2 (by rw [he]), fun he => ?_⟩
          exact absurd (by rw [he]) e3
    · rename_i hc
      simp only [Option.some.injEq, Prod.mk.injEq] at h
      obtain ⟨rfl, rfl⟩ := h
      refine ⟨fun h => by simp at h, fun h => by simp at h, fun _ => ?_⟩
      by_contra hne
      exact hc (Or.inr hne)

theorem translate_body_spec (cfg : Config) (hpc : cfg.reg_map_g2h SHR_PC = -1)
    (mem : Nat → Nat) (fuel : Nat) (st st1 : TState) (hd : st.delayed_op ≤ 2)
    (h : translate_body cfg mem fuel st = some ((), st1)) : PCw st1.rc := by
  unfold translate_body at h
  rw [tm_bind_eq_some] at h
  obtain ⟨ex, s1, h1, h⟩ := h
  obtain ⟨e1, e2, e3⟩ := translate_loop_spec cfg hpc mem fuel _ _ _ hd h1
  by_cases hbtf : ex = .end_block_btf
  · rw [if_pos hbtf, tm_pure_eq_some] at h
    rw [← h.2]
    exact e1 hbtf
  · rw [if_neg hbtf, tm_bind_eq_some] at h
    obtain ⟨d, s2, h2, h⟩ := h
    simp only [get_delayed_op, Option.some.injEq, Prod.mk.injEq] at h2
    obtain ⟨rfl, rfl⟩ := h2
    by_cases hd0 : s1.delayed_op = 0
    · rw [if_pos hd0] at h
      exact rest_bind_right _ _ (fun pc => rest_emit_move_r_imm32 cfg hpc pc) _ _ _ h
    · rw [if_neg hd0, tm_pure_eq_some] at h
      rw [← h.2]
      cases ex with
      | end_block_btf => exact absurd rfl hbtf
      | brk => exact e2 rfl
      | done => exact absurd (e3 rfl) hd0

theorem rcache_flush_code (s : RCache) :
    (rcache_flush s).code = s.code ++
        (s.reg_temp.filter (fun t => decide (t.type = .HR_CACHED_DIRTY))).map
          (fun t => emith_ctx_write t.reg (t.val * 4 % 4294967296)) ∧
      (rcache_flush s).reg_temp = s.reg_temp.map (fun t => { t with type := .HR_FREE }) := by
  unfold rcache_flush rcache_invalidate rcache_clean
  rw [clean_slots_eq]
  refine ⟨rfl, ?_⟩
  simp only [List.map_map]
  apply List.map_congr_left
  intro t _
  by_cases h : t.type = .HR_CACHED_DIRTY <;> simp [h]

theorem translate_epilogue_spec (cfg : Config) (st1 st2 : TState)
    (h : translate_epilogue cfg st1 = some ((), st2)) :
    ∃ (sr : Int) (rc : RCache),
      rcache_get_reg cfg st1.rc SHR_SR .RC_GR_RMW = some (sr, rc) ∧
      st2.rc.code = rc.code ++ [⟨.sub_r_imm, [sr, st1.cycles * 4096]⟩] ++
        (rc.reg_temp.filter (fun t => decide (t.type = .HR_CACHED_DIRTY))).map
          (fun t => emith_ctx_write t.reg (t.val * 4 % 4294967296)) ++
        [⟨.jump, [sh2_drc_exit]⟩] ∧
      st2.rc.reg_temp = rc.reg_temp.map (fun t => { t with type := .HR_FREE }) := by
  unfold translate_epilogue at h
  rw [tm_bind_eq_some] at h
  obtain ⟨sr, s1, h1, h⟩ := h
  simp only [get_reg, lift_rc] at h1
  split at h1
  · simp at h1
  · rename_i sr1 rc hg
    simp only [Option.some.injEq, Prod.mk.injEq] at h1
    obtain ⟨rfl, rfl⟩ := h1
    rw [tm_bind_eq_some] at h
    obtain ⟨cyc, s2, h2, h⟩ := h
    simp only [Option.some.injEq, Prod.mk.injEq] at h2
    obtain ⟨rfl, rfl⟩ := h2
    rw [tm_bind_eq_some] at h
    obtain ⟨_, s3, h3, h⟩ := h
    simp only [E, Option.some.injEq, Prod.mk.injEq, true_and] at h3
    subst h3
    rw [tm_bind_eq_some] at h
    obtain ⟨_, s4, h4, h⟩ := h
    simp only [flush, Option.some.injEq, Prod.mk.injEq, true_and] at h4
    subst h4
    simp only [E, Option.some.injEq, Prod.mk.injEq, true_and] at h
    subst h
    refine ⟨sr1, rc, hg, ?_, ?_⟩
    · simp only [RCache.emit]
      rw [(rcache_flush_code _).1]
    · simp only [RCache.emit]
      rw [(rcache_flush_code _).2]

theorem translate_epilogue_pcw (cfg : Config) (st1 st2 : TState)
    (h : translate_epilogue cfg st1 = some ((), st2)) (hp : PCw st1.rc) :
    ∃ hr, emith_ctx_write hr (SHR_PC * 4) ∈ st2.rc.code := by
  unfold translate_epilogue at h
  rw [tm_bind_eq_some] at h
  obtain ⟨sr, s1, h1, h⟩ := h
  have hp1 : PCw s1.rc := rpc_get_reg cfg _ _ _ _ _ h1 hp
  rw [tm_bind_eq_some] at h
  obtain ⟨cyc, s2, h2, h⟩ := h
  simp only [Option.some.injEq, Prod.mk.injEq] at h2
  obtain ⟨rfl, rfl⟩ := h2
  rw [tm_bind_eq_some] at h
  obtain ⟨_, s3, h3, h⟩ := h
  have hp3 : PCw s3.rc := rpc_E _ _ _ _ _ h3 hp1
  rw [tm_bind_eq_some] at h
  obtain ⟨_, s4, h4, h⟩ := h
  simp only [flush, Option.some.injEq, Prod.mk.injEq, true_and] at h4
  subst h4
  simp only [E, Option.some.injEq, Prod.mk.injEq, true_and] at h
  subst h
  obtain ⟨hr, hmem⟩ := pcw_rcache_clean _ hp3
  refine ⟨hr, ?_⟩
  simp only [RCache.emit, rcache_flush, rcache_invalidate, List.mem_append]
  exact Or.inl hmem

/-- C5: whatever way the translation loop is left (cycle limit, end of a delay slot,
`BT`/`BF`, `TRAPA`, interrupt test), the code of a block that `sh2_translate`
returns holds a store of a host register to the context slot of `SHR_PC`, and
its last instructions are: `sub sr, cycles << 12` on the host register `sr`
that the register cache hands out for `SHR_SR` in read-modify-write mode, then
one context store for every slot that is dirty at that point, in slot order,
then the jump to `sh2_drc_exit`; afterwards every cache slot is free.  (Build
tables map `SHR_PC` to no host register.) -/
theorem sh2_translate_block_end (cfg : Config) (mem : Nat → Nat) (fuel : Nat) (d : Drc)
    (sh2 : SH2) (other : Option Nat) (t : Translated)
    (hpc : cfg.reg_map_g2h SHR_PC = -1)
    (ht : sh2_translate cfg mem fuel d sh2 other = some t) :
    (∃ hr, emith_ctx_write hr (SHR_PC * 4) ∈ t.code) ∧
    ∃ (sr : Int) (rc0 rc : RCache),
      rcache_get_reg cfg rc0 SHR_SR .RC_GR_RMW = some (sr, rc) ∧
      t.code = rc.code ++ [⟨.sub_r_imm, [sr, t.cycles * 4096]⟩] ++
        (rc.reg_temp.filter (fun u => decide (u.type = .HR_CACHED_DIRTY))).map
          (fun u => emith_ctx_write u.reg (u.val * 4 % 4294967296)) ++
        [⟨.jump, [sh2_drc_exit]⟩] ∧
      t.drc.reg_temp = rc.reg_temp.map (fun u => { u with type := .HR_FREE }) := by
  obtain ⟨d1, tcid, st1, st2, _, hbody, hepi, hcode, _, hcyc, hdrc⟩ :=
    sh2_translate_some cfg mem fuel d sh2 other t ht
  have hp : PCw st1.rc := translate_body_spec cfg hpc mem fuel _ _ (Nat.zero_le 2) hbody
  obtain ⟨sr, rc, hg, hc, hr⟩ := translate_epilogue_spec cfg st1 st2 hepi
  refine ⟨?_, sr, st1.rc, rc, hg, ?_, ?_⟩
  · rw [hcode]
    exact translate_epilogue_pcw cfg st1 st2 hepi hp
  · rw [hcode, hcyc]
    exact hc
  · rw [hdrc]
    exact hr

set_option maxRecDepth 100000 in
theorem sh2_translate_block_end_witness :
    ∃ t, sh2_translate arm_cfg (fun a => if a = 0x06000018 then 0xa000 else 0x0009) 200 drc0
        { pc := 0x06000010 } none = some t ∧
      arm_cfg.reg_map_g2h SHR_PC = -1 ∧
      (∃ hr, emith_ctx_write hr (SHR_PC * 4) ∈ t.code) ∧
      ∃ (sr : Int) (rc0 rc : RCache),
        rcache_get_reg arm_cfg rc0 SHR_SR .RC_GR_RMW = some (sr, rc) ∧
        t.code = rc.code ++ [⟨.sub_r_imm, [sr, t.cycles * 4096]⟩] ++
          (rc.reg_temp.filter (fun u => decide (u.type = .HR_CACHED_DIRTY))).map
            (fun u => emith_ctx_write u.reg (u.val * 4 % 4294967296)) ++
          [⟨.jump, [sh2_drc_exit]⟩] ∧
        t.drc.reg_temp = rc.reg_temp.map (fun u => { u with type := .HR_FREE }) := by
  cases e1 : sh2_translate arm_cfg (fun a => if a = 0x06000018 then 0xa000 else 0x0009) 200 drc0
      { pc := 0x06000010 } none with
  | none =>
    have : (sh2_translate arm_cfg (fun a => if a = 0x06000018 then 0xa000 else 0x0009) 200 drc0
        { pc := 0x06000010 } none).isSome = true := by decide!
    rw [e1] at this
    simp at this
  | some t =>
    exact ⟨t, rfl, by decide,
      sh2_translate_block_end arm_cfg (fun a => if a = 0x06000018 then 0xa000 else 0x0009) 200
        drc0 { pc := 0x06000010 } none t (by decide) e1⟩

/-! ## Block manager: `dr_add_block`, `dr_find_block`, `flush_tcache`, cache choice -/

/-- C15: `dr_add_block` returns `NULL` exactly when the count of the region has reached
its cap (4096, 256, 256), and then changes nothing; otherwise it returns
descriptor `block_tables[r][count]` with `addr = pc` and `tcache_ptr` the
current emit pointer (its other fields and all other descriptors untouched),
the block id `count`, and the region's count grown by one (other counts
untouched). -/
theorem dr_add_block_spec (d : Drc) (ptr pc r : Nat) :
    (block_max_counts 0 = 4096 ∧ block_max_counts 1 = 256 ∧ block_max_counts 2 = 256) ∧
    ((dr_add_block d ptr pc r).1 = none ↔ d.block_counts r ≥ block_max_counts r) ∧
    (d.block_counts r ≥ block_max_counts r → (dr_add_block d ptr pc r).2 = d) ∧
    (d.block_counts r < block_max_counts r →
      (dr_add_block d ptr pc r).1 =
          some (block_tables_base r + d.block_counts r, d.block_counts r) ∧
        (dr_add_block d ptr pc r).2.block_tab (block_tables_base r + d.block_counts r) =
          { d.block_tab (block_tables_base r + d.block_counts r) with
            addr := pc, tcache_ptr := ptr } ∧
        (∀ k, k ≠ block_tables_base r + d.block_counts r →
          (dr_add_block d ptr pc r).2.block_tab k = d.block_tab k) ∧
        (dr_add_block d ptr pc r).2.block_counts r = d.block_counts r + 1 ∧
        (∀ k, k ≠ r → (dr_add_block d ptr pc r).2.block_counts k = d.block_counts k) ∧
        (dr_add_block d ptr pc r).2.tcache_ptrs = d.tcache_ptrs ∧
        (dr_add_block d ptr pc r).2.hash_table = d.hash_table) := by
  refine ⟨by decide, ?_, ?_, ?_⟩
  · unfold dr_add_block
    by_cases h : d.block_counts r ≥ block_max_counts r <;> simp [h]
  · intro h
    simp [dr_add_block, h]
  · intro h
    rw [dr_add_block_ok d ptr pc r h]
    refine ⟨rfl, by simp, ?_, by simp, ?_, rfl, rfl⟩
    · intro k hk
      simp [Function.update, hk]
    · intro k hk
      simp [Function.update, hk]

theorem dr_find_block_loop_chain (bt : Nat → block_desc) (pc : Nat) :
    ∀ (cs : List Nat) (fuel : Nat) (start : Option Nat),
      is_chain bt start cs = true → cs.length < fuel →
      dr_find_block_loop bt pc fuel start =
        some (match cs.find? (fun b => decide ((bt b).addr = pc)) with
          | some b => (bt b).tcache_ptr
          | none => 0) := by
  intro cs
  induction cs with
  | nil =>
    intro fuel start hc hl
    cases start with
    | some b => simp [is_chain] at hc
    | none =>
      cases fuel with
      | zero => omega
      | succ f => simp [dr_find_block_loop]
  | cons c cs ih =>
    intro fuel start hc hl
    cases start with
    | none => simp [is_chain] at hc
    | some b =>
      simp only [is_chain, Bool.and_eq_true, beq_iff_eq] at hc
      obtain ⟨rfl, hc⟩ := hc
      cases fuel with
      | zero => simp at hl
      | succ f =>
        simp only [List.length_cons, Nat.add_lt_add_iff_right] at hl
        unfold dr_find_block_loop
        by_cases ha : (bt b).addr = pc
        · simp [ha]
        · rw [if_neg ha, ih f _ hc hl]
          simp [List.find?, ha]

/-- C16, counterexample: a chain whose head descriptor has `addr == pc` and no successor;
`dr_find_block` starts at `tab->next` and returns `NULL`. -/
theorem dr_find_block_skips_head :
    ((fun _ => (⟨0x02000000, 0x02000002, 0x1000, none⟩ : block_desc)) 0).addr = 0x02000000 ∧
      dr_find_block (fun _ => ⟨0x02000000, 0x02000002, 0x1000, none⟩) 0 0x02000000 = some 0 := by
  refine ⟨rfl, ?_⟩
  simp [dr_find_block, dr_find_block_loop]

/-- C16 (as the code has it): `dr_find_block(tab, pc)` walks the descriptors after `tab`
(`tab` itself is not compared: the dispatcher has compared it before the
call) and returns the `tcache_ptr` of the first of them whose `addr` equals
`pc`, or `NULL` when none of them has. -/
theorem dr_find_block_spec (bt : Nat → block_desc) (head pc : Nat) (cs : List Nat)
    (hchain : is_chain bt (bt head).next cs = true) (hlen : cs.length ≤ BLOCK_TABLE_LEN) :
    dr_find_block bt head pc =
      some (match cs.find? (fun b => decide ((bt b).addr = pc)) with
        | some b => (bt b).tcache_ptr
        | none => 0) := by
  unfold dr_find_block
  exact dr_find_block_loop_chain bt pc cs _ _ hchain (by omega)

theorem dr_find_block_spec_witness :
    dr_find_block
        (fun b => if b = 0 then ⟨0x02000400, 0, 0x3000, some 1⟩
          else if b = 1 then ⟨0x02000800, 0, 0x2000, some 2⟩
          else ⟨0x02000000, 0, 0x1000, none⟩) 0 0x02000000 = some 0x1000 :=
  dr_find_block_spec
    (fun b => if b = 0 then ⟨0x02000400, 0, 0x3000, some 1⟩
      else if b = 1 then ⟨0x02000800, 0, 0x2000, some 2⟩
      else ⟨0x02000000, 0, 0x1000, none⟩) 0 0x02000000 [1, 2] (by decide) (by decide)

theorem and_shl_mask (x m k : Nat) : x &&& (m <<< k) = ((x >>> k) &&& m) <<< k := by
  apply Nat.eq_of_testBit_eq
  intro i
  simp only [Nat.testBit_and, Nat.testBit_shiftLeft, Nat.testBit_shiftRight]
  by_cases h : k ≤ i
  · have e : k + (i - k) = i := by omega
    simp [h, e, Bool.and_comm]
  · simp [h]

theorem and_mask_eq_iff (x m k v : Nat) (hx : x >>> k < m + 1) (hm : ∃ n, m + 1 = 2 ^ n) :
    x &&& (m <<< k) = v <<< k ↔ x >>> k = v := by
  obtain ⟨n, hn⟩ := hm
  have hm2 : m = 2 ^ n - 1 := by omega
  rw [and_shl_mask, hm2, Nat.and_pow_two_sub_one_eq_mod, Nat.mod_eq_of_lt (by omega)]
  rw [Nat.shiftLeft_eq, Nat.shiftLeft_eq]
  constructor
  · intro h
    exact Nat.eq_of_mul_eq_mul_right (Nat.two_pow_pos k) h
  · intro h
    rw [h]

theorem is_da_bios_iff (pc : Nat) (h : pc < 4294967296) :
    is_da_bios pc = true ↔ (pc >>> 29 = 6 ∨ pc < 0x1000) := by
  have h1 : pc &&& 0xe0000000 = 0xc0000000 ↔ pc >>> 29 = 6 := by
    have := and_mask_eq_iff pc 7 29 6 (by rw [Nat.shiftRight_eq_div_pow]; omega) ⟨3, rfl⟩
    simpa using this
  have h2 : pc &&& 0xfffff000 = 0 ↔ pc < 0x1000 := by
    have := and_mask_eq_iff pc 0xfffff 12 0 (by rw [Nat.shiftRight_eq_div_pow]; omega) ⟨20, rfl⟩
    rw [Nat.shiftRight_eq_div_pow] at this
    have e : (0xfffff <<< 12 : Nat) = 0xfffff000 := by decide
    have e0 : (0 <<< 12 : Nat) = 0 := by decide
    rw [e, e0] at this
    rw [this]
    omega
  unfold is_da_bios
  simp only [Bool.or_eq_true, beq_iff_eq]
  rw [h1, h2]

/-- C17: for a 32-bit `pc`, `sh2_translate` picks cache `1 + is_slave` exactly when
`pc >> 29 == 6` or `pc < 0x1000`, and cache 0 otherwise: the test
`(pc & 0xe0000000) == 0xc0000000 || (pc & ~0xfff) == 0` is that condition. -/
theorem tcache_id_of_spec (pc is_slave : Nat) (h : pc < 4294967296) :
    (((pc &&& 0xe0000000) = 0xc0000000 ∨ (pc &&& 0xfffff000) = 0) ↔
        (pc >>> 29 = 6 ∨ pc < 0x1000)) ∧
      tcache_id_of pc is_slave = (if pc >>> 29 = 6 ∨ pc < 0x1000 then 1 + is_slave else 0) := by
  have hiff := is_da_bios_iff pc h
  constructor
  · rw [← hiff]
    simp [is_da_bios]
  · unfold tcache_id_of
    by_cases hc : pc >>> 29 = 6 ∨ pc < 0x1000
    · rw [if_pos hc, if_pos (hiff.mpr hc)]
    · rw [if_neg hc]
      have : ¬ is_da_bios pc = true := fun hh => hc (hiff.mp hh)
      simp [this]

theorem tcache_id_of_spec_witness :
    tcache_id_of 0xc0000123 1 = 2 ∧ tcache_id_of 0x00000ffe 0 = 1 ∧
      tcache_id_of 0x06001000 1 = 0 :=
  ⟨(tcache_id_of_spec 0xc0000123 1 (by decide)).2.trans (by decide),
    (tcache_id_of_spec 0x00000ffe 0 (by decide)).2.trans (by decide),
    (tcache_id_of_spec 0x06001000 1 (by decide)).2.trans (by decide)⟩

/-- C20: `flush_tcache(r)` sets the write pointer of region `r` to its base and its
block count to 0; for `r = 0` it zeroes the hash table and the DRAM SMC map,
for `r ≠ 0` the data-array SMC map of CPU `r - 1`; pointers and counts of the
other regions, the other SMC maps, the hash table when `r ≠ 0`, the bases and
the descriptors stay as they were. -/
theorem flush_tcache_frame (d : Drc) (r : Nat) :
    (flush_tcache d r).tcache_ptrs r = d.tcache_bases r ∧
    (flush_tcache d r).block_counts r = 0 ∧
    (∀ k, k ≠ r → (flush_tcache d r).tcache_ptrs k = d.tcache_ptrs k ∧
      (flush_tcache d r).block_counts k = d.block_counts k) ∧
    (r = 0 → (flush_tcache d r).hash_table = (fun _ => none) ∧
      (flush_tcache d r).drcblk_ram = (fun _ => 0) ∧
      (flush_tcache d r).drcblk_da = d.drcblk_da) ∧
    (r ≠ 0 → (flush_tcache d r).drcblk_da (r - 1) = (fun _ => 0) ∧
      (∀ k, k ≠ r - 1 → (flush_tcache d r).drcblk_da k = d.drcblk_da k) ∧
      (flush_tcache d r).hash_table = d.hash_table ∧
      (flush_tcache d r).drcblk_ram = d.drcblk_ram) ∧
    (flush_tcache d r).tcache_bases = d.tcache_bases ∧
    (flush_tcache d r).block_tab = d.block_tab ∧
    (flush_tcache d r).reg_temp = d.reg_temp ∧
    (flush_tcache d r).rcache_counter = d.rcache_counter := by
  by_cases h : r = 0
  · subst h
    simp only [flush_tcache, if_true]
    refine ⟨by simp, by simp, ?_, ?_, ?_, trivial, trivial, trivial, trivial⟩
    · intro k hk
      simp [Function.update, hk]
    · intro _
      exact ⟨trivial, trivial, trivial⟩
    · intro hne
      exact absurd rfl hne
  · simp only [flush_tcache, h, if_false]
    refine ⟨by simp, by simp, ?_, ?_, ?_, trivial, trivial, trivial, trivial⟩
    · intro k hk
      simp [Function.update, hk]
    · intro h0
      exact absurd h0 not_false
    · intro _
      refine ⟨by simp, ?_, trivial, trivial⟩
      intro k hk
      simp [Function.update, hk]

/-! ## Block start: validation, flush and allocation -/

theorem tcache_id_of_lt (pc is_slave : Nat) (h : is_slave ≤ 1) : tcache_id_of pc is_slave < 3 := by
  unfold tcache_id_of
  split <;> omega

theorem block_max_counts_pos (r : Nat) (h : r < 3) : 0 < block_max_counts r := by
  interval_cases r <;> decide

theorem translate_alloc_noflush (cfg : Config) (d : Drc) (pc r : Nat) (other : Option Nat)
    (hf : ¬ flush_needed cfg d r) :
    translate_alloc cfg d pc r other =
      some ((dr_add_block d (d.tcache_ptrs r) pc r).2, block_tables_base r + d.block_counts r,
        d.block_counts r, d.tcache_ptrs r, other) := by
  have hcnt : d.block_counts r < block_max_counts r := by
    have : ¬ (d.block_counts r ≥ block_max_counts r) := fun h => hf (Or.inr h)
    omega
  unfold translate_alloc
  simp only [hf, if_false]
  rw [dr_add_block_ok _ _ _ _ hcnt]
  rfl

theorem translate_alloc_flush (cfg : Config) (d : Drc) (pc r : Nat) (other : Option Nat)
    (hr : r < 3) (hf : flush_needed cfg d r) :
    translate_alloc cfg d pc r other =
      some ((dr_add_block (flush_tcache (dr_add_block d (d.tcache_ptrs r) pc r).2 r)
          (d.tcache_bases r) pc r).2, block_tables_base r, 0, d.tcache_bases r, none) := by
  have hc := flush_tcache_counts (dr_add_block d (d.tcache_ptrs r) pc r).2 r
  have hbase : (dr_add_block d (d.tcache_ptrs r) pc r).2.tcache_bases = d.tcache_bases := by
    unfold dr_add_block
    simp only
    split <;> rfl
  have hmax : (flush_tcache (dr_add_block d (d.tcache_ptrs r) pc r).2 r).block_counts r
      < block_max_counts r := by
    rw [hc.1]
    exact block_max_counts_pos r hr
  have hptr : (flush_tcache (dr_add_block d (d.tcache_ptrs r) pc r).2 r).tcache_ptrs r
      = d.tcache_bases r := by
    rw [hc.2, hbase]
  unfold translate_alloc
  simp only [hf, if_true]
  rw [hptr, dr_add_block_ok _ (d.tcache_bases r) pc r hmax]
  simp only [Option.map_some', hc.1, Nat.add_zero]

/-- C18: `sh2_translate` aborts at the PC check, before any descriptor is allocated or
code emitted, exactly when `pc >> 29` is none of 0, 1, 6 or `pc == 0`; for
every other `pc` the block set-up goes through: a descriptor with
`addr = pc` is allocated. -/
theorem sh2_translate_validate (cfg : Config) (mem : Nat → Nat) (fuel : Nat) (d : Drc)
    (sh2 : SH2) (other : Option Nat) (hs : sh2.is_slave ≤ 1) :
    (translate_begin cfg d sh2 other = none ↔
      ((sh2.pc >>> 29 ≠ 0 ∧ sh2.pc >>> 29 ≠ 1 ∧ sh2.pc >>> 29 ≠ 6) ∨ sh2.pc = 0)) ∧
    (((sh2.pc >>> 29 ≠ 0 ∧ sh2.pc >>> 29 ≠ 1 ∧ sh2.pc >>> 29 ≠ 6) ∨ sh2.pc = 0) →
      sh2_translate cfg mem fuel d sh2 other = none) ∧
    (¬ ((sh2.pc >>> 29 ≠ 0 ∧ sh2.pc >>> 29 ≠ 1 ∧ sh2.pc >>> 29 ≠ 6) ∨ sh2.pc = 0) →
      ∃ d2 d4 tb blkid ptr o2,
        translate_alloc cfg d sh2.pc (tcache_id_of sh2.pc sh2.is_slave) other =
          some (d2, tb, blkid, ptr, o2) ∧
        translate_begin cfg d sh2 other =
          some (d4, tcache_id_of sh2.pc sh2.is_slave, tb, blkid, ptr) ∧
        (d4.block_tab tb).addr = sh2.pc ∧ (d4.block_tab tb).tcache_ptr = ptr) := by
  have hlt := tcache_id_of_lt sh2.pc sh2.is_slave hs
  have hvalid : ¬ ((sh2.pc >>> 29 ≠ 0 ∧ sh2.pc >>> 29 ≠ 1 ∧ sh2.pc >>> 29 ≠ 6) ∨ sh2.pc = 0) →
      ∃ d2 d4 tb blkid ptr o2,
        translate_alloc cfg d sh2.pc (tcache_id_of sh2.pc sh2.is_slave) other =
          some (d2, tb, blkid, ptr, o2) ∧
        translate_begin cfg d sh2 other =
          some (d4, tcache_id_of sh2.pc sh2.is_slave, tb, blkid, ptr) ∧
        (d4.block_tab tb).addr = sh2.pc ∧ (d4.block_tab tb).tcache_ptr = ptr := by
    intro hv
    have hsome : ∃ res, translate_alloc cfg d sh2.pc (tcache_id_of sh2.pc sh2.is_slave) other
        = some res := by
      by_cases hf : flush_needed cfg d (tcache_id_of sh2.pc sh2.is_slave)
      · exact ⟨_, translate_alloc_flush cfg d sh2.pc _ other hlt hf⟩
      · exact ⟨_, translate_alloc_noflush cfg d sh2.pc _ other hf⟩
    obtain ⟨⟨d2, tb, blkid, ptr, o2⟩, hres⟩ := hsome
    have hsp := translate_alloc_spec cfg d sh2.pc _ other d2 tb blkid ptr o2 hlt hres
    have hb : ∃ d4, translate_begin cfg d sh2 other =
          some (d4, tcache_id_of sh2.pc sh2.is_slave, tb, blkid, ptr) ∧
        (d4.block_tab tb).addr = sh2.pc ∧ (d4.block_tab tb).tcache_ptr = ptr := by
      unfold translate_begin
      rw [if_neg hv, hres]
      refine ⟨_, rfl, ?_, ?_⟩
      · by_cases hrom : (sh2.pc &&& 0xc6000000) = 0x02000000 <;>
          simp [hrom, Function.update, hsp.2.2.1]
      · by_cases hrom : (sh2.pc &&& 0xc6000000) = 0x02000000 <;>
          simp [hrom, Function.update, hsp.2.2.2.1]
    obtain ⟨d4, hb1, hb2, hb3⟩ := hb
    exact ⟨d2, d4, tb, blkid, ptr, o2, hres, hb1, hb2, hb3⟩
  refine ⟨?_, ?_, hvalid⟩
  · constructor
    · intro hnone
      by_contra hv
      obtain ⟨_, _, _, _, _, _, _, hb, _⟩ := hvalid hv
      rw [hnone] at hb
      simp at hb
    · intro hinv
      unfold translate_begin
      rw [if_pos hinv]
  · intro hinv
    unfold sh2_translate translate_begin
    rw [if_pos hinv]

theorem sh2_translate_validate_witness :
    sh2_translate arm_cfg (fun _ => 0x0009) 200 drc0 { pc := 0x80000000 } none = none ∧
    sh2_translate arm_cfg (fun _ => 0x0009) 200 drc0 { pc := 0 } none = none ∧
    (translate_begin arm_cfg drc0 { pc := 0x06000000 } none = none ↔
      (((0x06000000 : Nat) >>> 29 ≠ 0 ∧ (0x06000000 : Nat) >>> 29 ≠ 1 ∧
        (0x06000000 : Nat) >>> 29 ≠ 6) ∨ (0x06000000 : Nat) = 0)) :=
  ⟨(sh2_translate_validate arm_cfg (fun _ => 0x0009) 200 drc0 { pc := 0x80000000 } none
      (by decide)).2.1 (by decide),
    (sh2_translate_validate arm_cfg (fun _ => 0x0009) 200 drc0 { pc := 0 } none
      (by decide)).2.1 (by decide),
    (sh2_translate_validate arm_cfg (fun _ => 0x0009) 200 drc0 { pc := 0x06000000 } none
      (by decide)).1⟩

/-- C19: at block start the chosen region is flushed exactly when its free space
(`tcache_sizes[r]` minus the bytes used) is below `MAX_BLOCK_SIZE = 3600` or
`dr_add_block` returned `NULL`.  Without a flush the first descriptor is kept;
after a flush the second `dr_add_block` cannot fail, the block has id 0, its
entry is the region base and `other_block`, hence `this_block->next`, is
`NULL`.  (Region sizes are at least `MAX_BLOCK_SIZE`, the write pointer is not
below the base, and both fit 32 bits.) -/
theorem translate_flush_spec (cfg : Config) (d : Drc) (pc r : Nat) (other : Option Nat)
    (hr : r < 3) (hbase : d.tcache_bases r ≤ d.tcache_ptrs r)
    (hused : d.tcache_ptrs r - d.tcache_bases r < 4294967296)
    (hsize : MAX_BLOCK_SIZE ≤ tcache_sizes cfg r) (hsz : tcache_sizes cfg r < 4294967296) :
    MAX_BLOCK_SIZE = 3600 ∧
    (flush_needed cfg d r ↔
      ((tcache_sizes cfg r : Int) - ((d.tcache_ptrs r : Int) - d.tcache_bases r) < 3600 ∨
        (dr_add_block d (d.tcache_ptrs r) pc r).1 = none)) ∧
    (¬ flush_needed cfg d r →
      translate_alloc cfg d pc r other =
        some ((dr_add_block d (d.tcache_ptrs r) pc r).2,
          block_tables_base r + d.block_counts r, d.block_counts r, d.tcache_ptrs r, other)) ∧
    (flush_needed cfg d r →
      translate_alloc cfg d pc r other =
        some ((dr_add_block (flush_tcache (dr_add_block d (d.tcache_ptrs r) pc r).2 r)
            (d.tcache_bases r) pc r).2, block_tables_base r, 0, d.tcache_bases r, none)) ∧
    (∀ (sh2 : SH2) (d4 : Drc) (tb blkid entry : Nat),
      tcache_id_of sh2.pc sh2.is_slave = r →
      translate_begin cfg d sh2 other = some (d4, r, tb, blkid, entry) →
      flush_needed cfg d r →
      blkid = 0 ∧ entry = d.tcache_bases r ∧ tb = block_tables_base r ∧
        (d4.block_tab tb).next = none) := by
  have hm : MAX_BLOCK_SIZE = 3600 := by decide
  refine ⟨hm, ?_, translate_alloc_noflush cfg d pc r other,
    translate_alloc_flush cfg d pc r other hr, ?_⟩
  · have hnull : (dr_add_block d (d.tcache_ptrs r) pc r).1 = none ↔
        d.block_counts r ≥ block_max_counts r := by
      unfold dr_add_block
      by_cases h : d.block_counts r ≥ block_max_counts r <;> simp [h]
    rw [hnull]
    unfold flush_needed
    have e1 : u32 ((d.tcache_ptrs r : Int) - d.tcache_bases r)
        = d.tcache_ptrs r - d.tcache_bases r := by
      unfold u32
      omega
    have e2 : u32 ((tcache_sizes cfg r : Int) - MAX_BLOCK_SIZE)
        = tcache_sizes cfg r - MAX_BLOCK_SIZE := by
      unfold u32
      omega
    rw [e1, e2, hm]
    rw [hm] at hsize
    constructor
    · rintro (h | h)
      · left; omega
      · right; exact h
    · rintro (h | h)
      · left; omega
      · right; exact h
  · intro sh2 d4 tb blkid entry hid hb hf
    unfold translate_begin at hb
    split at hb
    · simp at hb
    · rw [hid, translate_alloc_flush cfg d sh2.pc r other hr hf] at hb
      simp only [Option.some.injEq, Prod.mk.injEq] at hb
      obtain ⟨hd4, _, htb, hblk, hent⟩ := hb
      refine ⟨hblk.symm, hent.symm, htb.symm, ?_⟩
      rw [← hd4, ← htb]
      by_cases hrom : (sh2.pc &&& 0xc6000000) = 0x02000000 <;> simp [hrom, Function.update]

theorem translate_flush_spec_witness :
    (flush_needed arm_cfg drc_full 0 ↔
      ((tcache_sizes arm_cfg 0 : Int) -
          ((drc_full.tcache_ptrs 0 : Int) - drc_full.tcache_bases 0) < 3600 ∨
        (dr_add_block drc_full (drc_full.tcache_ptrs 0) 0x02000000 0).1 = none)) ∧
      flush_needed arm_cfg drc_full 0 ∧ ¬ flush_needed arm_cfg drc0 0 :=
  ⟨(translate_flush_spec arm_cfg drc_full 0x02000000 0 (some 5) (by decide) (by decide)
      (by decide) (by decide) (by decide)).2.1, by decide, by decide⟩

/-! ## Register cache: shape of the results -/

theorem scan_down_none_spec (p : temp_reg_t → Bool) (rt : List temp_reg_t) :
    ∀ (n : Nat), scan_down p rt n = none →
      ∀ (j : Nat) (u : temp_reg_t), j < n → rt[j]? = some u → p u = false := by
  intro n
  induction n with
  | zero => intro _ j u hj; omega
  | succ n ih =>
    intro h j u hj hu
    unfold scan_down at h
    cases hn : rt[n]? with
    | none =>
      rw [hn] at h
      have hne : j ≠ n := by
        intro e
        rw [e, hn] at hu
        simp at hu
      exact ih h j u (by omega) hu
    | some t =>
      rw [hn] at h
      simp only at h
      split at h
      · simp at h
      · rename_i hp
        by_cases e : j = n
        · subst e
          rw [hn] at hu
          simp only [Option.some.injEq] at hu
          subst hu
          simpa using hp
        · exact ih h j u (by omega) hu

theorem scan_down_some_max (p : temp_reg_t → Bool) (rt : List temp_reg_t) :
    ∀ (n i : Nat), scan_down p rt n = some i →
      i < n ∧ ∀ (j : Nat) (u : temp_reg_t), i < j → j < n → rt[j]? = some u → p u = false := by
  intro n
  induction n with
  | zero => intro i h; simp [scan_down] at h
  | succ n ih =>
    intro i h
    unfold scan_down at h
    cases hn : rt[n]? with
    | none =>
      rw [hn] at h
      obtain ⟨h1, h2⟩ := ih i h
      refine ⟨by omega, ?_⟩
      intro j u hij hj hu
      by_cases e : j = n
      · subst e
        rw [hn] at hu
        simp at hu
      · exact h2 j u hij (by omega) hu
    | some t =>
      rw [hn] at h
      simp only at h
      split at h
      · simp only [Option.some.injEq] at h
        subst h
        exact ⟨by omega, fun j u hij hj _ => by omega⟩
      · rename_i hp
        obtain ⟨h1, h2⟩ := ih i h
        refine ⟨by omega, ?_⟩
        intro j u hij hj hu
        by_cases e : j = n
        · subst e
          rw [hn] at hu
          simp only [Option.some.injEq] at hu
          subst hu
          simpa using hp
        · exact h2 j u hij (by omega) hu

theorem scan_up_none_spec (p : temp_reg_t → Bool) :
    ∀ (rt : List temp_reg_t) (k : Nat), scan_up p rt k = none → ∀ u ∈ rt, p u = false := by
  intro rt
  induction rt with
  | nil => intro k _ u hu; simp at hu
  | cons t ts ih =>
    intro k h u hu
    unfold scan_up at h
    split at h
    · simp at h
    · rename_i hp
      rcases List.mem_cons.mp hu with e | e
      · subst e
        simpa using hp
      · exact ih (k + 1) h u e

theorem scan_up_some_first (p : temp_reg_t → Bool) :
    ∀ (rt : List temp_reg_t) (k i : Nat), scan_up p rt k = some i →
      k ≤ i ∧ (∃ t, rt[i - k]? = some t ∧ p t = true) ∧
        ∀ (j : Nat) (u : temp_reg_t), j < i - k → rt[j]? = some u → p u = false := by
  intro rt
  induction rt with
  | nil => intro k i h; simp [scan_up] at h
  | cons t ts ih =>
    intro k i h
    unfold scan_up at h
    split at h
    · rename_i hp
      simp only [Option.some.injEq] at h
      subst h
      refine ⟨le_refl _, ⟨t, by simp, hp⟩, ?_⟩
      intro j u hj
      simp at hj
    · rename_i hp
      obtain ⟨h1, ⟨u, hu, hpu⟩, h3⟩ := ih (k + 1) i h
      have e : i - k = (i - (k + 1)) + 1 := by omega
      refine ⟨by omega, ⟨u, by rw [e]; simpa using hu, hpu⟩, ?_⟩
      intro j v hj hv
      cases j with
      | zero =>
        simp only [List.getElem?_cons_zero, Option.some.injEq] at hv
        subst hv
        simpa using hp
      | succ j =>
        simp only [List.getElem?_cons_succ] at hv
        exact h3 j v (by omega) hv

theorem rcache_evict_cached (s s1 : RCache) (i : Nat) (h : rcache_evict s = some (i, s1)) :
    ∃ t, s.reg_temp[i]? = some t ∧ is_cached t = true := by
  unfold rcache_evict at h
  split at h
  · simp at h
  · rename_i k hk
    split at h
    · simp at h
    · rename_i t ht
      have hik : i = k := by
        split at h <;>
          (simp only [Option.some.injEq, Prod.mk.injEq] at h; exact h.1.symm)
      subst hik
      rcases evict_scan_spec s.reg_temp 0 (none, 65535) with ⟨he, _⟩ | ⟨j, u, hu, hc, he, _⟩
      · rw [he] at hk
        simp at hk
      · rw [he] at hk
        simp only [Nat.zero_add, Option.some.injEq] at hk
        subst hk
        exact ⟨u, hu, hc⟩

theorem get_reg_alloc_shape (s s1 : RCache) (i r : Nat) (mode : rc_gr_mode) (hr : Int)
    (h : get_reg_alloc s i r mode = some (hr, s1)) :
    ∃ t, s.reg_temp[i]? = some t ∧ hr = t.reg ∧
      s1.rcache_counter = s.rcache_counter ∧
      s1.reg_temp = s.reg_temp.set i
        ⟨t.reg, if mode ≠ .RC_GR_READ then .HR_CACHED_DIRTY else .HR_CACHED,
          s.rcache_counter, r⟩ := by
  unfold get_reg_alloc at h
  split at h
  · simp at h
  · rename_i t ht
    simp only [Option.some.injEq, Prod.mk.injEq] at h
    obtain ⟨rfl, rfl⟩ := h
    refine ⟨t, ht, rfl, ?_, ?_⟩
    · by_cases hm : mode = .RC_GR_WRITE <;> simp [hm, RCache.emit]
    · by_cases hm : mode = .RC_GR_WRITE <;> simp [hm, RCache.emit]

/-- What `rcache_get_reg` does to the pool: nothing for a statically mapped register;
otherwise one slot is rewritten, either the highest slot caching `r` (stamp
refreshed, made dirty unless the mode is read) or, when no slot caches `r`, a
free or evicted cached slot that now caches `r`. -/
theorem rcache_get_reg_shape (cfg : Config) (s s1 : RCache) (r : Nat) (mode : rc_gr_mode)
    (hr : Int) (h : rcache_get_reg cfg s r mode = some (hr, s1)) :
    (cfg.reg_map_g2h r ≠ -1 ∧ s1 = s ∧ hr = cfg.reg_map_g2h r) ∨
    (cfg.reg_map_g2h r = -1 ∧ s1.rcache_counter = (s.rcache_counter + 1) % 65536 ∧
      ∃ i t, s.reg_temp[i]? = some t ∧ hr = t.reg ∧
        ((is_cached t = true ∧ t.val = r ∧
            s1.reg_temp = s.reg_temp.set i
              { t with
                stamp := (s.rcache_counter + 1) % 65536
                type := if mode ≠ .RC_GR_READ then .HR_CACHED_DIRTY else t.type }) ∨
          ((∀ (j : Nat) (u : temp_reg_t), s.reg_temp[j]? = some u →
              ¬ (is_cached u = true ∧ u.val = r)) ∧
            (is_free t = true ∨ is_cached t = true) ∧
            s1.reg_temp = s.reg_temp.set i
              ⟨t.reg, if mode ≠ .RC_GR_READ then .HR_CACHED_DIRTY else .HR_CACHED,
                (s.rcache_counter + 1) % 65536, r⟩))) := by
  unfold rcache_get_reg at h
  split at h
  · rename_i hst
    simp only [Option.some.injEq, Prod.mk.injEq] at h
    exact Or.inl ⟨hst, h.2.symm, h.1.symm⟩
  · rename_i hst
    right
    refine ⟨by simpa using hst, ?_⟩
    simp only at h
    split at h
    · rename_i i hscan
      obtain ⟨t, ht, hp⟩ := scan_down_some_spec _ _ _ _ hscan
      rw [ht] at h
      simp only [Option.some.injEq, Prod.mk.injEq] at h
      obtain ⟨rfl, rfl⟩ := h
      simp only [Bool.and_eq_true, beq_iff_eq] at hp
      exact ⟨rfl, i, t, ht, rfl, Or.inl ⟨hp.1, hp.2, rfl⟩⟩
    · rename_i hscan
      have hnone : ∀ (j : Nat) (u : temp_reg_t), s.reg_temp[j]? = some u →
          ¬ (is_cached u = true ∧ u.val = r) := by
        intro j u hu hc
        have hj : j < s.reg_temp.length := by
          by_contra hge
          rw [List.getElem?_eq_none (by omega)] at hu
          simp at hu
        have := scan_down_none_spec _ _ _ hscan j u hj hu
        simp [hc.1, hc.2] at this
      split at h
      · rename_i i hfree
        obtain ⟨t, ht, hp⟩ := scan_down_some_spec _ _ _ _ hfree
        obtain ⟨t2, ht2, hhr, hctr, hrt⟩ := get_reg_alloc_shape _ _ _ _ _ _ h
        rw [ht] at ht2
        simp only [Option.some.injEq] at ht2
        subst ht2
        exact ⟨hctr, i, t, ht, hhr, Or.inr ⟨hnone, Or.inl hp, hrt⟩⟩
      · split at h
        · simp at h
        · rename_i i s2 hev
          obtain ⟨t, ht, hc⟩ := rcache_evict_cached _ _ _ hev
          obtain ⟨hrt2, hctr2, _⟩ := rcache_evict_frame _ _ _ hev
          obtain ⟨t2, ht2, hhr, hctr, hrt⟩ := get_reg_alloc_shape _ _ _ _ _ _ h
          rw [hrt2] at ht2 hrt
          rw [ht] at ht2
          simp only [Option.some.injEq] at ht2
          subst ht2
          rw [hctr2] at hctr hrt
          exact ⟨hctr, i, t, ht, hhr, Or.inr ⟨hnone, Or.inr hc, hrt⟩⟩

theorem scan_up_eq_some (p : temp_reg_t → Bool) :
    ∀ (rt : List temp_reg_t) (k i : Nat) (t : temp_reg_t), rt[i]? = some t → p t = true →
      (∀ (j : Nat) (u : temp_reg_t), j < i → rt[j]? = some u → p u = false) →
      scan_up p rt k = some (k + i) := by
  intro rt
  induction rt with
  | nil => intro k i t hi; simp at hi
  | cons a as ih =>
    intro k i t hi hp hlt
    unfold scan_up
    cases i with
    | zero =>
      simp only [List.getElem?_cons_zero, Option.some.injEq] at hi
      subst hi
      simp [hp]
    | succ i =>
      have ha : p a = false := hlt 0 a (by omega) (by simp)
      simp only [List.getElem?_cons_succ] at hi
      rw [ha]
      simp only [Bool.false_eq_true, if_false]
      rw [ih (k + 1) i t hi hp (fun j u hj hu => hlt (j + 1) u (by omega) (by simpa using hu))]
      congr 1
      omega

theorem reg_index_unique (rt : List temp_reg_t) (hnd : (rt.map (fun t => t.reg)).Nodup)
    (i j : Nat) (t u : temp_reg_t) (hi : rt[i]? = some t) (hj : rt[j]? = some u)
    (he : u.reg = t.reg) : i = j := by
  have hi2 : (rt.map (fun t => t.reg))[i]? = some t.reg := by simp [List.getElem?_map, hi]
  have hj2 : (rt.map (fun t => t.reg))[j]? = some t.reg := by simp [List.getElem?_map, hj, he]
  have hlen : ∀ (k : Nat) (v : temp_reg_t), rt[k]? = some v →
      k < (rt.map (fun t => t.reg)).length := by
    intro k v hk
    by_contra hge
    rw [List.getElem?_eq_none (by simpa using hge)] at hk
    simp at hk
  have hnn := List.nodup_iff_getElem?_ne_getElem?.mp hnd
  rcases Nat.lt_trichotomy i j with h | h | h
  · exact absurd (hi2.trans hj2.symm) (hnn i j h (hlen j u hj))
  · exact h
  · exact absurd (hj2.trans hi2.symm) (hnn j i h (hlen i t hi))

theorem rcache_get_tmp_shape (s s1 : RCache) (hr : Int) (h : rcache_get_tmp s = some (hr, s1)) :
    ∃ i t, s.reg_temp[i]? = some t ∧ hr = t.reg ∧
      ((is_free t = true ∧
          (∀ (j : Nat) (u : temp_reg_t), j < i → s.reg_temp[j]? = some u → is_free u = false) ∧
          s1.code = s.code) ∨
        (is_cached t = true ∧ (∀ u ∈ s.reg_temp, is_free u = false) ∧
          ∃ s2, rcache_evict s = some (i, s2) ∧ s1.code = s2.code)) ∧
      s1.rcache_counter = s.rcache_counter ∧
      s1.reg_temp = s.reg_temp.set i { t with type := .HR_TEMP } := by
  unfold rcache_get_tmp at h
  cases hsc : scan_up is_free s.reg_temp 0 with
  | some i =>
    rw [hsc] at h
    simp only at h
    obtain ⟨_, ⟨t, ht, hp⟩, hfirst⟩ := scan_up_some_first _ _ _ _ hsc
    simp only [Nat.sub_zero] at ht hfirst
    rw [ht] at h
    simp only [Option.some.injEq, Prod.mk.injEq] at h
    obtain ⟨rfl, rfl⟩ := h
    exact ⟨i, t, ht, rfl, Or.inl ⟨hp, hfirst, rfl⟩, rfl, rfl⟩
  | none =>
    rw [hsc] at h
    simp only at h
    cases hev : rcache_evict s with
    | none => rw [hev] at h; simp at h
    | some r =>
      obtain ⟨i, s2⟩ := r
      rw [hev] at h
      simp only at h
      obtain ⟨t, ht, hc⟩ := rcache_evict_cached _ _ _ hev
      obtain ⟨hrt, hctr, _⟩ := rcache_evict_frame _ _ _ hev
      rw [hrt, ht] at h
      simp only [Option.some.injEq, Prod.mk.injEq] at h
      obtain ⟨rfl, rfl⟩ := h
      refine ⟨i, t, ht, rfl, Or.inr ⟨hc, scan_up_none_spec _ _ _ hsc, s2, rfl, rfl⟩, hctr, ?_⟩
      simp only

theorem rcache_free_tmp_shape (s : RCache) (hr : Int) :
    rcache_free_tmp s hr = s ∨
      ∃ i t, s.reg_temp[i]? = some t ∧ t.type = .HR_TEMP ∧ (t.reg : Int) = hr ∧
        rcache_free_tmp s hr = { s with reg_temp := s.reg_temp.set i { t with type := .HR_FREE } } := by
  unfold rcache_free_tmp
  cases hsc : scan_up (fun t => decide ((t.reg : Int) = hr)) s.reg_temp 0 with
  | none => exact Or.inl rfl
  | some i =>
    simp only
    obtain ⟨_, ⟨t, ht, hp⟩, _⟩ := scan_up_some_first _ _ _ _ hsc
    simp only [Nat.sub_zero] at ht
    rw [ht]
    simp only
    by_cases hty : t.type = .HR_TEMP
    · right
      refine ⟨i, t, ht, hty, by simpa using hp, ?_⟩
      simp [hty]
    · left
      simp [hty]

theorem rcache_free_tmp_noop (s : RCache) (hr : Int)
    (h : ∀ u ∈ s.reg_temp, (u.reg : Int) = hr → u.type ≠ .HR_TEMP) : rcache_free_tmp s hr = s := by
  rcases rcache_free_tmp_shape s hr with h1 | ⟨i, t, ht, hty, hreg, _⟩
  · exact h1
  · exact absurd hty (h t (List.getElem?_mem ht) hreg)

theorem rcache_get_arg_id_shape (cfg : Config) (s s1 : RCache) (arg id : Nat)
    (h : rcache_get_arg_id cfg s arg = some (id, s1)) :
    s1.reg_temp = s.reg_temp ∧ s1.rcache_counter = s.rcache_counter := by
  unfold rcache_get_arg_id at h
  simp only at h
  split at h
  · simp only [Option.some.injEq, Prod.mk.injEq] at h
    rw [← h.2]
    exact ⟨rfl, rfl⟩
  · split at h
    · simp at h
    · split at h
      · simp only [Option.some.injEq, Prod.mk.injEq] at h
        rw [← h.2]
        exact ⟨rfl, rfl⟩
      · split at h
        · simp at h
        · simp only [Option.some.injEq, Prod.mk.injEq] at h
          rw [← h.2]
          exact ⟨rfl, rfl⟩

theorem rcache_get_arg_id_tracked (cfg : Config) (s : RCache) (arg i : Nat) (t : temp_reg_t)
    (hi : s.reg_temp[i]? = some t) (hreg : t.reg = cfg.host_arg2reg arg)
    (hfirst : ∀ (j : Nat) (u : temp_reg_t), j < i → s.reg_temp[j]? = some u →
      u.reg ≠ cfg.host_arg2reg arg)
    (htemp : t.type ≠ .HR_TEMP) :
    rcache_get_arg_id cfg s arg =
      some (i, { s with code := s.code ++
        (if t.type = .HR_CACHED_DIRTY then [emith_ctx_write t.reg (ctx_offs t.val)] else []) }) := by
  have hsc : scan_up (fun u => u.reg == cfg.host_arg2reg arg) s.reg_temp 0 = some i := by
    have := scan_up_eq_some (fun u => u.reg == cfg.host_arg2reg arg) s.reg_temp 0 i t hi
      (by simp [hreg]) (fun j u hj hu => by simpa using hfirst j u hj hu)
    simpa using this
  unfold rcache_get_arg_id
  simp only [hsc, hi]
  by_cases hd : t.type = .HR_CACHED_DIRTY
  · simp [hd, RCache.emit]
  · simp [hd, htemp]

theorem rcache_get_reg_arg_tracked (cfg : Config) (s : RCache) (arg r i : Nat) (t : temp_reg_t)
    (hi : s.reg_temp[i]? = some t) (hreg : t.reg = cfg.host_arg2reg arg)
    (hfirst : ∀ (j : Nat) (u : temp_reg_t), j < i → s.reg_temp[j]? = some u →
      u.reg ≠ cfg.host_arg2reg arg)
    (htemp : t.type ≠ .HR_TEMP) :
    rcache_get_reg_arg cfg s arg r =
      some ((t.reg : Int),
        { reg_temp := s.reg_temp.set i ⟨t.reg, .HR_CACHED, (s.rcache_counter + 1) % 65536, r⟩
          rcache_counter := (s.rcache_counter + 1) % 65536
          code := s.code ++
            (if t.type = .HR_CACHED_DIRTY then [emith_ctx_write t.reg (ctx_offs t.val)] else []) ++
            Option.elim
              (if cfg.reg_map_g2h r ≠ -1 then some (cfg.reg_map_g2h r)
                else
                  Option.bind
                    (scan_down (fun u => is_cached u && u.val == r) s.reg_temp s.reg_temp.length)
                    (fun j => (s.reg_temp[j]?).map (fun u => (u.reg : Int))))
              [emith_ctx_read t.reg (r * 4)]
              (fun srcr =>
                if srcr ≠ (t.reg : Int) then [⟨.move_r_r, [(t.reg : Int), srcr]⟩] else []) }) := by
  unfold rcache_get_reg_arg
  simp only [rcache_get_arg_id_tracked cfg s arg i t hi hreg hfirst htemp, hi]
  by_cases hst : cfg.reg_map_g2h r = -1
  · simp only [hst, ne_eq, not_true_eq_false, if_false]
    obtain ⟨x, hx⟩ : ∃ x, scan_down (fun u => is_cached u && u.val == r) s.reg_temp
        s.reg_temp.length = x := ⟨_, rfl⟩
    simp only [hx]
    cases x with
    | none => simp [RCache.emit]
    | some j =>
      obtain ⟨y, hy⟩ : ∃ y, s.reg_temp[j]? = y := ⟨_, rfl⟩
      simp only [hy]
      cases y with
      | none => simp [hy, RCache.emit]
      | some u =>
        by_cases hne : (u.reg : Int) = (t.reg : Int) <;> simp [hy, hne, RCache.emit]
  · simp only [hst, ne_eq, not_false_eq_true, if_true]
    by_cases hne : cfg.reg_map_g2h r = (t.reg : Int) <;> simp [hne, RCache.emit]

/-- C13: when the host register of argument `n` is pool slot `i` (the first slot with
that register) and the slot is not a temporary, `rcache_get_reg_arg(n, r)`
returns that host register.  It emits, in this order: the context write of
the slot's old guest register when the slot was dirty; then a move from
`reg_map_g2h[r]` when `r` is statically mapped, else a move from the
highest-index slot caching `r`, in both cases only when the source differs
from the argument register, else (no slot caches `r`) a context read of `r`
into the argument register.  The slot ends as a clean cache of `r` stamped
with the incremented counter; no other slot changes. -/
theorem rcache_get_reg_arg_spec (cfg : Config) (s : RCache) (n r i : Nat) (t : temp_reg_t)
    (hi : s.reg_temp[i]? = some t) (hreg : t.reg = cfg.host_arg2reg n)
    (hfirst : ∀ (j : Nat) (u : temp_reg_t), j < i → s.reg_temp[j]? = some u →
      u.reg ≠ cfg.host_arg2reg n)
    (htemp : t.type ≠ .HR_TEMP) :
    ∃ src : List Emit,
      rcache_get_reg_arg cfg s n r =
        some ((cfg.host_arg2reg n : Int),
          { reg_temp := s.reg_temp.set i
              ⟨cfg.host_arg2reg n, .HR_CACHED, (s.rcache_counter + 1) % 65536, r⟩
            rcache_counter := (s.rcache_counter + 1) % 65536
            code := s.code ++
              (if t.type = .HR_CACHED_DIRTY
                then [emith_ctx_write (cfg.host_arg2reg n) (t.val * 4 % 4294967296)] else []) ++
              src }) ∧
      (cfg.reg_map_g2h r ≠ -1 →
        src = if cfg.reg_map_g2h r ≠ (cfg.host_arg2reg n : Int)
          then [⟨.move_r_r, [(cfg.host_arg2reg n : Int), cfg.reg_map_g2h r]⟩] else []) ∧
      (cfg.reg_map_g2h r = -1 →
        ∀ (j : Nat) (u : temp_reg_t), s.reg_temp[j]? = some u → is_cached u = true → u.val = r →
          (∀ (k : Nat) (v : temp_reg_t), j < k → s.reg_temp[k]? = some v →
            ¬ (is_cached v = true ∧ v.val = r)) →
          src = if (u.reg : Int) ≠ (cfg.host_arg2reg n : Int)
            then [⟨.move_r_r, [(cfg.host_arg2reg n : Int), (u.reg : Int)]⟩] else []) ∧
      (cfg.reg_map_g2h r = -1 →
        (∀ (j : Nat) (u : temp_reg_t), s.reg_temp[j]? = some u →
          ¬ (is_cached u = true ∧ u.val = r)) →
        src = [emith_ctx_read (cfg.host_arg2reg n) (r * 4)]) := by
  have hmain := rcache_get_reg_arg_tracked cfg s n r i t hi hreg hfirst htemp
  rw [hreg] at hmain
  refine ⟨Option.elim
      (if cfg.reg_map_g2h r ≠ -1 then some (cfg.reg_map_g2h r)
        else
          Option.bind
            (scan_down (fun u => is_cached u && u.val == r) s.reg_temp s.reg_temp.length)
            (fun j => (s.reg_temp[j]?).map (fun u => (u.reg : Int))))
      [emith_ctx_read (cfg.host_arg2reg n) (r * 4)]
      (fun srcr =>
        if srcr ≠ (cfg.host_arg2reg n : Int)
          then [⟨.move_r_r, [(cfg.host_arg2reg n : Int), srcr]⟩] else []), ?_, ?_, ?_, ?_⟩
  · rw [hmain]
    rfl
  · intro hst
    simp only [hst, ne_eq, not_false_eq_true, if_true, Option.elim]
  · intro hst j u hu hc hv hmax
    have hlen : j < s.reg_temp.length := by
      by_contra hge
      rw [List.getElem?_eq_none (by omega)] at hu
      simp at hu
    have hsc := scan_down_eq_some (fun u => is_cached u && u.val == r) s.reg_temp
      s.reg_temp.length j u hu (by simp [hc, hv]) hlen
      (fun k v hk hv2 => by
        have := hmax k v hk hv2
        by_cases hcv : is_cached v = true
        · have hne : ¬ v.val = r := fun e => this ⟨hcv, e⟩
          simp [hne]
        · simp [hcv])
    simp only [hst, ne_eq, not_true_eq_false, if_false, hsc, hu, Option.map_some',
      Option.some_bind, Option.elim]
  · intro hst hnone
    have hsc := scan_down_eq_none (fun u => is_cached u && u.val == r) s.reg_temp
      s.reg_temp.length
      (fun j u hu => by
        have := hnone j u hu
        by_cases hcv : is_cached u = true
        · have hne : ¬ u.val = r := fun e => this ⟨hcv, e⟩
          simp [hne]
        · simp [hcv])
    simp only [hst, ne_eq, not_true_eq_false, if_false, hsc, Option.none_bind, Option.elim]

theorem rcache_get_reg_arg_spec_witness :
    ∃ src : List Emit,
      rcache_get_reg_arg arm_cfg
          ⟨[⟨0, .HR_CACHED_DIRTY, 3, 7⟩, ⟨1, .HR_FREE, 0, 0⟩, ⟨12, .HR_CACHED_DIRTY, 5, 9⟩], 5, []⟩
          0 9 =
        some ((arm_cfg.host_arg2reg 0 : Int),
          { reg_temp := [⟨0, .HR_CACHED, 6, 9⟩, ⟨1, .HR_FREE, 0, 0⟩, ⟨12, .HR_CACHED_DIRTY, 5, 9⟩]
            rcache_counter := 6
            code := [emith_ctx_write 0 28] ++ src }) ∧
      src = [⟨.move_r_r, [0, 12]⟩] := by
  obtain ⟨src, h1, _, h3, _⟩ := rcache_get_reg_arg_spec arm_cfg
    ⟨[⟨0, .HR_CACHED_DIRTY, 3, 7⟩, ⟨1, .HR_FREE, 0, 0⟩, ⟨12, .HR_CACHED_DIRTY, 5, 9⟩], 5, []⟩
    0 9 0 ⟨0, .HR_CACHED_DIRTY, 3, 7⟩ rfl rfl (fun j u hj => by omega) (by decide)
  refine ⟨src, ?_, ?_⟩
  · rw [h1]
    rfl
  · have := h3 (by decide) 2 ⟨12, .HR_CACHED_DIRTY, 5, 9⟩ rfl rfl rfl
      (fun k v hk hv => by
        have : ([⟨0, .HR_CACHED_DIRTY, 3, 7⟩, ⟨1, .HR_FREE, 0, 0⟩,
            ⟨12, .HR_CACHED_DIRTY, 5, 9⟩] : List temp_reg_t)[k]? = none :=
          List.getElem?_eq_none (by simp; omega)
        simp only at hv
        rw [this] at hv
        simp at hv)
    rw [this]
    rfl

/-- C14: `rcache_get_tmp` takes the lowest-index free (or constant) slot, else the slot
`rcache_evict` hands back; the slot was not a temporary, and is one afterwards
with its host register returned.  While it is a temporary, `rcache_get_reg`
leaves the slot as it is and (for a guest register without static mapping)
returns another host register.  `rcache_free_tmp` on the returned register
then sets exactly this slot to free, and `rcache_free_tmp` on a register
whose slot is not a temporary changes nothing.  (The host registers of the
pool are pairwise distinct.) -/
theorem rcache_get_tmp_spec (s s1 : RCache) (hr : Int)
    (hnd : (s.reg_temp.map (fun t => t.reg)).Nodup)
    (hg : rcache_get_tmp s = some (hr, s1)) :
    ∃ i t, s.reg_temp[i]? = some t ∧ t.type ≠ .HR_TEMP ∧ hr = t.reg ∧
      ((is_free t = true ∧
          ∀ (j : Nat) (u : temp_reg_t), j < i → s.reg_temp[j]? = some u → is_free u = false) ∨
        ((∀ u ∈ s.reg_temp, is_free u = false) ∧ ∃ s2, rcache_evict s = some (i, s2))) ∧
      s1.reg_temp = s.reg_temp.set i { t with type := .HR_TEMP } ∧
      s1.rcache_counter = s.rcache_counter ∧
      (∀ (cfg : Config) (r : Nat) (mode : rc_gr_mode) (hr2 : Int) (s3 : RCache),
        rcache_get_reg cfg s1 r mode = some (hr2, s3) →
        s3.reg_temp[i]? = some { t with type := .HR_TEMP } ∧
          (cfg.reg_map_g2h r = -1 → hr2 ≠ hr)) ∧
      rcache_free_tmp s1 hr =
        { s1 with reg_temp := s1.reg_temp.set i { t with type := .HR_FREE } } ∧
      (∀ (s4 : RCache) (hr4 : Int),
        (∀ u ∈ s4.reg_temp, (u.reg : Int) = hr4 → u.type ≠ .HR_TEMP) →
        rcache_free_tmp s4 hr4 = s4) := by
  obtain ⟨i, t, ht, hhr, hcase, hctr, hrt⟩ := rcache_get_tmp_shape s s1 hr hg
  have hlen : i < s.reg_temp.length := by
    by_contra hge
    rw [List.getElem?_eq_none (by omega)] at ht
    simp at ht
  have hnt : t.type ≠ .HR_TEMP := by
    rcases hcase with ⟨hf, _⟩ | ⟨hc, _⟩
    · intro e; simp [is_free, e] at hf
    · intro e; simp [is_cached, e] at hc
  have hs1i : s1.reg_temp[i]? = some { t with type := .HR_TEMP } := by
    rw [hrt]
    exact List.getElem?_set_self hlen
  have hs1j : ∀ (j : Nat), j ≠ i → s1.reg_temp[j]? = s.reg_temp[j]? := by
    intro j hj
    rw [hrt]
    exact List.getElem?_set_ne (Ne.symm hj)
  refine ⟨i, t, ht, hnt, hhr, ?_, hrt, hctr, ?_, ?_, rcache_free_tmp_noop⟩
  · rcases hcase with ⟨hf, hfirst, _⟩ | ⟨_, hnf, s2, hev, _⟩
    · exact Or.inl ⟨hf, hfirst⟩
    · exact Or.inr ⟨hnf, s2, hev⟩
  · intro cfg r mode hr2 s3 hget
    rcases rcache_get_reg_shape cfg s1 s3 r mode hr2 hget with
      ⟨_, rfl, _⟩ | ⟨hun, _, j, u, hu, hhr2, hupd⟩
    · exact ⟨hs1i, fun hm => absurd hm (by assumption)⟩
    · have hji : j ≠ i := by
        intro e
        subst e
        rw [hs1i] at hu
        simp only [Option.some.injEq] at hu
        subst hu
        rcases hupd with ⟨hc, _⟩ | ⟨_, hfc, _⟩
        · simp [is_cached] at hc
        · rcases hfc with hf | hc
          · simp [is_free] at hf
          · simp [is_cached] at hc
      constructor
      · rcases hupd with ⟨_, _, e⟩ | ⟨_, _, e⟩ <;>
          (rw [e, List.getElem?_set_ne hji]; exact hs1i)
      · intro _ heq
        rw [hs1j j hji] at hu
        have : (u.reg : Int) = (t.reg : Int) := by rw [← hhr2, ← hhr, heq]
        exact hji (reg_index_unique s.reg_temp hnd i j t u ht hu (by exact_mod_cast this)).symm
  · rcases rcache_free_tmp_shape s1 hr with hsame | ⟨j, u, hu, hty, hreg, hfree⟩
    · exfalso
      unfold rcache_free_tmp at hsame
      have hsc : scan_up (fun v => decide ((v.reg : Int) = hr)) s1.reg_temp 0 = some (0 + i) := by
        apply scan_up_eq_some _ _ 0 i _ hs1i (by simp [hhr])
        intro k v hk hv
        rw [hs1j k (by omega)] at hv
        have hne : ¬ ((v.reg : Int) = hr) := by
          intro e
          rw [hhr] at e
          have := reg_index_unique s.reg_temp hnd i k t v ht hv (by exact_mod_cast e)
          omega
        simp [hne]
      simp only [Nat.zero_add] at hsc
      rw [hsc] at hsame
      simp only [hs1i] at hsame
      simp only [ne_eq, not_true_eq_false, if_false] at hsame
      have hl := congrArg (fun x => x.reg_temp[i]?) hsame
      simp only at hl
      rw [List.getElem?_set_self (by rw [hrt]; simpa using hlen), hs1i] at hl
      simp at hl
    · have hji : j = i := by
        by_contra hne
        rw [hs1j j hne] at hu
        rw [hhr] at hreg
        exact hne (reg_index_unique s.reg_temp hnd i j t u ht hu (by exact_mod_cast hreg)).symm
      subst hji
      rw [hs1i] at hu
      simp only [Option.some.injEq] at hu
      subst hu
      rw [hfree]

theorem rcache_get_tmp_spec_witness :
    ∃ i t, reg_temp_arm[i]? = some t ∧ t.type ≠ .HR_TEMP ∧ (0 : Int) = t.reg ∧
      rcache_free_tmp ⟨reg_temp_arm.set 0 ⟨0, .HR_TEMP, 0, 0⟩, 0, []⟩ 0 =
        { reg_temp := (reg_temp_arm.set 0 ⟨0, .HR_TEMP, 0, 0⟩).set i { t with type := .HR_FREE }
          rcache_counter := 0, code := [] } := by
  obtain ⟨i, t, h1, h2, h3, _, _, _, _, h4, _⟩ :=
    rcache_get_tmp_spec ⟨reg_temp_arm, 0, []⟩ ⟨reg_temp_arm.set 0 ⟨0, .HR_TEMP, 0, 0⟩, 0, []⟩ 0
      (by decide) (by decide)
  exact ⟨i, t, h1, h2, h3, h4⟩

/-! ## Invariants of the register cache over sequences of calls -/

theorem getElem?_set_cases (rt : List temp_reg_t) (i a : Nat) (t1 ta : temp_reg_t)
    (h : (rt.set i t1)[a]? = some ta) :
    (a = i ∧ ta = t1) ∨ (a ≠ i ∧ rt[a]? = some ta) := by
  rw [List.getElem?_set] at h
  by_cases e : i = a
  · rw [if_pos e] at h
    split at h
    · simp only [Option.some.injEq] at h
      exact Or.inl ⟨e.symm, h.symm⟩
    · simp at h
  · rw [if_neg e] at h
    exact Or.inr ⟨fun e2 => e e2.symm, h⟩

theorem rcache_get_tmp_arg_shape (cfg : Config) (s s1 : RCache) (arg : Nat) (hr : Int)
    (h : rcache_get_tmp_arg cfg s arg = some (hr, s1)) :
    ∃ id t, s.reg_temp[id]? = some t ∧
      s1.reg_temp = s.reg_temp.set id { t with type := .HR_TEMP } := by
  unfold rcache_get_tmp_arg at h
  split at h
  · simp at h
  · rename_i id s2 hid
    obtain ⟨hrt, _⟩ := rcache_get_arg_id_shape cfg s s2 arg id hid
    split at h
    · simp at h
    · rename_i t ht
      simp only [Option.some.injEq, Prod.mk.injEq] at h
      obtain ⟨_, rfl⟩ := h
      rw [hrt] at ht
      exact ⟨id, t, ht, by simp only; rw [hrt]⟩

theorem rcache_get_reg_arg_shape (cfg : Config) (s s1 : RCache) (arg r : Nat) (hr : Int)
    (h : rcache_get_reg_arg cfg s arg r = some (hr, s1)) :
    ∃ id t, s.reg_temp[id]? = some t ∧
      s1.reg_temp = s.reg_temp.set id ⟨t.reg, .HR_CACHED, (s.rcache_counter + 1) % 65536, r⟩ := by
  unfold rcache_get_reg_arg at h
  split at h
  · simp at h
  · rename_i id s2 hid
    obtain ⟨hrt, hctr⟩ := rcache_get_arg_id_shape cfg s s2 arg id hid
    split at h
    · simp at h
    · rename_i t ht
      simp only [Option.some.injEq, Prod.mk.injEq] at h
      obtain ⟨_, rfl⟩ := h
      rw [hrt] at ht
      refine ⟨id, t, ht, ?_⟩
      by_cases hst : cfg.reg_map_g2h r = -1
      · simp only [hst, ne_eq, not_true_eq_false, if_false]
        obtain ⟨x, hx⟩ : ∃ x, scan_down (fun u => is_cached u && u.val == r) s2.reg_temp
            s2.reg_temp.length = x := ⟨_, rfl⟩
        simp only [hx]
        cases x with
        | none => simp [RCache.emit, hrt, hctr]
        | some j =>
          obtain ⟨y, hy⟩ : ∃ y, s2.reg_temp[j]? = y := ⟨_, rfl⟩
          simp only [hy]
          cases y with
          | none => simp [RCache.emit, hrt, hctr]
          | some u =>
            by_cases hne : (u.reg : Int) = (t.reg : Int) <;> simp [hne, RCache.emit, hrt, hctr]
      · simp only [hst, ne_eq, not_false_eq_true, if_true]
        by_cases hne : cfg.reg_map_g2h r = (t.reg : Int) <;> simp [hne, RCache.emit, hrt, hctr]

theorem rcache_clean_reg_temp (s : RCache) :
    (rcache_clean s).reg_temp = s.reg_temp.map
      (fun t => if t.type = .HR_CACHED_DIRTY then { t with type := .HR_CACHED } else t) := by
  unfold rcache_clean
  rw [clean_slots_eq]

theorem cached_once_spec (rt : List temp_reg_t) (r : Nat) (h : cached_once rt r = true)
    (i j : Nat) (ti tj : temp_reg_t) (hi : rt[i]? = some ti) (hj : rt[j]? = some tj)
    (hci : is_cached ti = true) (hvi : ti.val = r) (hcj : is_cached tj = true)
    (hvj : tj.val = r) : i = j := by
  have hlen : ∀ (k : Nat) (v : temp_reg_t), rt[k]? = some v → k < rt.length := by
    intro k v hk
    by_contra hge
    rw [List.getElem?_eq_none (by omega)] at hk
    simp at hk
  unfold cached_once at h
  rw [List.all_eq_true] at h
  have h1 := h i (List.mem_range.mpr (hlen i ti hi))
  rw [List.all_eq_true] at h1
  have h2 := h1 j (List.mem_range.mpr (hlen j tj hj))
  simp only [caches_at, hi, hj, hci, hvi, hcj, hvj, beq_self_eq_true, Bool.and_self,
    Bool.not_true, Bool.false_or, beq_iff_eq] at h2
  exact h2

theorem dirty_unique_set (rt : List temp_reg_t) (i : Nat) (t1 : temp_reg_t)
    (h : dirty_unique rt)
    (hfresh : t1.type = .HR_CACHED_DIRTY → ∀ (j : Nat) (u : temp_reg_t), j ≠ i →
      rt[j]? = some u → u.type = .HR_CACHED_DIRTY → u.val ≠ t1.val) :
    dirty_unique (rt.set i t1) := by
  intro a b ta tb ha hb hda hdb hv
  rcases getElem?_set_cases rt i a t1 ta ha with ⟨ea, rfl⟩ | ⟨na, ha2⟩
  · rcases getElem?_set_cases rt i b ta tb hb with ⟨eb, _⟩ | ⟨nb, hb2⟩
    · rw [ea, eb]
    · exact absurd hv.symm (hfresh hda b tb nb hb2 hdb)
  · rcases getElem?_set_cases rt i b t1 tb hb with ⟨eb, rfl⟩ | ⟨nb, hb2⟩
    · exact absurd hv (hfresh hdb a ta na ha2 hda)
    · exact h a b ta tb ha2 hb2 hda hdb hv

theorem dirty_unique_of_none (rt : List temp_reg_t)
    (h : ∀ t ∈ rt, t.type ≠ .HR_CACHED_DIRTY) : dirty_unique rt := by
  intro a b ta tb ha _ hda
  exact absurd hda (h ta (List.getElem?_mem ha))

theorem clean_no_dirty (s : RCache) : ∀ t ∈ (rcache_clean s).reg_temp, t.type ≠ .HR_CACHED_DIRTY := by
  intro t ht
  rw [rcache_clean_reg_temp, List.mem_map] at ht
  obtain ⟨u, _, rfl⟩ := ht
  by_cases hd : u.type = .HR_CACHED_DIRTY <;> simp [hd]

theorem invalidate_all_free (s : RCache) : ∀ t ∈ (rcache_invalidate s).reg_temp, t.type = .HR_FREE := by
  intro t ht
  unfold rcache_invalidate at ht
  simp only [List.mem_map] at ht
  obtain ⟨u, _, rfl⟩ := ht
  rfl

theorem dirty_unique_step (cfg : Config) (s s1 : RCache) (op : RcOp)
    (h : dirty_unique s.reg_temp)
    (hg : ∀ r mode, op = .get_reg r mode → mode = .RC_GR_READ ∨ cached_once s.reg_temp r = true)
    (hs : rc_step cfg s op = some s1) : dirty_unique s1.reg_temp := by
  cases op with
  | get_reg r mode =>
    simp only [rc_step, Option.map_eq_some'] at hs
    obtain ⟨⟨hr, s2⟩, hget, rfl⟩ := hs
    rcases rcache_get_reg_shape cfg s s2 r mode hr hget with
      ⟨_, rfl, _⟩ | ⟨_, _, i, t, ht, _, hupd⟩
    · exact h
    · rcases hupd with ⟨hc, hv, e⟩ | ⟨hnone, _, e⟩
      · simp only
        rw [e]
        apply dirty_unique_set _ _ _ h
        intro hd j u hj hu hud huv
        simp only at huv
        by_cases hm : mode = .RC_GR_READ
        · simp only [hm, ne_eq, not_true_eq_false, if_false] at hd
          exact hj (h j i u t hu ht hud hd huv)
        · rcases hg r mode rfl with hread | honce
          · exact hm hread
          · have hcu : is_cached u = true := by simp [is_cached, hud]
            exact hj (cached_once_spec _ r honce j i u t hu ht hcu (huv.trans hv) hc hv)
      · simp only
        rw [e]
        apply dirty_unique_set _ _ _ h
        intro _ j u _ hu hud huv
        exact hnone j u hu ⟨by simp [is_cached, hud], huv⟩
  | get_tmp =>
    simp only [rc_step, Option.map_eq_some'] at hs
    obtain ⟨⟨hr, s2⟩, hget, rfl⟩ := hs
    obtain ⟨i, t, _, _, _, _, e⟩ := rcache_get_tmp_shape s s2 hr hget
    simp only
    rw [e]
    exact dirty_unique_set _ _ _ h (fun hd => by simp at hd)
  | get_tmp_arg arg =>
    simp only [rc_step, Option.map_eq_some'] at hs
    obtain ⟨⟨hr, s2⟩, hget, rfl⟩ := hs
    obtain ⟨i, t, _, e⟩ := rcache_get_tmp_arg_shape cfg s s2 arg hr hget
    simp only
    rw [e]
    exact dirty_unique_set _ _ _ h (fun hd => by simp at hd)
  | get_reg_arg arg r =>
    simp only [rc_step, Option.map_eq_some'] at hs
    obtain ⟨⟨hr, s2⟩, hget, rfl⟩ := hs
    obtain ⟨i, t, _, e⟩ := rcache_get_reg_arg_shape cfg s s2 arg r hr hget
    simp only
    rw [e]
    exact dirty_unique_set _ _ _ h (fun hd => by simp at hd)
  | free_tmp hr =>
    simp only [rc_step, Option.some.injEq] at hs
    subst hs
    rcases rcache_free_tmp_shape s hr with e | ⟨i, t, _, _, _, e⟩
    · rw [e]; exact h
    · rw [e]
      exact dirty_unique_set _ _ _ h (fun hd => by simp at hd)
  | clean =>
    simp only [rc_step, Option.some.injEq] at hs
    subst hs
    exact dirty_unique_of_none _ (clean_no_dirty s)
  | invalidate =>
    simp only [rc_step, Option.some.injEq] at hs
    subst hs
    exact dirty_unique_of_none _ (fun t ht => by rw [invalidate_all_free s t ht]; decide)

theorem dirty_unique_run (cfg : Config) :
    ∀ (ops : List RcOp) (s s1 : RCache), dirty_unique s.reg_temp →
      writes_unshared cfg s ops = true → rc_run cfg s ops = some s1 →
      dirty_unique s1.reg_temp := by
  intro ops
  induction ops with
  | nil =>
    intro s s1 h _ hr
    simp only [rc_run, Option.some.injEq] at hr
    rw [← hr]; exact h
  | cons op ops ih =>
    intro s s1 h hw hr
    unfold rc_run at hr
    unfold writes_unshared at hw
    cases hstep : rc_step cfg s op with
    | none => rw [hstep] at hr; simp at hr
    | some s2 =>
      rw [hstep] at hr hw
      simp only [Bool.and_eq_true] at hw
      have hg : ∀ r mode, op = .get_reg r mode →
          mode = .RC_GR_READ ∨ cached_once s.reg_temp r = true := by
        intro r mode e
        subst e
        simpa using hw.1
      exact ih s2 s1 (dirty_unique_step cfg s s2 op h hg hstep) hw.2 hr

/-- C11, counterexample: on the ARM pool, after `rcache_invalidate`, three guest
registers are taken for writing (slots 5, 4, 3), `rcache_get_reg_arg(2, 7)`
copies guest register 7 into the slot of host register 2 (slot 4), and
`rcache_get_reg(7, write)` then finds that copy first: slots 3 and 4 both cache
guest register 7 dirty. -/
theorem rcache_two_dirty_slots :
    (rc_run arm_cfg (rcache_invalidate ⟨reg_temp_arm, 0, []⟩)
        [.get_reg 5 .RC_GR_WRITE, .get_reg 6 .RC_GR_WRITE, .get_reg 7 .RC_GR_WRITE,
          .get_reg_arg 2 7, .get_reg 7 .RC_GR_WRITE]).map (fun s => s.reg_temp) =
      some [⟨0, .HR_FREE, 0, 0⟩, ⟨1, .HR_FREE, 0, 0⟩, ⟨12, .HR_FREE, 0, 0⟩,
        ⟨14, .HR_CACHED_DIRTY, 3, 7⟩, ⟨2, .HR_CACHED_DIRTY, 5, 7⟩,
        ⟨3, .HR_CACHED_DIRTY, 1, 5⟩] := by
  decide

/-- C11 (as the code has it): in every state reached from `rcache_invalidate` by a
sequence of cache calls in which `rcache_get_reg` never asks for write or
read-modify-write access to a guest register that two slots cache at that
moment, at most one slot caches each guest register dirty. -/
theorem rcache_dirty_unique (cfg : Config) (s0 s : RCache) (ops : List RcOp)
    (hw : writes_unshared cfg (rcache_invalidate s0) ops = true)
    (hrun : rc_run cfg (rcache_invalidate s0) ops = some s) :
    dirty_unique s.reg_temp :=
  dirty_unique_run cfg ops _ s
    (dirty_unique_of_none _ (fun t ht => by rw [invalidate_all_free s0 t ht]; decide)) hw hrun

theorem rcache_dirty_unique_witness :
    ∃ s, rc_run arm_cfg (rcache_invalidate ⟨reg_temp_arm, 0, []⟩)
        [.get_reg 7 .RC_GR_RMW, .clean, .get_reg_arg 0 7, .get_reg 7 .RC_GR_READ,
          .get_reg 8 .RC_GR_WRITE] = some s ∧
      s.reg_temp[0]? = some ⟨0, .HR_CACHED, 2, 7⟩ ∧
      s.reg_temp[5]? = some ⟨3, .HR_CACHED, 3, 7⟩ ∧ dirty_unique s.reg_temp := by
  have hs : (rc_run arm_cfg (rcache_invalidate ⟨reg_temp_arm, 0, []⟩)
        [.get_reg 7 .RC_GR_RMW, .clean, .get_reg_arg 0 7, .get_reg 7 .RC_GR_READ,
          .get_reg 8 .RC_GR_WRITE]).isSome = true := by decide
  obtain ⟨s, hrun⟩ := Option.isSome_iff_exists.mp hs
  have h0 := of_map_decide _ (fun s : RCache => s.reg_temp[0]? = some ⟨0, .HR_CACHED, 2, 7⟩)
    (by decide) s hrun
  have h5 := of_map_decide _ (fun s : RCache => s.reg_temp[5]? = some ⟨3, .HR_CACHED, 3, 7⟩)
    (by decide) s hrun
  exact ⟨s, hrun, h0, h5,
    rcache_dirty_unique arm_cfg ⟨reg_temp_arm, 0, []⟩ s _ (by decide) hrun⟩

theorem no_static_dirty_set (cfg : Config) (rt : List temp_reg_t) (i : Nat) (t1 : temp_reg_t)
    (h : no_static_dirty cfg rt)
    (h1 : t1.type = .HR_CACHED_DIRTY → cfg.reg_map_g2h t1.val = -1) :
    no_static_dirty cfg (rt.set i t1) := by
  intro a ta ha hd
  rcases getElem?_set_cases rt i a t1 ta ha with ⟨_, rfl⟩ | ⟨_, ha2⟩
  · exact h1 hd
  · exact h a ta ha2 hd

theorem no_static_cached_set (cfg : Config) (rt : List temp_reg_t) (i : Nat) (t1 : temp_reg_t)
    (h : no_static_cached cfg rt)
    (h1 : is_cached t1 = true → cfg.reg_map_g2h t1.val = -1) :
    no_static_cached cfg (rt.set i t1) := by
  intro a ta ha hc
  rcases getElem?_set_cases rt i a t1 ta ha with ⟨_, rfl⟩ | ⟨_, ha2⟩
  · exact h1 hc
  · exact h a ta ha2 hc

theorem no_static_dirty_step (cfg : Config) (s s1 : RCache) (op : RcOp)
    (h : no_static_dirty cfg s.reg_temp) (hs : rc_step cfg s op = some s1) :
    no_static_dirty cfg s1.reg_temp := by
  cases op with
  | get_reg r mode =>
    simp only [rc_step, Option.map_eq_some'] at hs
    obtain ⟨⟨hr, s2⟩, hget, rfl⟩ := hs
    rcases rcache_get_reg_shape cfg s s2 r mode hr hget with
      ⟨_, rfl, _⟩ | ⟨hun, _, i, t, ht, _, hupd⟩
    · exact h
    · rcases hupd with ⟨_, hv, e⟩ | ⟨_, _, e⟩
      · simp only
        rw [e]
        exact no_static_dirty_set cfg _ _ _ h (fun _ => by simpa [hv] using hun)
      · simp only
        rw [e]
        exact no_static_dirty_set cfg _ _ _ h (fun _ => hun)
  | get_tmp =>
    simp only [rc_step, Option.map_eq_some'] at hs
    obtain ⟨⟨hr, s2⟩, hget, rfl⟩ := hs
    obtain ⟨i, t, _, _, _, _, e⟩ := rcache_get_tmp_shape s s2 hr hget
    simp only
    rw [e]
    exact no_static_dirty_set cfg _ _ _ h (fun hd => by simp at hd)
  | get_tmp_arg arg =>
    simp only [rc_step, Option.map_eq_some'] at hs
    obtain ⟨⟨hr, s2⟩, hget, rfl⟩ := hs
    obtain ⟨i, t, _, e⟩ := rcache_get_tmp_arg_shape cfg s s2 arg hr hget
    simp only
    rw [e]
    exact no_static_dirty_set cfg _ _ _ h (fun hd => by simp at hd)
  | get_reg_arg arg r =>
    simp only [rc_step, Option.map_eq_some'] at hs
    obtain ⟨⟨hr, s2⟩, hget, rfl⟩ := hs
    obtain ⟨i, t, _, e⟩ := rcache_get_reg_arg_shape cfg s s2 arg r hr hget
    simp only
    rw [e]
    exact no_static_dirty_set cfg _ _ _ h (fun hd => by simp at hd)
  | free_tmp hr =>
    simp only [rc_step, Option.some.injEq] at hs
    subst hs
    rcases rcache_free_tmp_shape s hr with e | ⟨i, t, _, _, _, e⟩
    · rw [e]; exact h
    · rw [e]
      exact no_static_dirty_set cfg _ _ _ h (fun hd => by simp at hd)
  | clean =>
    simp only [rc_step, Option.some.injEq] at hs
    subst hs
    intro a ta ha hd
    exact absurd hd (clean_no_dirty s ta (List.getElem?_mem ha))
  | invalidate =>
    simp only [rc_step, Option.some.injEq] at hs
    subst hs
    intro a ta ha hd
    rw [invalidate_all_free s ta (List.getElem?_mem ha)] at hd
    simp at hd

theorem no_static_cached_step (cfg : Config) (s s1 : RCache) (op : RcOp)
    (h : no_static_cached cfg s.reg_temp)
    (hg : ∀ arg r, op = .get_reg_arg arg r → cfg.reg_map_g2h r = -1)
    (hs : rc_step cfg s op = some s1) :
    no_static_cached cfg s1.reg_temp := by
  cases op with
  | get_reg r mode =>
    simp only [rc_step, Option.map_eq_some'] at hs
    obtain ⟨⟨hr, s2⟩, hget, rfl⟩ := hs
    rcases rcache_get_reg_shape cfg s s2 r mode hr hget with
      ⟨_, rfl, _⟩ | ⟨hun, _, i, t, ht, _, hupd⟩
    · exact h
    · rcases hupd with ⟨_, hv, e⟩ | ⟨_, _, e⟩
      · simp only
        rw [e]
        exact no_static_cached_set cfg _ _ _ h (fun _ => by simpa [hv] using hun)
      · simp only
        rw [e]
        exact no_static_cached_set cfg _ _ _ h (fun _ => hun)
  | get_tmp =>
    simp only [rc_step, Option.map_eq_some'] at hs
    obtain ⟨⟨hr, s2⟩, hget, rfl⟩ := hs
    obtain ⟨i, t, _, _, _, _, e⟩ := rcache_get_tmp_shape s s2 hr hget
    simp only
    rw [e]
    exact no_static_cached_set cfg _ _ _ h (fun hc => by simp [is_cached] at hc)
  | get_tmp_arg arg =>
    simp only [rc_step, Option.map_eq_some'] at hs
    obtain ⟨⟨hr, s2⟩, hget, rfl⟩ := hs
    obtain ⟨i, t, _, e⟩ := rcache_get_tmp_arg_shape cfg s s2 arg hr hget
    simp only
    rw [e]
    exact no_static_cached_set cfg _ _ _ h (fun hc => by simp [is_cached] at hc)
  | get_reg_arg arg r =>
    simp only [rc_step, Option.map_eq_some'] at hs
    obtain ⟨⟨hr, s2⟩, hget, rfl⟩ := hs
    obtain ⟨i, t, _, e⟩ := rcache_get_reg_arg_shape cfg s s2 arg r hr hget
    simp only
    rw [e]
    exact no_static_cached_set cfg _ _ _ h (fun _ => hg arg r rfl)
  | free_tmp hr =>
    simp only [rc_step, Option.some.injEq] at hs
    subst hs
    rcases rcache_free_tmp_shape s hr with e | ⟨i, t, _, _, _, e⟩
    · rw [e]; exact h
    · rw [e]
      exact no_static_cached_set cfg _ _ _ h (fun hc => by simp [is_cached] at hc)
  | clean =>
    simp only [rc_step, Option.some.injEq] at hs
    subst hs
    intro a ta ha hc
    rw [rcache_clean_reg_temp, List.getElem?_map] at ha
    cases hu : s.reg_temp[a]? with
    | none => rw [hu] at ha; simp at ha
    | some u =>
      rw [hu] at ha
      simp only [Option.map_some', Option.some.injEq] at ha
      subst ha
      by_cases hd : u.type = .HR_CACHED_DIRTY
      · simp only [hd, if_true]
        exact h a u hu (by simp [is_cached, hd])
      · simp only [hd, if_false] at hc ⊢
        exact h a u hu hc
  | invalidate =>
    simp only [rc_step, Option.some.injEq] at hs
    subst hs
    intro a ta ha hc
    simp [is_cached, invalidate_all_free s ta (List.getElem?_mem ha)] at hc

theorem no_static_dirty_run (cfg : Config) :
    ∀ (ops : List RcOp) (s s1 : RCache), no_static_dirty cfg s.reg_temp →
      rc_run cfg s ops = some s1 → no_static_dirty cfg s1.reg_temp := by
  intro ops
  induction ops with
  | nil =>
    intro s s1 h hr
    simp only [rc_run, Option.some.injEq] at hr
    rw [← hr]; exact h
  | cons op ops ih =>
    intro s s1 h hr
    unfold rc_run at hr
    cases hstep : rc_step cfg s op with
    | none => rw [hstep] at hr; simp at hr
    | some s2 =>
      rw [hstep] at hr
      exact ih s2 s1 (no_static_dirty_step cfg s s2 op h hstep) hr

theorem no_static_cached_run (cfg : Config) :
    ∀ (ops : List RcOp) (s s1 : RCache), no_static_cached cfg s.reg_temp →
      args_unmapped cfg ops = true → rc_run cfg s ops = some s1 →
      no_static_cached cfg s1.reg_temp := by
  intro ops
  induction ops with
  | nil =>
    intro s s1 h _ hr
    simp only [rc_run, Option.some.injEq] at hr
    rw [← hr]; exact h
  | cons op ops ih =>
    intro s s1 h hu hr
    unfold rc_run at hr
    unfold args_unmapped at hu
    simp only [List.all_cons, Bool.and_eq_true] at hu
    cases hstep : rc_step cfg s op with
    | none => rw [hstep] at hr; simp at hr
    | some s2 =>
      rw [hstep] at hr
      have hg : ∀ arg r, op = .get_reg_arg arg r → cfg.reg_map_g2h r = -1 := by
        intro arg r e
        subst e
        simpa using hu.1
      exact ih s2 s1 (no_static_cached_step cfg s s2 op h hg hstep) hu.2 hr

/-- C12, counterexample: on the ARM build `R0` is statically mapped to host register 4;
after `rcache_invalidate`, `rcache_get_reg_arg(0, R0)` leaves slot 0 (host
register 0) as a clean cache of `R0`. -/
theorem rcache_arg_caches_static :
    arm_cfg.reg_map_g2h SHR_R0 = 4 ∧
      (rc_run arm_cfg (rcache_invalidate ⟨reg_temp_arm, 0, []⟩) [.get_reg_arg 0 SHR_R0]).map
          (fun s => (s.reg_temp[0]?, s.code)) =
        some (some ⟨0, .HR_CACHED, 1, SHR_R0⟩, [⟨.move_r_r, [0, 4]⟩]) := by
  decide

/-- C12 (as the code has it): in every state reached from `rcache_invalidate` by a
sequence of cache calls, no dirty slot caches a statically mapped guest
register; a clean cached slot does so only as the argument copy that
`rcache_get_reg_arg` makes: when every `rcache_get_reg_arg` of the sequence is
for a guest register without static mapping, no cached slot at all holds a
statically mapped one. -/
theorem rcache_no_static_slot (cfg : Config) (s0 s : RCache) (ops : List RcOp)
    (hrun : rc_run cfg (rcache_invalidate s0) ops = some s) :
    no_static_dirty cfg s.reg_temp ∧
      (args_unmapped cfg ops = true → no_static_cached cfg s.reg_temp) := by
  constructor
  · apply no_static_dirty_run cfg ops _ s _ hrun
    intro a ta ha hd
    rw [invalidate_all_free s0 ta (List.getElem?_mem ha)] at hd
    simp at hd
  · intro hu
    apply no_static_cached_run cfg ops _ s _ hu hrun
    intro a ta ha hc
    simp [is_cached, invalidate_all_free s0 ta (List.getElem?_mem ha)] at hc

theorem rcache_no_static_slot_witness :
    ∃ s, rc_run arm_cfg (rcache_invalidate ⟨reg_temp_arm, 0, []⟩)
        [.get_reg SHR_R0 .RC_GR_RMW, .get_reg 7 .RC_GR_RMW, .get_reg_arg 0 SHR_R0,
          .get_reg_arg 1 7, .get_reg 8 .RC_GR_WRITE] = some s ∧
      no_static_dirty arm_cfg s.reg_temp := by
  have hs : (rc_run arm_cfg (rcache_invalidate ⟨reg_temp_arm, 0, []⟩)
        [.get_reg SHR_R0 .RC_GR_RMW, .get_reg 7 .RC_GR_RMW, .get_reg_arg 0 SHR_R0,
          .get_reg_arg 1 7, .get_reg 8 .RC_GR_WRITE]).isSome = true := by decide
  obtain ⟨s, hrun⟩ := Option.isSome_iff_exists.mp hs
  exact ⟨s, hrun, (rcache_no_static_slot arm_cfg ⟨reg_temp_arm, 0, []⟩ s _ hrun).1⟩

/-! ## Flush and SMC bitmaps -/

set_option maxRecDepth 100000 in
/-- C21, counterexample: a ROM block is translated on the fresh ARM state and region 0 is
flushed; descriptor 0 still holds the block's `addr` and `tcache_ptr`, while
the block count is 0. -/
theorem flush_tcache_descriptor_kept :
    (sh2_translate arm_cfg (fun _ => 0x8900) 200 drc0 { pc := 0x02000000 } none).map
        (fun t => (t.this_block, ((flush_tcache t.drc 0).block_tab t.this_block).addr,
          ((flush_tcache t.drc 0).block_tab t.this_block).tcache_ptr,
          (flush_tcache t.drc 0).block_counts 0)) =
      some (0, 0x02000000, 0x1000000, 0) := by
  decide!

/-- C21 (as the code has it): `flush_tcache(r)` zeroes the hash table and the DRAM SMC
map (`r = 0`) or the data-array SMC map of CPU `r - 1` (`r ≠ 0`) and the
block count of the region; it does not touch any block descriptor.  The
descriptors of the region are handed out again from index 0: the next
`dr_add_block` returns descriptor 0 of the region and overwrites its `addr`
and `tcache_ptr`. -/
theorem flush_tcache_keeps_descriptors (d : Drc) (r ptr pc : Nat) (hr : r < 3) :
    (flush_tcache d r).block_tab = d.block_tab ∧
    (flush_tcache d r).block_counts r = 0 ∧
    (r = 0 → (∀ i, (flush_tcache d r).hash_table i = none) ∧
      ∀ i, (flush_tcache d r).drcblk_ram i = 0) ∧
    (r ≠ 0 → ∀ i, (flush_tcache d r).drcblk_da (r - 1) i = 0) ∧
    (dr_add_block (flush_tcache d r) ptr pc r).1 = some (block_tables_base r, 0) ∧
    (dr_add_block (flush_tcache d r) ptr pc r).2.block_tab (block_tables_base r) =
      { d.block_tab (block_tables_base r) with addr := pc, tcache_ptr := ptr } := by
  have hc := flush_tcache_counts d r
  have hmax : (flush_tcache d r).block_counts r < block_max_counts r := by
    rw [hc.1]
    exact block_max_counts_pos r hr
  have hbt : (flush_tcache d r).block_tab = d.block_tab := by
    unfold flush_tcache
    split <;> rfl
  refine ⟨hbt, hc.1, ?_, ?_, ?_, ?_⟩
  · intro h0
    subst h0
    simp [flush_tcache]
  · intro hne
    simp [flush_tcache, hne]
  · rw [dr_add_block_ok _ _ _ _ hmax, hc.1]
    rfl
  · rw [dr_add_block_ok _ _ _ _ hmax, hc.1, hbt]
    simp

theorem flush_tcache_keeps_descriptors_witness :
    (flush_tcache drc_full 0).block_tab = drc_full.block_tab ∧
      (dr_add_block (flush_tcache drc_full 0) 0x1000000 0x02000000 0).1 = some (0, 0) :=
  ⟨(flush_tcache_keeps_descriptors drc_full 0 0x1000000 0x02000000 (by decide)).1,
    (flush_tcache_keeps_descriptors drc_full 0 0x1000000 0x02000000 (by decide)).2.2.2.2.1⟩

theorem smc_zero_fwd_frame (id : Nat) :
    ∀ (fuel : Nat) (m m1 : Int → Nat) (p : Int), smc_zero_fwd id fuel m p = some m1 →
      m1 p = 0 ∧ ∀ i, m1 i = m i ∨ m1 i = 0 := by
  intro fuel
  induction fuel with
  | zero => intro m m1 p h; simp [smc_zero_fwd] at h
  | succ fuel ih =>
    intro m m1 p h
    unfold smc_zero_fwd at h
    have hupd : ∀ i, Function.update m p 0 i = m i ∨ Function.update m p 0 i = 0 := by
      intro i
      by_cases e : i = p
      · right; subst e; simp
      · left; simp [Function.update, e]
    split at h
    · obtain ⟨_, h2⟩ := ih _ _ _ h
      refine ⟨?_, ?_⟩
      · rcases h2 p with h3 | h3
        · rw [h3]; simp
        · exact h3
      · intro i
        rcases h2 i with h1 | h1
        · rcases hupd i with h3 | h3
          · left; rw [h1, h3]
          · right; rw [h1, h3]
        · right; exact h1
    · simp only [Option.some.injEq] at h
      rw [← h]
      exact ⟨by simp, hupd⟩

/-- The zeroing loop, started at index `p`, zeroes the word at `p + 1` too when that word holds
the id. -/
theorem smc_zero_fwd_next (id fuel : Nat) (m m1 : Int → Nat) (p : Int)
    (h : smc_zero_fwd id fuel m p = some m1) (hn : m (p + 1) >>> 1 = id) : m1 (p + 1) = 0 := by
  cases fuel with
  | zero => simp [smc_zero_fwd] at h
  | succ fuel =>
    unfold smc_zero_fwd at h
    have e : Function.update m p 0 (p + 1) = m (p + 1) := by
      simp [Function.update]
    rw [e, if_pos hn] at h
    exact (smc_zero_fwd_frame id fuel _ _ _ h).1

/-- More fuel does not change the result of the zeroing loop. -/
theorem smc_zero_fwd_mono (id : Nat) :
    ∀ (fuel fuel2 : Nat) (m m1 : Int → Nat) (p : Int), fuel ≤ fuel2 →
      smc_zero_fwd id fuel m p = some m1 → smc_zero_fwd id fuel2 m p = some m1 := by
  intro fuel
  induction fuel with
  | zero => intro fuel2 m m1 p _ h; simp [smc_zero_fwd] at h
  | succ fuel ih =>
    intro fuel2 m m1 p hle h
    obtain ⟨f2, rfl⟩ : ∃ f2, fuel2 = f2 + 1 := ⟨fuel2 - 1, by omega⟩
    unfold smc_zero_fwd at h ⊢
    split at h
    · rename_i hc
      rw [if_pos hc]
      exact ih f2 _ _ _ (by omega) h
    · rename_i hc
      rw [if_neg hc]
      exact h

/-- The zeroing loop ends when the `n` words after `p` hold the id and the next one does not
and the fuel exceeds `n`. -/
theorem smc_zero_fwd_run (id : Nat) :
    ∀ (n fuel : Nat) (m : Int → Nat) (p : Int), n < fuel →
      (∀ j : Nat, 0 < j → j ≤ n → m (p + (j : Int)) >>> 1 = id) →
      m (p + ((n + 1 : Nat) : Int)) >>> 1 ≠ id →
      ∃ m1, smc_zero_fwd id fuel m p = some m1 := by
  intro n
  induction n with
  | zero =>
    intro fuel m p hf _ hstop
    obtain ⟨f, rfl⟩ : ∃ f, fuel = f + 1 := ⟨fuel - 1, by omega⟩
    unfold smc_zero_fwd
    have e : Function.update m p 0 (p + 1) = m (p + 1) := by
      simp [Function.update]
    have hstop2 : ¬ m (p + 1) >>> 1 = id := by simpa using hstop
    rw [e, if_neg hstop2]
    exact ⟨_, rfl⟩
  | succ n ih =>
    intro fuel m p hf hrun hstop
    obtain ⟨f, rfl⟩ : ∃ f, fuel = f + 1 := ⟨fuel - 1, by omega⟩
    unfold smc_zero_fwd
    have e : Function.update m p 0 (p + 1) = m (p + 1) := by
      simp [Function.update]
    have h1 : m (p + 1) >>> 1 = id := by simpa using hrun 1 (by omega) (by omega)
    rw [e, if_pos h1]
    apply ih f _ (p + 1) (by omega)
    · intro j hj0 hjn
      have e2 : p + 1 + (j : Int) = p + ((j + 1 : Nat) : Int) := by push_cast; ring
      have hne : ¬ p + 1 + (j : Int) = p := by omega
      simp only [Function.update, hne, dif_neg, not_false_eq_true]
      rw [e2]
      exact hrun (j + 1) (by omega) (by omega)
    · have e2 : p + 1 + ((n + 1 : Nat) : Int) = p + ((n + 1 + 1 : Nat) : Int) := by
        push_cast; ring
      have hne : ¬ p + 1 + ((n + 1 : Nat) : Int) = p := by omega
      simp only [Function.update, hne, dif_neg, not_false_eq_true]
      rw [e2]
      exact hstop

theorem sh2_smc_rm_block_succ (btab fuel : Nat) (m : Int → Nat) (bt : Nat → block_desc)
    (p : Int) (a : Nat) :
    sh2_smc_rm_block btab (fuel + 1) (m, bt) p a =
      match (if m ((if 0 < p then ((smc_walk_back (fun n : Nat => m n) (m p >>> 1) p.toNat : Nat) : Int)
              else p) - 1) ≠ 0 then
          if ((Function.update bt (btab + (m p >>> 1))
                { bt (btab + (m p >>> 1)) with addr := 0, end_addr := 0 })
              (btab + (m ((if 0 < p then
                ((smc_walk_back (fun n : Nat => m n) (m p >>> 1) p.toNat : Nat) : Int) else p) - 1)
                >>> 1))).addr ≤ a ∧
              a < ((Function.update bt (btab + (m p >>> 1))
                { bt (btab + (m p >>> 1)) with addr := 0, end_addr := 0 })
              (btab + (m ((if 0 < p then
                ((smc_walk_back (fun n : Nat => m n) (m p >>> 1) p.toNat : Nat) : Int) else p) - 1)
                >>> 1))).end_addr then
            sh2_smc_rm_block btab fuel (m, Function.update bt (btab + (m p >>> 1))
                { bt (btab + (m p >>> 1)) with addr := 0, end_addr := 0 })
              ((if 0 < p then ((smc_walk_back (fun n : Nat => m n) (m p >>> 1) p.toNat : Nat) : Int)
                else p) - 1) a
          else some (m, Function.update bt (btab + (m p >>> 1))
                { bt (btab + (m p >>> 1)) with addr := 0, end_addr := 0 })
        else some (m, Function.update bt (btab + (m p >>> 1))
                { bt (btab + (m p >>> 1)) with addr := 0, end_addr := 0 })) with
      | none => none
      | some (m2, bt2) =>
        (smc_zero_fwd (m p >>> 1) (fuel + 1) m2
          (if 0 < p then ((smc_walk_back (fun n : Nat => m n) (m p >>> 1) p.toNat : Nat) : Int)
            else p)).map (fun m3 => (m3, bt2)) := by
  rfl

theorem sh2_smc_rm_block_frame (btab : Nat) :
    ∀ (fuel : Nat) (m : Int → Nat) (bt : Nat → block_desc) (p : Int) (a : Nat)
      (m1 : Int → Nat) (bt1 : Nat → block_desc),
      sh2_smc_rm_block btab fuel (m, bt) p a = some (m1, bt1) →
      (∀ i, m1 i = m i ∨ m1 i = 0) ∧
      (∀ k, bt1 k = bt k ∨ bt1 k = { bt k with addr := 0, end_addr := 0 }) ∧
      (bt1 (btab + (m p >>> 1))).addr = 0 ∧ (bt1 (btab + (m p >>> 1))).end_addr = 0 ∧
      (¬ 0 < p → m1 p = 0) := by
  intro fuel
  induction fuel with
  | zero => intro m bt p a m1 bt1 h; simp [sh2_smc_rm_block] at h
  | succ fuel ih =>
    intro m bt p a m1 bt1 h
    rw [sh2_smc_rm_block_succ] at h
    have hz : ∀ k, Function.update bt (btab + (m p >>> 1))
        { bt (btab + (m p >>> 1)) with addr := 0, end_addr := 0 } k = bt k ∨
        Function.update bt (btab + (m p >>> 1))
          { bt (btab + (m p >>> 1)) with addr := 0, end_addr := 0 } k =
          { bt k with addr := 0, end_addr := 0 } := by
      intro k
      by_cases e : k = btab + (m p >>> 1)
      · right; subst e; simp
      · left; simp [Function.update, e]
    have hk0 : (Function.update bt (btab + (m p >>> 1))
        { bt (btab + (m p >>> 1)) with addr := 0, end_addr := 0 } (btab + (m p >>> 1))).addr = 0 ∧
        (Function.update bt (btab + (m p >>> 1))
        { bt (btab + (m p >>> 1)) with addr := 0, end_addr := 0 }
          (btab + (m p >>> 1))).end_addr = 0 := by
      simp
    generalize hbtk : Function.update bt (btab + (m p >>> 1))
        { bt (btab + (m p >>> 1)) with addr := 0, end_addr := 0 } = btk at h hz hk0
    generalize hp1 : (if 0 < p then
        ((smc_walk_back (fun n : Nat => m n) (m p >>> 1) p.toNat : Nat) : Int) else p) = p1 at h
    split at h
    · simp at h
    · rename_i m2 bt2 hinner
      simp only [Option.map_eq_some', Prod.mk.injEq] at h
      obtain ⟨m3, hfwd, rfl, rfl⟩ := h
      have hin : (∀ i, m2 i = m i ∨ m2 i = 0) ∧
          (∀ k, bt2 k = btk k ∨ bt2 k = { btk k with addr := 0, end_addr := 0 }) := by
        split at hinner
        · split at hinner
          · obtain ⟨h1, h2, _⟩ := ih _ _ _ _ _ _ hinner
            exact ⟨h1, h2⟩
          · simp only [Option.some.injEq, Prod.mk.injEq] at hinner
            obtain ⟨rfl, rfl⟩ := hinner
            exact ⟨fun i => Or.inl rfl, fun k => Or.inl rfl⟩
        · simp only [Option.some.injEq, Prod.mk.injEq] at hinner
          obtain ⟨rfl, rfl⟩ := hinner
          exact ⟨fun i => Or.inl rfl, fun k => Or.inl rfl⟩
      obtain ⟨hm2, hb2⟩ := hin
      obtain ⟨hf0, hf⟩ := smc_zero_fwd_frame _ _ _ _ _ hfwd
      refine ⟨?_, ?_, ?_, ?_, ?_⟩
      · intro i
        rcases hf i with h1 | h1
        · rcases hm2 i with h2 | h2
          · left; rw [h1, h2]
          · right; rw [h1, h2]
        · right; exact h1
      · intro k
        rcases hb2 k with h1 | h1
        · rcases hz k with h2 | h2
          · left; rw [h1, h2]
          · right; rw [h1, h2]
        · rcases hz k with h2 | h2
          · right; rw [h1, h2]
          · right; rw [h1, h2]
      · rcases hb2 (btab + (m p >>> 1)) with h1 | h1
        · rw [h1]; exact hk0.1
        · rw [h1]
      · rcases hb2 (btab + (m p >>> 1)) with h1 | h1
        · rw [h1]; exact hk0.2
        · rw [h1]
      · intro hneg
        rw [if_neg hneg] at hp1
        rw [hp1]
        exact hf0

/-- More fuel does not change the result of `sh2_smc_rm_block`: `none` is lack of fuel only. -/
theorem sh2_smc_rm_block_mono (btab : Nat) :
    ∀ (fuel fuel2 : Nat) (m : Int → Nat) (bt : Nat → block_desc) (p : Int) (a : Nat)
      (r : (Int → Nat) × (Nat → block_desc)), fuel ≤ fuel2 →
      sh2_smc_rm_block btab fuel (m, bt) p a = some r →
      sh2_smc_rm_block btab fuel2 (m, bt) p a = some r := by
  intro fuel
  induction fuel with
  | zero => intro fuel2 m bt p a r _ h; simp [sh2_smc_rm_block] at h
  | succ fuel ih =>
    intro fuel2 m bt p a r hle h
    obtain ⟨f2, rfl⟩ : ∃ f2, fuel2 = f2 + 1 := ⟨fuel2 - 1, by omega⟩
    rw [sh2_smc_rm_block_succ] at h ⊢
    generalize hbtk : Function.update bt (btab + (m p >>> 1))
        { bt (btab + (m p >>> 1)) with addr := 0, end_addr := 0 } = btk at h ⊢
    generalize hp1 : (if 0 < p then
        ((smc_walk_back (fun n : Nat => m n) (m p >>> 1) p.toNat : Nat) : Int) else p) = p1
      at h ⊢
    have hfin : ∀ (m2 : Int → Nat) (bt2 : Nat → block_desc),
        (smc_zero_fwd (m p >>> 1) (fuel + 1) m2 p1).map (fun m3 => (m3, bt2)) = some r →
        (smc_zero_fwd (m p >>> 1) (f2 + 1) m2 p1).map (fun m3 => (m3, bt2)) = some r := by
      intro m2 bt2 hr
      simp only [Option.map_eq_some'] at hr ⊢
      obtain ⟨m3, hz, e⟩ := hr
      exact ⟨m3, smc_zero_fwd_mono _ _ _ _ _ _ (by omega) hz, e⟩
    by_cases c1 : m (p1 - 1) ≠ 0
    · rw [if_pos c1] at h ⊢
      by_cases c2 : (btk (btab + (m (p1 - 1) >>> 1))).addr ≤ a ∧
          a < (btk (btab + (m (p1 - 1) >>> 1))).end_addr
      · rw [if_pos c2] at h ⊢
        cases hr : sh2_smc_rm_block btab fuel (m, btk) (p1 - 1) a with
        | none => rw [hr] at h; simp at h
        | some r2 =>
          rw [hr] at h
          rw [ih f2 _ _ _ _ r2 (by omega) hr]
          obtain ⟨m2, bt2⟩ := r2
          exact hfin m2 bt2 h
      · rw [if_neg c2] at h ⊢
        exact hfin _ _ h
    · rw [if_neg c1] at h ⊢
      exact hfin _ _ h

theorem smc_mem_inside (len : Nat) (bm : Nat → Nat) (nbr : Int → Nat) (n : Nat) (h : n < len) :
    smc_mem len bm nbr (n : Int) = bm n := by
  unfold smc_mem
  have h1 : (0 : Int) ≤ (n : Int) ∧ (n : Int) < (len : Int) := ⟨by omega, by omega⟩
  rw [if_pos h1]
  simp

theorem smc_mem_before (len : Nat) (bm : Nat → Nat) (nbr : Int → Nat) (i : Int) (h : i < 0) :
    smc_mem len bm nbr i = nbr i := by
  unfold smc_mem
  have h1 : ¬ ((0 : Int) ≤ i ∧ i < (len : Int)) := by omega
  rw [if_neg h1]

theorem smc_slots_frame (len : Nat) (bm : Nat → Nat) (nbr m1 : Int → Nat)
    (h : ∀ i, m1 i = smc_mem len bm nbr i ∨ m1 i = 0) (n : Nat) :
    smc_slots len bm m1 n = bm n ∨ smc_slots len bm m1 n = 0 := by
  unfold smc_slots
  split
  · rename_i hlt
    rcases h n with e | e
    · left; rw [e, smc_mem_inside len bm nbr n hlt]
    · right; exact e
  · left; rfl

/-- What `sh2_drc_wcheck_ram` does whenever it returns. -/
theorem wcheck_ram_frame (cfg : Config) (fuel : Nat) (nbr : Int → Nat) (d d1 : Drc) (a : Nat)
    (m1 : Int → Nat) (h : sh2_drc_wcheck_ram cfg fuel nbr d a = some (d1, m1)) :
    sh2_smc_rm_block (block_tables_base 0) fuel
        (smc_mem (drcblk_ram_len cfg) d.drcblk_ram nbr, d.block_tab)
        (((a &&& 0x3ffff) >>> cfg.SH2_DRCBLK_RAM_SHIFT : Nat) : Int) a =
      some (m1, d1.block_tab) ∧
    d1 = { d with drcblk_ram := smc_slots (drcblk_ram_len cfg) d.drcblk_ram m1,
                  block_tab := d1.block_tab } := by
  unfold sh2_drc_wcheck_ram at h
  simp only [Option.map_eq_some', Prod.mk.injEq] at h
  obtain ⟨⟨m2, bt2⟩, hr, rfl, rfl⟩ := h
  exact ⟨hr, rfl⟩

/-- What `sh2_drc_wcheck_da` does whenever it returns. -/
theorem wcheck_da_frame (cfg : Config) (fuel : Nat) (nbr : Int → Nat) (d d1 : Drc)
    (a cpuid : Nat) (m1 : Int → Nat)
    (h : sh2_drc_wcheck_da cfg fuel nbr d a cpuid = some (d1, m1)) :
    sh2_smc_rm_block (block_tables_base (1 + cpuid)) fuel
        (smc_mem (drcblk_da_len cfg) (d.drcblk_da cpuid) nbr, d.block_tab)
        (((a &&& 0xfff) >>> cfg.SH2_DRCBLK_DA_SHIFT : Nat) : Int) a =
      some (m1, d1.block_tab) ∧
    d1 = { d with drcblk_da := Function.update d.drcblk_da cpuid
                    (smc_slots (drcblk_da_len cfg) (d.drcblk_da cpuid) m1),
                  block_tab := d1.block_tab } := by
  unfold sh2_drc_wcheck_da at h
  simp only [Option.map_eq_some', Prod.mk.injEq] at h
  obtain ⟨⟨m2, bt2⟩, hr, rfl, rfl⟩ := h
  exact ⟨hr, rfl⟩

set_option maxRecDepth 100000 in
/-- C22, counterexample: with a ROM block (id 0) and two DRAM blocks (ids 1, 2)
translated, a write to `0x06000020`, whose bitmap slot is zero, makes
`sh2_drc_wcheck_ram` zero `addr` and `end_addr` of descriptor 0, the ROM
block's: the dispatcher's lookup at `0x02000000` then misses.  The bitmap
itself is left as it was. -/
theorem smc_zero_slot_kills_block_zero :
    smc_zero_slot_run =
      some ((0, 0x02000000, 0x02000002), (0, 0), (0, some 0), true) := by
  decide!

/-- C22 (as the code has it): `sh2_drc_wcheck_ram` and `sh2_drc_wcheck_da` do not test
the slot; they always run `sh2_smc_rm_block` on it.  Whenever they return, whatever the
words next to the bitmap hold: the descriptor numbered `slot >> 1` of the region,
descriptor 0 for a zero slot, has `addr = end_addr = 0`; every descriptor is either
unchanged or has just these two fields zeroed; every word at `drcblk[i]`, a slot of the
region's bitmap or a word next to it, is either unchanged or zero, and so is every slot of
the region's bitmap in the state returned; and the call returns the same with any larger
fuel. -/
theorem wcheck_no_slot_test (cfg : Config) (fuel : Nat) (nbr : Int → Nat) (d : Drc)
    (a cpuid : Nat) :
    (∀ d1 m1, sh2_drc_wcheck_ram cfg fuel nbr d a = some (d1, m1) →
      (d1.block_tab (block_tables_base 0 +
          (smc_mem (drcblk_ram_len cfg) d.drcblk_ram nbr
            (((a &&& 0x3ffff) >>> cfg.SH2_DRCBLK_RAM_SHIFT : Nat) : Int) >>> 1))).addr = 0 ∧
      (d1.block_tab (block_tables_base 0 +
          (smc_mem (drcblk_ram_len cfg) d.drcblk_ram nbr
            (((a &&& 0x3ffff) >>> cfg.SH2_DRCBLK_RAM_SHIFT : Nat) : Int) >>> 1))).end_addr = 0 ∧
      (∀ k, d1.block_tab k = d.block_tab k ∨
        d1.block_tab k = { d.block_tab k with addr := 0, end_addr := 0 }) ∧
      (∀ i, m1 i = smc_mem (drcblk_ram_len cfg) d.drcblk_ram nbr i ∨ m1 i = 0) ∧
      (∀ n, d1.drcblk_ram n = d.drcblk_ram n ∨ d1.drcblk_ram n = 0) ∧
      (∀ fuel2, fuel ≤ fuel2 → sh2_drc_wcheck_ram cfg fuel2 nbr d a = some (d1, m1))) ∧
    (∀ d1 m1, sh2_drc_wcheck_da cfg fuel nbr d a cpuid = some (d1, m1) →
      (d1.block_tab (block_tables_base (1 + cpuid) +
          (smc_mem (drcblk_da_len cfg) (d.drcblk_da cpuid) nbr
            (((a &&& 0xfff) >>> cfg.SH2_DRCBLK_DA_SHIFT : Nat) : Int) >>> 1))).addr = 0 ∧
      (d1.block_tab (block_tables_base (1 + cpuid) +
          (smc_mem (drcblk_da_len cfg) (d.drcblk_da cpuid) nbr
            (((a &&& 0xfff) >>> cfg.SH2_DRCBLK_DA_SHIFT : Nat) : Int) >>> 1))).end_addr = 0 ∧
      (∀ k, d1.block_tab k = d.block_tab k ∨
        d1.block_tab k = { d.block_tab k with addr := 0, end_addr := 0 }) ∧
      (∀ i, m1 i = smc_mem (drcblk_da_len cfg) (d.drcblk_da cpuid) nbr i ∨ m1 i = 0) ∧
      (∀ n, d1.drcblk_da cpuid n = d.drcblk_da cpuid n ∨ d1.drcblk_da cpuid n = 0) ∧
      (∀ fuel2, fuel ≤ fuel2 →
        sh2_drc_wcheck_da cfg fuel2 nbr d a cpuid = some (d1, m1))) := by
  constructor
  · intro d1 m1 h
    obtain ⟨hr, hd⟩ := wcheck_ram_frame cfg fuel nbr d d1 a m1 h
    obtain ⟨h1, h2, h3, h4, _⟩ := sh2_smc_rm_block_frame _ _ _ _ _ _ _ _ hr
    refine ⟨h3, h4, h2, h1, ?_, ?_⟩
    · intro n
      rw [hd]
      exact smc_slots_frame _ _ nbr m1 h1 n
    · intro fuel2 hle
      have hr2 := sh2_smc_rm_block_mono _ _ fuel2 _ _ _ _ _ hle hr
      unfold sh2_drc_wcheck_ram
      rw [hr2]
      simp only [Option.map_some']
      rw [hd]
  · intro d1 m1 h
    obtain ⟨hr, hd⟩ := wcheck_da_frame cfg fuel nbr d d1 a cpuid m1 h
    obtain ⟨h1, h2, h3, h4, _⟩ := sh2_smc_rm_block_frame _ _ _ _ _ _ _ _ hr
    refine ⟨h3, h4, h2, h1, ?_, ?_⟩
    · intro n
      rw [hd]
      simp only [Function.update_same]
      exact smc_slots_frame _ _ nbr m1 h1 n
    · intro fuel2 hle
      have hr2 := sh2_smc_rm_block_mono _ _ fuel2 _ _ _ _ _ hle hr
      unfold sh2_drc_wcheck_da
      rw [hr2]
      simp only [Option.map_some']
      rw [hd]

theorem smc_mark_rest_spec (v e : Nat) :
    ∀ (fuel : Nat) (bm : Nat → Nat) (t : Nat), t ≤ e → e - t ≤ fuel →
      ∃ stop, t ≤ stop ∧ stop ≤ e ∧ (stop < e → bm stop ≠ 0) ∧
        (∀ j, t ≤ j → j < stop → bm j = 0) ∧
        ∀ i, smc_mark_rest v e fuel bm t i = if t ≤ i ∧ i < stop then v else bm i := by
  intro fuel
  induction fuel with
  | zero =>
    intro bm t hte hf
    refine ⟨t, le_refl _, hte, fun h => by omega, fun j h1 h2 => by omega, ?_⟩
    intro i
    have : ¬ (t ≤ i ∧ i < t) := by omega
    simp [smc_mark_rest, this]
  | succ fuel ih =>
    intro bm t hte hf
    unfold smc_mark_rest
    by_cases hlt : t < e
    · rw [if_pos hlt]
      by_cases hnz : bm t ≠ 0
      · rw [if_pos hnz]
        refine ⟨t, le_refl _, hte, fun _ => hnz, fun j h1 h2 => by omega, ?_⟩
        intro i
        have : ¬ (t ≤ i ∧ i < t) := by omega
        simp [this]
      · rw [if_neg hnz]
        have hz : bm t = 0 := by simpa using hnz
        obtain ⟨stop, h1, h2, h3, h4, h5⟩ :=
          ih (Function.update bm t v) (t + 1) (by omega) (by omega)
        refine ⟨stop, by omega, h2, ?_, ?_, ?_⟩
        · intro hs
          have := h3 hs
          rwa [Function.update_noteq (by omega)] at this
        · intro j hj1 hj2
          by_cases ej : j = t
          · rw [ej]; exact hz
          · have := h4 j (by omega) hj2
            rwa [Function.update_noteq ej] at this
        · intro i
          rw [h5 i]
          by_cases ei : i = t
          · subst ei
            have c1 : ¬ (i + 1 ≤ i ∧ i < stop) := by omega
            have c2 : i ≤ i ∧ i < stop := by omega
            simp [c1, c2]
          · rw [Function.update_noteq ei]
            by_cases c : t + 1 ≤ i ∧ i < stop
            · have c2 : t ≤ i ∧ i < stop := by omega
              simp [c, c2]
            · have c2 : ¬ (t ≤ i ∧ i < stop) := by omega
              simp [c, c2]
    · rw [if_neg hlt]
      have : t = e := by omega
      refine ⟨t, le_refl _, hte, fun h => by omega, fun j h1 h2 => by omega, ?_⟩
      intro i
      have : ¬ (t ≤ i ∧ i < t) := by omega
      simp [this]

theorem smc_mark_spec (bm : Nat → Nat) (b s e : Nat) (hb : b < 32768) (hse : s < e) :
    ∃ stop, s < stop ∧ stop ≤ e ∧ (stop < e → bm stop ≠ 0) ∧
      (∀ j, s < j → j < stop → bm j = 0) ∧
      ∀ i, smc_mark bm b s e i =
        if i = s then (b <<< 1) ||| 1 else if s < i ∧ i < stop then b <<< 1 else bm i := by
  have hv1 : (b <<< 1) % 65536 = b <<< 1 := by
    rw [Nat.shiftLeft_eq]
    omega
  have hv2 : ((b <<< 1) ||| 1) % 65536 = (b <<< 1) ||| 1 := by
    apply Nat.mod_eq_of_lt
    have h1 : b <<< 1 < 2 ^ 16 := by rw [Nat.shiftLeft_eq]; omega
    exact Nat.or_lt_two_pow h1 (by decide)
  unfold smc_mark
  rw [hv1, hv2]
  obtain ⟨stop, h1, h2, h3, h4, h5⟩ :=
    smc_mark_rest_spec (b <<< 1) e (e - s) (Function.update bm s ((b <<< 1) ||| 1)) (s + 1)
      (by omega) (by omega)
  refine ⟨stop, by omega, h2, ?_, ?_, ?_⟩
  · intro hs
    have := h3 hs
    rwa [Function.update_noteq (by omega)] at this
  · intro j hj1 hj2
    have := h4 j (by omega) hj2
    rwa [Function.update_noteq (by omega)] at this
  · intro i
    rw [h5 i]
    by_cases ei : i = s
    · subst ei
      have c1 : ¬ (i + 1 ≤ i ∧ i < stop) := by omega
      simp [c1]
    · rw [Function.update_noteq ei]
      by_cases c : s + 1 ≤ i ∧ i < stop
      · have c2 : s < i ∧ i < stop := by omega
        simp [c, c2, ei]
      · have c2 : ¬ (s < i ∧ i < stop) := by omega
        simp [c, c2, ei]

/-- C23: the marking at the end of `sh2_translate` works on the data-array map of the
CPU when the block's `pc` is data array or BIOS, on the DRAM map when the
block's address is DRAM, with `s` and `e` the slots of `addr` and `end_addr`,
and on nothing else.  For a block id below `2^15` and `s < e` the marked map
has `(b << 1) | 1` at `s` and `b << 1` at the slots after `s` up to, and
excluding, `stop`: the first slot after `s` that was non-zero, or `e`; every
other slot, those from `stop` on and those outside `[s, e)`, is unchanged. -/
theorem smc_marking_spec (cfg : Config) (d : Drc) (sh2 : SH2) (this_block blkid pc : Nat)
    (bm : Nat → Nat) (s e : Nat) (hb : blkid < 32768) (hse : s < e) :
    (∃ stop, s < stop ∧ stop ≤ e ∧ (stop < e → bm stop ≠ 0) ∧
      (∀ j, s < j → j < stop → bm j = 0) ∧
      ∀ i, smc_mark bm blkid s e i =
        if i = s then (blkid <<< 1) ||| 1
        else if s < i ∧ i < stop then blkid <<< 1 else bm i) ∧
    (is_da_bios sh2.pc = true →
      (translate_mark cfg d sh2 this_block blkid pc).drcblk_da sh2.is_slave =
          smc_mark (d.drcblk_da sh2.is_slave) blkid
            (((d.block_tab this_block).addr &&& 0xfff) >>> cfg.SH2_DRCBLK_DA_SHIFT)
            ((pc &&& 0xfff) >>> cfg.SH2_DRCBLK_DA_SHIFT) ∧
        (∀ c, c ≠ sh2.is_slave →
          (translate_mark cfg d sh2 this_block blkid pc).drcblk_da c = d.drcblk_da c) ∧
        (translate_mark cfg d sh2 this_block blkid pc).drcblk_ram = d.drcblk_ram) ∧
    (is_da_bios sh2.pc = false → ((d.block_tab this_block).addr &&& 0xc7fc0000) = 0x06000000 →
      (translate_mark cfg d sh2 this_block blkid pc).drcblk_ram =
          smc_mark d.drcblk_ram blkid
            (((d.block_tab this_block).addr &&& 0x3ffff) >>> cfg.SH2_DRCBLK_RAM_SHIFT)
            ((pc &&& 0x3ffff) >>> cfg.SH2_DRCBLK_RAM_SHIFT) ∧
        (translate_mark cfg d sh2 this_block blkid pc).drcblk_da = d.drcblk_da) ∧
    (is_da_bios sh2.pc = false → ((d.block_tab this_block).addr &&& 0xc7fc0000) ≠ 0x06000000 →
      (translate_mark cfg d sh2 this_block blkid pc).drcblk_ram = d.drcblk_ram ∧
        (translate_mark cfg d sh2 this_block blkid pc).drcblk_da = d.drcblk_da) := by
  refine ⟨smc_mark_spec bm blkid s e hb hse, ?_, ?_, ?_⟩
  · intro hda
    unfold translate_mark
    simp only [hda, if_true, Function.update_same]
    refine ⟨by simp, ?_, trivial⟩
    intro c hc
    simp [Function.update, hc]
  · intro hda hram
    unfold translate_mark
    simp [hda, hram]
  · intro hda hram
    unfold translate_mark
    simp [hda, hram]

theorem smc_marking_spec_witness :
    ∃ stop, 8 < stop ∧ stop ≤ 14 ∧
      ∀ i, smc_mark (fun i => if i = 10 then 5 else 0) 3 8 14 i =
        if i = 8 then (3 <<< 1) ||| 1
        else if 8 < i ∧ i < stop then 3 <<< 1 else (fun i => if i = 10 then 5 else 0) i := by
  obtain ⟨stop, h1, h2, _, _, h5⟩ :=
    (smc_marking_spec arm_cfg drc0 { pc := 0x06000010 } 0 3 0x0600001c
      (fun i => if i = 10 then 5 else 0) 8 14 (by decide) (by decide)).1
  exact ⟨stop, h1, h2, h5⟩

set_option maxRecDepth 100000 in
/-- C24, at the first DRAM block after a flush: the block translated from `0x06000010`
on the fresh ARM state gets id 0 and covers slots 8..13; its head slot is 1
and its five body slots are `0 << 1 = 0`, the value of a slot that holds no
block. -/
theorem smc_block_zero_body_unmarked :
    (sh2_translate arm_cfg (fun a => if a = 0x06000018 then 0xa000 else 0x0009) 200 drc0
        { pc := 0x06000010 } none).map
        (fun t => (t.blkid, (t.drc.block_tab t.this_block).addr,
          (t.drc.block_tab t.this_block).end_addr,
          (List.range 6).map (fun i => t.drc.drcblk_ram (8 + i)))) =
      some (0, 0x06000010, 0x0600001c, [1, 0, 0, 0, 0, 0]) := by
  decide!

/-! ## Unhandled opcodes, cycle count -/

set_option maxRecDepth 100000 in
/-- C29, at opcode `0x0532` (the STC pattern `0x0n.2` with the unassigned control
register 3) on the ARM build, where `DRC_DEBUG_INTERP` is not defined: NOP
leaves the translator state as it is, while `0x0532` reaches `default_` after
`rcache_get_reg(GET_Rn(), RC_GR_WRITE)` has run, so cache slot 5 holds guest R5
as dirty; the block `0x0532; BT` then ends with a write of host register 3,
never loaded, to the context slot of R5 (offset 20), which the block
`NOP; BT` does not have. -/
theorem default_after_get_reg :
    translate_op arm_cfg (fun _ => 0x0009) 0x0009 tstate0 = some (.end_op, tstate0) ∧
      (translate_op arm_cfg (fun _ => 0x0009) 0x0532 tstate0).map
          (fun r => (r.1, r.2.rc.code, r.2.rc.reg_temp[5]?, decide (r.2 = tstate0))) =
        some (.end_op, [],
          some { reg := 3, type := .HR_CACHED_DIRTY, stamp := 1, val := 5 }, false) ∧
      (sh2_translate arm_cfg (fun a => if a = 0x06000010 then 0x0532 else 0x8900) 200 drc0
          { pc := 0x06000010 } none).map (fun t => (t.code, t.cycles, t.end_pc)) =
        some ([⟨.move_r_imm, [2, 0x06000014]⟩, ⟨.sh2_test_t, []⟩, ⟨.sjmp_start, [0]⟩,
          ⟨.add_r_imm_c, [1, 2, 2]⟩, ⟨.sjmp_end, [0]⟩, ⟨.sub_r_imm, [10, 16384]⟩,
          ⟨.ctx_write, [2, 64]⟩, ⟨.ctx_write, [3, 20]⟩, ⟨.jump, [9]⟩], 4, 0x06000014) ∧
      (sh2_translate arm_cfg (fun a => if a = 0x06000010 then 0x0009 else 0x8900) 200 drc0
          { pc := 0x06000010 } none).map (fun t => (t.code, t.cycles, t.end_pc)) =
        some ([⟨.move_r_imm, [3, 0x06000014]⟩, ⟨.sh2_test_t, []⟩, ⟨.sjmp_start, [0]⟩,
          ⟨.add_r_imm_c, [1, 3, 2]⟩, ⟨.sjmp_end, [0]⟩, ⟨.sub_r_imm, [10, 16384]⟩,
          ⟨.ctx_write, [3, 64]⟩, ⟨.jump, [9]⟩], 4, 0x06000014) := by
  refine ⟨?_, ?_, ?_, ?_⟩ <;> decide!

set_option maxRecDepth 100000 in
/-- C30, counterexample: the block `NOP; SLEEP` at `0x06000100` on the fresh ARM state
translates two opcodes (`pc` ends at `0x06000104`) and its cycle count is 1:
SLEEP assigns `cycles = 1`, and `1 * 4096` is what the block takes off SR. -/
theorem sleep_block_one_cycle :
    (sh2_translate arm_cfg (fun a => if a = 0x06000100 then 0x0009 else 0x001b) 200 drc0
        { pc := 0x06000100 } none).map (fun t => (t.end_pc, t.cycles, t.code)) =
      some (0x06000104, 1,
        [⟨.move_r_imm, [3, 0x06000102]⟩, ⟨.clear_msb, [10, 10, 20]⟩,
          ⟨.move_r_imm, [3, 0x06000104]⟩, ⟨.ctx_write, [3, 64]⟩, ⟨.pass_arg_r, [0, 11]⟩,
          ⟨.call, [8]⟩, ⟨.sub_r_imm, [10, 4096]⟩, ⟨.jump, [9]⟩]) := by
  decide!

/-! ## The per-opcode frame: `pc`, `delayed_op`, `cycles` -/

theorem steps_ite_hyp {α : Type} (R : TState → TState → Prop) (c : Prop) [Decidable c]
    (a b : TM α) (h1 : c → Steps R a) (h2 : ¬c → Steps R b) : Steps R (if c then a else b) := by
  split
  · exact h1 (by assumption)
  · exact h2 (by assumption)

theorem steps_bind2 {α β : Type} (R1 R2 R3 : TState → TState → Prop)
    (hcomp : ∀ a b c, R1 a b → R2 b c → R3 a c) (m : TM α) (f : α → TM β)
    (h1 : Steps R1 m) (h2 : ∀ a, Steps R2 (f a)) : Steps R3 (m >>= f) := by
  intro st b st2 h
  simp only [bind, TM.bind] at h
  split at h
  · simp at h
  · rename_i a st1 hm
    exact hcomp _ _ _ (h1 _ _ _ hm) (h2 a _ _ _ h)

theorem rop_refl (br sl : Prop) (st : TState) : Rop br sl st st :=
  ⟨rfl, Or.inr rfl, Or.inr (le_refl _)⟩

theorem rop_trans (br sl : Prop) (a b c : TState) (h1 : Rop br sl a b) (h2 : Rop br sl b c) :
    Rop br sl a c := by
  obtain ⟨p1, d1, c1⟩ := h1
  obtain ⟨p2, d2, c2⟩ := h2
  refine ⟨by rw [p2, p1], ?_, ?_⟩
  · rcases d1 with d1 | d1
    · exact Or.inl d1
    · rcases d2 with d2 | d2
      · exact Or.inl d2
      · exact Or.inr (by rw [d2, d1])
  · rcases c1 with c1 | c1
    · exact Or.inl c1
    · rcases c2 with c2 | c2
      · exact Or.inl c2
      · exact Or.inr (le_trans c1 c2)

theorem rop_mono (br sl br1 sl1 : Prop) (hb : br → br1) (hs : sl → sl1) {α : Type} (m : TM α)
    (h : Steps (Rop br sl) m) : Steps (Rop br1 sl1) m := by
  intro st a st1 hm
  obtain ⟨p, d, c⟩ := h st a st1 hm
  exact ⟨p, d.imp hb id, c.imp hs id⟩

theorem rop_of_eq (br sl : Prop) {α : Type} (m : TM α)
    (h : ∀ st a st1, m st = some (a, st1) →
      st1.pc = st.pc ∧ st1.delayed_op = st.delayed_op ∧ st1.cycles = st.cycles) :
    Steps (Rop br sl) m := by
  intro st a st1 hm
  obtain ⟨p, d, c⟩ := h st a st1 hm
  exact ⟨p, Or.inr d, Or.inr (le_of_eq c.symm)⟩

theorem rop_lift_rc (br sl : Prop) {α : Type} (f : RCache → Option (α × RCache)) :
    Steps (Rop br sl) (lift_rc f) := by
  apply rop_of_eq
  intro st a st1 h
  unfold lift_rc at h
  split at h
  · simp at h
  · simp only [Option.some.injEq, Prod.mk.injEq] at h
    rw [← h.2]
    exact ⟨rfl, rfl, rfl⟩

theorem rop_E (br sl : Prop) (op : EmitOp) (args : List Int) : Steps (Rop br sl) (E op args) := by
  apply rop_of_eq
  intro st a st1 h
  simp only [E, Option.some.injEq, Prod.mk.injEq] at h
  rw [← h.2]
  exact ⟨rfl, rfl, rfl⟩

theorem rop_get_reg (br sl : Prop) (cfg : Config) (r : Nat) (mode : rc_gr_mode) :
    Steps (Rop br sl) (get_reg cfg r mode) := rop_lift_rc br sl _

theorem rop_get_tmp (br sl : Prop) : Steps (Rop br sl) get_tmp := rop_lift_rc br sl _

theorem rop_get_tmp_arg (br sl : Prop) (cfg : Config) (arg : Nat) :
    Steps (Rop br sl) (get_tmp_arg cfg arg) := rop_lift_rc br sl _

theorem rop_get_reg_arg (br sl : Prop) (cfg : Config) (arg r : Nat) :
    Steps (Rop br sl) (get_reg_arg cfg arg r) := rop_lift_rc br sl _

theorem rop_free_tmp (br sl : Prop) (hr : Int) : Steps (Rop br sl) (free_tmp hr) := by
  apply rop_of_eq
  intro st a st1 h
  simp only [free_tmp, Option.some.injEq, Prod.mk.injEq] at h
  rw [← h.2]
  exact ⟨rfl, rfl, rfl⟩

theorem rop_clean (br sl : Prop) : Steps (Rop br sl) clean := by
  apply rop_of_eq
  intro st a st1 h
  simp only [clean, Option.some.injEq, Prod.mk.injEq] at h
  rw [← h.2]
  exact ⟨rfl, rfl, rfl⟩

theorem rop_invalidate (br sl : Prop) : Steps (Rop br sl) invalidate := by
  apply rop_of_eq
  intro st a st1 h
  simp only [invalidate, Option.some.injEq, Prod.mk.injEq] at h
  rw [← h.2]
  exact ⟨rfl, rfl, rfl⟩

theorem rop_flush (br sl : Prop) : Steps (Rop br sl) flush := by
  apply rop_of_eq
  intro st a st1 h
  simp only [flush, Option.some.injEq, Prod.mk.injEq] at h
  rw [← h.2]
  exact ⟨rfl, rfl, rfl⟩

theorem rop_set_test_irq (br sl : Prop) : Steps (Rop br sl) set_test_irq := by
  apply rop_of_eq
  intro st a st1 h
  simp only [set_test_irq, Option.some.injEq, Prod.mk.injEq] at h
  rw [← h.2]
  exact ⟨rfl, rfl, rfl⟩

theorem rop_get_pc (br sl : Prop) : Steps (Rop br sl) get_pc := by
  apply rop_of_eq
  intro st a st1 h
  simp only [get_pc, Option.some.injEq, Prod.mk.injEq] at h
  rw [← h.2]
  exact ⟨rfl, rfl, rfl⟩

theorem rop_get_delayed_op (br sl : Prop) : Steps (Rop br sl) get_delayed_op := by
  apply rop_of_eq
  intro st a st1 h
  simp only [get_delayed_op, Option.some.injEq, Prod.mk.injEq] at h
  rw [← h.2]
  exact ⟨rfl, rfl, rfl⟩

theorem rop_get_test_irq (br sl : Prop) : Steps (Rop br sl) get_test_irq := by
  apply rop_of_eq
  intro st a st1 h
  simp only [get_test_irq, Option.some.injEq, Prod.mk.injEq] at h
  rw [← h.2]
  exact ⟨rfl, rfl, rfl⟩

theorem rop_add_cycles (br sl : Prop) (n : Int) (hn : 0 ≤ n) :
    Steps (Rop br sl) (add_cycles n) := by
  intro st a st1 h
  simp only [add_cycles, Option.some.injEq, Prod.mk.injEq] at h
  rw [← h.2]
  exact ⟨rfl, Or.inr rfl, Or.inr (le_add_of_nonneg_right hn)⟩

theorem rop_set_cycles (br sl : Prop) (n : Int) (hs : sl) : Steps (Rop br sl) (set_cycles n) := by
  intro st a st1 h
  simp only [set_cycles, Option.some.injEq, Prod.mk.injEq] at h
  rw [← h.2]
  exact ⟨rfl, Or.inr rfl, Or.inl hs⟩

theorem rop_DELAYED_OP (br sl : Prop) (hb : br) : Steps (Rop br sl) DELAYED_OP := by
  intro st a st1 h
  simp only [DELAYED_OP, Option.some.injEq, Prod.mk.injEq] at h
  rw [← h.2]
  exact ⟨rfl, Or.inl hb, Or.inr (le_refl _)⟩

theorem rop_emit_move_r_imm32 (br sl : Prop) (cfg : Config) (dst i : Nat) :
    Steps (Rop br
      sl) (emit_move_r_imm32 cfg dst i) := by
  unfold emit_move_r_imm32
  repeat' with_reducible first
    | apply steps_bind _ (rop_trans _ _)
    | refine fun _ => ?_
    | exact rop_E _ _ _ _
    | exact rop_get_reg _ _ _ _ _
    | exact rop_get_tmp _ _
    | exact rop_get_tmp_arg _ _ _ _
    | exact rop_get_reg_arg _ _ _ _ _
    | exact rop_free_tmp _ _ _
    | exact rop_clean _ _
    | exact rop_invalidate _ _
    | exact rop_flush _ _
    | exact rop_set_test_irq _ _
    | exact rop_get_pc _ _
    | exact rop_get_delayed_op _ _
    | apply steps_pure _ (rop_refl _ _)
    | exact rop_add_cycles _ _ _ (by decide)
    | exact rop_set_cycles _ _ _ (by omega)
    | exact rop_DELAYED_OP _ _ (by omega)
    | apply steps_ite_hyp
    | dsimp only
    | split

theorem rop_emit_move_r_r (br sl : Prop) (cfg : Config) (dst src : Nat) :
    Steps (Rop br
      sl) (emit_move_r_r cfg dst src) := by
  unfold emit_move_r_r
  repeat' with_reducible first
    | apply steps_bind _ (rop_trans _ _)
    | refine fun _ => ?_
    | exact rop_E _ _ _ _
    | exact rop_get_reg _ _ _ _ _
    | exact rop_get_tmp _ _
    | exact rop_get_tmp_arg _ _ _ _
    | exact rop_get_reg_arg _ _ _ _ _
    | exact rop_free_tmp _ _ _
    | exact rop_clean _ _
    | exact rop_invalidate _ _
    | exact rop_flush _ _
    | exact rop_set_test_irq _ _
    | exact rop_get_pc _ _
    | exact rop_get_delayed_op _ _
    | apply steps_pure _ (rop_refl _ _)
    | exact rop_emit_move_r_imm32 _ _ _ _ _
    | exact rop_add_cycles _ _ _ (by decide)
    | exact rop_set_cycles _ _ _ (by omega)
    | exact rop_DELAYED_OP _ _ (by omega)
    | apply steps_ite_hyp
    | dsimp only
    | split

theorem rop_emit_or_t_if_eq (br sl : Prop) (srr : Int) :
    Steps (Rop br
      sl) (emit_or_t_if_eq srr) := by
  unfold emit_or_t_if_eq
  repeat' with_reducible first
    | apply steps_bind _ (rop_trans _ _)
    | refine fun _ => ?_
    | exact rop_E _ _ _ _
    | exact rop_get_reg _ _ _ _ _
    | exact rop_get_tmp _ _
    | exact rop_get_tmp_arg _ _ _ _
    | exact rop_get_reg_arg _ _ _ _ _
    | exact rop_free_tmp _ _ _
    | exact rop_clean _ _
    | exact rop_invalidate _ _
    | exact rop_flush _ _
    | exact rop_set_test_irq _ _
    | exact rop_get_pc _ _
    | exact rop_get_delayed_op _ _
    | apply steps_pure _ (rop_refl _ _)
    | exact rop_emit_move_r_imm32 _ _ _ _ _
    | exact rop_emit_move_r_r _ _ _ _ _
    | exact rop_add_cycles _ _ _ (by decide)
    | exact rop_set_cycles _ _ _ (by omega)
    | exact rop_DELAYED_OP _ _ (by omega)
    | apply steps_ite_hyp
    | dsimp only
    | split

theorem rop_emit_or_bit_c (br sl : Prop) (skip c sr : Int) (bit : Nat) :
    Steps (Rop br
      sl) (emit_or_bit_c skip c sr bit) := by
  unfold emit_or_bit_c
  repeat' with_reducible first
    | apply steps_bind _ (rop_trans _ _)
    | refine fun _ => ?_
    | exact rop_E _ _ _ _
    | exact rop_get_reg _ _ _ _ _
    | exact rop_get_tmp _ _
    | exact rop_get_tmp_arg _ _ _ _
    | exact rop_get_reg_arg _ _ _ _ _
    | exact rop_free_tmp _ _ _
    | exact rop_clean _ _
    | exact rop_invalidate _ _
    | exact rop_flush _ _
    | exact rop_set_test_irq _ _
    | exact rop_get_pc _ _
    | exact rop_get_delayed_op _ _
    | apply steps_pure _ (rop_refl _ _)
    | exact rop_emit_move_r_imm32 _ _ _ _ _
    | exact rop_emit_move_r_r _ _ _ _ _
    | exact rop_emit_or_t_if_eq _ _ _
    | exact rop_add_cycles _ _ _ (by decide)
    | exact rop_set_cycles _ _ _ (by omega)
    | exact rop_DELAYED_OP _ _ (by omega)
    | apply steps_ite_hyp
    | dsimp only
    | split

theorem rop_emit_memcall (br sl : Prop) (f8 f16 f32 : Int) (size : Nat) :
    Steps (Rop br
      sl) (emit_memcall f8 f16 f32 size) := by
  unfold emit_memcall
  repeat' with_reducible first
    | apply steps_bind _ (rop_trans _ _)
    | refine fun _ => ?_
    | exact rop_E _ _ _ _
    | exact rop_get_reg _ _ _ _ _
    | exact rop_get_tmp _ _
    | exact rop_get_tmp_arg _ _ _ _
    | exact rop_get_reg_arg _ _ _ _ _
    | exact rop_free_tmp _ _ _
    | exact rop_clean _ _
    | exact rop_invalidate _ _
    | exact rop_flush _ _
    | exact rop_set_test_irq _ _
    | exact rop_get_pc _ _
    | exact rop_get_delayed_op _ _
    | apply steps_pure _ (rop_refl _ _)
    | exact rop_emit_move_r_imm32 _ _ _ _ _
    | exact rop_emit_move_r_r _ _ _ _ _
    | exact rop_emit_or_t_if_eq _ _ _
    | exact rop_emit_or_bit_c _ _ _ _ _ _
    | exact rop_add_cycles _ _ _ (by decide)
    | exact rop_set_cycles _ _ _ (by omega)
    | exact rop_DELAYED_OP _ _ (by omega)
    | apply steps_ite_hyp
    | dsimp only
    | split

theorem rop_emit_memhandler_read (br sl : Prop) (cfg : Config) (size : Nat) :
    Steps (Rop br
      sl) (emit_memhandler_read cfg size) := by
  unfold emit_memhandler_read
  repeat' with_reducible first
    | apply steps_bind _ (rop_trans _ _)
    | refine fun _ => ?_
    | exact rop_E _ _ _ _
    | exact rop_get_reg _ _ _ _ _
    | exact rop_get_tmp _ _
    | exact rop_get_tmp_arg _ _ _ _
    | exact rop_get_reg_arg _ _ _ _ _
    | exact rop_free_tmp _ _ _
    | exact rop_clean _ _
    | exact rop_invalidate _ _
    | exact rop_flush _ _
    | exact rop_set_test_irq _ _
    | exact rop_get_pc _ _
    | exact rop_get_delayed_op _ _
    | apply steps_pure _ (rop_refl _ _)
    | exact rop_emit_move_r_imm32 _ _ _ _ _
    | exact rop_emit_move_r_r _ _ _ _ _
    | exact rop_emit_or_t_if_eq _ _ _
    | exact rop_emit_or_bit_c _ _ _ _ _ _
    | exact rop_emit_memcall _ _ _ _ _ _
    | exact rop_add_cycles _ _ _ (by decide)
    | exact rop_set_cycles _ _ _ (by omega)
    | exact rop_DELAYED_OP _ _ (by omega)
    | apply steps_ite_hyp
    | dsimp only
    | split

theorem rop_emit_memhandler_write (br sl : Prop) (cfg : Config) (size : Nat) :
    Steps (Rop br
      sl) (emit_memhandler_write cfg size) := by
  unfold emit_memhandler_write
  repeat' with_reducible first
    | apply steps_bind _ (rop_trans _ _)
    | refine fun _ => ?_
    | exact rop_E _ _ _ _
    | exact rop_get_reg _ _ _ _ _
    | exact rop_get_tmp _ _
    | exact rop_get_tmp_arg _ _ _ _
    | exact rop_get_reg_arg _ _ _ _ _
    | exact rop_free_tmp _ _ _
    | exact rop_clean _ _
    | exact rop_invalidate _ _
    | exact rop_flush _ _
    | exact rop_set_test_irq _ _
    | exact rop_get_pc _ _
    | exact rop_get_delayed_op _ _
    | apply steps_pure _ (rop_refl _ _)
    | exact rop_emit_move_r_imm32 _ _ _ _ _
    | exact rop_emit_move_r_r _ _ _ _ _
    | exact rop_emit_or_t_if_eq _ _ _
    | exact rop_emit_or_bit_c _ _ _ _ _ _
    | exact rop_emit_memcall _ _ _ _ _ _
    | exact rop_emit_memhandler_read _ _ _ _
    | exact rop_add_cycles _ _ _ (by decide)
    | exact rop_set_cycles _ _ _ (by omega)
    | exact rop_DELAYED_OP _ _ (by omega)
    | apply steps_ite_hyp
    | dsimp only
    | split

theorem rop_emit_indirect_indexed_read (br sl : Prop) (cfg : Config) (rx ry size : Nat) :
    Steps (Rop br
      sl) (emit_indirect_indexed_read cfg rx ry size) := by
  unfold emit_indirect_indexed_read
  repeat' with_reducible first
    | apply steps_bind _ (rop_trans _ _)
    | refine fun _ => ?_
    | exact rop_E _ _ _ _
    | exact rop_get_reg _ _ _ _ _
    | exact rop_get_tmp _ _
    | exact rop_get_tmp_arg _ _ _ _
    | exact rop_get_reg_arg _ _ _ _ _
    | exact rop_free_tmp _ _ _
    | exact rop_clean _ _
    | exact rop_invalidate _ _
    | exact rop_flush _ _
    | exact rop_set_test_irq _ _
    | exact rop_get_pc _ _
    | exact rop_get_delayed_op _ _
    | apply steps_pure _ (rop_refl _ _)
    | exact rop_emit_move_r_imm32 _ _ _ _ _
    | exact rop_emit_move_r_r _ _ _ _ _
    | exact rop_emit_or_t_if_eq _ _ _
    | exact rop_emit_or_bit_c _ _ _ _ _ _
    | exact rop_emit_memcall _ _ _ _ _ _
    | exact rop_emit_memhandler_read _ _ _ _
    | exact rop_emit_memhandler_write _ _ _ _
    | exact rop_add_cycles _ _ _ (by decide)
    | exact rop_set_cycles _ _ _ (by omega)
    | exact rop_DELAYED_OP _ _ (by omega)
    | apply steps_ite_hyp
    | dsimp only
    | split

theorem rop_emit_indirect_indexed_write (br sl : Prop) (cfg : Config) (tmp_wr : Int) (rx ry size : Nat) :
    Steps (Rop br
      sl) (emit_indirect_indexed_write cfg tmp_wr rx ry size) := by
  unfold emit_indirect_indexed_write
  repeat' with_reducible first
    | apply steps_bind _ (rop_trans _ _)
    | refine fun _ => ?_
    | exact rop_E _ _ _ _
    | exact rop_get_reg _ _ _ _ _
    | exact rop_get_tmp _ _
    | exact rop_get_tmp_arg _ _ _ _
    | exact rop_get_reg_arg _ _ _ _ _
    | exact rop_free_tmp _ _ _
    | exact rop_clean _ _
    | exact rop_invalidate _ _
    | exact rop_flush _ _
    | exact rop_set_test_irq _ _
    | exact rop_get_pc _ _
    | exact rop_get_delayed_op _ _
    | apply steps_pure _ (rop_refl _ _)
    | exact rop_emit_move_r_imm32 _ _ _ _ _
    | exact rop_emit_move_r_r _ _ _ _ _
    | exact rop_emit_or_t_if_eq _ _ _
    | exact rop_emit_or_bit_c _ _ _ _ _ _
    | exact rop_emit_memcall _ _ _ _ _ _
    | exact rop_emit_memhandler_read _ _ _ _
    | exact rop_emit_memhandler_write _ _ _ _
    | exact rop_emit_indirect_indexed_read _ _ _ _ _ _
    | exact rop_add_cycles _ _ _ (by decide)
    | exact rop_set_cycles _ _ _ (by omega)
    | exact rop_DELAYED_OP _ _ (by omega)
    | apply steps_ite_hyp
    | dsimp only
    | split

theorem rop_emit_indirect_read_double (br sl : Prop) (cfg : Config) (rn rm size : Nat) :
    Steps (Rop br
      sl) (emit_indirect_read_double cfg rn rm size) := by
  unfold emit_indirect_read_double
  repeat' with_reducible first
    | apply steps_bind _ (rop_trans _ _)
    | refine fun _ => ?_
    | exact rop_E _ _ _ _
    | exact rop_get_reg _ _ _ _ _
    | exact rop_get_tmp _ _
    | exact rop_get_tmp_arg _ _ _ _
    | exact rop_get_reg_arg _ _ _ _ _
    | exact rop_free_tmp _ _ _
    | exact rop_clean _ _
    | exact rop_invalidate _ _
    | exact rop_flush _ _
    | exact rop_set_test_irq _ _
    | exact rop_get_pc _ _
    | exact rop_get_delayed_op _ _
    | apply steps_pure _ (rop_refl _ _)
    | exact rop_emit_move_r_imm32 _ _ _ _ _
    | exact rop_emit_move_r_r _ _ _ _ _
    | exact rop_emit_or_t_if_eq _ _ _
    | exact rop_emit_or_bit_c _ _ _ _ _ _
    | exact rop_emit_memcall _ _ _ _ _ _
    | exact rop_emit_memhandler_read _ _ _ _
    | exact rop_emit_memhandler_write _ _ _ _
    | exact rop_emit_indirect_indexed_read _ _ _ _ _ _
    | exact rop_emit_indirect_indexed_write _ _ _ _ _ _ _
    | exact rop_add_cycles _ _ _ (by decide)
    | exact rop_set_cycles _ _ _ (by omega)
    | exact rop_DELAYED_OP _ _ (by omega)
    | apply steps_ite_hyp
    | dsimp only
    | split

theorem rop_default_ (br sl : Prop) (cfg : Config) (op : Nat) :
    Steps (Rop br
      sl) (default_ cfg op) := by
  unfold default_
  repeat' with_reducible first
    | apply steps_bind _ (rop_trans _ _)
    | refine fun _ => ?_
    | exact rop_E _ _ _ _
    | exact rop_get_reg _ _ _ _ _
    | exact rop_get_tmp _ _
    | exact rop_get_tmp_arg _ _ _ _
    | exact rop_get_reg_arg _ _ _ _ _
    | exact rop_free_tmp _ _ _
    | exact rop_clean _ _
    | exact rop_invalidate _ _
    | exact rop_flush _ _
    | exact rop_set_test_irq _ _
    | exact rop_get_pc _ _
    | exact rop_get_delayed_op _ _
    | apply steps_pure _ (rop_refl _ _)
    | exact rop_emit_move_r_imm32 _ _ _ _ _
    | exact rop_emit_move_r_r _ _ _ _ _
    | exact rop_emit_or_t_if_eq _ _ _
    | exact rop_emit_or_bit_c _ _ _ _ _ _
    | exact rop_emit_memcall _ _ _ _ _ _
    | exact rop_emit_memhandler_read _ _ _ _
    | exact rop_emit_memhandler_write _ _ _ _
    | exact rop_emit_indirect_indexed_read _ _ _ _ _ _
    | exact rop_emit_indirect_indexed_write _ _ _ _ _ _ _
    | exact rop_emit_indirect_read_double _ _ _ _ _ _
    | exact rop_add_cycles _ _ _ (by decide)
    | exact rop_set_cycles _ _ _ (by omega)
    | exact rop_DELAYED_OP _ _ (by omega)
    | apply steps_ite_hyp
    | dsimp only
    | split

theorem rop_end_rmw_op (br sl : Prop) (cfg : Config) (tmp : Int) :
    Steps (Rop br
      sl) (end_rmw_op cfg tmp) := by
  unfold end_rmw_op
  repeat' with_reducible first
    | apply steps_bind _ (rop_trans _ _)
    | refine fun _ => ?_
    | exact rop_E _ _ _ _
    | exact rop_get_reg _ _ _ _ _
    | exact rop_get_tmp _ _
    | exact rop_get_tmp_arg _ _ _ _
    | exact rop_get_reg_arg _ _ _ _ _
    | exact rop_free_tmp _ _ _
    | exact rop_clean _ _
    | exact rop_invalidate _ _
    | exact rop_flush _ _
    | exact rop_set_test_irq _ _
    | exact rop_get_pc _ _
    | exact rop_get_delayed_op _ _
    | apply steps_pure _ (rop_refl _ _)
    | exact rop_emit_move_r_imm32 _ _ _ _ _
    | exact rop_emit_move_r_r _ _ _ _ _
    | exact rop_emit_or_t_if_eq _ _ _
    | exact rop_emit_or_bit_c _ _ _ _ _ _
    | exact rop_emit_memcall _ _ _ _ _ _
    | exact rop_emit_memhandler_read _ _ _ _
    | exact rop_emit_memhandler_write _ _ _ _
    | exact rop_emit_indirect_indexed_read _ _ _ _ _ _
    | exact rop_emit_indirect_indexed_write _ _ _ _ _ _ _
    | exact rop_emit_indirect_read_double _ _ _ _ _ _
    | exact rop_default_ _ _ _ _
    | exact rop_add_cycles _ _ _ (by decide)
    | exact rop_set_cycles _ _ _ (by omega)
    | exact rop_DELAYED_OP _ _ (by omega)
    | apply steps_ite_hyp
    | dsimp only
    | split

theorem req_refl (st : TState) : Req st st := ⟨rfl, rfl, rfl⟩

theorem req_trans (a b c : TState) (h1 : Req a b) (h2 : Req b c) : Req a c := by
  obtain ⟨p1, d1, c1⟩ := h1
  obtain ⟨p2, d2, c2⟩ := h2
  exact ⟨by rw [p2, p1], by rw [d2, d1], by rw [c2, c1]⟩

theorem req_rcy2 (a b c : TState) (h1 : Req a b) (h2 : Rcy2 b c) : Rcy2 a c := by
  obtain ⟨p1, d1, c1⟩ := h1
  obtain ⟨p2, d2, c2⟩ := h2
  exact ⟨by rw [p2, p1], by rw [d2, d1], by rw [c2, c1]⟩

theorem req_E (op : EmitOp) (args : List Int) : Steps Req (E op args) := by
  intro st a st1 h
  simp only [E, Option.some.injEq, Prod.mk.injEq] at h
  rw [← h.2]
  exact ⟨rfl, rfl, rfl⟩

theorem req_get_reg (cfg : Config) (r : Nat) (mode : rc_gr_mode) :
    Steps Req (get_reg cfg r mode) := by
  intro st a st1 h
  simp only [get_reg, lift_rc] at h
  split at h
  · simp at h
  · simp only [Option.some.injEq, Prod.mk.injEq] at h
    rw [← h.2]
    exact ⟨rfl, rfl, rfl⟩

theorem req_get_pc : Steps Req get_pc := by
  intro st a st1 h
  simp only [get_pc, Option.some.injEq, Prod.mk.injEq] at h
  rw [← h.2]
  exact ⟨rfl, rfl, rfl⟩

theorem req_get_delayed_op : Steps Req get_delayed_op := by
  intro st a st1 h
  simp only [get_delayed_op, Option.some.injEq, Prod.mk.injEq] at h
  rw [← h.2]
  exact ⟨rfl, rfl, rfl⟩

theorem rcy2_tail (d : Nat) :
    Steps Rcy2 (add_cycles 2 >>= fun _ =>
      if d = 0 then (pure OpExit.end_block_btf : TM OpExit) else pure OpExit.end_op) := by
  intro st a st1 h
  rw [tm_bind_eq_some] at h
  obtain ⟨_, s1, h1, h⟩ := h
  simp only [add_cycles, Option.some.injEq, Prod.mk.injEq, true_and] at h1
  have h2 : st1 = s1 := by
    split at h
    · rw [tm_pure_eq_some] at h
      exact h.2.symm
    · rw [tm_pure_eq_some] at h
      exact h.2.symm
  rw [h2, ← h1]
  exact ⟨rfl, rfl, rfl⟩

theorem rcy2_op_8_branch (cfg : Config) (op : Nat) : Steps Rcy2 (op_8_branch cfg op) := by
  unfold op_8_branch
  repeat' with_reducible first
    | exact req_E _ _
    | exact req_get_reg _ _ _
    | exact req_get_pc
    | exact req_get_delayed_op
    | exact rcy2_tail _
    | apply steps_bind2 Req Rcy2 Rcy2 req_rcy2
    | apply steps_ite Req
    | apply steps_ite Rcy2
    | refine fun _ => ?_
    | dsimp only

theorem rop_op_8_branch (br sl : Prop) (cfg : Config) (op : Nat) :
    Steps (Rop br sl) (op_8_branch cfg op) := by
  intro st a st1 h
  obtain ⟨p, d, c⟩ := rcy2_op_8_branch cfg op st a st1 h
  exact ⟨p, Or.inr d, Or.inr (by omega)⟩

theorem rop_bts (br sl : Prop) (cfg : Config) (op : Nat) :
    Steps (Rop br sl) (add_cycles (-1) >>= fun _ => op_8_branch cfg op) := by
  intro st a st1 h
  rw [tm_bind_eq_some] at h
  obtain ⟨_, s1, h1, h⟩ := h
  simp only [add_cycles, Option.some.injEq, Prod.mk.injEq, true_and] at h1
  obtain ⟨p, d, c⟩ := rcy2_op_8_branch cfg op s1 a st1 h
  rw [← h1] at p d c
  simp only at p d c
  exact ⟨p, Or.inr d, Or.inr (by omega)⟩

theorem rop_op_0 (cfg : Config) (op : Nat) :
    Steps (Rop ((op &&& 0x0f = 0x03 ∧ op &&& 0xd0 = 0) ∨
      (op &&& 0x0f = 0x0b ∧ op &&& 0xf00 = 0 ∧ (GET_Fx op = 0 ∨ GET_Fx op = 2)))
      (op &&& 0x0f = 0x0b ∧ op &&& 0xf00 = 0 ∧ GET_Fx op = 1)) (op_0 cfg op) := by
  unfold op_0
  repeat' with_reducible first
    | apply steps_bind _ (rop_trans _ _)
    | refine fun _ => ?_
    | exact rop_E _ _ _ _
    | exact rop_get_reg _ _ _ _ _
    | exact rop_get_tmp _ _
    | exact rop_get_tmp_arg _ _ _ _
    | exact rop_get_reg_arg _ _ _ _ _
    | exact rop_free_tmp _ _ _
    | exact rop_clean _ _
    | exact rop_invalidate _ _
    | exact rop_flush _ _
    | exact rop_set_test_irq _ _
    | exact rop_get_pc _ _
    | exact rop_get_delayed_op _ _
    | apply steps_pure _ (rop_refl _ _)
    | exact rop_emit_move_r_imm32 _ _ _ _ _
    | exact rop_emit_move_r_r _ _ _ _ _
    | exact rop_emit_or_t_if_eq _ _ _
    | exact rop_emit_or_bit_c _ _ _ _ _ _
    | exact rop_emit_memcall _ _ _ _ _ _
    | exact rop_emit_memhandler_read _ _ _ _
    | exact rop_emit_memhandler_write _ _ _ _
    | exact rop_emit_indirect_indexed_read _ _ _ _ _ _
    | exact rop_emit_indirect_indexed_write _ _ _ _ _ _ _
    | exact rop_emit_indirect_read_double _ _ _ _ _ _
    | exact rop_default_ _ _ _ _
    | exact rop_end_rmw_op _ _ _ _
    | exact rop_add_cycles _ _ _ (by decide)
    | exact rop_set_cycles _ _ _ (by omega)
    | exact rop_DELAYED_OP _ _ (by omega)
    | apply steps_ite_hyp
    | dsimp only
    | split

theorem rop_op_1 (br sl : Prop) (cfg : Config) (op : Nat) :
    Steps (Rop br
      sl) (op_1 cfg op) := by
  unfold op_1
  repeat' with_reducible first
    | apply steps_bind _ (rop_trans _ _)
    | refine fun _ => ?_
    | exact rop_E _ _ _ _
    | exact rop_get_reg _ _ _ _ _
    | exact rop_get_tmp _ _
    | exact rop_get_tmp_arg _ _ _ _
    | exact rop_get_reg_arg _ _ _ _ _
    | exact rop_free_tmp _ _ _
    | exact rop_clean _ _
    | exact rop_invalidate _ _
    | exact rop_flush _ _
    | exact rop_set_test_irq _ _
    | exact rop_get_pc _ _
    | exact rop_get_delayed_op _ _
    | apply steps_pure _ (rop_refl _ _)
    | exact rop_emit_move_r_imm32 _ _ _ _ _
    | exact rop_emit_move_r_r _ _ _ _ _
    | exact rop_emit_or_t_if_eq _ _ _
    | exact rop_emit_or_bit_c _ _ _ _ _ _
    | exact rop_emit_memcall _ _ _ _ _ _
    | exact rop_emit_memhandler_read _ _ _ _
    | exact rop_emit_memhandler_write _ _ _ _
    | exact rop_emit_indirect_indexed_read _ _ _ _ _ _
    | exact rop_emit_indirect_indexed_write _ _ _ _ _ _ _
    | exact rop_emit_indirect_read_double _ _ _ _ _ _
    | exact rop_default_ _ _ _ _
    | exact rop_end_rmw_op _ _ _ _
    | exact rop_add_cycles _ _ _ (by decide)
    | exact rop_set_cycles _ _ _ (by omega)
    | exact rop_DELAYED_OP _ _ (by omega)
    | apply steps_ite_hyp
    | dsimp only
    | split

theorem rop_op_2 (br sl : Prop) (cfg : Config) (op : Nat) :
    Steps (Rop br
      sl) (op_2 cfg op) := by
  unfold op_2
  repeat' with_reducible first
    | apply steps_bind _ (rop_trans _ _)
    | refine fun _ => ?_
    | exact rop_E _ _ _ _
    | exact rop_get_reg _ _ _ _ _
    | exact rop_get_tmp _ _
    | exact rop_get_tmp_arg _ _ _ _
    | exact rop_get_reg_arg _ _ _ _ _
    | exact rop_free_tmp _ _ _
    | exact rop_clean _ _
    | exact rop_invalidate _ _
    | exact rop_flush _ _
    | exact rop_set_test_irq _ _
    | exact rop_get_pc _ _
    | exact rop_get_delayed_op _ _
    | apply steps_pure _ (rop_refl _ _)
    | exact rop_emit_move_r_imm32 _ _ _ _ _
    | exact rop_emit_move_r_r _ _ _ _ _
    | exact rop_emit_or_t_if_eq _ _ _
    | exact rop_emit_or_bit_c _ _ _ _ _ _
    | exact rop_emit_memcall _ _ _ _ _ _
    | exact rop_emit_memhandler_read _ _ _ _
    | exact rop_emit_memhandler_write _ _ _ _
    | exact rop_emit_indirect_indexed_read _ _ _ _ _ _
    | exact rop_emit_indirect_indexed_write _ _ _ _ _ _ _
    | exact rop_emit_indirect_read_double _ _ _ _ _ _
    | exact rop_default_ _ _ _ _
    | exact rop_end_rmw_op _ _ _ _
    | exact rop_add_cycles _ _ _ (by decide)
    | exact rop_set_cycles _ _ _ (by omega)
    | exact rop_DELAYED_OP _ _ (by omega)
    | apply steps_ite_hyp
    | dsimp only
    | split

theorem rop_op_3 (br sl : Prop) (cfg : Config) (op : Nat) :
    Steps (Rop br
      sl) (op_3 cfg op) := by
  unfold op_3
  repeat' with_reducible first
    | apply steps_bind _ (rop_trans _ _)
    | refine fun _ => ?_
    | exact rop_E _ _ _ _
    | exact rop_get_reg _ _ _ _ _
    | exact rop_get_tmp _ _
    | exact rop_get_tmp_arg _ _ _ _
    | exact rop_get_reg_arg _ _ _ _ _
    | exact rop_free_tmp _ _ _
    | exact rop_clean _ _
    | exact rop_invalidate _ _
    | exact rop_flush _ _
    | exact rop_set_test_irq _ _
    | exact rop_get_pc _ _
    | exact rop_get_delayed_op _ _
    | apply steps_pure _ (rop_refl _ _)
    | exact rop_emit_move_r_imm32 _ _ _ _ _
    | exact rop_emit_move_r_r _ _ _ _ _
    | exact rop_emit_or_t_if_eq _ _ _
    | exact rop_emit_or_bit_c _ _ _ _ _ _
    | exact rop_emit_memcall _ _ _ _ _ _
    | exact rop_emit_memhandler_read _ _ _ _
    | exact rop_emit_memhandler_write _ _ _ _
    | exact rop_emit_indirect_indexed_read _ _ _ _ _ _
    | exact rop_emit_indirect_indexed_write _ _ _ _ _ _ _
    | exact rop_emit_indirect_read_double _ _ _ _ _ _
    | exact rop_default_ _ _ _ _
    | exact rop_end_rmw_op _ _ _ _
    | exact rop_add_cycles _ _ _ (by decide)
    | exact rop_set_cycles _ _ _ (by omega)
    | exact rop_DELAYED_OP _ _ (by omega)
    | apply steps_ite_hyp
    | dsimp only
    | split

theorem rop_op_4 (sl : Prop) (cfg : Config) (mem : Nat → Nat) (op : Nat) :
    Steps (Rop (op &&& 0x0f = 0x0b ∧ (GET_Fx op = 0 ∨ GET_Fx op = 2))
      sl) (op_4 cfg mem op) := by
  unfold op_4
  repeat' with_reducible first
    | apply steps_bind _ (rop_trans _ _)
    | refine fun _ => ?_
    | exact rop_E _ _ _ _
    | exact rop_get_reg _ _ _ _ _
    | exact rop_get_tmp _ _
    | exact rop_get_tmp_arg _ _ _ _
    | exact rop_get_reg_arg _ _ _ _ _
    | exact rop_free_tmp _ _ _
    | exact rop_clean _ _
    | exact rop_invalidate _ _
    | exact rop_flush _ _
    | exact rop_set_test_irq _ _
    | exact rop_get_pc _ _
    | exact rop_get_delayed_op _ _
    | apply steps_pure _ (rop_refl _ _)
    | exact rop_emit_move_r_imm32 _ _ _ _ _
    | exact rop_emit_move_r_r _ _ _ _ _
    | exact rop_emit_or_t_if_eq _ _ _
    | exact rop_emit_or_bit_c _ _ _ _ _ _
    | exact rop_emit_memcall _ _ _ _ _ _
    | exact rop_emit_memhandler_read _ _ _ _
    | exact rop_emit_memhandler_write _ _ _ _
    | exact rop_emit_indirect_indexed_read _ _ _ _ _ _
    | exact rop_emit_indirect_indexed_write _ _ _ _ _ _ _
    | exact rop_emit_indirect_read_double _ _ _ _ _ _
    | exact rop_default_ _ _ _ _
    | exact rop_end_rmw_op _ _ _ _
    | exact rop_add_cycles _ _ _ (by decide)
    | exact rop_set_cycles _ _ _ (by omega)
    | exact rop_DELAYED_OP _ _ (by omega)
    | apply steps_ite_hyp
    | dsimp only
    | split

theorem rop_op_5 (br sl : Prop) (cfg : Config) (op : Nat) :
    Steps (Rop br
      sl) (op_5 cfg op) := by
  unfold op_5
  repeat' with_reducible first
    | apply steps_bind _ (rop_trans _ _)
    | refine fun _ => ?_
    | exact rop_E _ _ _ _
    | exact rop_get_reg _ _ _ _ _
    | exact rop_get_tmp _ _
    | exact rop_get_tmp_arg _ _ _ _
    | exact rop_get_reg_arg _ _ _ _ _
    | exact rop_free_tmp _ _ _
    | exact rop_clean _ _
    | exact rop_invalidate _ _
    | exact rop_flush _ _
    | exact rop_set_test_irq _ _
    | exact rop_get_pc _ _
    | exact rop_get_delayed_op _ _
    | apply steps_pure _ (rop_refl _ _)
    | exact rop_emit_move_r_imm32 _ _ _ _ _
    | exact rop_emit_move_r_r _ _ _ _ _
    | exact rop_emit_or_t_if_eq _ _ _
    | exact rop_emit_or_bit_c _ _ _ _ _ _
    | exact rop_emit_memcall _ _ _ _ _ _
    | exact rop_emit_memhandler_read _ _ _ _
    | exact rop_emit_memhandler_write _ _ _ _
    | exact rop_emit_indirect_indexed_read _ _ _ _ _ _
    | exact rop_emit_indirect_indexed_write _ _ _ _ _ _ _
    | exact rop_emit_indirect_read_double _ _ _ _ _ _
    | exact rop_default_ _ _ _ _
    | exact rop_end_rmw_op _ _ _ _
    | exact rop_add_cycles _ _ _ (by decide)
    | exact rop_set_cycles _ _ _ (by omega)
    | exact rop_DELAYED_OP _ _ (by omega)
    | apply steps_ite_hyp
    | dsimp only
    | split

theorem rop_op_6 (br sl : Prop) (cfg : Config) (op : Nat) :
    Steps (Rop br
      sl) (op_6 cfg op) := by
  unfold op_6
  repeat' with_reducible first
    | apply steps_bind _ (rop_trans _ _)
    | refine fun _ => ?_
    | exact rop_E _ _ _ _
    | exact rop_get_reg _ _ _ _ _
    | exact rop_get_tmp _ _
    | exact rop_get_tmp_arg _ _ _ _
    | exact rop_get_reg_arg _ _ _ _ _
    | exact rop_free_tmp _ _ _
    | exact rop_clean _ _
    | exact rop_invalidate _ _
    | exact rop_flush _ _
    | exact rop_set_test_irq _ _
    | exact rop_get_pc _ _
    | exact rop_get_delayed_op _ _
    | apply steps_pure _ (rop_refl _ _)
    | exact rop_emit_move_r_imm32 _ _ _ _ _
    | exact rop_emit_move_r_r _ _ _ _ _
    | exact rop_emit_or_t_if_eq _ _ _
    | exact rop_emit_or_bit_c _ _ _ _ _ _
    | exact rop_emit_memcall _ _ _ _ _ _
    | exact rop_emit_memhandler_read _ _ _ _
    | exact rop_emit_memhandler_write _ _ _ _
    | exact rop_emit_indirect_indexed_read _ _ _ _ _ _
    | exact rop_emit_indirect_indexed_write _ _ _ _ _ _ _
    | exact rop_emit_indirect_read_double _ _ _ _ _ _
    | exact rop_default_ _ _ _ _
    | exact rop_end_rmw_op _ _ _ _
    | exact rop_add_cycles _ _ _ (by decide)
    | exact rop_set_cycles _ _ _ (by omega)
    | exact rop_DELAYED_OP _ _ (by omega)
    | apply steps_ite_hyp
    | dsimp only
    | split

theorem rop_op_7 (br sl : Prop) (cfg : Config) (op : Nat) :
    Steps (Rop br
      sl) (op_7 cfg op) := by
  unfold op_7
  repeat' with_reducible first
    | apply steps_bind _ (rop_trans _ _)
    | refine fun _ => ?_
    | exact rop_E _ _ _ _
    | exact rop_get_reg _ _ _ _ _
    | exact rop_get_tmp _ _
    | exact rop_get_tmp_arg _ _ _ _
    | exact rop_get_reg_arg _ _ _ _ _
    | exact rop_free_tmp _ _ _
    | exact rop_clean _ _
    | exact rop_invalidate _ _
    | exact rop_flush _ _
    | exact rop_set_test_irq _ _
    | exact rop_get_pc _ _
    | exact rop_get_delayed_op _ _
    | apply steps_pure _ (rop_refl _ _)
    | exact rop_emit_move_r_imm32 _ _ _ _ _
    | exact rop_emit_move_r_r _ _ _ _ _
    | exact rop_emit_or_t_if_eq _ _ _
    | exact rop_emit_or_bit_c _ _ _ _ _ _
    | exact rop_emit_memcall _ _ _ _ _ _
    | exact rop_emit_memhandler_read _ _ _ _
    | exact rop_emit_memhandler_write _ _ _ _
    | exact rop_emit_indirect_indexed_read _ _ _ _ _ _
    | exact rop_emit_indirect_indexed_write _ _ _ _ _ _ _
    | exact rop_emit_indirect_read_double _ _ _ _ _ _
    | exact rop_default_ _ _ _ _
    | exact rop_end_rmw_op _ _ _ _
    | exact rop_add_cycles _ _ _ (by decide)
    | exact rop_set_cycles _ _ _ (by omega)
    | exact rop_DELAYED_OP _ _ (by omega)
    | apply steps_ite_hyp
    | dsimp only
    | split

theorem rop_op_8 (sl : Prop) (cfg : Config) (op : Nat) :
    Steps (Rop (op &&& 0x0f00 = 0x0d00 ∨ op &&& 0x0f00 = 0x0f00)
      sl) (op_8 cfg op) := by
  unfold op_8
  repeat' with_reducible first
    | exact rop_bts _ _ _ _
    | exact rop_op_8_branch _ _ _ _
    | apply steps_bind _ (rop_trans _ _)
    | refine fun _ => ?_
    | exact rop_E _ _ _ _
    | exact rop_get_reg _ _ _ _ _
    | exact rop_get_tmp _ _
    | exact rop_get_tmp_arg _ _ _ _
    | exact rop_get_reg_arg _ _ _ _ _
    | exact rop_free_tmp _ _ _
    | exact rop_clean _ _
    | exact rop_invalidate _ _
    | exact rop_flush _ _
    | exact rop_set_test_irq _ _
    | exact rop_get_pc _ _
    | exact rop_get_delayed_op _ _
    | apply steps_pure _ (rop_refl _ _)
    | exact rop_emit_move_r_imm32 _ _ _ _ _
    | exact rop_emit_move_r_r _ _ _ _ _
    | exact rop_emit_or_t_if_eq _ _ _
    | exact rop_emit_or_bit_c _ _ _ _ _ _
    | exact rop_emit_memcall _ _ _ _ _ _
    | exact rop_emit_memhandler_read _ _ _ _
    | exact rop_emit_memhandler_write _ _ _ _
    | exact rop_emit_indirect_indexed_read _ _ _ _ _ _
    | exact rop_emit_indirect_indexed_write _ _ _ _ _ _ _
    | exact rop_emit_indirect_read_double _ _ _ _ _ _
    | exact rop_default_ _ _ _ _
    | exact rop_end_rmw_op _ _ _ _
    | exact rop_add_cycles _ _ _ (by decide)
    | exact rop_set_cycles _ _ _ (by omega)
    | exact rop_DELAYED_OP _ _ (by omega)
    | apply steps_ite_hyp
    | dsimp only
    | split

theorem rop_op_9 (br sl : Prop) (cfg : Config) (op : Nat) :
    Steps (Rop br
      sl) (op_9 cfg op) := by
  unfold op_9
  repeat' with_reducible first
    | apply steps_bind _ (rop_trans _ _)
    | refine fun _ => ?_
    | exact rop_E _ _ _ _
    | exact rop_get_reg _ _ _ _ _
    | exact rop_get_tmp _ _
    | exact rop_get_tmp_arg _ _ _ _
    | exact rop_get_reg_arg _ _ _ _ _
    | exact rop_free_tmp _ _ _
    | exact rop_clean _ _
    | exact rop_invalidate _ _
    | exact rop_flush _ _
    | exact rop_set_test_irq _ _
    | exact rop_get_pc _ _
    | exact rop_get_delayed_op _ _
    | apply steps_pure _ (rop_refl _ _)
    | exact rop_emit_move_r_imm32 _ _ _ _ _
    | exact rop_emit_move_r_r _ _ _ _ _
    | exact rop_emit_or_t_if_eq _ _ _
    | exact rop_emit_or_bit_c _ _ _ _ _ _
    | exact rop_emit_memcall _ _ _ _ _ _
    | exact rop_emit_memhandler_read _ _ _ _
    | exact rop_emit_memhandler_write _ _ _ _
    | exact rop_emit_indirect_indexed_read _ _ _ _ _ _
    | exact rop_emit_indirect_indexed_write _ _ _ _ _ _ _
    | exact rop_emit_indirect_read_double _ _ _ _ _ _
    | exact rop_default_ _ _ _ _
    | exact rop_end_rmw_op _ _ _ _
    | exact rop_add_cycles _ _ _ (by decide)
    | exact rop_set_cycles _ _ _ (by omega)
    | exact rop_DELAYED_OP _ _ (by omega)
    | apply steps_ite_hyp
    | dsimp only
    | split

theorem rop_do_bra (br sl : Prop) (cfg : Config) (op : Nat) :
    Steps (Rop br
      sl) (do_bra cfg op) := by
  unfold do_bra
  repeat' with_reducible first
    | apply steps_bind _ (rop_trans _ _)
    | refine fun _ => ?_
    | exact rop_E _ _ _ _
    | exact rop_get_reg _ _ _ _ _
    | exact rop_get_tmp _ _
    | exact rop_get_tmp_arg _ _ _ _
    | exact rop_get_reg_arg _ _ _ _ _
    | exact rop_free_tmp _ _ _
    | exact rop_clean _ _
    | exact rop_invalidate _ _
    | exact rop_flush _ _
    | exact rop_set_test_irq _ _
    | exact rop_get_pc _ _
    | exact rop_get_delayed_op _ _
    | apply steps_pure _ (rop_refl _ _)
    | exact rop_emit_move_r_imm32 _ _ _ _ _
    | exact rop_emit_move_r_r _ _ _ _ _
    | exact rop_emit_or_t_if_eq _ _ _
    | exact rop_emit_or_bit_c _ _ _ _ _ _
    | exact rop_emit_memcall _ _ _ _ _ _
    | exact rop_emit_memhandler_read _ _ _ _
    | exact rop_emit_memhandler_write _ _ _ _
    | exact rop_emit_indirect_indexed_read _ _ _ _ _ _
    | exact rop_emit_indirect_indexed_write _ _ _ _ _ _ _
    | exact rop_emit_indirect_read_double _ _ _ _ _ _
    | exact rop_default_ _ _ _ _
    | exact rop_end_rmw_op _ _ _ _
    | exact rop_add_cycles _ _ _ (by decide)
    | exact rop_set_cycles _ _ _ (by omega)
    | exact rop_DELAYED_OP _ _ (by omega)
    | apply steps_ite_hyp
    | dsimp only
    | split

theorem rop_op_A (sl : Prop) (cfg : Config) (op : Nat) :
    Steps (Rop True
      sl) (op_A cfg op) := by
  unfold op_A
  repeat' with_reducible first
    | exact rop_DELAYED_OP _ _ True.intro
    | exact rop_do_bra _ _ _ _
    | apply steps_bind _ (rop_trans _ _)
    | refine fun _ => ?_
    | exact rop_E _ _ _ _
    | exact rop_get_reg _ _ _ _ _
    | exact rop_get_tmp _ _
    | exact rop_get_tmp_arg _ _ _ _
    | exact rop_get_reg_arg _ _ _ _ _
    | exact rop_free_tmp _ _ _
    | exact rop_clean _ _
    | exact rop_invalidate _ _
    | exact rop_flush _ _
    | exact rop_set_test_irq _ _
    | exact rop_get_pc _ _
    | exact rop_get_delayed_op _ _
    | apply steps_pure _ (rop_refl _ _)
    | exact rop_emit_move_r_imm32 _ _ _ _ _
    | exact rop_emit_move_r_r _ _ _ _ _
    | exact rop_emit_or_t_if_eq _ _ _
    | exact rop_emit_or_bit_c _ _ _ _ _ _
    | exact rop_emit_memcall _ _ _ _ _ _
    | exact rop_emit_memhandler_read _ _ _ _
    | exact rop_emit_memhandler_write _ _ _ _
    | exact rop_emit_indirect_indexed_read _ _ _ _ _ _
    | exact rop_emit_indirect_indexed_write _ _ _ _ _ _ _
    | exact rop_emit_indirect_read_double _ _ _ _ _ _
    | exact rop_default_ _ _ _ _
    | exact rop_end_rmw_op _ _ _ _
    | exact rop_add_cycles _ _ _ (by decide)
    | exact rop_set_cycles _ _ _ (by omega)
    | exact rop_DELAYED_OP _ _ (by omega)
    | apply steps_ite_hyp
    | dsimp only
    | split

theorem rop_op_B (sl : Prop) (cfg : Config) (op : Nat) :
    Steps (Rop True
      sl) (op_B cfg op) := by
  unfold op_B
  repeat' with_reducible first
    | exact rop_DELAYED_OP _ _ True.intro
    | exact rop_do_bra _ _ _ _
    | apply steps_bind _ (rop_trans _ _)
    | refine fun _ => ?_
    | exact rop_E _ _ _ _
    | exact rop_get_reg _ _ _ _ _
    | exact rop_get_tmp _ _
    | exact rop_get_tmp_arg _ _ _ _
    | exact rop_get_reg_arg _ _ _ _ _
    | exact rop_free_tmp _ _ _
    | exact rop_clean _ _
    | exact rop_invalidate _ _
    | exact rop_flush _ _
    | exact rop_set_test_irq _ _
    | exact rop_get_pc _ _
    | exact rop_get_delayed_op _ _
    | apply steps_pure _ (rop_refl _ _)
    | exact rop_emit_move_r_imm32 _ _ _ _ _
    | exact rop_emit_move_r_r _ _ _ _ _
    | exact rop_emit_or_t_if_eq _ _ _
    | exact rop_emit_or_bit_c _ _ _ _ _ _
    | exact rop_emit_memcall _ _ _ _ _ _
    | exact rop_emit_memhandler_read _ _ _ _
    | exact rop_emit_memhandler_write _ _ _ _
    | exact rop_emit_indirect_indexed_read _ _ _ _ _ _
    | exact rop_emit_indirect_indexed_write _ _ _ _ _ _ _
    | exact rop_emit_indirect_read_double _ _ _ _ _ _
    | exact rop_default_ _ _ _ _
    | exact rop_end_rmw_op _ _ _ _
    | exact rop_add_cycles _ _ _ (by decide)
    | exact rop_set_cycles _ _ _ (by omega)
    | exact rop_DELAYED_OP _ _ (by omega)
    | apply steps_ite_hyp
    | dsimp only
    | split

theorem rop_op_C (br sl : Prop) (cfg : Config) (op : Nat) :
    Steps (Rop br
      sl) (op_C cfg op) := by
  unfold op_C
  repeat' with_reducible first
    | apply steps_bind _ (rop_trans _ _)
    | refine fun _ => ?_
    | exact rop_E _ _ _ _
    | exact rop_get_reg _ _ _ _ _
    | exact rop_get_tmp _ _
    | exact rop_get_tmp_arg _ _ _ _
    | exact rop_get_reg_arg _ _ _ _ _
    | exact rop_free_tmp _ _ _
    | exact rop_clean _ _
    | exact rop_invalidate _ _
    | exact rop_flush _ _
    | exact rop_set_test_irq _ _
    | exact rop_get_pc _ _
    | exact rop_get_delayed_op _ _
    | apply steps_pure _ (rop_refl _ _)
    | exact rop_emit_move_r_imm32 _ _ _ _ _
    | exact rop_emit_move_r_r _ _ _ _ _
    | exact rop_emit_or_t_if_eq _ _ _
    | exact rop_emit_or_bit_c _ _ _ _ _ _
    | exact rop_emit_memcall _ _ _ _ _ _
    | exact rop_emit_memhandler_read _ _ _ _
    | exact rop_emit_memhandler_write _ _ _ _
    | exact rop_emit_indirect_indexed_read _ _ _ _ _ _
    | exact rop_emit_indirect_indexed_write _ _ _ _ _ _ _
    | exact rop_emit_indirect_read_double _ _ _ _ _ _
    | exact rop_default_ _ _ _ _
    | exact rop_end_rmw_op _ _ _ _
    | exact rop_add_cycles _ _ _ (by decide)
    | exact rop_set_cycles _ _ _ (by omega)
    | exact rop_DELAYED_OP _ _ (by omega)
    | apply steps_ite_hyp
    | dsimp only
    | split

theorem rop_op_D (br sl : Prop) (cfg : Config) (op : Nat) :
    Steps (Rop br
      sl) (op_D cfg op) := by
  unfold op_D
  repeat' with_reducible first
    | apply steps_bind _ (rop_trans _ _)
    | refine fun _ => ?_
    | exact rop_E _ _ _ _
    | exact rop_get_reg _ _ _ _ _
    | exact rop_get_tmp _ _
    | exact rop_get_tmp_arg _ _ _ _
    | exact rop_get_reg_arg _ _ _ _ _
    | exact rop_free_tmp _ _ _
    | exact rop_clean _ _
    | exact rop_invalidate _ _
    | exact rop_flush _ _
    | exact rop_set_test_irq _ _
    | exact rop_get_pc _ _
    | exact rop_get_delayed_op _ _
    | apply steps_pure _ (rop_refl _ _)
    | exact rop_emit_move_r_imm32 _ _ _ _ _
    | exact rop_emit_move_r_r _ _ _ _ _
    | exact rop_emit_or_t_if_eq _ _ _
    | exact rop_emit_or_bit_c _ _ _ _ _ _
    | exact rop_emit_memcall _ _ _ _ _ _
    | exact rop_emit_memhandler_read _ _ _ _
    | exact rop_emit_memhandler_write _ _ _ _
    | exact rop_emit_indirect_indexed_read _ _ _ _ _ _
    | exact rop_emit_indirect_indexed_write _ _ _ _ _ _ _
    | exact rop_emit_indirect_read_double _ _ _ _ _ _
    | exact rop_default_ _ _ _ _
    | exact rop_end_rmw_op _ _ _ _
    | exact rop_add_cycles _ _ _ (by decide)
    | exact rop_set_cycles _ _ _ (by omega)
    | exact rop_DELAYED_OP _ _ (by omega)
    | apply steps_ite_hyp
    | dsimp only
    | split

theorem rop_op_E (br sl : Prop) (cfg : Config) (op : Nat) :
    Steps (Rop br
      sl) (op_E cfg op) := by
  unfold op_E
  repeat' with_reducible first
    | apply steps_bind _ (rop_trans _ _)
    | refine fun _ => ?_
    | exact rop_E _ _ _ _
    | exact rop_get_reg _ _ _ _ _
    | exact rop_get_tmp _ _
    | exact rop_get_tmp_arg _ _ _ _
    | exact rop_get_reg_arg _ _ _ _ _
    | exact rop_free_tmp _ _ _
    | exact rop_clean _ _
    | exact rop_invalidate _ _
    | exact rop_flush _ _
    | exact rop_set_test_irq _ _
    | exact rop_get_pc _ _
    | exact rop_get_delayed_op _ _
    | apply steps_pure _ (rop_refl _ _)
    | exact rop_emit_move_r_imm32 _ _ _ _ _
    | exact rop_emit_move_r_r _ _ _ _ _
    | exact rop_emit_or_t_if_eq _ _ _
    | exact rop_emit_or_bit_c _ _ _ _ _ _
    | exact rop_emit_memcall _ _ _ _ _ _
    | exact rop_emit_memhandler_read _ _ _ _
    | exact rop_emit_memhandler_write _ _ _ _
    | exact rop_emit_indirect_indexed_read _ _ _ _ _ _
    | exact rop_emit_indirect_indexed_write _ _ _ _ _ _ _
    | exact rop_emit_indirect_read_double _ _ _ _ _ _
    | exact rop_default_ _ _ _ _
    | exact rop_end_rmw_op _ _ _ _
    | exact rop_add_cycles _ _ _ (by decide)
    | exact rop_set_cycles _ _ _ (by omega)
    | exact rop_DELAYED_OP _ _ (by omega)
    | apply steps_ite_hyp
    | dsimp only
    | split

theorem rop_to_end_op (br sl : Prop) (m : TM Unit) (h : Steps (Rop br sl) m) :
    Steps (Rop br sl) (to_end_op m) := by
  intro st a st2 hm
  simp only [to_end_op, TM.bind, TM.pure] at hm
  split at hm
  · simp at hm
  · rename_i u st1 h1
    simp only [Option.some.injEq, Prod.mk.injEq] at hm
    rw [← hm.2]
    exact h _ _ _ h1

theorem rop_translate_op (cfg : Config) (mem : Nat → Nat) (op : Nat) :
    Steps (Rop (is_delayed_branch op) (is_sleep op)) (translate_op cfg mem op) := by
  unfold translate_op
  split
  · rename_i h
    exact rop_to_end_op _ _ _ (rop_mono _ _ _ _ (fun hb => Or.inl ⟨h, hb⟩) (fun hs => ⟨h, hs⟩) _
      (rop_op_0 cfg op))
  · exact rop_to_end_op _ _ _ (rop_op_1 _ _ cfg op)
  · exact rop_to_end_op _ _ _ (rop_op_2 _ _ cfg op)
  · exact rop_to_end_op _ _ _ (rop_op_3 _ _ cfg op)
  · rename_i h
    exact rop_to_end_op _ _ _ (rop_mono _ _ _ _ (fun hb => Or.inr (Or.inl ⟨h, hb⟩)) id _
      (rop_op_4 _ cfg mem op))
  · exact rop_to_end_op _ _ _ (rop_op_5 _ _ cfg op)
  · exact rop_to_end_op _ _ _ (rop_op_6 _ _ cfg op)
  · exact rop_to_end_op _ _ _ (rop_op_7 _ _ cfg op)
  · rename_i h
    exact rop_mono _ _ _ _ (fun hb => Or.inr (Or.inr (Or.inl ⟨h, hb⟩))) id _ (rop_op_8 _ cfg op)
  · exact rop_to_end_op _ _ _ (rop_op_9 _ _ cfg op)
  · rename_i h
    exact rop_to_end_op _ _ _ (rop_mono _ _ _ _
      (fun _ => Or.inr (Or.inr (Or.inr (Or.inl h)))) id _ (rop_op_A _ cfg op))
  · rename_i h
    exact rop_to_end_op _ _ _ (rop_mono _ _ _ _
      (fun _ => Or.inr (Or.inr (Or.inr (Or.inr h)))) id _ (rop_op_B _ cfg op))
  · exact rop_op_C _ _ cfg op
  · exact rop_to_end_op _ _ _ (rop_op_D _ _ cfg op)
  · exact rop_to_end_op _ _ _ (rop_op_E _ _ cfg op)
  · exact rop_to_end_op _ _ _ (rop_default_ _ _ cfg op)

theorem rop_end_op (cfg : Config) : Steps (Rop False False) (end_op cfg) := by
  unfold end_op
  repeat' with_reducible first
    | apply steps_bind _ (rop_trans _ _)
    | refine fun _ => ?_
    | exact rop_E _ _ _ _
    | exact rop_flush _ _
    | exact rop_get_pc _ _
    | exact rop_get_delayed_op _ _
    | exact rop_get_test_irq _ _
    | exact rop_emit_move_r_imm32 _ _ _ _ _
    | exact rop_emit_move_r_r _ _ _ _ _
    | apply steps_pure _ (rop_refl _ _)
    | apply steps_ite_hyp
    | dsimp only

theorem exq_pure (e : OpExit) : Exq e (pure e : TM OpExit) := by
  intro st ex st1 h
  rw [tm_pure_eq_some] at h
  exact h.1.symm

theorem exq_bind_right {α : Type} (e : OpExit) (m : TM α) (f : α → TM OpExit)
    (h2 : ∀ a, Exq e (f a)) : Exq e (m >>= f) := by
  intro st ex st2 h
  rw [tm_bind_eq_some] at h
  obtain ⟨a, st1, _, h⟩ := h
  exact h2 a st1 ex st2 h

theorem exq_to_end_op (m : TM Unit) : Exq .end_op (to_end_op m) := by
  intro st ex st2 h
  simp only [to_end_op, TM.bind, TM.pure] at h
  split at h
  · simp at h
  · simp only [Option.some.injEq, Prod.mk.injEq] at h
    exact h.1.symm

theorem exq_ite (e : OpExit) (c : Prop) [Decidable c] (a b : TM OpExit) (h1 : Exq e a)
    (h2 : Exq e b) : Exq e (if c then a else b) := by
  split <;> assumption

theorem op_8_branch_exit (cfg : Config) (op : Nat) (st st1 : TState) (ex : OpExit)
    (h : op_8_branch cfg op st = some (ex, st1)) :
    ex = if st.delayed_op = 0 then .end_block_btf else .end_op := by
  unfold op_8_branch at h
  dsimp only at h
  rw [tm_bind_eq_some] at h
  obtain ⟨d, s0, h0, h⟩ := h
  simp only [get_delayed_op, Option.some.injEq, Prod.mk.injEq] at h0
  obtain ⟨rfl, rfl⟩ := h0
  iterate 5 (rw [tm_bind_eq_some] at h; obtain ⟨_, _, _, h⟩ := h)
  by_cases hd : st.delayed_op = 0
  · simp only [hd, if_true] at h ⊢
    split at h
    all_goals
      iterate 3 (rw [tm_bind_eq_some] at h; obtain ⟨_, _, _, h⟩ := h)
      rw [tm_pure_eq_some] at h
      exact h.1.symm
  · simp only [hd, if_false] at h ⊢
    split at h
    all_goals
      iterate 3 (rw [tm_bind_eq_some] at h; obtain ⟨_, _, _, h⟩ := h)
      rw [tm_pure_eq_some] at h
      exact h.1.symm

theorem exq_bts (cfg : Config) (op : Nat) :
    Exq .end_op (DELAYED_OP >>= fun _ => add_cycles (-1) >>= fun _ => op_8_branch cfg op) := by
  intro st ex st2 h
  rw [tm_bind_eq_some] at h
  obtain ⟨_, s1, h1, h⟩ := h
  simp only [DELAYED_OP, Option.some.injEq, Prod.mk.injEq, true_and] at h1
  rw [tm_bind_eq_some] at h
  obtain ⟨_, s2, h2, h⟩ := h
  simp only [add_cycles, Option.some.injEq, Prod.mk.injEq, true_and] at h2
  have h3 := op_8_branch_exit cfg op s2 st2 ex h
  rw [← h2, ← h1] at h3
  simpa using h3

theorem op_8_exit (cfg : Config) (op : Nat)
    (hne : ¬(op &&& 0x0f00 = 0x0900 ∨ op &&& 0x0f00 = 0x0b00)) : Exq .end_op (op_8 cfg op) := by
  unfold op_8
  split
  all_goals
    repeat' with_reducible first
      | exact exq_pure _
      | exact exq_bts cfg op
      | exact absurd (Or.inl (by assumption)) hne
      | exact absurd (Or.inr (by assumption)) hne
      | apply exq_ite
      | apply exq_bind_right
      | refine fun _ => ?_
      | dsimp only

theorem op_C_exit (cfg : Config) (op : Nat) (hne : ¬op &&& 0x0f00 = 0x0300) :
    Exq .end_op (op_C cfg op) := by
  unfold op_C
  split
  all_goals
    repeat' with_reducible first
      | exact exq_pure _
      | exact absurd (by assumption) hne
      | apply exq_ite
      | apply exq_bind_right
      | refine fun _ => ?_
      | dsimp only

theorem translate_op_exit (cfg : Config) (mem : Nat → Nat) (op : Nat) (h1 : ¬is_bt_bf op)
    (h2 : ¬is_trapa op) : Exq .end_op (translate_op cfg mem op) := by
  unfold translate_op
  split
  all_goals first
    | exact exq_to_end_op _
    | (rename_i h
       first
         | exact op_8_exit cfg op (fun hc => h1 ⟨h, hc⟩)
         | exact op_C_exit cfg op (fun hc => h2 ⟨h, hc⟩))

theorem rd2_bind {α β : Type} (m : TM α) (f : α → TM β) (h1 : Steps Rd2 m)
    (h2 : ∀ a, Steps Rdl (f a)) : Steps Rd2 (m >>= f) := by
  intro st b st2 h
  rw [tm_bind_eq_some] at h
  obtain ⟨a, st1, hm, h⟩ := h
  have e1 : st1.delayed_op = 2 := h1 _ _ _ hm
  rcases h2 a _ _ _ h with e | e
  · exact e.trans e1
  · exact e

theorem rd2_DELAYED_OP : Steps Rd2 DELAYED_OP := by
  intro st a st1 h
  simp only [DELAYED_OP, Option.some.injEq, Prod.mk.injEq] at h
  rw [← h.2]
  rfl

theorem rd2_to_end_op (m : TM Unit) (h : Steps Rd2 m) : Steps Rd2 (to_end_op m) := by
  intro st a st2 hm
  simp only [to_end_op, TM.bind, TM.pure] at hm
  split at hm
  · simp at hm
  · rename_i u st1 h1
    simp only [Option.some.injEq, Prod.mk.injEq] at hm
    rw [← hm.2]
    exact h _ _ _ h1

theorem rd2_op_0 (cfg : Config) (op : Nat)
    (hb : (op &&& 0x0f = 0x03 ∧ op &&& 0xd0 = 0) ∨
      (op &&& 0x0f = 0x0b ∧ op &&& 0xf00 = 0 ∧ (GET_Fx op = 0 ∨ GET_Fx op = 2))) :
    Steps Rd2 (op_0 cfg op) := by
  unfold op_0
  split
  all_goals first
    | (exfalso; omega)
    | (exfalso; simp only [imp_false] at *; omega)
    | skip
  all_goals apply steps_ite_hyp
  all_goals intro hc
  all_goals first
    | (exfalso; omega)
    | (exfalso; simp only [imp_false] at *; omega)
    | skip
  all_goals try split
  all_goals first
    | (exfalso; omega)
    | (exfalso; simp only [imp_false] at *; omega)
    | skip
  all_goals apply rd2_bind _ _ rd2_DELAYED_OP
  all_goals intro _
  all_goals
    repeat' with_reducible first
      | exact rdl_E _ _
      | exact rdl_get_reg _ _ _
      | exact rdl_get_reg_arg _ _ _
      | exact rdl_free_tmp _
      | exact rdl_clean
      | exact rdl_add_cycles _
      | exact rdl_set_test_irq
      | exact rdl_get_pc
      | exact rdl_emit_move_r_imm32 _ _ _
      | exact rdl_emit_move_r_r _ _ _
      | exact rdl_emit_memhandler_read _ _
      | exact rdl_op_8_branch _ _
      | exact rdl_do_bra _ _
      | apply steps_pure Rdl rdl_refl
      | apply steps_bind Rdl rdl_trans
      | apply steps_ite Rdl
      | refine fun _ => ?_
      | dsimp only

theorem rd2_op_4 (cfg : Config) (mem : Nat → Nat) (op : Nat)
    (hb : op &&& 0x0f = 0x0b ∧ (GET_Fx op = 0 ∨ GET_Fx op = 2)) :
    Steps Rd2 (op_4 cfg mem op) := by
  unfold op_4
  split
  all_goals first
    | (exfalso; omega)
    | (exfalso; simp only [imp_false] at *; omega)
    | skip
  split
  all_goals first
    | (exfalso; omega)
    | (exfalso; simp only [imp_false] at *; omega)
    | skip
  all_goals apply rd2_bind _ _ rd2_DELAYED_OP
  all_goals intro _
  all_goals
    repeat' with_reducible first
      | exact rdl_E _ _
      | exact rdl_get_reg _ _ _
      | exact rdl_get_reg_arg _ _ _
      | exact rdl_free_tmp _
      | exact rdl_clean
      | exact rdl_add_cycles _
      | exact rdl_set_test_irq
      | exact rdl_get_pc
      | exact rdl_emit_move_r_imm32 _ _ _
      | exact rdl_emit_move_r_r _ _ _
      | exact rdl_emit_memhandler_read _ _
      | exact rdl_op_8_branch _ _
      | exact rdl_do_bra _ _
      | apply steps_pure Rdl rdl_refl
      | apply steps_bind Rdl rdl_trans
      | apply steps_ite Rdl
      | refine fun _ => ?_
      | dsimp only

theorem rd2_op_8 (cfg : Config) (op : Nat)
    (hb : op &&& 0x0f00 = 0x0d00 ∨ op &&& 0x0f00 = 0x0f00) :
    Steps Rd2 (op_8 cfg op) := by
  unfold op_8
  split
  all_goals first
    | (exfalso; omega)
    | (exfalso; simp only [imp_false] at *; omega)
    | skip
  all_goals apply rd2_bind _ _ rd2_DELAYED_OP
  all_goals intro _
  all_goals
    repeat' with_reducible first
      | exact rdl_E _ _
      | exact rdl_get_reg _ _ _
      | exact rdl_get_reg_arg _ _ _
      | exact rdl_free_tmp _
      | exact rdl_clean
      | exact rdl_add_cycles _
      | exact rdl_set_test_irq
      | exact rdl_get_pc
      | exact rdl_emit_move_r_imm32 _ _ _
      | exact rdl_emit_move_r_r _ _ _
      | exact rdl_emit_memhandler_read _ _
      | exact rdl_op_8_branch _ _
      | exact rdl_do_bra _ _
      | apply steps_pure Rdl rdl_refl
      | apply steps_bind Rdl rdl_trans
      | apply steps_ite Rdl
      | refine fun _ => ?_
      | dsimp only

theorem rd2_op_A (cfg : Config) (op : Nat) : Steps Rd2 (op_A cfg op) := by
  unfold op_A
  exact rd2_bind _ _ rd2_DELAYED_OP (fun _ => rdl_do_bra cfg op)

theorem rd2_op_B (cfg : Config) (op : Nat) : Steps Rd2 (op_B cfg op) := by
  unfold op_B
  apply rd2_bind _ _ rd2_DELAYED_OP
  intro _
  all_goals
    repeat' with_reducible first
      | exact rdl_E _ _
      | exact rdl_get_reg _ _ _
      | exact rdl_get_reg_arg _ _ _
      | exact rdl_free_tmp _
      | exact rdl_clean
      | exact rdl_add_cycles _
      | exact rdl_set_test_irq
      | exact rdl_get_pc
      | exact rdl_emit_move_r_imm32 _ _ _
      | exact rdl_emit_move_r_r _ _ _
      | exact rdl_emit_memhandler_read _ _
      | exact rdl_op_8_branch _ _
      | exact rdl_do_bra _ _
      | apply steps_pure Rdl rdl_refl
      | apply steps_bind Rdl rdl_trans
      | apply steps_ite Rdl
      | refine fun _ => ?_
      | dsimp only

theorem translate_op_delayed (cfg : Config) (mem : Nat → Nat) (op : Nat)
    (hb : is_delayed_branch op) (st st1 : TState) (ex : OpExit)
    (h : translate_op cfg mem op st = some (ex, st1)) :
    ex = .end_op ∧ st1.delayed_op = 2 := by
  have h1 : ¬is_bt_bf op := by
    unfold is_delayed_branch at hb
    unfold is_bt_bf
    omega
  have h2 : ¬is_trapa op := by
    unfold is_delayed_branch at hb
    unfold is_trapa
    omega
  refine ⟨translate_op_exit cfg mem op h1 h2 _ _ _ h, ?_⟩
  suffices hs : Steps Rd2 (translate_op cfg mem op) from hs _ _ _ h
  unfold is_delayed_branch at hb
  unfold translate_op
  split
  all_goals first
    | (exfalso; omega)
    | (exfalso; simp only [imp_false] at *; omega)
    | skip
  · exact rd2_to_end_op _ (rd2_op_0 cfg op (by omega))
  · exact rd2_to_end_op _ (rd2_op_4 cfg mem op (by omega))
  · exact rd2_op_8 cfg op (by omega)
  · exact rd2_to_end_op _ (rd2_op_A cfg op)
  · exact rd2_to_end_op _ (rd2_op_B cfg op)

/-! ## Cycle count of a block -/

theorem steps_to_end_op (R : TState → TState → Prop) (m : TM Unit) (h : Steps R m) :
    Steps R (to_end_op m) := by
  intro st a st2 hm
  simp only [to_end_op, TM.bind, TM.pure] at hm
  split at hm
  · simp at hm
  · rename_i u st1 h1
    simp only [Option.some.injEq, Prod.mk.injEq] at hm
    rw [← hm.2]
    exact h _ _ _ h1

theorem steps_last_bind {α β : Type} (P : TState → Prop) (m : TM α) (f : α → TM β)
    (h : ∀ a, Steps (fun _ s => P s) (f a)) : Steps (fun _ s => P s) (m >>= f) := by
  intro st b st2 hm
  rw [tm_bind_eq_some] at hm
  obtain ⟨a, st1, _, hm⟩ := hm
  exact h a st1 b st2 hm

theorem translate_op_sleep (cfg : Config) (mem : Nat → Nat) (op : Nat) (hs : is_sleep op) :
    Steps (fun _ s => s.cycles = 1) (translate_op cfg mem op) := by
  unfold is_sleep at hs
  unfold translate_op
  split
  all_goals first
    | (exfalso; omega)
    | (exfalso; simp only [imp_false] at *; omega)
    | skip
  apply steps_to_end_op
  unfold op_0
  split
  all_goals first
    | (exfalso; omega)
    | (exfalso; simp only [imp_false] at *; omega)
    | skip
  apply steps_ite_hyp
  all_goals intro hc
  all_goals first
    | (exfalso; omega)
    | (exfalso; simp only [imp_false] at *; omega)
    | skip
  split
  all_goals first
    | (exfalso; omega)
    | (exfalso; simp only [imp_false] at *; omega)
    | skip
  iterate 5 (apply steps_last_bind; intro _)
  intro st a st1 h
  simp only [set_cycles, Option.some.injEq, Prod.mk.injEq] at h
  rw [← h.2]

theorem fetch_translate_cycles (cfg : Config) (mem : Nat → Nat) (st st1 : TState) (ex : OpExit)
    (h : (fetch_op mem >>= fun op => translate_op cfg mem op) st = some (ex, st1)) :
    st1.pc = (st.pc + 2) % 4294967296 ∧
      (¬is_sleep (mem st.pc) → st.cycles + 1 ≤ st1.cycles) ∧
      (is_sleep (mem st.pc) → st1.cycles = 1) ∧
      (¬is_delayed_branch (mem st.pc) →
        st1.delayed_op = if st.delayed_op > 0 then st.delayed_op - 1 else st.delayed_op) := by
  rw [tm_bind_eq_some] at h
  obtain ⟨op, s1, h1, h⟩ := h
  simp only [fetch_op, Option.some.injEq, Prod.mk.injEq] at h1
  obtain ⟨rfl, rfl⟩ := h1
  obtain ⟨p, d, c⟩ := rop_translate_op cfg mem _ _ _ _ h
  refine ⟨p, fun hn => ?_, fun hs => translate_op_sleep cfg mem _ hs _ _ _ h, fun hn => ?_⟩
  · rcases c with c | c
    · exact absurd c hn
    · exact c
  · rcases d with d | d
    · exact absurd d hn
    · exact d

theorem translate_loop_cycles (cfg : Config) (mem : Nat → Nat) :
    ∀ (fuel : Nat) (st st1 : TState) (ex : LoopExit), st.pc < 4294967296 →
      translate_loop cfg mem fuel st = some (ex, st1) →
      ∃ n, n ≤ fuel ∧ st1.pc = (st.pc + 2 * n) % 4294967296 ∧
        ((∀ i, i < n → ¬is_sleep (mem ((st.pc + 2 * i) % 4294967296))) →
          st.cycles + n ≤ st1.cycles) := by
  intro fuel
  induction fuel with
  | zero => intro st st1 ex _ h; simp [translate_loop] at h
  | succ fuel ih =>
    intro st st1 ex hpc h
    unfold translate_loop at h
    split at h
    · rw [tm_bind_eq_some] at h
      obtain ⟨op, s1, h1, h⟩ := h
      rw [tm_bind_eq_some] at h
      obtain ⟨ex1, s2, h2, h⟩ := h
      have hft : (fetch_op mem >>= fun op => translate_op cfg mem op) st = some (ex1, s2) := by
        rw [tm_bind_eq_some]
        exact ⟨op, s1, h1, h2⟩
      obtain ⟨p2, c2, _, _⟩ := fetch_translate_cycles cfg mem st s2 ex1 hft
      have hone : ∀ s3 : TState, s3.pc = s2.pc → s2.cycles ≤ s3.cycles →
          ∃ n, n ≤ fuel + 1 ∧ s3.pc = (st.pc + 2 * n) % 4294967296 ∧
            ((∀ i, i < n → ¬is_sleep (mem ((st.pc + 2 * i) % 4294967296))) →
              st.cycles + n ≤ s3.cycles) := by
        intro s3 e3 c3
        refine ⟨1, by omega, by rw [e3, p2], fun hn => ?_⟩
        have h0 := hn 0 (by omega)
        rw [Nat.mul_zero, Nat.add_zero, Nat.mod_eq_of_lt hpc] at h0
        have := c2 h0
        push_cast
        omega
      cases ex1 with
      | end_block_btf =>
        simp only [tm_pure_eq_some] at h
        obtain ⟨_, rfl⟩ := h
        exact hone _ rfl (le_refl _)
      | end_op =>
        simp only at h
        rw [tm_bind_eq_some] at h
        obtain ⟨r, s3, h3, h⟩ := h
        obtain ⟨p3, _, c3⟩ := rop_end_op cfg _ _ _ h3
        have c3 : s2.cycles ≤ s3.cycles := by
          rcases c3 with c3 | c3
          · exact absurd c3 not_false
          · exact c3
        cases r with
        | some e =>
          simp only [tm_pure_eq_some] at h
          obtain ⟨_, rfl⟩ := h
          exact hone _ p3 c3
        | none =>
          have hpc3 : s3.pc < 4294967296 := by
            rw [p3, p2]
            exact Nat.mod_lt _ (by decide)
          obtain ⟨n, hn, hp, hc⟩ := ih s3 st1 ex hpc3 h
          refine ⟨n + 1, by omega, ?_, fun hs => ?_⟩
          · rw [hp, p3, p2]
            omega
          · have h0 := hs 0 (by omega)
            rw [Nat.mul_zero, Nat.add_zero, Nat.mod_eq_of_lt hpc] at h0
            have c2 := c2 h0
            have hc := hc (fun i hi => by
              have := hs (i + 1) (by omega)
              have e : (s3.pc + 2 * i) % 4294967296 = (st.pc + 2 * (i + 1)) % 4294967296 := by
                rw [p3, p2]
                omega
              rw [e]
              exact this)
            push_cast
            omega
    · simp only [Option.some.injEq, Prod.mk.injEq] at h
      obtain ⟨_, rfl⟩ := h
      exact ⟨0, by omega, by rw [Nat.mul_zero, Nat.add_zero, Nat.mod_eq_of_lt hpc], fun _ => by simp⟩

theorem translate_body_cycles (cfg : Config) (mem : Nat → Nat) (fuel : Nat) (st st1 : TState)
    (hpc : st.pc < 4294967296) (h : translate_body cfg mem fuel st = some ((), st1)) :
    ∃ n, n ≤ fuel ∧ st1.pc = (st.pc + 2 * n) % 4294967296 ∧
      ((∀ i, i < n → ¬is_sleep (mem ((st.pc + 2 * i) % 4294967296))) →
        st.cycles + n ≤ st1.cycles) := by
  unfold translate_body at h
  rw [tm_bind_eq_some] at h
  obtain ⟨ex, s1, h1, h⟩ := h
  obtain ⟨n, hn, hp, hc⟩ := translate_loop_cycles cfg mem fuel st s1 ex hpc h1
  have hk : Steps (Rop False False) (if ex = LoopExit.end_block_btf then (pure () : TM Unit)
      else get_delayed_op >>= fun delayed_op =>
        if delayed_op = 0 then get_pc >>= fun pc => emit_move_r_imm32 cfg SHR_PC pc
        else pure ()) := by
    repeat' with_reducible first
      | apply steps_bind _ (rop_trans _ _)
      | refine fun _ => ?_
      | exact rop_get_pc _ _
      | exact rop_get_delayed_op _ _
      | exact rop_emit_move_r_imm32 _ _ _ _ _
      | apply steps_pure _ (rop_refl _ _)
      | apply steps_ite_hyp
  obtain ⟨p, _, c⟩ := hk _ _ _ h
  have c : s1.cycles ≤ st1.cycles := by
    rcases c with c | c
    · exact absurd c not_false
    · exact c
  exact ⟨n, hn, by rw [p, hp], fun hs => le_trans (hc hs) c⟩

/-- C30 (as the code has it): every translated opcode takes `pc` two bytes further and
raises `cycles` by at least 1, except SLEEP, which assigns `cycles = 1`; the
`end_op` part keeps `pc` and does not lower `cycles`.  So a block that
`sh2_translate` returns has translated `n` opcodes, `end_pc` being `pc + 2 * n`
(mod 2^32), and if none of them is SLEEP its cycle count, the amount
`cycles << 12` that the block takes off SR, is at least `n`. -/
theorem sh2_translate_cycles (cfg : Config) (mem : Nat → Nat) (fuel : Nat) (d : Drc)
    (sh2 : SH2) (other : Option Nat) (t : Translated) (hpc : sh2.pc < 4294967296)
    (ht : sh2_translate cfg mem fuel d sh2 other = some t) :
    (∃ n, n ≤ fuel ∧ t.end_pc = (sh2.pc + 2 * n) % 4294967296 ∧
      ((∀ i, i < n → ¬is_sleep (mem ((sh2.pc + 2 * i) % 4294967296))) → (n : Int) ≤ t.cycles)) ∧
    (∃ sr : Int, (⟨.sub_r_imm, [sr, t.cycles * 4096]⟩ : Emit) ∈ t.code) ∧
    (∀ st ex st1, (fetch_op mem >>= fun op => translate_op cfg mem op) st = some (ex, st1) →
      st1.pc = (st.pc + 2) % 4294967296 ∧
        (¬is_sleep (mem st.pc) → st.cycles + 1 ≤ st1.cycles) ∧
        (is_sleep (mem st.pc) → st1.cycles = 1)) ∧
    (∀ st r st1, end_op cfg st = some (r, st1) → st1.pc = st.pc ∧ st.cycles ≤ st1.cycles) := by
  obtain ⟨d1, tcid, st1, st2, _, hbody, hepi, hcode, hend, hcyc, _⟩ :=
    sh2_translate_some cfg mem fuel d sh2 other t ht
  obtain ⟨n, hn, hp, hc⟩ := translate_body_cycles cfg mem fuel _ st1 hpc hbody
  obtain ⟨sr, rc, _, hcd, _⟩ := translate_epilogue_spec cfg st1 st2 hepi
  refine ⟨⟨n, hn, by rw [hend, hp], fun hs => ?_⟩, ⟨sr, ?_⟩, fun st ex st1 h => ?_,
    fun st r st1 h => ?_⟩
  · have := hc hs
    rw [hcyc]
    simpa using this
  · rw [hcode, hcd, hcyc]
    simp
  · obtain ⟨a, b, c, _⟩ := fetch_translate_cycles cfg mem st st1 ex h
    exact ⟨a, b, c⟩
  · obtain ⟨p, _, c⟩ := rop_end_op cfg _ _ _ h
    refine ⟨p, ?_⟩
    rcases c with c | c
    · exact absurd c not_false
    · exact c

set_option maxRecDepth 100000 in
theorem sh2_translate_cycles_witness :
    ∃ t, sh2_translate arm_cfg (fun a => if a = 0x06000018 then 0xa000 else 0x0009) 200 drc0
        { pc := 0x06000010 } none = some t ∧
      (0x06000010 < 4294967296) ∧
      (∃ n, n ≤ 200 ∧ t.end_pc = (0x06000010 + 2 * n) % 4294967296 ∧
        ((∀ i, i < n → ¬is_sleep ((fun a => if a = 0x06000018 then 0xa000 else 0x0009)
            ((0x06000010 + 2 * i) % 4294967296))) → (n : Int) ≤ t.cycles)) ∧
      (∃ sr : Int, (⟨.sub_r_imm, [sr, t.cycles * 4096]⟩ : Emit) ∈ t.code) := by
  cases e1 : sh2_translate arm_cfg (fun a => if a = 0x06000018 then 0xa000 else 0x0009) 200 drc0
      { pc := 0x06000010 } none with
  | none =>
    have : (sh2_translate arm_cfg (fun a => if a = 0x06000018 then 0xa000 else 0x0009) 200 drc0
        { pc := 0x06000010 } none).isSome = true := by decide!
    rw [e1] at this
    simp at this
  | some t =>
    have h := sh2_translate_cycles arm_cfg (fun a => if a = 0x06000018 then 0xa000 else 0x0009)
      200 drc0 { pc := 0x06000010 } none t (by decide) e1
    exact ⟨t, rfl, by decide, h.1, h.2.1⟩

/-! ## A block that ends at the cycle limit -/

theorem req_emit_move_r_imm32 (cfg : Config) (dst i : Nat) :
    Steps Req (emit_move_r_imm32 cfg dst i) := by
  unfold emit_move_r_imm32
  apply steps_bind Req req_trans _ _ (req_get_reg _ _ _)
  intro _
  exact req_E _ _

theorem end_op_plain (cfg : Config) (st : TState) (hd : st.delayed_op = 0)
    (hq : st.test_irq = 0) : end_op cfg st = some (none, st) := by
  unfold end_op
  simp [bind, TM.bind, pure, TM.pure, get_delayed_op, get_test_irq, hd, hq]

theorem plain_run_loop (cfg : Config) (mem : Nat → Nat) (fuel : Nat) :
    ∀ (k : Nat) (st st1 : TState), plain_run cfg mem k st = some st1 → st.delayed_op = 0 →
      st.test_irq = 0 → st.pc < 4294967296 → st.cycles + k ≤ BLOCK_CYCLE_LIMIT →
      translate_loop cfg mem (fuel + k) st = translate_loop cfg mem fuel st1 ∧
        st1.cycles = st.cycles + k ∧ st1.delayed_op = 0 ∧ st1.test_irq = 0 ∧
        st1.pc = (st.pc + 2 * k) % 4294967296 := by
  intro k
  induction k with
  | zero =>
    intro st st1 h hd hq hpc _
    simp only [plain_run, Option.some.injEq] at h
    subst h
    exact ⟨rfl, by simp, hd, hq, by rw [Nat.mul_zero, Nat.add_zero, Nat.mod_eq_of_lt hpc]⟩
  | succ k ih =>
    intro st st1 h hd hq hpc hc
    unfold plain_run at h
    simp only [fetch_op, hd, gt_iff_lt, lt_self_iff_false, if_false] at h
    split at h
    · rename_i x s2 h2
      split at h
      · rename_i hcond
        obtain ⟨c2, d2, q2⟩ := hcond
        have p2 := (rop_translate_op cfg mem _ _ _ _ h2).1
        simp only at p2
        have hpc2 : s2.pc < 4294967296 := by
          rw [p2]
          exact Nat.mod_lt _ (by decide)
        obtain ⟨e1, e2, e3, e4, e5⟩ := ih s2 st1 h d2 (by rw [q2, hq]) hpc2
          (by rw [c2]; push_cast at hc ⊢; omega)
        refine ⟨?_, by rw [e2, c2]; push_cast; omega, e3, e4, by rw [e5, p2]; omega⟩
        rw [← e1, show fuel + (k + 1) = (fuel + k) + 1 from rfl]
        conv => lhs; unfold translate_loop
        have hlt : st.cycles < (BLOCK_CYCLE_LIMIT : Int) := by
          push_cast at hc
          omega
        rw [if_pos (Or.inl hlt)]
        simp only [bind, TM.bind, fetch_op, hd, gt_iff_lt, lt_self_iff_false, if_false, h2,
          end_op_plain cfg s2 d2 (by rw [q2, hq])]
      · simp at h
    · simp at h

theorem translate_mark_end_addr (cfg : Config) (d : Drc) (sh2 : SH2) (tb blkid pc : Nat) :
    ((translate_mark cfg d sh2 tb blkid pc).block_tab tb).end_addr = pc := by
  unfold translate_mark
  dsimp only
  split
  · simp
  · split <;> simp

/-- C28: let the first `BLOCK_CYCLE_LIMIT` (100) opcodes from `pc` be one-cycle
straight-line opcodes (`plain_run`: each handler leaves through `end_op` and
changes none of `cycles`, `delayed_op`, `test_irq`), and let the fuel exceed
100.  Then the loop runs exactly these 100 iterations and leaves by its
`while` test, with `pc + 200` and 100 cycles; after the loop the translator
does `emit_move_r_imm32(SHR_PC, pc + 200)` on the state the 100th handler
left, nothing else; and a block that `sh2_translate` returns has
`end_addr = pc + 200`, 100 cycles, and as its code the handlers' code, that
constant store and the epilogue, which takes `100 << 12` off SR. -/
theorem sh2_translate_cycle_limit (cfg : Config) (mem : Nat → Nat) (fuel : Nat) (d : Drc)
    (sh2 : SH2) (other : Option Nat) (d1 : Drc) (tcid tb blkid entry : Nat) (st1 : TState)
    (hf : BLOCK_CYCLE_LIMIT < fuel) (hpc : sh2.pc < 4294967296)
    (hb : translate_begin cfg d sh2 other = some (d1, tcid, tb, blkid, entry))
    (hrun : plain_run cfg mem BLOCK_CYCLE_LIMIT
      { rc := ⟨d1.reg_temp, d1.rcache_counter, []⟩
        pc := sh2.pc, cycles := 0, delayed_op := 0, test_irq := 0 } = some st1) :
    st1.pc = (sh2.pc + 200) % 4294967296 ∧ st1.cycles = 100 ∧
      translate_loop cfg mem fuel
        { rc := ⟨d1.reg_temp, d1.rcache_counter, []⟩
          pc := sh2.pc, cycles := 0, delayed_op := 0, test_irq := 0 } = some (.done, st1) ∧
      translate_body cfg mem fuel
        { rc := ⟨d1.reg_temp, d1.rcache_counter, []⟩
          pc := sh2.pc, cycles := 0, delayed_op := 0, test_irq := 0 } =
        emit_move_r_imm32 cfg SHR_PC ((sh2.pc + 200) % 4294967296) st1 ∧
      ∀ t, sh2_translate cfg mem fuel d sh2 other = some t →
        t.end_pc = (sh2.pc + 200) % 4294967296 ∧ t.cycles = 100 ∧
          (t.drc.block_tab t.this_block).end_addr = (sh2.pc + 200) % 4294967296 ∧
          ∃ stb st2,
            emit_move_r_imm32 cfg SHR_PC ((sh2.pc + 200) % 4294967296) st1 = some ((), stb) ∧
            translate_epilogue cfg stb = some ((), st2) ∧ t.code = st2.rc.code ∧
            ∃ sr : Int, (⟨.sub_r_imm, [sr, 100 * 4096]⟩ : Emit) ∈ t.code := by
  obtain ⟨e1, e2, e3, e4, e5⟩ := plain_run_loop cfg mem (fuel - BLOCK_CYCLE_LIMIT)
    BLOCK_CYCLE_LIMIT _ st1 hrun rfl rfl hpc (by simp)
  simp only [BLOCK_CYCLE_LIMIT] at e1 e2 e5 hf
  simp only [Nat.cast_ofNat, zero_add] at e2
  have hfu : fuel - 100 + 100 = fuel := by omega
  rw [hfu] at e1
  have hloop : translate_loop cfg mem (fuel - 100) st1 = some (.done, st1) := by
    obtain ⟨k, hk⟩ : ∃ k, fuel - 100 = k + 1 := ⟨fuel - 101, by omega⟩
    rw [hk]
    unfold translate_loop
    rw [if_neg]
    rw [e2, e3]
    simp [BLOCK_CYCLE_LIMIT]
  rw [hloop] at e1
  have hbody : translate_body cfg mem fuel
      { rc := ⟨d1.reg_temp, d1.rcache_counter, []⟩
        pc := sh2.pc, cycles := 0, delayed_op := 0, test_irq := 0 } =
      emit_move_r_imm32 cfg SHR_PC ((sh2.pc + 200) % 4294967296) st1 := by
    unfold translate_body
    simp only [bind, TM.bind, e1]
    simp [TM.bind, get_delayed_op, get_pc, e3, e5]
  refine ⟨e5, e2, e1, hbody, fun t ht => ?_⟩
  obtain ⟨d1', tcid', stb, st2, hb', hbd, hepi, hcode, hend, hcyc, hdrc⟩ :=
    sh2_translate_some cfg mem fuel d sh2 other t ht
  rw [hb] at hb'
  simp only [Option.some.injEq, Prod.mk.injEq] at hb'
  obtain ⟨rfl, rfl, rfl, rfl, rfl⟩ := hb'
  rw [hbody] at hbd
  obtain ⟨p, _, c⟩ := req_emit_move_r_imm32 cfg _ _ _ _ _ hbd
  obtain ⟨sr, rc, _, hcd, _⟩ := translate_epilogue_spec cfg stb st2 hepi
  refine ⟨by rw [hend, p, e5], by rw [hcyc, c, e2], ?_, stb, st2, hbd, hepi, hcode, sr, ?_⟩
  · rw [hdrc]
    simp only
    rw [translate_mark_end_addr, p, e5]
  · rw [hcode, hcd, c, e2]
    simp

theorem plain_run_nop (cfg : Config) :
    ∀ (n : Nat) (st : TState), st.delayed_op = 0 →
      ∃ st1, plain_run cfg (fun _ => 0x0009) n st = some st1 := by
  intro n
  induction n with
  | zero => intro st _; exact ⟨st, rfl⟩
  | succ n ih =>
    intro st hd
    have hnop : ∀ s : TState, translate_op cfg (fun _ => 0x0009) 0x0009 s = some (.end_op, s) := by
      intro s
      have h9 : 9 &&& 3840 = 0 := by decide
      simp [translate_op, to_end_op, op_0, GET_Fx, TM.bind, TM.pure, pure, h9]
    unfold plain_run
    simp only [fetch_op, hnop]
    simp only [and_self, if_true]
    exact ih _ (by simp [hd])

set_option maxRecDepth 100000 in
theorem sh2_translate_cycle_limit_witness :
    ∃ (d1 : Drc) (tcid tb blkid entry : Nat) (st1 : TState) (t : Translated),
      BLOCK_CYCLE_LIMIT < 200 ∧ 0x06000100 < 4294967296 ∧
      translate_begin arm_cfg drc0 { pc := 0x06000100 } none =
        some (d1, tcid, tb, blkid, entry) ∧
      plain_run arm_cfg (fun _ => 0x0009) BLOCK_CYCLE_LIMIT
        { rc := ⟨d1.reg_temp, d1.rcache_counter, []⟩
          pc := 0x06000100, cycles := 0, delayed_op := 0, test_irq := 0 } = some st1 ∧
      sh2_translate arm_cfg (fun _ => 0x0009) 200 drc0 { pc := 0x06000100 } none = some t ∧
      st1.pc = 0x060001c8 ∧ st1.cycles = 100 ∧
      translate_loop arm_cfg (fun _ => 0x0009) 200
        { rc := ⟨d1.reg_temp, d1.rcache_counter, []⟩
          pc := 0x06000100, cycles := 0, delayed_op := 0, test_irq := 0 } = some (.done, st1) ∧
      t.end_pc = 0x060001c8 ∧ t.cycles = 100 ∧
      (t.drc.block_tab t.this_block).end_addr = 0x060001c8 := by
  cases eb : translate_begin arm_cfg drc0 { pc := 0x06000100 } none with
  | none =>
    have : (translate_begin arm_cfg drc0 { pc := 0x06000100 } none).isSome = true := by decide!
    rw [eb] at this
    simp at this
  | some r =>
    obtain ⟨d1, tcid, tb, blkid, entry⟩ := r
    obtain ⟨st1, hst1⟩ := plain_run_nop arm_cfg BLOCK_CYCLE_LIMIT
      { rc := ⟨d1.reg_temp, d1.rcache_counter, []⟩
        pc := 0x06000100, cycles := 0, delayed_op := 0, test_irq := 0 } rfl
    cases et : sh2_translate arm_cfg (fun _ => 0x0009) 200 drc0 { pc := 0x06000100 } none with
    | none =>
      have : (sh2_translate arm_cfg (fun _ => 0x0009) 200 drc0
          { pc := 0x06000100 } none).isSome = true := by decide!
      rw [et] at this
      simp at this
    | some t =>
      have h := sh2_translate_cycle_limit arm_cfg (fun _ => 0x0009) 200 drc0
        { pc := 0x06000100 } none d1 tcid tb blkid entry st1 (by decide) (by decide) eb hst1
      exact ⟨d1, tcid, tb, blkid, entry, st1, t, by decide, by decide, rfl, hst1, rfl,
        h.1, h.2.1, h.2.2.1, (h.2.2.2.2 t et).1, (h.2.2.2.2 t et).2.1, (h.2.2.2.2 t et).2.2.1⟩

/-! ## BT and BF -/

theorem rcache_get_reg_write_slot (cfg : Config) (s s1 : RCache) (r : Nat) (hr : Int)
    (hm : cfg.reg_map_g2h r = -1)
    (h : rcache_get_reg cfg s r .RC_GR_WRITE = some (hr, s1)) : Pend r hr s1 := by
  rcases rcache_get_reg_shape cfg s s1 r .RC_GR_WRITE hr h with ⟨h1, _⟩ | ⟨_, _, i, t, ht, hreg, hc⟩
  · exact absurd hm h1
  · have hi : i < s.reg_temp.length := by
      rcases Nat.lt_or_ge i s.reg_temp.length with hi | hi
      · exact hi
      · rw [List.getElem?_eq_none hi] at ht
        simp at ht
    rcases hc with ⟨_, hv, hs⟩ | ⟨_, _, hs⟩
    · exact ⟨i, { t with stamp := (s.rcache_counter + 1) % 65536, type := .HR_CACHED_DIRTY },
        by rw [hs, List.getElem?_set_self hi]; simp, hreg.symm, rfl, hv⟩
    · exact ⟨i, ⟨t.reg, .HR_CACHED_DIRTY, (s.rcache_counter + 1) % 65536, r⟩,
        by rw [hs, List.getElem?_set_self hi]; simp, hreg.symm, rfl, rfl⟩

theorem disp2_8 (op : Nat) : disp2 op 8 = 2 * sext8 (op &&& 0xff) := by
  have h1 : op &&& 0xff = op % 256 := Nat.and_pow_two_sub_one_eq_mod op 8
  unfold disp2 sext8 s32 u32
  rw [h1]
  simp only [Nat.mod_mod]
  have e : ((op : Int) * 2 ^ (32 - 8) % 4294967296).toNat = (op % 256) * 16777216 := by
    omega
  rw [e]
  split
  · split
    · push_cast; omega
    · omega
  · split
    · omega
    · push_cast; omega

theorem op_8_branch_bt (cfg : Config) (op : Nat) (st st1 : TState) (ex : OpExit)
    (hd : st.delayed_op = 0) (h : op_8_branch cfg op st = some (ex, st1)) :
    ex = .end_block_btf ∧
      ∃ (hr : Int) (rc1 : RCache),
        rcache_get_reg cfg st.rc SHR_PC .RC_GR_WRITE = some (hr, rc1) ∧
        st1 =
          { st with
            rc :=
              { rc1 with
                code := rc1.code ++
                  [⟨.move_r_imm, [hr, ((st.pc % 4294967296 : Nat) : Int)]⟩,
                    ⟨.sh2_test_t, []⟩,
                    ⟨.sjmp_start, [if op &&& 0x0200 ≠ 0 then DCOND_NE else DCOND_EQ]⟩,
                    if 2 * sext8 (op &&& 0xff) + 2 < 0 then
                      ⟨.sub_r_imm_c, [if op &&& 0x0200 ≠ 0 then DCOND_EQ else DCOND_NE, hr,
                        -(2 * sext8 (op &&& 0xff) + 2)]⟩
                    else
                      ⟨.add_r_imm_c, [if op &&& 0x0200 ≠ 0 then DCOND_EQ else DCOND_NE, hr,
                        2 * sext8 (op &&& 0xff) + 2]⟩,
                    ⟨.sjmp_end, [if op &&& 0x0200 ≠ 0 then DCOND_NE else DCOND_EQ]⟩] }
            cycles := st.cycles + 2 } := by
  have hex := op_8_branch_exit cfg op st st1 ex h
  rw [if_pos hd] at hex
  refine ⟨hex, ?_⟩
  unfold op_8_branch at h
  simp only [bind, TM.bind, get_delayed_op, get_pc, hd, ne_eq, not_true_eq_false, if_false,
    if_true, get_reg, lift_rc, disp2_8] at h
  cases hg : rcache_get_reg cfg st.rc SHR_PC .RC_GR_WRITE with
  | none => simp [hg] at h
  | some r =>
    obtain ⟨hr, rc1⟩ := r
    refine ⟨hr, rc1, rfl, ?_⟩
    have hu : u32 ((st.pc : Int) + 0) = st.pc % 4294967296 := by
      unfold u32
      omega
    simp only [hg, E, RCache.emit, add_cycles, hu, imm] at h
    split at h
    · rename_i hlt
      simp only [TM.bind, E, RCache.emit, add_cycles, pure, TM.pure, Option.some.injEq,
        Prod.mk.injEq] at h
      rw [← h.2, if_pos hlt]
      simp [hd]
    · rename_i hlt
      simp only [TM.bind, E, RCache.emit, add_cycles, pure, TM.pure, Option.some.injEq,
        Prod.mk.injEq] at h
      rw [← h.2, if_neg hlt]
      simp [hd]

theorem translate_op_bt_bf (cfg : Config) (mem : Nat → Nat) (op : Nat) (h : is_bt_bf op) :
    translate_op cfg mem op = op_8_branch cfg op := by
  obtain ⟨h8, hf⟩ := h
  unfold translate_op
  rw [h8]
  simp only
  unfold op_8
  rcases hf with hf | hf <;> rw [hf]

theorem host_run_bt_bf (cond : Int → Bool → Bool) (hEQ : ∀ t, cond DCOND_EQ t = !t)
    (hNE : ∀ t, cond DCOND_NE t = t) (bf : Prop) [Decidable bf] (offs hr : Int) (p : Nat)
    (hp : p < 4294967296) (h : HostSt) :
    ∃ h1,
      host_run cond
          [⟨.move_r_imm, [hr, (p : Int)]⟩, ⟨.sh2_test_t, []⟩,
            ⟨.sjmp_start, [if bf then DCOND_NE else DCOND_EQ]⟩,
            if offs < 0 then ⟨.sub_r_imm_c, [if bf then DCOND_EQ else DCOND_NE, hr, -offs]⟩
            else ⟨.add_r_imm_c, [if bf then DCOND_EQ else DCOND_NE, hr, offs]⟩,
            ⟨.sjmp_end, [if bf then DCOND_NE else DCOND_EQ]⟩] none h = some h1 ∧
        h1.regs hr = (if (if bf then !h.T else h.T) then u32 (p + offs) else p) ∧
        (∀ r, r ≠ hr → h1.regs r = h.regs r) ∧ h1.T = h.T := by
  have hu : u32 (p : Int) = p := by
    unfold u32
    omega
  by_cases hb : bf <;> by_cases ho : offs < 0 <;> cases hT : h.T <;>
    simp [host_run, hEQ, hNE, hb, ho, hT, hu, Function.update]
  all_goals
    intro r h1 h2
    exact absurd h2 h1

theorem bt_bit (op : Nat) :
    (op &&& 0x0f00 = 0x0900 → op &&& 0x0200 = 0) ∧
      (op &&& 0x0f00 = 0x0b00 → op &&& 0x0200 ≠ 0) := by
  have e : op &&& 0x0200 = (op &&& 0x0f00) &&& 0x0200 := by
    have h2 : (0x0f00 : Nat) &&& 0x0200 = 0x0200 := by decide
    rw [Nat.and_assoc, h2]
  constructor
  · intro h
    rw [e, h]
    decide
  · intro h
    rw [e, h]
    decide

/-- C26: let the loop head see a BT or BF opcode at guest address `a = pc`, outside a
delay slot and below the cycle limit.  Then that iteration is the last one:
the loop's result is the handler's result, left through `end_block_btf`, so
no further opcode is translated.  The handler asks the cache for `PC` in
write mode, getting host register `hr`, which stays the dirty copy of `PC`,
and emits five calls: load `hr` with `a + 2`, test SR.T, and inside a short
forward jump a predicated add (or subtract) of `2 + 2 * sext8(d)`.  Run on
the host (`host_run`, where `cond` gives the meaning of EQ / NE after the
test: EQ holds when T = 0, NE when T = 1) they leave in `hr` the value
`a + 4 + 2 * sext8(d)` (mod 2^32) when T = 1 for BT, T = 0 for BF, and `a + 2`
otherwise, and touch no other host register. -/
theorem bt_bf_spec (cfg : Config) (mem : Nat → Nat) (cond : Int → Bool → Bool) (fuel : Nat)
    (st0 : TState) (hpc : cfg.reg_map_g2h SHR_PC = -1) (hEQ : ∀ t, cond DCOND_EQ t = !t)
    (hNE : ∀ t, cond DCOND_NE t = t) (ha : st0.pc + 2 < 4294967296)
    (hd : st0.delayed_op = 0) (hcy : st0.cycles < BLOCK_CYCLE_LIMIT)
    (hop : is_bt_bf (mem st0.pc)) :
    translate_loop cfg mem (fuel + 1) st0 =
        ((fetch_op mem >>= fun op => translate_op cfg mem op) st0).map
          (fun r => (LoopExit.end_block_btf, r.2)) ∧
      ∀ ex st1, translate_loop cfg mem (fuel + 1) st0 = some (ex, st1) →
        ex = .end_block_btf ∧ st1.pc = st0.pc + 2 ∧ st1.cycles = st0.cycles + 3 ∧
          ∃ (hr : Int) (rc1 : RCache) (code : List Emit),
            rcache_get_reg cfg st0.rc SHR_PC .RC_GR_WRITE = some (hr, rc1) ∧
            st1.rc = { rc1 with code := rc1.code ++ code } ∧ code.length = 5 ∧
            Pend SHR_PC hr st1.rc ∧
            ∀ h : HostSt, ∃ h1,
              host_run cond code none h = some h1 ∧
              h1.regs hr =
                (if (if mem st0.pc &&& 0x0f00 = 0x0900 then h.T else !h.T) then
                  u32 ((st0.pc : Int) + 4 + 2 * sext8 (mem st0.pc &&& 0xff))
                else st0.pc + 2) ∧
              (∀ r, r ≠ hr → h1.regs r = h.regs r) ∧ h1.T = h.T := by
  have hfetch : fetch_op mem st0 = some (mem st0.pc,
      { st0 with pc := st0.pc + 2, cycles := st0.cycles + 1 }) := by
    simp only [fetch_op, hd, gt_iff_lt, lt_self_iff_false, if_false, Nat.mod_eq_of_lt ha]
  have hloop : translate_loop cfg mem (fuel + 1) st0 =
      ((fetch_op mem >>= fun op => translate_op cfg mem op) st0).map
        (fun r => (LoopExit.end_block_btf, r.2)) := by
    conv => lhs; unfold translate_loop
    rw [if_pos (Or.inl hcy)]
    simp only [bind, TM.bind, hfetch]
    cases hm : translate_op cfg mem (mem st0.pc)
        { st0 with pc := st0.pc + 2, cycles := st0.cycles + 1 } with
    | none => rfl
    | some r =>
      obtain ⟨ex1, s2⟩ := r
      rw [translate_op_bt_bf cfg mem _ hop] at hm
      have hex := op_8_branch_exit cfg _ _ _ _ hm
      rw [if_pos hd] at hex
      subst hex
      rfl
  refine ⟨hloop, fun ex st1 h => ?_⟩
  rw [hloop] at h
  simp only [bind, TM.bind, hfetch, translate_op_bt_bf cfg mem _ hop] at h
  cases hm : op_8_branch cfg (mem st0.pc)
      { st0 with pc := st0.pc + 2, cycles := st0.cycles + 1 } with
  | none =>
    rw [hm] at h
    simp at h
  | some r =>
    obtain ⟨ex1, s2⟩ := r
    rw [hm] at h
    simp only [Option.map_some', Option.some.injEq, Prod.mk.injEq] at h
    obtain ⟨rfl, rfl⟩ := h
    obtain ⟨_, hr, rc1, hg, hs⟩ := op_8_branch_bt cfg _
      { st0 with pc := st0.pc + 2, cycles := st0.cycles + 1 } _ _ hd hm
    simp only at hg hs
    refine ⟨rfl, by rw [hs], by rw [hs]; simp only; omega, hr, rc1, _, hg, by rw [hs], ?_, ?_, ?_⟩
    · split <;> rfl
    · obtain ⟨i, u, hu, h1, h2, h3⟩ := rcache_get_reg_write_slot cfg _ _ _ _ hpc hg
      rw [hs]
      exact ⟨i, u, hu, h1, h2, h3⟩
    · intro h
      obtain ⟨h1, e1, e2, e3, e4⟩ := host_run_bt_bf cond hEQ hNE (mem st0.pc &&& 0x0200 ≠ 0)
        (2 * sext8 (mem st0.pc &&& 0xff) + 2) hr ((st0.pc + 2) % 4294967296)
        (Nat.mod_lt _ (by decide)) h
      refine ⟨h1, e1, ?_, e3, e4⟩
      rw [e2, Nat.mod_eq_of_lt ha]
      have hb := bt_bit (mem st0.pc)
      rcases hop.2 with hf | hf
      · rw [if_neg (not_not.mpr (hb.1 hf)), if_pos hf]
        split
        · congr 1
          push_cast
          ring
        · rfl
      · have hne : ¬mem st0.pc &&& 0x0f00 = 0x0900 := by
          rw [hf]
          decide
        rw [if_pos (hb.2 hf), if_neg hne]
        split
        · congr 1
          push_cast
          ring
        · rfl

theorem bt_bf_spec_witness :
    arm_cfg.reg_map_g2h SHR_PC = -1 ∧
      (∀ t, (fun (c : Int) (t : Bool) => if c = DCOND_EQ then !t else t) DCOND_EQ t = !t) ∧
      (∀ t, (fun (c : Int) (t : Bool) => if c = DCOND_EQ then !t else t) DCOND_NE t = t) ∧
      (0x06000010 + 2 < 4294967296) ∧ is_bt_bf 0x8900 ∧
      translate_loop arm_cfg (fun _ => 0x8900) (0 + 1)
          { rc := ⟨drc0.reg_temp, drc0.rcache_counter, []⟩
            pc := 0x06000010, cycles := 0, delayed_op := 0, test_irq := 0 } =
        ((fetch_op (fun _ => 0x8900) >>= fun op => translate_op arm_cfg (fun _ => 0x8900) op)
            { rc := ⟨drc0.reg_temp, drc0.rcache_counter, []⟩
              pc := 0x06000010, cycles := 0, delayed_op := 0, test_irq := 0 }).map
          (fun r => (LoopExit.end_block_btf, r.2)) :=
  ⟨by decide, fun t => by simp, fun t => by simp [DCOND_EQ, DCOND_NE], by decide, by decide,
    (bt_bf_spec arm_cfg (fun _ => 0x8900) (fun c t => if c = DCOND_EQ then !t else t) 0
      { rc := ⟨drc0.reg_temp, drc0.rcache_counter, []⟩
        pc := 0x06000010, cycles := 0, delayed_op := 0, test_irq := 0 }
      (by decide) (fun t => by simp) (fun t => by simp [DCOND_EQ, DCOND_NE]) (by decide) rfl
      (by decide) (by decide)).1⟩

/-! ## Delayed branches and their delay slot -/

theorem end_op_delayed (cfg : Config) (st : TState) (hd : st.delayed_op = 2) :
    end_op cfg st = some (none, st) := by
  unfold end_op
  simp [bind, TM.bind, pure, TM.pure, get_delayed_op, get_test_irq, hd]

theorem end_op_slot (cfg : Config) (st : TState) (hd : st.delayed_op = 1) :
    end_op cfg st =
      (emit_move_r_r cfg SHR_PC SHR_PPC >>= fun _ => get_test_irq >>= fun test_irq =>
        if test_irq ≠ 0 then
          flush >>= fun _ => E .pass_arg_r [0, (cfg.CONTEXT_REG : Int)] >>= fun _ =>
            E .call [sh2_test_irq_fn] >>= fun _ => (pure (some LoopExit.end_block_btf) : TM _)
        else pure (some LoopExit.brk)) st := by
  unfold end_op
  simp only [bind, TM.bind, get_delayed_op, hd, if_true]
  cases emit_move_r_r cfg SHR_PC SHR_PPC st with
  | none => rfl
  | some r =>
    obtain ⟨_, s1⟩ := r
    simp only [get_test_irq]
    by_cases hq : s1.test_irq ≠ 0
    · simp [hq, pure, TM.pure, TM.bind]
    · simp [hq, pure, TM.pure, TM.bind]

theorem delayed_branch_loop (cfg : Config) (mem : Nat → Nat) (fuel : Nat) (st0 : TState)
    (hd : st0.delayed_op = 0) (hcy : st0.cycles < BLOCK_CYCLE_LIMIT)
    (h1 : is_delayed_branch (mem st0.pc))
    (h2 : is_plain_op (mem ((st0.pc + 2) % 4294967296))) :
    translate_loop cfg mem (fuel + 2) st0 = delay_slot_seq cfg mem st0 := by
  unfold delay_slot_seq
  conv => lhs; unfold translate_loop
  rw [if_pos (Or.inl hcy)]
  simp only [bind, TM.bind, fetch_op, hd, gt_iff_lt, lt_self_iff_false, if_false]
  cases hm : translate_op cfg mem (mem st0.pc)
      { st0 with pc := (st0.pc + 2) % 4294967296, cycles := st0.cycles + 1, delayed_op := 0 } with
  | none => rfl
  | some r =>
    obtain ⟨ex1, s2⟩ := r
    obtain ⟨rfl, hd2⟩ := translate_op_delayed cfg mem _ h1 _ _ _ hm
    have p2 := (rop_translate_op cfg mem _ _ _ _ hm).1
    simp only at p2
    simp only [TM.bind, end_op_delayed cfg s2 hd2]
    conv => lhs; unfold translate_loop
    rw [if_pos (Or.inr (by rw [hd2]; decide))]
    rw [← p2] at h2
    simp only [bind, TM.bind, fetch_op, hd2, Nat.lt_add_one, Nat.zero_lt_succ, if_true,
      Nat.add_one_sub_one, Nat.reduceSub, Nat.reduceLT]
    cases hm2 : translate_op cfg mem (mem s2.pc)
        { s2 with pc := (s2.pc + 2) % 4294967296, cycles := s2.cycles + 1, delayed_op := 1 } with
    | none => rfl
    | some r =>
      obtain ⟨ex2, s4⟩ := r
      have hex2 := translate_op_exit cfg mem _ h2.2.1 h2.2.2 _ _ _ hm2
      subst hex2
      have hd4 : s4.delayed_op = 1 := by
        rcases (rop_translate_op cfg mem _ _ _ _ hm2).2.1 with hb | hb
        · exact absurd hb h2.1
        · exact hb
      simp only [end_op_slot cfg s4 hd4, bind, TM.bind]
      cases emit_move_r_r cfg SHR_PC SHR_PPC s4 with
      | none => rfl
      | some r =>
        obtain ⟨_, s5⟩ := r
        simp only [get_test_irq]
        by_cases hq : s5.test_irq ≠ 0
        · simp [hq, TM.bind, flush, E, pure, TM.pure]
        · simp [hq, pure, TM.pure]

/-! ## BRA and BSR -/

theorem disp2_12 (op : Nat) : disp2 op 12 = 2 * sext12 (op &&& 0xfff) := by
  have h1 : op &&& 0xfff = op % 4096 := Nat.and_pow_two_sub_one_eq_mod op 12
  unfold disp2 sext12 s32 u32
  rw [h1]
  simp only [Nat.mod_mod]
  have e : ((op : Int) * 2 ^ (32 - 12) % 4294967296).toNat = (op % 4096) * 1048576 := by
    omega
  rw [e]
  split
  · split
    · push_cast; omega
    · omega
  · split
    · omega
    · push_cast; omega

theorem bra_target (op a pc : Nat) (hpc : pc = (a + 2) % 4294967296) :
    u32 ((pc : Int) + (u32 (disp2 op 12) : Nat) + 2) =
      u32 ((a : Int) + 4 + 2 * sext12 (op &&& 0xfff)) := by
  rw [disp2_12, hpc]
  generalize sext12 (op &&& 0xfff) = s
  unfold u32
  omega

theorem bsr_link (a pc : Nat) (hpc : pc = (a + 2) % 4294967296) :
    u32 ((pc : Int) + 2) = (a + 4) % 4294967296 := by
  rw [hpc]
  unfold u32
  omega

theorem emit_move_r_imm32_some (cfg : Config) (dst i : Nat) (st st1 : TState)
    (h : emit_move_r_imm32 cfg dst i st = some ((), st1)) :
    ∃ (hr : Int) (rc1 : RCache),
      rcache_get_reg cfg st.rc dst .RC_GR_WRITE = some (hr, rc1) ∧
      st1 = { st with rc := rc1.emit ⟨.move_r_imm, [hr, (i : Int)]⟩ } := by
  unfold emit_move_r_imm32 at h
  simp only [bind, TM.bind, get_reg, lift_rc] at h
  cases hg : rcache_get_reg cfg st.rc dst .RC_GR_WRITE with
  | none => simp [hg] at h
  | some r =>
    obtain ⟨hr, rc1⟩ := r
    simp only [hg, E, Option.some.injEq, Prod.mk.injEq, true_and] at h
    exact ⟨hr, rc1, rfl, h.symm⟩

theorem pend_emit (r : Nat) (hr : Int) (rc : RCache) (e : Emit) (h : Pend r hr rc) :
    Pend r hr (rc.emit e) := h

/-- C27: for a BRA or BSR opcode at guest address `a` (so the handler runs with
`pc = a + 2`) the handler leaves through `end_op` with `delayed_op = 2`, one
cycle more and `pc` unchanged.  BSR first asks the cache for `PR` in write
mode and loads that host register with `a + 4`.  Both then ask the cache for
`PPC` in write mode and load that host register, the last emitted call, with
`a + 4 + 2 * sext12(d)` (mod 2^32); `PPC` stays cached dirty in it.  For
such an opcode at the loop head, outside a delay slot and below the cycle
limit, followed by an opcode that is no branch, the loop does exactly
`delay_slot_seq`: the branch, the delay slot once, the copy of `PPC` into
`PC`, and the end of the block. -/
theorem bra_bsr_spec (cfg : Config) (mem : Nat → Nat) (op a : Nat) (st st1 : TState)
    (ex : OpExit) (hppc : cfg.reg_map_g2h SHR_PPC = -1)
    (hop : (op >>> 12) &&& 0x0f = 0x0a ∨ (op >>> 12) &&& 0x0f = 0x0b)
    (hpc : st.pc = (a + 2) % 4294967296)
    (h : translate_op cfg mem op st = some (ex, st1)) :
    ex = .end_op ∧ st1.delayed_op = 2 ∧ st1.pc = st.pc ∧ st1.cycles = st.cycles + 1 ∧
      st1.test_irq = st.test_irq ∧
      (∃ (rc0 : RCache) (hr : Int) (rc1 : RCache),
        ((op >>> 12) &&& 0x0f = 0x0a → rc0 = st.rc) ∧
        ((op >>> 12) &&& 0x0f = 0x0b →
          ∃ (hr1 : Int) (rcp : RCache),
            rcache_get_reg cfg st.rc SHR_PR .RC_GR_WRITE = some (hr1, rcp) ∧
            rc0 = rcp.emit ⟨.move_r_imm, [hr1, (((a + 4) % 4294967296 : Nat) : Int)]⟩ ∧
            (cfg.reg_map_g2h SHR_PR = -1 → Pend SHR_PR hr1 rc0)) ∧
        rcache_get_reg cfg rc0 SHR_PPC .RC_GR_WRITE = some (hr, rc1) ∧
        st1.rc = rc1.emit
          ⟨.move_r_imm, [hr, (u32 ((a : Int) + 4 + 2 * sext12 (op &&& 0xfff)) : Int)]⟩ ∧
        Pend SHR_PPC hr st1.rc) ∧
      ∀ (fuel : Nat) (st0 : TState), st0.delayed_op = 0 → st0.cycles < BLOCK_CYCLE_LIMIT →
        mem st0.pc = op → is_plain_op (mem ((st0.pc + 2) % 4294967296)) →
        translate_loop cfg mem (fuel + 2) st0 = delay_slot_seq cfg mem st0 := by
  have hloop : ∀ (fuel : Nat) (st0 : TState), st0.delayed_op = 0 →
      st0.cycles < BLOCK_CYCLE_LIMIT → mem st0.pc = op →
      is_plain_op (mem ((st0.pc + 2) % 4294967296)) →
      translate_loop cfg mem (fuel + 2) st0 = delay_slot_seq cfg mem st0 := by
    intro fuel st0 hd hcy hm hp
    refine delayed_branch_loop cfg mem fuel st0 hd hcy ?_ hp
    rw [hm]
    unfold is_delayed_branch
    omega
  rcases hop with hA | hB
  · unfold translate_op at h
    rw [hA] at h
    simp only [to_end_op, op_A, do_bra, bind, TM.bind, DELAYED_OP, get_pc, add_cycles] at h
    cases hm : emit_move_r_imm32 cfg SHR_PPC
        (u32 ((st.pc : Int) + (u32 (disp2 op 12) : Nat) + 2)) { st with delayed_op := 2 } with
    | none => simp [hm] at h
    | some r =>
      obtain ⟨_, s1⟩ := r
      simp only [hm, TM.pure, Option.some.injEq, Prod.mk.injEq] at h
      obtain ⟨rfl, rfl⟩ := h
      obtain ⟨hr, rc1, hg, rfl⟩ := emit_move_r_imm32_some cfg _ _ _ _ hm
      rw [bra_target op a st.pc hpc]
      refine ⟨rfl, rfl, rfl, rfl, rfl, ⟨st.rc, hr, rc1, fun _ => rfl, fun hc => ?_, hg, rfl, ?_⟩,
        hloop⟩
      · rw [hA] at hc
        exact absurd hc (by decide)
      · exact pend_emit _ _ _ _ (rcache_get_reg_write_slot cfg _ _ _ _ hppc hg)
  · unfold translate_op at h
    rw [hB] at h
    simp only [to_end_op, op_B, do_bra, bind, TM.bind, DELAYED_OP, get_pc, add_cycles] at h
    cases hm1 : emit_move_r_imm32 cfg SHR_PR (u32 ((st.pc : Int) + 2))
        { st with delayed_op := 2 } with
    | none => simp [hm1] at h
    | some r1 =>
      obtain ⟨_, s1⟩ := r1
      obtain ⟨hr1, rcp, hg1, rfl⟩ := emit_move_r_imm32_some cfg _ _ _ _ hm1
      simp only [hm1] at h
      cases hm : emit_move_r_imm32 cfg SHR_PPC
          (u32 ((st.pc : Int) + (u32 (disp2 op 12) : Nat) + 2))
          { st with
            rc := rcp.emit ⟨.move_r_imm, [hr1, ((u32 ((st.pc : Int) + 2) : Nat) : Int)]⟩
            delayed_op := 2 } with
      | none => simp [hm] at h
      | some r =>
        obtain ⟨_, s2⟩ := r
        simp only [hm, TM.pure, Option.some.injEq, Prod.mk.injEq] at h
        obtain ⟨rfl, rfl⟩ := h
        obtain ⟨hr, rc1, hg, rfl⟩ := emit_move_r_imm32_some cfg _ _ _ _ hm
        simp only at hg
        rw [bra_target op a st.pc hpc]
        rw [bsr_link a st.pc hpc] at hg
        refine ⟨rfl, rfl, rfl, rfl, rfl, ⟨_, hr, rc1, fun hc => ?_, fun _ => ⟨hr1, rcp, hg1, rfl,
          fun hpr => ?_⟩, hg, rfl, ?_⟩, hloop⟩
        · rw [hB] at hc
          exact absurd hc (by decide)
        · exact pend_emit _ _ _ _ (rcache_get_reg_write_slot cfg _ _ _ _ hpr hg1)
        · exact pend_emit _ _ _ _ (rcache_get_reg_write_slot cfg _ _ _ _ hppc hg)

set_option maxRecDepth 100000 in
theorem bra_bsr_spec_witness :
    ∃ (ex : OpExit) (st1 : TState),
      arm_cfg.reg_map_g2h SHR_PPC = -1 ∧ (0xb002 >>> 12) &&& 0x0f = 0x0b ∧
      (0x06000102 : Nat) = (0x06000100 + 2) % 4294967296 ∧
      translate_op arm_cfg mem_bsr 0xb002
        { rc := ⟨drc0.reg_temp, drc0.rcache_counter, []⟩
          pc := 0x06000102, cycles := 1, delayed_op := 0, test_irq := 0 } = some (ex, st1) ∧
      ex = .end_op ∧ st1.delayed_op = 2 ∧ st1.pc = 0x06000102 ∧ st1.cycles = 1 + 1 ∧
      (sh2_translate arm_cfg mem_bsr 200 drc0 { pc := 0x06000100 } none).map
          (fun t => (t.code, t.cycles, t.end_pc)) =
        some ([⟨.move_r_imm, [3, 0x06000104]⟩, ⟨.move_r_imm, [2, 0x06000108]⟩,
          ⟨.add_r_imm, [7, 1]⟩, ⟨.move_r_r, [14, 2]⟩, ⟨.sub_r_imm, [10, 12288]⟩,
          ⟨.ctx_write, [14, 64]⟩, ⟨.ctx_write, [2, 68]⟩, ⟨.ctx_write, [3, 72]⟩,
          ⟨.jump, [9]⟩], 3, 0x06000104) := by
  cases e1 : translate_op arm_cfg mem_bsr 0xb002
      { rc := ⟨drc0.reg_temp, drc0.rcache_counter, []⟩
        pc := 0x06000102, cycles := 1, delayed_op := 0, test_irq := 0 } with
  | none =>
    have : (translate_op arm_cfg mem_bsr 0xb002
        { rc := ⟨drc0.reg_temp, drc0.rcache_counter, []⟩
          pc := 0x06000102, cycles := 1, delayed_op := 0, test_irq := 0 }).isSome = true := by
      decide!
    rw [e1] at this
    simp at this
  | some r =>
    obtain ⟨ex, st1⟩ := r
    have h := bra_bsr_spec arm_cfg mem_bsr 0xb002 0x06000100 _ st1 ex (by decide)
      (Or.inr (by decide)) (by decide) e1
    exact ⟨ex, st1, by decide, by decide, by decide, rfl, h.1, h.2.1, h.2.2.1, h.2.2.2.1,
      by decide!⟩

/-! ## Pending write of any guest register -/

theorem pw_mono (r0 : Nat) (hr0 : r0 * 4 % 4294967296 = r0 * 4)
    (rc rc1 : RCache) (h : Pw r0 rc)
    (hslots : ∀ (j : Nat) (u : temp_reg_t), rc.reg_temp[j]? = some u →
      u.type = .HR_CACHED_DIRTY → u.val = r0 →
      (∃ u1, rc1.reg_temp[j]? = some u1 ∧ u1.type = .HR_CACHED_DIRTY ∧ u1.val = r0) ∨
        ∃ hr, emith_ctx_write hr (r0 * 4) ∈ rc1.code)
    (hcode : ∀ e, e ∈ rc.code → e ∈ rc1.code) : Pw r0 rc1 := by
  rcases h with ⟨j, u, hu, hd, hv⟩ | ⟨hr, hmem⟩
  · rcases hslots j u hu hd hv with ⟨u1, h1, h2, h3⟩ | h4
    · exact Or.inl ⟨j, u1, h1, h2, h3⟩
    · exact Or.inr h4
  · exact Or.inr ⟨hr, hcode _ hmem⟩

theorem pw_emit (r0 : Nat) (hr0 : r0 * 4 % 4294967296 = r0 * 4)
    (rc : RCache) (e : Emit) (h : Pw r0 rc) : Pw r0 (rc.emit e) := by
  apply pw_mono r0 hr0 rc _ h
  · intro j u hu hd hv
    exact Or.inl ⟨u, hu, hd, hv⟩
  · intro e1 he
    simp [RCache.emit, he]

theorem pw_set_other (r0 : Nat) (hr0 : r0 * 4 % 4294967296 = r0 * 4)
    (rc : RCache) (i : Nat) (x : temp_reg_t) (code1 : List Emit) (ctr : Nat)
    (h : Pw r0 rc)
    (hi : ∀ u, rc.reg_temp[i]? = some u → u.type = .HR_CACHED_DIRTY → u.val = r0 →
      (x.type = .HR_CACHED_DIRTY ∧ x.val = r0) ∨
        ∃ hr, emith_ctx_write hr (r0 * 4) ∈ code1)
    (hcode : ∀ e, e ∈ rc.code → e ∈ code1) :
    Pw r0 { reg_temp := rc.reg_temp.set i x, rcache_counter := ctr, code := code1 } := by
  apply pw_mono r0 hr0 rc _ h
  · intro j u hu hd hv
    by_cases hji : i = j
    · subst hji
      rcases hi u hu hd hv with ⟨h1, h2⟩ | h3
      · left
        refine ⟨x, ?_, h1, h2⟩
        have hlen : i < rc.reg_temp.length := (List.getElem?_eq_some.mp hu).1
        simp [List.getElem?_set_self hlen]
      · exact Or.inr h3
    · left
      exact ⟨u, by simpa [List.getElem?_set_ne hji] using hu, hd, hv⟩
  · exact hcode

theorem pw_get_reg_alloc (r0 : Nat) (hr0 : r0 * 4 % 4294967296 = r0 * 4)
    (s s1 : RCache) (i r : Nat) (mode : rc_gr_mode) (hr : Int)
    (h : Pw r0 s)
    (hi : ∀ u, s.reg_temp[i]? = some u → u.type = .HR_CACHED_DIRTY → u.val = r0 →
      ∃ hr, emith_ctx_write hr (r0 * 4) ∈ s.code)
    (ha : get_reg_alloc s i r mode = some (hr, s1)) : Pw r0 s1 := by
  unfold get_reg_alloc at ha
  split at ha
  · simp at ha
  · rename_i tr htr
    simp only [Option.some.injEq, Prod.mk.injEq] at ha
    obtain ⟨_, rfl⟩ := ha
    by_cases hm : mode = .RC_GR_WRITE
    · simp only [hm, ne_eq, not_true_eq_false, if_false]
      apply pw_set_other r0 hr0 s i _ _ _ h
      · intro u hu hd hv
        exact Or.inr (hi u hu hd hv)
      · intro e he; exact he
    · simp only [hm, ne_eq, not_false_eq_true, if_true, RCache.emit]
      apply pw_set_other r0 hr0 s i _ _ _ h
      · intro u hu hd hv
        obtain ⟨w, hw⟩ := hi u hu hd hv
        exact Or.inr ⟨w, by simp [hw]⟩
      · intro e he; simp [he]

theorem pw_rcache_evict (r0 : Nat) (hr0 : r0 * 4 % 4294967296 = r0 * 4)
    (s s1 : RCache) (i : Nat) (h : Pw r0 s)
    (he : rcache_evict s = some (i, s1)) :
    Pw r0 s1 ∧ ∀ u, s1.reg_temp[i]? = some u → u.type = .HR_CACHED_DIRTY → u.val = r0 →
      ∃ hr, emith_ctx_write hr (r0 * 4) ∈ s1.code := by
  obtain ⟨t, ht, hs1⟩ := rcache_evict_spec _ _ _ he
  by_cases hd : t.type = .HR_CACHED_DIRTY
  · simp only [hd, if_true] at hs1
    subst hs1
    refine ⟨pw_emit r0 hr0 _ _ h, ?_⟩
    intro u hu _ hv
    simp only [RCache.emit] at hu
    rw [ht] at hu
    simp only [Option.some.injEq] at hu
    subst hu
    refine ⟨t.reg, ?_⟩
    simp [RCache.emit, ctx_offs, hv, hr0]
  · simp only [hd, if_false] at hs1
    subst hs1
    refine ⟨h, ?_⟩
    intro u hu hdu _
    rw [ht] at hu
    simp only [Option.some.injEq] at hu
    subst hu
    exact absurd hdu hd

theorem pw_rcache_get_reg (r0 : Nat) (hr0 : r0 * 4 % 4294967296 = r0 * 4)
    (cfg : Config) (s s1 : RCache) (r : Nat) (mode : rc_gr_mode)
    (hr : Int) (h : Pw r0 s) (hg : rcache_get_reg cfg s r mode = some (hr, s1)) : Pw r0 s1 := by
  unfold rcache_get_reg at hg
  split at hg
  · simp only [Option.some.injEq, Prod.mk.injEq] at hg
    rw [← hg.2]; exact h
  · have h0 : Pw r0 { s with rcache_counter := (s.rcache_counter + 1) % 65536 } := h
    simp only at hg
    split at hg
    · rename_i i hscan
      split at hg
      · simp at hg
      · rename_i t ht
        simp only [Option.some.injEq, Prod.mk.injEq] at hg
        obtain ⟨_, rfl⟩ := hg
        apply pw_set_other r0 hr0 _ i _ _ _ h0
        · intro u hu hd hv
          rw [ht] at hu
          simp only [Option.some.injEq] at hu
          subst hu
          left
          by_cases hm : mode = .RC_GR_READ <;> simp [hm, hd, hv]
        · intro e he; exact he
    · rename_i hscan
      split at hg
      · rename_i i hfree
        apply pw_get_reg_alloc r0 hr0 _ _ i r mode hr h0 _ hg
        intro u hu hd _
        obtain ⟨t, ht, hf⟩ := scan_down_some_spec _ _ _ _ hfree
        rw [ht] at hu
        simp only [Option.some.injEq] at hu
        subst hu
        simp [is_free, hd] at hf
      · split at hg
        · simp at hg
        · rename_i i s2 hev
          obtain ⟨h2, h3⟩ := pw_rcache_evict r0 hr0 _ _ _ h0 hev
          exact pw_get_reg_alloc r0 hr0 _ _ i r mode hr h2 h3 hg

theorem pw_rcache_free_tmp (r0 : Nat) (hr0 : r0 * 4 % 4294967296 = r0 * 4)
    (s : RCache) (hr : Int) (h : Pw r0 s) : Pw r0 (rcache_free_tmp s hr) := by
  unfold rcache_free_tmp
  split
  · exact h
  · rename_i i _
    split
    · exact h
    · rename_i t ht
      split
      · exact h
      · rename_i htmp
        simp only [ne_eq, not_not] at htmp
        apply pw_set_other r0 hr0 s i _ _ _ h
        · intro u hu hd _
          rw [ht] at hu
          simp only [Option.some.injEq] at hu
          subst hu
          rw [htmp] at hd
          exact absurd hd (by decide)
        · intro e he; exact he

theorem pw_rcache_clean (r0 : Nat) (hr0 : r0 * 4 % 4294967296 = r0 * 4)
    (s : RCache) (h : Pw r0 s) :
    ∃ hr, emith_ctx_write hr (r0 * 4) ∈ (rcache_clean s).code := by
  rcases h with ⟨j, u, hu, hd, hv⟩ | ⟨hr, hmem⟩
  · refine ⟨u.reg, ?_⟩
    unfold rcache_clean
    rw [clean_slots_eq]
    simp only [List.mem_append, List.mem_map, List.mem_filter, decide_eq_true_eq]
    right
    exact ⟨u, ⟨List.getElem?_mem hu, hd⟩, by simp [ctx_offs, hv, hr0]⟩
  · exact ⟨hr, by simp [rcache_clean, hmem]⟩

theorem pw_rcache_flush (r0 : Nat) (hr0 : r0 * 4 % 4294967296 = r0 * 4)
    (s : RCache) (h : Pw r0 s) : Pw r0 (rcache_flush s) := by
  right
  obtain ⟨hr, hmem⟩ := pw_rcache_clean r0 hr0 s h
  exact ⟨hr, by simpa [rcache_flush, rcache_invalidate] using hmem⟩

/-! ## The emitted code only grows -/

theorem cm_refl (s : RCache) : Cm s s := ⟨[], by simp⟩

theorem cm_trans (a b c : RCache) (h1 : Cm a b) (h2 : Cm b c) : Cm a c := by
  obtain ⟨l1, e1⟩ := h1
  obtain ⟨l2, e2⟩ := h2
  exact ⟨l1 ++ l2, by rw [e2, e1, List.append_assoc]⟩

theorem cm_of_code_eq (s s1 : RCache) (h : s1.code = s.code) : Cm s s1 := ⟨[], by simp [h]⟩

theorem cm_emit (s : RCache) (e : Emit) : Cm s (s.emit e) := ⟨[e], rfl⟩

theorem cm_rcache_evict (s s1 : RCache) (i : Nat) (h : rcache_evict s = some (i, s1)) :
    Cm s s1 := by
  obtain ⟨t, _, hs⟩ := rcache_evict_spec s s1 i h
  rw [hs]
  split
  · exact cm_emit _ _
  · exact cm_refl _

theorem cm_get_reg_alloc (s s1 : RCache) (i r : Nat) (mode : rc_gr_mode) (hr : Int)
    (h : get_reg_alloc s i r mode = some (hr, s1)) : Cm s s1 := by
  unfold get_reg_alloc at h
  split at h
  · simp at h
  · simp only [Option.some.injEq, Prod.mk.injEq] at h
    rw [← h.2]
    split
    · exact ⟨[_], rfl⟩
    · exact ⟨[], by simp⟩

theorem cm_rcache_get_reg (cfg : Config) (s s1 : RCache) (r : Nat) (mode : rc_gr_mode)
    (hr : Int) (h : rcache_get_reg cfg s r mode = some (hr, s1)) : Cm s s1 := by
  unfold rcache_get_reg at h
  split at h
  · simp only [Option.some.injEq, Prod.mk.injEq] at h
    rw [← h.2]
    exact cm_refl _
  · simp only at h
    split at h
    · split at h
      · simp at h
      · simp only [Option.some.injEq, Prod.mk.injEq] at h
        rw [← h.2]
        exact ⟨[], by simp⟩
    · split at h
      · have h0 := cm_get_reg_alloc _ _ _ _ _ _ h
        exact h0
      · split at h
        · simp at h
        · rename_i i s2 hev
          have h1 := cm_rcache_evict _ _ _ hev
          have h2 : Cm s s2 := h1
          exact cm_trans _ _ _ h2 (cm_get_reg_alloc _ _ _ _ _ _ h)

theorem cm_rcache_get_arg_id (cfg : Config) (s s1 : RCache) (arg id : Nat)
    (h : rcache_get_arg_id cfg s arg = some (id, s1)) : Cm s s1 := by
  unfold rcache_get_arg_id at h
  simp only at h
  split at h
  · simp only [Option.some.injEq, Prod.mk.injEq] at h
    rw [← h.2]
    exact cm_refl _
  · split at h
    · simp at h
    · split at h
      · simp only [Option.some.injEq, Prod.mk.injEq] at h
        rw [← h.2]
        exact cm_emit _ _
      · split at h
        · simp at h
        · simp only [Option.some.injEq, Prod.mk.injEq] at h
          rw [← h.2]
          exact cm_refl _

theorem cm_rcache_get_tmp_arg (cfg : Config) (s s1 : RCache) (arg : Nat) (hr : Int)
    (h : rcache_get_tmp_arg cfg s arg = some (hr, s1)) : Cm s s1 := by
  unfold rcache_get_tmp_arg at h
  split at h
  · simp at h
  · rename_i id s2 hid
    split at h
    · simp at h
    · simp only [Option.some.injEq, Prod.mk.injEq] at h
      rw [← h.2]
      exact cm_trans _ _ _ (cm_rcache_get_arg_id _ _ _ _ _ hid) (cm_of_code_eq _ _ rfl)

theorem cm_rcache_get_reg_arg (cfg : Config) (s s1 : RCache) (arg r : Nat) (hr : Int)
    (h : rcache_get_reg_arg cfg s arg r = some (hr, s1)) : Cm s s1 := by
  unfold rcache_get_reg_arg at h
  split at h
  · simp at h
  · rename_i id s2 hid
    split at h
    · simp at h
    · simp only [Option.some.injEq, Prod.mk.injEq] at h
      rw [← h.2]
      refine cm_trans _ _ _ (cm_rcache_get_arg_id _ _ _ _ _ hid) ?_
      split
      · split
        · exact ⟨[_], rfl⟩
        · exact ⟨[], by simp⟩
      · exact ⟨[_], rfl⟩

theorem cm_rcache_free_tmp (s : RCache) (hr : Int) : Cm s (rcache_free_tmp s hr) := by
  unfold rcache_free_tmp
  split
  · exact cm_refl _
  · split
    · exact cm_refl _
    · split
      · exact cm_refl _
      · exact ⟨[], by simp⟩

theorem cm_rcache_clean (s : RCache) : Cm s (rcache_clean s) := ⟨_, rfl⟩

theorem cm_rcache_invalidate (s : RCache) : Cm s (rcache_invalidate s) := ⟨[], by
  simp [rcache_invalidate]⟩

theorem rcm_refl (st : TState) : Rcm st st := cm_refl _

theorem rcm_trans (a b c : TState) (h1 : Rcm a b) (h2 : Rcm b c) : Rcm a c :=
  cm_trans _ _ _ h1 h2

theorem rcm_of_rc_eq {α : Type} (m : TM α)
    (h : ∀ st a st1, m st = some (a, st1) → st1.rc = st.rc) : Steps Rcm m := by
  intro st a st1 hm
  unfold Rcm
  rw [h st a st1 hm]
  exact cm_refl _

theorem rcm_E (op : EmitOp) (args : List Int) : Steps Rcm (E op args) := by
  intro st a st1 h
  simp only [E, Option.some.injEq, Prod.mk.injEq] at h
  rw [← h.2]
  exact cm_emit _ _

theorem rcm_get_reg (cfg : Config) (r : Nat) (mode : rc_gr_mode) :
    Steps Rcm (get_reg cfg r mode) := by
  intro st a st1 h
  simp only [get_reg, lift_rc] at h
  split at h
  · simp at h
  · rename_i hr rc1 hg
    simp only [Option.some.injEq, Prod.mk.injEq] at h
    rw [← h.2]
    exact cm_rcache_get_reg _ _ _ _ _ _ hg

theorem rcm_get_tmp_arg (cfg : Config) (arg : Nat) : Steps Rcm (get_tmp_arg cfg arg) := by
  intro st a st1 h
  simp only [get_tmp_arg, lift_rc] at h
  split at h
  · simp at h
  · rename_i hr rc1 hg
    simp only [Option.some.injEq, Prod.mk.injEq] at h
    rw [← h.2]
    exact cm_rcache_get_tmp_arg _ _ _ _ _ hg

theorem rcm_get_reg_arg (cfg : Config) (arg r : Nat) : Steps Rcm (get_reg_arg cfg arg r) := by
  intro st a st1 h
  simp only [get_reg_arg, lift_rc] at h
  split at h
  · simp at h
  · rename_i hr rc1 hg
    simp only [Option.some.injEq, Prod.mk.injEq] at h
    rw [← h.2]
    exact cm_rcache_get_reg_arg _ _ _ _ _ _ hg

theorem rcm_free_tmp (hr : Int) : Steps Rcm (free_tmp hr) := by
  intro st a st1 h
  simp only [free_tmp, Option.some.injEq, Prod.mk.injEq] at h
  rw [← h.2]
  exact cm_rcache_free_tmp _ _

theorem rcm_clean : Steps Rcm clean := by
  intro st a st1 h
  simp only [clean, Option.some.injEq, Prod.mk.injEq] at h
  rw [← h.2]
  exact cm_rcache_clean _

theorem rcm_invalidate : Steps Rcm invalidate := by
  intro st a st1 h
  simp only [invalidate, Option.some.injEq, Prod.mk.injEq] at h
  rw [← h.2]
  exact cm_rcache_invalidate _

theorem rcm_add_cycles (n : Int) : Steps Rcm (add_cycles n) := by
  apply rcm_of_rc_eq
  intro st a st1 h
  simp only [add_cycles, Option.some.injEq, Prod.mk.injEq] at h
  rw [← h.2]

theorem rcm_set_test_irq : Steps Rcm set_test_irq := by
  apply rcm_of_rc_eq
  intro st a st1 h
  simp only [set_test_irq, Option.some.injEq, Prod.mk.injEq] at h
  rw [← h.2]

theorem rcm_emit_memhandler_read (cfg : Config) (size : Nat) :
    Steps Rcm (emit_memhandler_read cfg size) := by
  unfold emit_memhandler_read emit_memcall
  repeat' with_reducible first
    | apply steps_bind Rcm rcm_trans
    | refine fun _ => ?_
    | exact rcm_E _ _
    | exact rcm_invalidate
    | exact rcm_get_tmp_arg _ _
    | apply steps_pure Rcm rcm_refl
    | split

/-! ## Delayed branches leave a pending write of `SHR_PPC` -/

theorem pw_of_pend (r0 : Nat) (hr : Int) (rc : RCache) (h : Pend r0 hr rc) : Pw r0 rc := by
  obtain ⟨i, u, hu, _, hd, hv⟩ := h
  exact Or.inl ⟨i, u, hu, hd, hv⟩

theorem rpw_refl (r0 : Nat) (st : TState) : Rpw r0 st st := fun h => h

theorem rpw_trans (r0 : Nat) (a b c : TState) (h1 : Rpw r0 a b) (h2 : Rpw r0 b c) :
    Rpw r0 a c := fun h => h2 (h1 h)

theorem rpw_of_rc_eq (r0 : Nat) {α : Type} (m : TM α)
    (h : ∀ st a st1, m st = some (a, st1) → st1.rc = st.rc) : Steps (Rpw r0) m := by
  intro st a st1 hm hp
  rw [h st a st1 hm]
  exact hp

theorem rpw_E (r0 : Nat) (hr0 : r0 * 4 % 4294967296 = r0 * 4) (op : EmitOp)
    (args : List Int) : Steps (Rpw r0) (E op args) := by
  intro st a st1 h hp
  simp only [E, Option.some.injEq, Prod.mk.injEq] at h
  rw [← h.2]
  exact pw_emit r0 hr0 _ _ hp

theorem rpw_get_reg (r0 : Nat) (hr0 : r0 * 4 % 4294967296 = r0 * 4) (cfg : Config) (r : Nat)
    (mode : rc_gr_mode) : Steps (Rpw r0) (get_reg cfg r mode) := by
  intro st a st1 h hp
  simp only [get_reg, lift_rc] at h
  split at h
  · simp at h
  · rename_i hr rc1 hg
    simp only [Option.some.injEq, Prod.mk.injEq] at h
    rw [← h.2]
    exact pw_rcache_get_reg r0 hr0 _ _ _ _ _ _ hp hg

theorem rpw_free_tmp (r0 : Nat) (hr0 : r0 * 4 % 4294967296 = r0 * 4) (hr : Int) :
    Steps (Rpw r0) (free_tmp hr) := by
  intro st a st1 h hp
  simp only [free_tmp, Option.some.injEq, Prod.mk.injEq] at h
  rw [← h.2]
  exact pw_rcache_free_tmp r0 hr0 _ _ hp

theorem rpw_add_cycles (r0 : Nat) (n : Int) : Steps (Rpw r0) (add_cycles n) := by
  apply rpw_of_rc_eq
  intro st a st1 h
  simp only [add_cycles, Option.some.injEq, Prod.mk.injEq] at h
  rw [← h.2]

theorem rpw_clean_bind (r0 : Nat) (hr0 : r0 * 4 % 4294967296 = r0 * 4) {β : Type}
    (f : Unit → TM β) (h : ∀ a, Steps Rcm (f a)) : Steps (Rpw r0) (clean >>= f) := by
  intro st b st2 hm hp
  rw [tm_bind_eq_some] at hm
  obtain ⟨a, st1, h1, hm⟩ := hm
  simp only [clean, Option.some.injEq, Prod.mk.injEq] at h1
  obtain ⟨hr, hmem⟩ := pw_rcache_clean r0 hr0 st.rc hp
  obtain ⟨l, hl⟩ := h a st1 b st2 hm
  right
  refine ⟨hr, ?_⟩
  rw [hl, ← h1.2]
  exact List.mem_append_left _ hmem

theorem rew_bind {α β : Type} (r0 : Nat) (m : TM α) (f : α → TM β) (h1 : Steps (Rew r0) m)
    (h2 : ∀ a, Steps (Rpw r0) (f a)) : Steps (Rew r0) (m >>= f) := by
  intro st b st2 h
  rw [tm_bind_eq_some] at h
  obtain ⟨a, st1, hm, h⟩ := h
  exact h2 a _ _ _ h (h1 _ _ _ hm)

theorem rew_bind_right {α β : Type} (r0 : Nat) (m : TM α) (f : α → TM β)
    (h2 : ∀ a, Steps (Rew r0) (f a)) : Steps (Rew r0) (m >>= f) := by
  intro st b st2 h
  rw [tm_bind_eq_some] at h
  obtain ⟨a, st1, _, h⟩ := h
  exact h2 a st1 b st2 h

theorem rew_get_delayed_op_bind {β : Type} (r0 : Nat) (f : Nat → TM β)
    (h : ∀ d, d ≠ 0 → Steps (Rew r0) (f d)) :
    Steps (fun st st1 => st.delayed_op ≠ 0 → Pw r0 st1.rc) (get_delayed_op >>= f) := by
  intro st b st2 hm hd
  rw [tm_bind_eq_some] at hm
  obtain ⟨d, st1, h1, hm⟩ := hm
  simp only [get_delayed_op, Option.some.injEq, Prod.mk.injEq] at h1
  obtain ⟨rfl, rfl⟩ := h1
  exact h _ hd _ _ _ hm

theorem rew_get_reg (cfg : Config) (r0 : Nat) (hm : cfg.reg_map_g2h r0 = -1) :
    Steps (Rew r0) (get_reg cfg r0 .RC_GR_WRITE) := by
  intro st a st1 h
  simp only [get_reg, lift_rc] at h
  split at h
  · simp at h
  · rename_i hr rc1 hg
    simp only [Option.some.injEq, Prod.mk.injEq] at h
    rw [← h.2]
    exact pw_of_pend _ _ _ (rcache_get_reg_write_slot cfg _ _ _ _ hm hg)

theorem rew_emit_move_r_imm32 (cfg : Config) (r0 : Nat)
    (hr0 : r0 * 4 % 4294967296 = r0 * 4) (hm : cfg.reg_map_g2h r0 = -1) (i : Nat) :
    Steps (Rew r0) (emit_move_r_imm32 cfg r0 i) := by
  unfold emit_move_r_imm32
  exact rew_bind _ _ _ (rew_get_reg cfg r0 hm) (fun _ => rpw_E r0 hr0 _ _)

theorem rew_emit_move_r_r (cfg : Config) (r0 : Nat)
    (hr0 : r0 * 4 % 4294967296 = r0 * 4) (hm : cfg.reg_map_g2h r0 = -1) (src : Nat) :
    Steps (Rew r0) (emit_move_r_r cfg r0 src) := by
  unfold emit_move_r_r
  exact rew_bind _ _ _ (rew_get_reg cfg r0 hm) (fun _ =>
    steps_bind _ (rpw_trans r0) _ _ (rpw_get_reg r0 hr0 _ _ _) (fun _ => rpw_E r0 hr0 _ _))

theorem op_8_branch_delayed (cfg : Config) (hm : cfg.reg_map_g2h SHR_PPC = -1) (op : Nat)
    (st st1 : TState) (ex : OpExit) (hd : st.delayed_op ≠ 0)
    (h : op_8_branch cfg op st = some (ex, st1)) : Pw SHR_PPC st1.rc := by
  have key : Steps (fun st st1 => st.delayed_op ≠ 0 → Pw SHR_PPC st1.rc)
      (op_8_branch cfg op) := by
    unfold op_8_branch
    dsimp only
    apply rew_get_delayed_op_bind
    intro d hd
    apply rew_bind_right
    intro pc
    simp only [hd, ne_eq, not_false_eq_true, if_true, if_false]
    apply rew_bind _ _ _ (rew_get_reg cfg SHR_PPC hm)
    intro tmp
    repeat' with_reducible first
      | exact rpw_E SHR_PPC (by decide) _ _
      | exact rpw_add_cycles _ _
      | apply steps_pure _ (rpw_refl _)
      | apply steps_bind _ (rpw_trans _)
      | apply steps_ite (Rpw SHR_PPC)
      | refine fun _ => ?_
  exact key _ _ _ h hd

theorem rew_bts (cfg : Config) (hm : cfg.reg_map_g2h SHR_PPC = -1) (op : Nat) :
    Steps (Rew SHR_PPC)
      (DELAYED_OP >>= fun _ => add_cycles (-1) >>= fun _ => op_8_branch cfg op) := by
  intro st ex st2 h
  rw [tm_bind_eq_some] at h
  obtain ⟨_, s1, h1, h⟩ := h
  simp only [DELAYED_OP, Option.some.injEq, Prod.mk.injEq, true_and] at h1
  rw [tm_bind_eq_some] at h
  obtain ⟨_, s2, h2, h⟩ := h
  simp only [add_cycles, Option.some.injEq, Prod.mk.injEq, true_and] at h2
  refine op_8_branch_delayed cfg hm op s2 st2 ex ?_ h
  rw [← h2, ← h1]
  exact Nat.succ_ne_zero 1

theorem rew_op_0 (cfg : Config) (hm : cfg.reg_map_g2h SHR_PPC = -1) (op : Nat)
    (hb : (op &&& 0x0f = 0x03 ∧ op &&& 0xd0 = 0) ∨
      (op &&& 0x0f = 0x0b ∧ op &&& 0xf00 = 0 ∧ (GET_Fx op = 0 ∨ GET_Fx op = 2))) :
    Steps (Rew SHR_PPC) (op_0 cfg op) := by
  unfold op_0
  split
  all_goals first
    | (exfalso; omega)
    | (exfalso; simp only [imp_false] at *; omega)
    | skip
  all_goals apply steps_ite_hyp
  all_goals intro hc
  all_goals first
    | (exfalso; omega)
    | (exfalso; simp only [imp_false] at *; omega)
    | skip
  all_goals try split
  all_goals first
    | (exfalso; omega)
    | (exfalso; simp only [imp_false] at *; omega)
    | skip
  all_goals
    repeat' with_reducible first
      | exact rew_emit_move_r_imm32 cfg SHR_PPC (by decide) hm _
      | exact rew_emit_move_r_r cfg SHR_PPC (by decide) hm _
      | exact rew_bts cfg hm op
      | apply rew_bind _ _ _ (rew_emit_move_r_imm32 cfg SHR_PPC (by decide) hm _)
      | apply rew_bind _ _ _ (rew_emit_move_r_r cfg SHR_PPC (by decide) hm _)
      | apply rew_bind _ _ _ (rew_get_reg cfg SHR_PPC hm)
      | apply rpw_clean_bind SHR_PPC (by decide)
      | exact rpw_E SHR_PPC (by decide) _ _
      | exact rpw_get_reg SHR_PPC (by decide) _ _ _
      | exact rpw_free_tmp SHR_PPC (by decide) _
      | exact rpw_add_cycles _ _
      | exact rcm_E _ _
      | exact rcm_get_reg _ _ _
      | exact rcm_get_reg_arg _ _ _
      | exact rcm_free_tmp _
      | exact rcm_set_test_irq
      | exact rcm_add_cycles _
      | exact rcm_emit_memhandler_read _ _
      | apply steps_pure _ (rpw_refl _)
      | apply steps_pure Rcm rcm_refl
      | apply steps_bind _ (rpw_trans _)
      | apply steps_bind Rcm rcm_trans
      | apply rew_bind_right
      | apply steps_ite
      | refine fun _ => ?_
      | dsimp only

theorem rew_op_4 (cfg : Config) (hm : cfg.reg_map_g2h SHR_PPC = -1) (mem : Nat → Nat)
    (op : Nat) (hb : op &&& 0x0f = 0x0b ∧ (GET_Fx op = 0 ∨ GET_Fx op = 2)) :
    Steps (Rew SHR_PPC) (op_4 cfg mem op) := by
  unfold op_4
  split
  all_goals first
    | (exfalso; omega)
    | (exfalso; simp only [imp_false] at *; omega)
    | skip
  split
  all_goals first
    | (exfalso; omega)
    | (exfalso; simp only [imp_false] at *; omega)
    | skip
  all_goals
    repeat' with_reducible first
      | exact rew_emit_move_r_imm32 cfg SHR_PPC (by decide) hm _
      | exact rew_emit_move_r_r cfg SHR_PPC (by decide) hm _
      | exact rew_bts cfg hm op
      | apply rew_bind _ _ _ (rew_emit_move_r_imm32 cfg SHR_PPC (by decide) hm _)
      | apply rew_bind _ _ _ (rew_emit_move_r_r cfg SHR_PPC (by decide) hm _)
      | apply rew_bind _ _ _ (rew_get_reg cfg SHR_PPC hm)
      | apply rpw_clean_bind SHR_PPC (by decide)
      | exact rpw_E SHR_PPC (by decide) _ _
      | exact rpw_get_reg SHR_PPC (by decide) _ _ _
      | exact rpw_free_tmp SHR_PPC (by decide) _
      | exact rpw_add_cycles _ _
      | exact rcm_E _ _
      | exact rcm_get_reg _ _ _
      | exact rcm_get_reg_arg _ _ _
      | exact rcm_free_tmp _
      | exact rcm_set_test_irq
      | exact rcm_add_cycles _
      | exact rcm_emit_memhandler_read _ _
      | apply steps_pure _ (rpw_refl _)
      | apply steps_pure Rcm rcm_refl
      | apply steps_bind _ (rpw_trans _)
      | apply steps_bind Rcm rcm_trans
      | apply rew_bind_right
      | apply steps_ite
      | refine fun _ => ?_
      | dsimp only

theorem rew_op_8 (cfg : Config) (hm : cfg.reg_map_g2h SHR_PPC = -1) (op : Nat)
    (hb : op &&& 0x0f00 = 0x0d00 ∨ op &&& 0x0f00 = 0x0f00) :
    Steps (Rew SHR_PPC) (op_8 cfg op) := by
  unfold op_8
  split
  all_goals first
    | (exfalso; omega)
    | (exfalso; simp only [imp_false] at *; omega)
    | skip
  all_goals exact rew_bts cfg hm op

theorem rew_op_A (cfg : Config) (hm : cfg.reg_map_g2h SHR_PPC = -1) (op : Nat) :
    Steps (Rew SHR_PPC) (op_A cfg op) := by
  unfold op_A do_bra
  skip
  all_goals
    repeat' with_reducible first
      | exact rew_emit_move_r_imm32 cfg SHR_PPC (by decide) hm _
      | exact rew_emit_move_r_r cfg SHR_PPC (by decide) hm _
      | exact rew_bts cfg hm op
      | apply rew_bind _ _ _ (rew_emit_move_r_imm32 cfg SHR_PPC (by decide) hm _)
      | apply rew_bind _ _ _ (rew_emit_move_r_r cfg SHR_PPC (by decide) hm _)
      | apply rew_bind _ _ _ (rew_get_reg cfg SHR_PPC hm)
      | apply rpw_clean_bind SHR_PPC (by decide)
      | exact rpw_E SHR_PPC (by decide) _ _
      | exact rpw_get_reg SHR_PPC (by decide) _ _ _
      | exact rpw_free_tmp SHR_PPC (by decide) _
      | exact rpw_add_cycles _ _
      | exact rcm_E _ _
      | exact rcm_get_reg _ _ _
      | exact rcm_get_reg_arg _ _ _
      | exact rcm_free_tmp _
      | exact rcm_set_test_irq
      | exact rcm_add_cycles _
      | exact rcm_emit_memhandler_read _ _
      | apply steps_pure _ (rpw_refl _)
      | apply steps_pure Rcm rcm_refl
      | apply steps_bind _ (rpw_trans _)
      | apply steps_bind Rcm rcm_trans
      | apply rew_bind_right
      | apply steps_ite
      | refine fun _ => ?_
      | dsimp only

theorem rew_op_B (cfg : Config) (hm : cfg.reg_map_g2h SHR_PPC = -1) (op : Nat) :
    Steps (Rew SHR_PPC) (op_B cfg op) := by
  unfold op_B do_bra
  skip
  all_goals
    repeat' with_reducible first
      | exact rew_emit_move_r_imm32 cfg SHR_PPC (by decide) hm _
      | exact rew_emit_move_r_r cfg SHR_PPC (by decide) hm _
      | exact rew_bts cfg hm op
      | apply rew_bind _ _ _ (rew_emit_move_r_imm32 cfg SHR_PPC (by decide) hm _)
      | apply rew_bind _ _ _ (rew_emit_move_r_r cfg SHR_PPC (by decide) hm _)
      | apply rew_bind _ _ _ (rew_get_reg cfg SHR_PPC hm)
      | apply rpw_clean_bind SHR_PPC (by decide)
      | exact rpw_E SHR_PPC (by decide) _ _
      | exact rpw_get_reg SHR_PPC (by decide) _ _ _
      | exact rpw_free_tmp SHR_PPC (by decide) _
      | exact rpw_add_cycles _ _
      | exact rcm_E _ _
      | exact rcm_get_reg _ _ _
      | exact rcm_get_reg_arg _ _ _
      | exact rcm_free_tmp _
      | exact rcm_set_test_irq
      | exact rcm_add_cycles _
      | exact rcm_emit_memhandler_read _ _
      | apply steps_pure _ (rpw_refl _)
      | apply steps_pure Rcm rcm_refl
      | apply steps_bind _ (rpw_trans _)
      | apply steps_bind Rcm rcm_trans
      | apply rew_bind_right
      | apply steps_ite
      | refine fun _ => ?_
      | dsimp only

theorem translate_op_delayed_ppc (cfg : Config) (hm : cfg.reg_map_g2h SHR_PPC = -1)
    (mem : Nat → Nat) (op : Nat) (hb : is_delayed_branch op) :
    Steps (Rew SHR_PPC) (translate_op cfg mem op) := by
  unfold is_delayed_branch at hb
  unfold translate_op
  split
  all_goals first
    | (exfalso; omega)
    | (exfalso; simp only [imp_false] at *; omega)
    | skip
  · exact steps_to_end_op _ _ (rew_op_0 cfg hm op (by omega))
  · exact steps_to_end_op _ _ (rew_op_4 cfg hm mem op (by omega))
  · exact rew_op_8 cfg hm op (by omega)
  · exact steps_to_end_op _ _ (rew_op_A cfg hm op)
  · exact steps_to_end_op _ _ (rew_op_B cfg hm op)

theorem delay_slot_seq_exit (cfg : Config) (mem : Nat → Nat) (st0 st1 : TState)
    (ex : LoopExit) (h : delay_slot_seq cfg mem st0 = some (ex, st1)) :
    (ex = .brk ∨ ex = .end_block_btf) ∧ st1.pc = (st0.pc + 4) % 4294967296 := by
  unfold delay_slot_seq at h
  rw [tm_bind_eq_some] at h
  obtain ⟨op1, s1, h1, h⟩ := h
  rw [tm_bind_eq_some] at h
  obtain ⟨x1, s2, h2, h⟩ := h
  rw [tm_bind_eq_some] at h
  obtain ⟨op2, s3, h3, h⟩ := h
  rw [tm_bind_eq_some] at h
  obtain ⟨x2, s4, h4, h⟩ := h
  rw [tm_bind_eq_some] at h
  obtain ⟨_, s5, h5, h⟩ := h
  rw [tm_bind_eq_some] at h
  obtain ⟨q, s6, h6, h⟩ := h
  simp only [fetch_op, Option.some.injEq, Prod.mk.injEq] at h1 h3
  simp only [get_test_irq, Option.some.injEq, Prod.mk.injEq] at h6
  have p1 : s1.pc = (st0.pc + 2) % 4294967296 := by rw [← h1.2]
  have p2 := (rop_translate_op cfg mem _ _ _ _ h2).1
  have p3 : s3.pc = (s2.pc + 2) % 4294967296 := by rw [← h3.2]
  have p4 := (rop_translate_op cfg mem _ _ _ _ h4).1
  have p5 := (rop_emit_move_r_r False False cfg _ _ _ _ _ h5).1
  have p6 : s6.pc = s5.pc := by rw [← h6.2]
  have hpc : s6.pc = (st0.pc + 4) % 4294967296 := by
    rw [p6, p5, p4, p3, p2, p1]
    omega
  split at h
  · have hk : Steps (Rop False False) (flush >>= fun _ =>
        E .pass_arg_r [0, (cfg.CONTEXT_REG : Int)] >>= fun _ =>
        E .call [sh2_test_irq_fn] >>= fun _ => (pure LoopExit.end_block_btf : TM _)) := by
      repeat' with_reducible first
        | apply steps_bind _ (rop_trans _ _)
        | refine fun _ => ?_
        | exact rop_E _ _ _ _
        | exact rop_flush _ _
        | apply steps_pure _ (rop_refl _ _)
    have p7 := (hk _ _ _ h).1
    refine ⟨Or.inr ?_, by rw [p7, hpc]⟩
    rw [tm_bind_eq_some] at h
    obtain ⟨_, _, _, h⟩ := h
    rw [tm_bind_eq_some] at h
    obtain ⟨_, _, _, h⟩ := h
    rw [tm_bind_eq_some] at h
    obtain ⟨_, _, _, h⟩ := h
    rw [tm_pure_eq_some] at h
    exact h.1.symm
  · rw [tm_pure_eq_some] at h
    exact ⟨Or.inl h.1.symm, by rw [← h.2, hpc]⟩

/-- C25: let the loop head see a delayed branch opcode (BRA, BSR, JMP, JSR, BRAF, BSRF,
RTS, RTE, BT/S, BF/S by the translator's decode conditions) outside a delay
slot, with `cycles < BLOCK_CYCLE_LIMIT` (so also at `BLOCK_CYCLE_LIMIT - 1`),
followed by an opcode that is no branch.  Then the loop does exactly
`delay_slot_seq`: the branch is translated, exactly one more opcode is
translated, `emit_move_r_r(SHR_PC, SHR_PPC)` is emitted and the block ends
(by `break`, or through the IRQ test call), with `pc` four bytes further.
The branch handler leaves through `end_op` with `delayed_op = 2`, keeps `pc`
and leaves a pending write of `PPC` (`PPC` cached dirty, or already stored to
its context slot); the delay-slot handler leaves through `end_op` and keeps
`delayed_op`. -/
theorem delayed_branch_spec (cfg : Config) (mem : Nat → Nat) (fuel : Nat) (st0 : TState)
    (hm : cfg.reg_map_g2h SHR_PPC = -1) (hd : st0.delayed_op = 0)
    (hcy : st0.cycles < BLOCK_CYCLE_LIMIT) (h1 : is_delayed_branch (mem st0.pc))
    (h2 : is_plain_op (mem ((st0.pc + 2) % 4294967296))) :
    translate_loop cfg mem (fuel + 2) st0 = delay_slot_seq cfg mem st0 ∧
      (∀ st ex st1, translate_op cfg mem (mem st0.pc) st = some (ex, st1) →
        ex = .end_op ∧ st1.delayed_op = 2 ∧ st1.pc = st.pc ∧ Pw SHR_PPC st1.rc) ∧
      (∀ st ex st1,
        translate_op cfg mem (mem ((st0.pc + 2) % 4294967296)) st = some (ex, st1) →
        ex = .end_op ∧ st1.delayed_op = st.delayed_op ∧ st1.pc = st.pc) ∧
      (∀ ex st1, translate_loop cfg mem (fuel + 2) st0 = some (ex, st1) →
        (ex = .brk ∨ ex = .end_block_btf) ∧ st1.pc = (st0.pc + 4) % 4294967296 ∧
          (cfg.reg_map_g2h SHR_PC = -1 → PCw st1.rc)) := by
  have hloop := delayed_branch_loop cfg mem fuel st0 hd hcy h1 h2
  refine ⟨hloop, fun st ex st1 h => ?_, fun st ex st1 h => ?_, fun ex st1 h => ?_⟩
  · obtain ⟨e1, e2⟩ := translate_op_delayed cfg mem _ h1 _ _ _ h
    exact ⟨e1, e2, (rop_translate_op cfg mem _ _ _ _ h).1,
      translate_op_delayed_ppc cfg hm mem _ h1 _ _ _ h⟩
  · obtain ⟨p, d, _⟩ := rop_translate_op cfg mem _ _ _ _ h
    refine ⟨translate_op_exit cfg mem _ h2.2.1 h2.2.2 _ _ _ h, ?_, p⟩
    rcases d with d | d
    · exact absurd d h2.1
    · exact d
  · have h' := h
    rw [hloop] at h'
    obtain ⟨e1, e2⟩ := delay_slot_seq_exit cfg mem st0 st1 ex h'
    refine ⟨e1, e2, fun hpc => ?_⟩
    obtain ⟨a, b, _⟩ := translate_loop_spec cfg hpc mem (fuel + 2) st0 st1 ex
      (by rw [hd]; exact Nat.zero_le 2) h
    rcases e1 with e | e
    · exact b e
    · exact a e

set_option maxRecDepth 100000 in
theorem delayed_branch_spec_witness :
    arm_cfg.reg_map_g2h SHR_PPC = -1 ∧ ((99 : Int) < BLOCK_CYCLE_LIMIT) ∧
      is_delayed_branch 0xa000 ∧ is_plain_op 0x0009 ∧
      translate_loop arm_cfg (fun a => if a = 0x06000018 then 0xa000 else 0x0009) (0 + 2)
          { rc := ⟨drc0.reg_temp, drc0.rcache_counter, []⟩
            pc := 0x06000018, cycles := 99, delayed_op := 0, test_irq := 0 } =
        delay_slot_seq arm_cfg (fun a => if a = 0x06000018 then 0xa000 else 0x0009)
          { rc := ⟨drc0.reg_temp, drc0.rcache_counter, []⟩
            pc := 0x06000018, cycles := 99, delayed_op := 0, test_irq := 0 } ∧
      (delay_slot_seq arm_cfg (fun a => if a = 0x06000018 then 0xa000 else 0x0009)
          { rc := ⟨drc0.reg_temp, drc0.rcache_counter, []⟩
            pc := 0x06000018, cycles := 99, delayed_op := 0, test_irq := 0 }).map
          (fun r => (r.1, r.2.pc, r.2.cycles, r.2.rc.code)) =
        some (.brk, 0x0600001c, 102,
          [⟨.move_r_imm, [3, 0x0600001c]⟩, ⟨.move_r_r, [2, 3]⟩]) :=
  ⟨by decide, by decide, by decide, by decide,
    (delayed_branch_spec arm_cfg (fun a => if a = 0x06000018 then 0xa000 else 0x0009) 0
      { rc := ⟨drc0.reg_temp, drc0.rcache_counter, []⟩
        pc := 0x06000018, cycles := 99, delayed_op := 0, test_irq := 0 }
      (by decide) rfl (by decide) (by decide) (by decide)).1, by decide!⟩

/-! ## The cycle field of SR -/

/-- A word below 4096 and a multiple of 4096 are combined by `|||` as by `+`. -/
theorem or_low12 (a k : Nat) (ha : a < 4096) : a ||| k * 4096 = k * 4096 + a := by
  have h := Nat.mul_add_lt_is_or (i := 12) (b := a) (by simpa using ha) k
  rw [Nat.lor_comm, Nat.mul_comm k 4096]
  exact h.symm

/-- The SR word built from a cycle count in the 20-bit signed range. -/
theorem sr_cycles_word (s : Nat) (c : Int) (hlo : -524288 ≤ c) (hhi : c < 524288) :
    s32 ((s &&& 0x3f3) ||| u32 (c * 4096)) / 4096 = c ∧
    ((s &&& 0x3f3) ||| u32 (c * 4096)) &&& 0xfff = s &&& 0x3f3 := by
  have ha : s &&& 0x3f3 < 4096 := lt_of_le_of_lt Nat.and_le_right (by decide)
  obtain ⟨k, hk, hk1⟩ : ∃ k : Nat, u32 (c * 4096) = k * 4096 ∧ (k : Int) = c % 1048576 := by
    refine ⟨(c % 1048576).toNat, ?_, ?_⟩
    · unfold u32
      have h1 : (c * 4096) % 4294967296 = (c % 1048576) * 4096 := by omega
      rw [h1]
      have h2 : 0 ≤ c % 1048576 := by omega
      zify
      rw [Int.toNat_of_nonneg h2, Int.toNat_of_nonneg (by omega)]
    · rw [Int.toNat_of_nonneg (by omega)]
  rw [hk, or_low12 _ _ ha]
  constructor
  · unfold s32
    have hk2 : k < 1048576 := by omega
    split <;> push_cast <;> omega
  · have h : (0xfff : Nat) = 2 ^ 12 - 1 := by decide
    rw [h, Nat.and_pow_two_sub_one_eq_mod]
    omega

/-- C33: for every state whose remaining cycle count `c` (the value `sh2_execute` computes from
`cycles_aim + cycles - cycles_done`) lies in `-2^19 ≤ c < 2^19`, `sh2_execute` enters the
dispatcher with SR equal to `s1 = (sr & 0x3f3) | (c << 12)`, and this word satisfies
`(signed) s1 >> 12 = c` and `s1 & 0xfff = sr & 0x3f3`, where `0x3f3 = T | S | I | Q | M`. -/
theorem sh2_execute_sr_roundtrip (cfg : Config) (h : Host) (tfuel fuel : Nat) (st : Drc × SH2)
    (cycles c : Int)
    (hc : c = s32 (u32 ((u32 ((st.2.cycles_aim : Int) + cycles) : Int) - st.2.cycles_done)))
    (hlo : -524288 ≤ c) (hhi : c < 524288) :
    ∃ s1 : Nat,
      s1 = (st.2.sr &&& 0x3f3) ||| u32 (c * 4096) ∧
      sh2_execute cfg h tfuel fuel st cycles =
        (sh2_drc_dispatcher cfg h tfuel fuel
          (st.1, { st.2 with cycles_aim := u32 ((st.2.cycles_aim : Int) + cycles), sr := s1 })).map
          (fun r => (r.1, { r.2 with
            cycles_done := u32 ((r.2.cycles_done : Int) + (c - s32 r.2.sr / 4096)) })) ∧
      s32 s1 / 4096 = c ∧
      s1 &&& 0xfff = st.2.sr &&& 0x3f3 ∧
      T ||| S ||| I ||| Q ||| M = 0x3f3 := by
  refine ⟨_, rfl, ?_, (sr_cycles_word _ _ hlo hhi).1, (sr_cycles_word _ _ hlo hhi).2, by decide⟩
  subst hc
  unfold sh2_execute
  dsimp only
  generalize sh2_drc_dispatcher cfg h tfuel fuel _ = r
  cases r with
  | none => rfl
  | some p => obtain ⟨d, s⟩ := p; rfl

/-- Witness for `sh2_execute_sr_roundtrip`: 100 more cycles with `cycles_aim = 100` and
`cycles_done = 102`, so that 98 cycles remain. -/
theorem sh2_execute_sr_roundtrip_witness :
    ((98 : Int) = s32 (u32 ((u32 (((100 : Nat) : Int) + 100) : Int) - (102 : Nat))) ∧
      (-524288 : Int) ≤ 98 ∧ (98 : Int) < 524288) ∧
    ∃ s1 : Nat,
      s1 = ((0 : Nat) &&& 0x3f3) ||| u32 ((98 : Int) * 4096) ∧
      sh2_execute arm_cfg host_bt 200 100
          (drc0, { pc := 0x02000000, cycles_aim := 100, cycles_done := 102 }) 100 =
        (sh2_drc_dispatcher arm_cfg host_bt 200 100
          (drc0, { pc := 0x02000000, cycles_aim := u32 (((100 : Nat) : Int) + 100),
                   cycles_done := 102, sr := s1 })).map
          (fun r => (r.1, { r.2 with
            cycles_done := u32 ((r.2.cycles_done : Int) + ((98 : Int) - s32 r.2.sr / 4096)) })) ∧
      s32 s1 / 4096 = 98 ∧
      s1 &&& 0xfff = (0 : Nat) &&& 0x3f3 ∧
      T ||| S ||| I ||| Q ||| M = 0x3f3 :=
  ⟨⟨by decide, by decide, by decide⟩,
    sh2_execute_sr_roundtrip arm_cfg host_bt 200 100
      (drc0, { pc := 0x02000000, cycles_aim := 100, cycles_done := 102 }) 100 98
      (by decide) (by decide) (by decide)⟩

/-! ## ADD #imm,Rn -/

set_option maxRecDepth 100000 in
/-- Bit 7 of an opcode is clear exactly when its low byte is below 128. -/
theorem bit7_low_byte (op : Nat) : op &&& 0x80 = 0 ↔ op % 256 < 128 := by
  have h1 : op &&& 0x80 = (op % 256) &&& 0x80 := by
    have h2 : (0x80 : Nat) = 0xff &&& 0x80 := by decide
    have h3 : op &&& 0xff = op % 256 := Nat.and_pow_two_sub_one_eq_mod op 8
    rw [← h3, Nat.and_assoc, ← h2]
  have h4 : ∀ x : Nat, x < 256 → (x &&& 0x80 = 0 ↔ x < 128) := by decide
  rw [h1]
  exact h4 _ (Nat.mod_lt _ (by decide))

/-- The immediate `-op & 0xff` of the subtract. -/
theorem neg_low_byte (op : Nat) (h : ¬ op % 256 < 128) :
    u32 (-(op : Int)) &&& 0xff = 256 - op % 256 := by
  have h3 : ∀ x : Nat, x &&& 0xff = x % 256 := fun x => Nat.and_pow_two_sub_one_eq_mod x 8
  rw [h3]
  unfold u32
  zify
  rw [Int.toNat_of_nonneg (by omega), Nat.cast_sub (by omega)]
  push_cast
  omega

/-- C40: for every opcode (in particular `0x7nii`, with `ii = op % 256`), once the register
cache has handed out the host register `tmp` of Rn, the handler of ADD #imm,Rn emits exactly
one instruction on `tmp`: an add of `ii` when `ii < 0x80`, a subtract of `(-op) & 0xff`
otherwise; that immediate equals `256 - ii`, and for every word `v` the add of `ii`
resp. the subtract of `256 - ii` gives `v + sext8(ii)` modulo 2^32. -/
theorem add_imm_spec (cfg : Config) (op : Nat) (st st1 : TState) (tmp : Int)
    (h : get_reg cfg (GET_Rn op) .RC_GR_RMW st = some (tmp, st1)) :
    (op % 256 < 128 →
      op_7 cfg op st = some ((), { st1 with
        rc := RCache.emit st1.rc ⟨.add_r_imm, [tmp, imm (op % 256)]⟩ }) ∧
      ∀ v : Nat, u32 ((v : Int) + imm (op % 256)) = u32 ((v : Int) + sext8 op)) ∧
    (¬ op % 256 < 128 →
      op_7 cfg op st = some ((), { st1 with
        rc := RCache.emit st1.rc ⟨.sub_r_imm, [tmp, imm (u32 (-(op : Int)) &&& 0xff)]⟩ }) ∧
      u32 (-(op : Int)) &&& 0xff = 256 - op % 256 ∧
      ∀ v : Nat, u32 ((v : Int) - imm (u32 (-(op : Int)) &&& 0xff)) =
        u32 ((v : Int) + sext8 op)) := by
  have h3 : op &&& 0xff = op % 256 := Nat.and_pow_two_sub_one_eq_mod op 8
  constructor
  · intro hlt
    have hb := (bit7_low_byte op).mpr hlt
    refine ⟨?_, ?_⟩
    · simp [op_7, bind, TM.bind, h, hb, E, h3]
    · intro v
      simp [sext8, hlt, imm]
  · intro hge
    have hb : op &&& 0x80 ≠ 0 := fun hz => hge ((bit7_low_byte op).mp hz)
    refine ⟨?_, neg_low_byte op hge, ?_⟩
    · simp [op_7, bind, TM.bind, h, hb, E]
    · intro v
      rw [neg_low_byte op hge]
      simp only [sext8, hge, if_false, imm]
      have e : (v : Int) - ((256 - op % 256 : Nat) : Int) =
          (v : Int) + (((op % 256 : Nat) : Int) - 256) := by omega
      rw [e]

/-- Witness for `add_imm_spec`: ADD #-1,R1 (`0x71ff`) at the start of a block. -/
theorem add_imm_spec_witness :
    ∃ tmp st1, get_reg arm_cfg (GET_Rn 0x71ff) .RC_GR_RMW tstate0 =
        some (tmp, st1) ∧
      op_7 arm_cfg 0x71ff tstate0 = some ((), { st1 with
        rc := RCache.emit st1.rc
          ⟨.sub_r_imm, [tmp, imm (u32 (-((0x71ff : Nat) : Int)) &&& 0xff)]⟩ }) ∧
      u32 (-((0x71ff : Nat) : Int)) &&& 0xff = 256 - 0x71ff % 256 ∧
      ∀ v : Nat, u32 ((v : Int) - imm (u32 (-((0x71ff : Nat) : Int)) &&& 0xff)) =
        u32 ((v : Int) + sext8 0x71ff) := by
  cases e : get_reg arm_cfg (GET_Rn 0x71ff) .RC_GR_RMW tstate0 with
  | none =>
    have : (get_reg arm_cfg (GET_Rn 0x71ff) .RC_GR_RMW tstate0).isSome
        = true := by decide
    rw [e] at this
    simp at this
  | some t =>
    exact ⟨t.1, t.2, rfl, (add_imm_spec arm_cfg 0x71ff _ t.2 t.1 e).2 (by decide)⟩

/-! ## Length of a block -/

/-- A delayed branch in the delay slot of a delayed branch sets `delayed_op` to 2 again, so on a
stream of delayed branches the loop condition `cycles < BLOCK_CYCLE_LIMIT || delayed_op` never
becomes false: no amount of fuel lets the loop return. -/
theorem translate_loop_branch_chain (cfg : Config) (mem : Nat → Nat)
    (hm : ∀ a, is_delayed_branch (mem a)) :
    ∀ (fuel : Nat) (st : TState), st.cycles < BLOCK_CYCLE_LIMIT ∨ st.delayed_op ≠ 0 →
      translate_loop cfg mem fuel st = none := by
  intro fuel
  induction fuel with
  | zero => intro st _; rfl
  | succ fuel ih =>
    intro st hc
    unfold translate_loop
    rw [if_pos hc]
    simp only [bind, TM.bind, fetch_op]
    cases ht : translate_op cfg mem (mem st.pc)
        { st with
          delayed_op := if st.delayed_op > 0 then st.delayed_op - 1 else st.delayed_op
          pc := (st.pc + 2) % 4294967296
          cycles := st.cycles + 1 } with
    | none => rfl
    | some r =>
      obtain ⟨ex, s2⟩ := r
      obtain ⟨rfl, hd2⟩ := translate_op_delayed cfg mem _ (hm st.pc) _ _ _ ht
      have h2 : s2.delayed_op ≠ 0 := by omega
      show TM.bind (end_op cfg) _ s2 = none
      unfold TM.bind
      rw [end_op_delayed cfg s2 hd2]
      exact ih s2 (Or.inr h2)

set_option maxRecDepth 1000000 in
/-- C36: the block translated at `0x06000100` over 110 chained `BRA` opcodes followed by a
NOP reads 111 opcodes and covers `end_addr - addr = 222` bytes, more than 101 opcodes and
202 bytes. -/
theorem bra_chain_block_length :
    ∃ t, sh2_translate arm_cfg mem_bra_chain 200 drc0 { pc := 0x06000100 } none = some t ∧
      (t.drc.block_tab t.this_block).addr = 0x06000100 ∧
      (t.drc.block_tab t.this_block).end_addr = 0x060001de ∧
      t.end_pc = 0x06000100 + 2 * 111 ∧
      ¬ (t.drc.block_tab t.this_block).end_addr - (t.drc.block_tab t.this_block).addr ≤ 202 := by
  cases et : sh2_translate arm_cfg mem_bra_chain 200 drc0 { pc := 0x06000100 } none with
  | none =>
    have : (sh2_translate arm_cfg mem_bra_chain 200 drc0 { pc := 0x06000100 } none).isSome
        = true := by decide!
    rw [et] at this
    simp at this
  | some t =>
    have h : (match sh2_translate arm_cfg mem_bra_chain 200 drc0 { pc := 0x06000100 } none with
        | none => false
        | some t => decide ((t.drc.block_tab t.this_block).addr = 0x06000100 ∧
            (t.drc.block_tab t.this_block).end_addr = 0x060001de ∧
            t.end_pc = 0x06000100 + 2 * 111 ∧
            ¬ (t.drc.block_tab t.this_block).end_addr -
              (t.drc.block_tab t.this_block).addr ≤ 202)) = true := by decide!
    rw [et] at h
    exact ⟨t, rfl, of_decide_eq_true h⟩

/-! ## Bitmap accesses of `sh2_smc_rm_block` -/

set_option maxRecDepth 1000000 in
/-- C37: `sh2_smc_rm_block` entered at slot 0 reads the word before the bitmap, index `-1`
(the overlay check tests the pointer `p` against 0, not against the start of the bitmap):
whenever that word is non-zero and the descriptor it decodes to covers the address, the
function kills that descriptor and zeroes the word at index `-1`.  Its zeroing loop, once it
has written the last slot `L - 1`, reads the word at index `L` and zeroes it too when it holds
the id.  On the state with DRAM blocks whose heads are slot 0 and slot `L - 1`, a write to
`0x0603fffe` makes `sh2_drc_wcheck_ram` zero the word behind the bitmap, which held 6; and a
call at slot 0 kills descriptor 2 or leaves it according to the word before the bitmap. -/
theorem smc_rm_block_reads_outside :
    (∀ (bm : Nat → Nat), smc_overlay_index bm 0 = -1) ∧
    (∀ (btab fuel : Nat) (m : Int → Nat) (bt : Nat → block_desc) (a : Nat)
        (m1 : Int → Nat) (bt1 : Nat → block_desc),
      m (-1) ≠ 0 → m (-1) >>> 1 ≠ m 0 >>> 1 →
      (bt (btab + (m (-1) >>> 1))).addr ≤ a → a < (bt (btab + (m (-1) >>> 1))).end_addr →
      sh2_smc_rm_block btab fuel (m, bt) 0 a = some (m1, bt1) →
      m1 (-1) = 0 ∧ (bt1 (btab + (m (-1) >>> 1))).addr = 0 ∧
        (bt1 (btab + (m (-1) >>> 1))).end_addr = 0) ∧
    (∀ (len id fuel : Nat) (m m1 : Int → Nat),
      smc_zero_fwd id fuel m ((len : Int) - 1) = some m1 → m (len : Int) >>> 1 = id →
      m1 ((len : Int) - 1) = 0 ∧ m1 (len : Int) = 0) ∧
    smc_edge_run = some ((3, 7, 5), (7, 6, 0), (0, 0, 0)) ∧
    smc_before_run 4 = some ((0, 0), (0, 0)) ∧
    smc_before_run 0 = some ((0, 0), (0, 0x06000000)) := by
  refine ⟨?_, ?_, ?_, by decide!, by decide!, by decide!⟩
  · intro bm
    simp [smc_overlay_index, smc_walk_back]
  · intro btab fuel m bt a m1 bt1 hnz hne hlo hhi h
    cases fuel with
    | zero => simp [sh2_smc_rm_block] at h
    | succ fuel =>
      rw [sh2_smc_rm_block_succ] at h
      have hp : ¬ (0 : Int) < 0 := by omega
      generalize hp1 : (if (0 : Int) < 0 then
          ((smc_walk_back (fun n : Nat => m n) (m 0 >>> 1) (0 : Int).toNat : Nat) : Int)
          else 0) = p1 at h
      rw [if_neg hp] at hp1
      subst hp1
      have e1 : ((0 : Int) - 1) = -1 := by omega
      rw [e1] at h
      have hidx : btab + (m (-1) >>> 1) ≠ btab + (m 0 >>> 1) := by omega
      rw [Function.update_noteq hidx, if_pos hnz, if_pos ⟨hlo, hhi⟩] at h
      split at h
      · simp at h
      · rename_i m2 bt2 hrec
        simp only [Option.map_eq_some', Prod.mk.injEq] at h
        obtain ⟨m3, hfwd, rfl, rfl⟩ := h
        obtain ⟨_, _, h3, h4, h5⟩ := sh2_smc_rm_block_frame _ _ _ _ _ _ _ _ hrec
        refine ⟨?_, h3, h4⟩
        rcases (smc_zero_fwd_frame _ _ _ _ _ hfwd).2 (-1) with e | e
        · rw [e]
          exact h5 (by omega)
        · exact e
  · intro len id fuel m m1 h hn
    refine ⟨(smc_zero_fwd_frame _ _ _ _ _ h).1, ?_⟩
    have e : (len : Int) = (len : Int) - 1 + 1 := by omega
    rw [e] at hn ⊢
    exact smc_zero_fwd_next id fuel m m1 _ h hn

/-! ## The descriptor behind a lookup hit -/

theorem dr_find_block_loop_addr (bt : Nat → block_desc) (addr : Nat) :
    ∀ (fuel : Nat) (tab : Option Nat) (block : Nat),
      dr_find_block_loop bt addr fuel tab = some block → block ≠ 0 →
      ∃ i, (bt i).addr = addr ∧ (bt i).tcache_ptr = block := by
  intro fuel
  induction fuel with
  | zero => intro tab block h; simp [dr_find_block_loop] at h
  | succ fuel ih =>
    intro tab block h hb
    cases tab with
    | none =>
      simp only [dr_find_block_loop, Option.some.injEq] at h
      exact absurd h.symm hb
    | some t =>
      simp only [dr_find_block_loop] at h
      split at h
      · rename_i ha
        exact ⟨t, ha, Option.some.inj h⟩
      · exact ih _ _ h hb

/-- On the ROM path the lookup compares `addr` with the pc: a block it returns belongs to a
descriptor whose `addr` is the pc. -/
theorem dispatcher_lookup_rom_addr (cfg : Config) (d : Drc) (sh2 : SH2) (block : Nat)
    (bd : Option Nat)
    (h1 : ¬((sh2.pc &&& 0xff000000) = 0xc0000000 ∨ (sh2.pc &&& 0xfffff000) = 0))
    (h2 : ¬(sh2.pc &&& 0xc6000000) = 0x06000000)
    (h : dispatcher_lookup cfg d sh2 = some (block, bd)) (hb : block ≠ 0) :
    ∃ i, (d.block_tab i).addr = sh2.pc ∧ (d.block_tab i).tcache_ptr = block := by
  unfold dispatcher_lookup at h
  rw [if_neg h1, if_neg h2] at h
  split at h
  · split at h
    · simp only [Option.some.injEq, Prod.mk.injEq] at h
      exact absurd h.1.symm hb
    · rename_i b hh
      split at h
      · rename_i ha
        simp only [Option.some.injEq, Prod.mk.injEq] at h
        exact ⟨b, ha, h.1⟩
      · unfold dr_find_block at h
        cases hf : dr_find_block_loop d.block_tab sh2.pc (BLOCK_TABLE_LEN + 1)
            (d.block_tab b).next with
        | none => simp [hf] at h
        | some bl =>
          simp only [hf, Option.map_some', Option.some.injEq, Prod.mk.injEq] at h
          obtain ⟨rfl, _⟩ := h
          exact dr_find_block_loop_addr _ _ _ _ _ hf hb
  · simp only [Option.some.injEq, Prod.mk.injEq] at h
    exact absurd h.1.symm hb

set_option maxRecDepth 1000000 in
/-- C34: two states the dispatcher reaches in which the lookup at `0x06000010` returns a block
through the DRAM bitmap although the `addr` of its descriptor is not `0x06000010`: after the
block at the cache-through alias `0x26000010` was translated (descriptor 0, `addr`
`0x26000010`), and after the write to `0x06000018` of `smc_overlay_run` (descriptor 1,
killed, `addr = end_addr = 0`). -/
theorem dispatcher_lookup_addr_differs :
    lookup_alias_run = some (0x1000000, some 0, 0x26000010) ∧
    lookup_stale_run = some (0x1000020, some 1, 0, 0) := by
  constructor <;> decide!

/-! ## Lookup after translation -/

/-- A pc outside the three address classes of the dispatcher misses in every state. -/
theorem dispatcher_lookup_unclassified (cfg : Config) (d : Drc) (sh2 : SH2)
    (h1 : ¬((sh2.pc &&& 0xff000000) = 0xc0000000 ∨ (sh2.pc &&& 0xfffff000) = 0))
    (h2 : ¬(sh2.pc &&& 0xc6000000) = 0x06000000)
    (h3 : ¬(sh2.pc &&& 0xc6000000) = 0x02000000) :
    dispatcher_lookup cfg d sh2 = some (0, none) := by
  unfold dispatcher_lookup
  rw [if_neg h1, if_neg h2, if_neg h3]

set_option maxRecDepth 1000000 in
/-- C35: `pc = 0xc1000000` passes the PC validation (`pc >> 29 = 6`) and the translator takes
it for a data-array address (mask `0xe0000000`): the block goes to cache 1 and its head is
marked in slot 0 of the master's data-array bitmap.  The dispatcher's test for the data array
uses the mask `0xff000000`, so the lookup at the same pc on the same CPU misses in that state
(as in every state) and the next dispatch translates the pc a second time: the block count of
cache 1 goes from 1 to 2 and a new entry is returned. -/
theorem translated_block_not_found :
    ¬((0xc1000000 >>> 29 ≠ 0 ∧ 0xc1000000 >>> 29 ≠ 1 ∧ 0xc1000000 >>> 29 ≠ 6) ∨
        0xc1000000 = 0) ∧
    is_da_bios 0xc1000000 = true ∧
    (∀ (cfg : Config) (d : Drc) (sh2 : SH2), sh2.pc = 0xc1000000 →
      dispatcher_lookup cfg d sh2 = some (0, none)) ∧
    lookup_da_mirror_run = some ((0x1180000, 1, 1), (0, none), (0x1180010, 2)) := by
  refine ⟨by decide, by decide, ?_, by decide!⟩
  intro cfg d sh2 h
  apply dispatcher_lookup_unclassified <;> rw [h] <;> decide

/-! ## Stamps of the register cache -/

theorem getElem?_set_self_of_some (rt : List temp_reg_t) (i : Nat) (t t1 : temp_reg_t)
    (hi : rt[i]? = some t) : (rt.set i t1)[i]? = some t1 := by
  have hlt : i < rt.length := by
    by_contra h
    rw [List.getElem?_eq_none (by omega)] at hi
    simp at hi
  rw [List.getElem?_set]
  simp [hlt]

/-- Stamping slot `i` with a value above every stamp in use. -/
theorem stamp_set (rt : List temp_reg_t) (c i : Nat) (t t1 : temp_reg_t)
    (hb : ∀ (j : Nat) (u : temp_reg_t), rt[j]? = some u → is_cached u = true → u.stamp ≤ c)
    (hd : stamps_distinct rt)
    (hty : ∀ (j : Nat) (u : temp_reg_t), rt[j]? = some u →
      is_cached u = true ∨ u.type = .HR_FREE)
    (hi : rt[i]? = some t) (hc1 : is_cached t1 = true) (hs1 : t1.stamp = c + 1) :
    (∀ (j : Nat) (u : temp_reg_t), (rt.set i t1)[j]? = some u → is_cached u = true →
      u.stamp ≤ c + 1) ∧
    stamps_distinct (rt.set i t1) ∧
    (∀ (j : Nat) (u : temp_reg_t), (rt.set i t1)[j]? = some u →
      is_cached u = true ∨ u.type = .HR_FREE) ∧
    newest_at (rt.set i t1) i := by
  refine ⟨?_, ?_, ?_, ?_⟩
  · intro j u hj hu
    rcases getElem?_set_cases rt i j t1 u hj with ⟨_, rfl⟩ | ⟨_, hj2⟩
    · omega
    · have := hb j u hj2 hu
      omega
  · intro a b ta tb ha hbb hca hcb hab
    rcases getElem?_set_cases rt i a t1 ta ha with ⟨ea, rfl⟩ | ⟨na, ha2⟩
    · rcases getElem?_set_cases rt i b ta tb hbb with ⟨eb, _⟩ | ⟨_, hb2⟩
      · exact absurd (ea.trans eb.symm) hab
      · have := hb b tb hb2 hcb
        omega
    · rcases getElem?_set_cases rt i b t1 tb hbb with ⟨_, rfl⟩ | ⟨_, hb2⟩
      · have := hb a ta ha2 hca
        omega
      · exact hd a b ta tb ha2 hb2 hca hcb hab
  · intro j u hj
    rcases getElem?_set_cases rt i j t1 u hj with ⟨_, rfl⟩ | ⟨_, hj2⟩
    · exact Or.inl hc1
    · exact hty j u hj2
  · refine ⟨t1, getElem?_set_self_of_some rt i t t1 hi, hc1, ?_⟩
    intro j u hj hju hu
    rcases getElem?_set_cases rt i j t1 u hju with ⟨e, _⟩ | ⟨_, hj2⟩
    · exact absurd e hj
    · have := hb j u hj2 hu
      omega

theorem stamp_inv_invalidate (s : RCache) : StampInv 0 (rcache_invalidate s) := by
  have hfree : ∀ (i : Nat) (t : temp_reg_t), (rcache_invalidate s).reg_temp[i]? = some t →
      t.type = .HR_FREE := by
    intro i t h
    simp only [rcache_invalidate, List.getElem?_map, Option.map_eq_some'] at h
    obtain ⟨u, _, rfl⟩ := h
    rfl
  refine ⟨Nat.le_refl 0, ?_, ?_, ?_⟩
  · intro i t h hc
    have := hfree i t h
    simp [is_cached, this] at hc
  · intro i j t u hi _ hc
    have := hfree i t hi
    simp [is_cached, this] at hc
  · intro i t h
    exact Or.inr (hfree i t h)

/-- A call of `rcache_get_reg` for a register that is not statically mapped stamps the slot it
returns with the incremented counter. -/
theorem stamp_inv_get_reg (cfg : Config) (n : Nat) (s s1 : RCache) (r : Nat) (mode : rc_gr_mode)
    (hr : Int) (hinv : StampInv n s) (hn : n + 1 < 65536) (hun : cfg.reg_map_g2h r = -1)
    (h : rcache_get_reg cfg s r mode = some (hr, s1)) :
    StampInv (n + 1) s1 ∧
      ∃ i t, s1.reg_temp[i]? = some t ∧ hr = t.reg ∧ t.stamp = s1.rcache_counter ∧
        newest_at s1.reg_temp i := by
  obtain ⟨hcn, hb, hd, hty⟩ := hinv
  have hmod : (s.rcache_counter + 1) % 65536 = s.rcache_counter + 1 :=
    Nat.mod_eq_of_lt (by omega)
  rcases rcache_get_reg_shape cfg s s1 r mode hr h with ⟨hst, _⟩ | ⟨_, hctr, i, t, ht, hhr, hupd⟩
  · exact absurd hun hst
  · rw [hmod] at hctr
    rcases hupd with ⟨hc, _, e⟩ | ⟨_, _, e⟩
    · rw [hmod] at e
      have hc1 : is_cached (⟨t.reg, if mode ≠ .RC_GR_READ then .HR_CACHED_DIRTY else t.type,
          s.rcache_counter + 1, t.val⟩ : temp_reg_t) = true := by
        by_cases hm : mode = .RC_GR_READ
        · simpa [is_cached, hm] using hc
        · simp [is_cached, hm]
      obtain ⟨h1, h2, h3, h4⟩ := stamp_set s.reg_temp s.rcache_counter i t
        ⟨t.reg, if mode ≠ .RC_GR_READ then .HR_CACHED_DIRTY else t.type,
          s.rcache_counter + 1, t.val⟩ hb hd hty ht hc1 rfl
      have key := getElem?_set_self_of_some s.reg_temp i t
        ⟨t.reg, if mode ≠ .RC_GR_READ then .HR_CACHED_DIRTY else t.type,
          s.rcache_counter + 1, t.val⟩ ht
      have e2 : s1.reg_temp = s.reg_temp.set i
          ⟨t.reg, if mode ≠ .RC_GR_READ then .HR_CACHED_DIRTY else t.type,
            s.rcache_counter + 1, t.val⟩ := e
      rw [← e2] at h1 h2 h3 h4 key
      exact ⟨⟨by omega, by rw [hctr]; exact h1, h2, h3⟩, i, _, key, hhr, hctr.symm, h4⟩
    · rw [hmod] at e
      have hc1 : is_cached (⟨t.reg, if mode ≠ .RC_GR_READ then .HR_CACHED_DIRTY else .HR_CACHED,
          s.rcache_counter + 1, r⟩ : temp_reg_t) = true := by
        by_cases hm : mode = .RC_GR_READ <;> simp [is_cached, hm]
      obtain ⟨h1, h2, h3, h4⟩ := stamp_set s.reg_temp s.rcache_counter i t
        ⟨t.reg, if mode ≠ .RC_GR_READ then .HR_CACHED_DIRTY else .HR_CACHED,
          s.rcache_counter + 1, r⟩ hb hd hty ht hc1 rfl
      have key := getElem?_set_self_of_some s.reg_temp i t
        ⟨t.reg, if mode ≠ .RC_GR_READ then .HR_CACHED_DIRTY else .HR_CACHED,
          s.rcache_counter + 1, r⟩ ht
      rw [← e] at h1 h2 h3 h4 key
      exact ⟨⟨by omega, by rw [hctr]; exact h1, h2, h3⟩, i, _, key, hhr, hctr.symm, h4⟩

theorem rcache_get_reg_arg_touch (cfg : Config) (s s1 : RCache) (arg r : Nat) (hr : Int)
    (h : rcache_get_reg_arg cfg s arg r = some (hr, s1)) :
    ∃ id t, s.reg_temp[id]? = some t ∧ hr = t.reg ∧
      s1.rcache_counter = (s.rcache_counter + 1) % 65536 ∧
      s1.reg_temp = s.reg_temp.set id ⟨t.reg, .HR_CACHED, (s.rcache_counter + 1) % 65536, r⟩ := by
  obtain ⟨id, t, ht, e⟩ := rcache_get_reg_arg_shape cfg s s1 arg r hr h
  unfold rcache_get_reg_arg at h
  split at h
  · simp at h
  · rename_i id2 s2 hid
    obtain ⟨hrt, hctr⟩ := rcache_get_arg_id_shape cfg s s2 arg id2 hid
    split at h
    · simp at h
    · rename_i t2 ht2
      simp only [Option.some.injEq, Prod.mk.injEq] at h
      obtain ⟨hhr, rfl⟩ := h
      rw [hrt] at ht2
      refine ⟨id2, t2, ht2, hhr.symm, ?_, ?_⟩
      · by_cases hst : cfg.reg_map_g2h r = -1
        · simp only [hst, ne_eq, not_true_eq_false, if_false]
          obtain ⟨x, hx⟩ : ∃ x, scan_down (fun u => is_cached u && u.val == r) s2.reg_temp
              s2.reg_temp.length = x := ⟨_, rfl⟩
          simp only [hx]
          cases x with
          | none => simp [RCache.emit, hctr]
          | some j =>
            obtain ⟨y, hy⟩ : ∃ y, s2.reg_temp[j]? = y := ⟨_, rfl⟩
            simp only [hy]
            cases y with
            | none => simp [RCache.emit, hctr]
            | some u =>
              by_cases hne : (u.reg : Int) = (t2.reg : Int) <;> simp [hne, RCache.emit, hctr]
        · simp only [hst, ne_eq, not_false_eq_true, if_true]
          by_cases hne : cfg.reg_map_g2h r = (t2.reg : Int) <;> simp [hne, RCache.emit, hctr]
      · by_cases hst : cfg.reg_map_g2h r = -1
        · simp only [hst, ne_eq, not_true_eq_false, if_false]
          obtain ⟨x, hx⟩ : ∃ x, scan_down (fun u => is_cached u && u.val == r) s2.reg_temp
              s2.reg_temp.length = x := ⟨_, rfl⟩
          simp only [hx]
          cases x with
          | none => simp [RCache.emit, hrt, hctr]
          | some j =>
            obtain ⟨y, hy⟩ : ∃ y, s2.reg_temp[j]? = y := ⟨_, rfl⟩
            simp only [hy]
            cases y with
            | none => simp [RCache.emit, hrt, hctr]
            | some u =>
              by_cases hne : (u.reg : Int) = (t2.reg : Int) <;>
                simp [hne, RCache.emit, hrt, hctr]
        · simp only [hst, ne_eq, not_false_eq_true, if_true]
          by_cases hne : cfg.reg_map_g2h r = (t2.reg : Int) <;>
            simp [hne, RCache.emit, hrt, hctr]

/-- A call of `rcache_get_reg_arg` stamps the argument slot with the incremented counter. -/
theorem stamp_inv_get_reg_arg (cfg : Config) (n : Nat) (s s1 : RCache) (arg r : Nat)
    (hr : Int) (hinv : StampInv n s) (hn : n + 1 < 65536)
    (h : rcache_get_reg_arg cfg s arg r = some (hr, s1)) :
    StampInv (n + 1) s1 ∧
      ∃ i t, s1.reg_temp[i]? = some t ∧ hr = t.reg ∧ t.stamp = s1.rcache_counter ∧
        newest_at s1.reg_temp i := by
  obtain ⟨hcn, hb, hd, hty⟩ := hinv
  have hmod : (s.rcache_counter + 1) % 65536 = s.rcache_counter + 1 :=
    Nat.mod_eq_of_lt (by omega)
  obtain ⟨i, t, ht, hhr, hctr, e⟩ := rcache_get_reg_arg_touch cfg s s1 arg r hr h
  rw [hmod] at hctr e
  obtain ⟨h1, h2, h3, h4⟩ := stamp_set s.reg_temp s.rcache_counter i t
    ⟨t.reg, .HR_CACHED, s.rcache_counter + 1, r⟩ hb hd hty ht (by simp [is_cached]) rfl
  have key := getElem?_set_self_of_some s.reg_temp i t
    ⟨t.reg, .HR_CACHED, s.rcache_counter + 1, r⟩ ht
  rw [← e] at h1 h2 h3 h4 key
  exact ⟨⟨by omega, by rw [hctr]; exact h1, h2, h3⟩, i, _, key, hhr, hctr.symm, h4⟩

theorem stamp_inv_mono (n m : Nat) (s : RCache) (h : StampInv n s) (hnm : n ≤ m) :
    StampInv m s :=
  ⟨Nat.le_trans h.1 hnm, h.2⟩

theorem stamp_inv_step (cfg : Config) (n : Nat) (s s1 : RCache) (op : RcOp)
    (hinv : StampInv n s) (hn : n + 1 < 65536) (hop : is_get_call op = true)
    (h : rc_step cfg s op = some s1) : StampInv (n + 1) s1 := by
  cases op with
  | get_reg r mode =>
    simp only [rc_step, Option.map_eq_some'] at h
    obtain ⟨⟨hr, s2⟩, hget, rfl⟩ := h
    by_cases hun : cfg.reg_map_g2h r = -1
    · exact (stamp_inv_get_reg cfg n s s2 r mode hr hinv hn hun hget).1
    · rcases rcache_get_reg_shape cfg s s2 r mode hr hget with ⟨_, e, _⟩ | ⟨hst, _⟩
      · simp only
        rw [e]
        exact stamp_inv_mono n (n + 1) s hinv (Nat.le_succ n)
      · exact absurd hst hun
  | get_reg_arg arg r =>
    simp only [rc_step, Option.map_eq_some'] at h
    obtain ⟨⟨hr, s2⟩, hget, rfl⟩ := h
    exact (stamp_inv_get_reg_arg cfg n s s2 arg r hr hinv hn hget).1
  | get_tmp => simp [is_get_call] at hop
  | get_tmp_arg arg => simp [is_get_call] at hop
  | free_tmp hr => simp [is_get_call] at hop
  | clean => simp [is_get_call] at hop
  | invalidate => simp [is_get_call] at hop

theorem stamp_inv_run (cfg : Config) :
    ∀ (ops : List RcOp) (n : Nat) (s s1 : RCache), StampInv n s →
      ops.all is_get_call = true → n + ops.length < 65536 → rc_run cfg s ops = some s1 →
      StampInv (n + ops.length) s1 := by
  intro ops
  induction ops with
  | nil =>
    intro n s s1 h _ _ hr
    simp only [rc_run, Option.some.injEq] at hr
    rw [← hr]; exact h
  | cons op ops ih =>
    intro n s s1 h hops hlen hr
    simp only [List.all_cons, Bool.and_eq_true] at hops
    simp only [List.length_cons] at hlen
    unfold rc_run at hr
    cases hstep : rc_step cfg s op with
    | none => rw [hstep] at hr; simp at hr
    | some s2 =>
      rw [hstep] at hr
      have h2 := stamp_inv_step cfg n s s2 op h (by omega) hops.1 hstep
      have h3 := ih (n + 1) s2 s1 h2 hops.2 (by omega) hr
      simp only [List.length_cons]
      have e : n + (ops.length + 1) = n + 1 + ops.length := by omega
      rw [e]; exact h3

/-- With distinct stamps the slot `rcache_evict` picks is the one cached slot whose stamp is
below all others. -/
theorem rcache_evict_oldest_at (s s1 : RCache) (k : Nat) (hd : stamps_distinct s.reg_temp)
    (h : rcache_evict s = some (k, s1)) : oldest_at s.reg_temp k := by
  rcases evict_scan_spec s.reg_temp 0 (none, 65535) with
    ⟨heq, _⟩ | ⟨k2, t, hk, hc, heq, _, hmin, _⟩
  · unfold rcache_evict at h
    rw [heq] at h
    simp at h
  · have hk2 : k = k2 := by
      unfold rcache_evict at h
      rw [heq] at h
      simp only [Nat.zero_add, hk] at h
      split at h <;> simp only [Option.some.injEq, Prod.mk.injEq] at h <;> exact h.1.symm
    subst hk2
    refine ⟨t, hk, hc, ?_⟩
    intro j u hj hju hu
    have h1 := hmin j u hju hu
    have h2 := hd k j t u hk hju hc hu (fun e => hj e.symm)
    omega

/-- When every slot is cached and there are at least two, the newest slot is not the oldest. -/
theorem newest_not_oldest (rt : List temp_reg_t) (i k : Nat) (hlen : 2 ≤ rt.length)
    (hty : ∀ (j : Nat) (u : temp_reg_t), rt[j]? = some u →
      is_cached u = true ∨ u.type = .HR_FREE)
    (hnf : ∀ (j : Nat) (u : temp_reg_t), rt[j]? = some u → is_free u = false)
    (hn : newest_at rt i) (ho : oldest_at rt k) : k ≠ i := by
  intro e
  subst e
  obtain ⟨t, ht, _, hnew⟩ := hn
  obtain ⟨t2, ht2, _, hold⟩ := ho
  rw [ht] at ht2
  obtain rfl := Option.some.inj ht2
  obtain ⟨j, hj, hjl⟩ : ∃ j, j ≠ k ∧ j < rt.length := by
    by_cases h0 : k = 0
    · exact ⟨1, by omega, by omega⟩
    · exact ⟨0, fun e => h0 e.symm, by omega⟩
  obtain ⟨u, hu⟩ : ∃ u, rt[j]? = some u := ⟨rt.get ⟨j, hjl⟩, by simp [List.getElem?_eq_getElem hjl]⟩
  have hcu : is_cached u = true := by
    rcases hty j u hu with hc | hf
    · exact hc
    · have := hnf j u hu
      unfold is_free at this
      rw [hf] at this
      exact absurd this (by decide)
  have h1 := hnew j u hj hu hcu
  have h2 := hold j u hj hu hcu
  omega

/-- C39: let `sa` be a register-cache state reached from `rcache_invalidate` by a sequence
`ops` of fewer than 65536 calls of `rcache_get_reg` / `rcache_get_reg_arg`.  Then in `sa` any
two distinct cached slots have distinct stamps, and whenever `rcache_evict` returns slot `k`,
`k` is the one cached slot whose stamp is smaller than that of every other cached slot.  Let
`s1` be the state after one more such call that stamps a slot (an `rcache_get_reg` of a
register that is not statically mapped, or an `rcache_get_reg_arg`) and returns host register
`hr`, still fewer than 65536 calls in all.  Then the same holds in `s1`, the slot of `hr` has
a stamp larger than every other cached slot, and when `rcache_evict` runs in `s1` as it is
called (no free slot left) on a pool of at least two slots, it does not return the slot of
`hr`. -/
theorem rcache_stamps_distinct (cfg : Config) (s0 sa : RCache) (ops : List RcOp)
    (hops : ops.all is_get_call = true) (hlen : ops.length < 65536)
    (hrun : rc_run cfg (rcache_invalidate s0) ops = some sa) :
    stamps_distinct sa.reg_temp ∧
    (∀ k s2, rcache_evict sa = some (k, s2) → oldest_at sa.reg_temp k) ∧
    (∀ (hr : Int) (s1 : RCache), ops.length + 1 < 65536 →
      ((∃ r mode, cfg.reg_map_g2h r = -1 ∧
          rcache_get_reg cfg sa r mode = some (hr, s1)) ∨
        (∃ arg r, rcache_get_reg_arg cfg sa arg r = some (hr, s1))) →
      stamps_distinct s1.reg_temp ∧
      ∃ i t, s1.reg_temp[i]? = some t ∧ hr = t.reg ∧ newest_at s1.reg_temp i ∧
        ∀ k s2, rcache_evict s1 = some (k, s2) →
          oldest_at s1.reg_temp k ∧
          (2 ≤ s1.reg_temp.length →
            (∀ (j : Nat) (u : temp_reg_t), s1.reg_temp[j]? = some u → is_free u = false) →
            k ≠ i)) := by
  have ha := stamp_inv_run cfg ops 0 (rcache_invalidate s0) sa (stamp_inv_invalidate s0) hops
    (by omega) hrun
  rw [Nat.zero_add] at ha
  refine ⟨ha.2.2.1, fun k s2 he => rcache_evict_oldest_at sa s2 k ha.2.2.1 he, ?_⟩
  intro hr s1 hlen1 hlast
  have h1 : StampInv (ops.length + 1) s1 ∧
      ∃ i t, s1.reg_temp[i]? = some t ∧ hr = t.reg ∧ t.stamp = s1.rcache_counter ∧
        newest_at s1.reg_temp i := by
    rcases hlast with ⟨r, mode, hun, hg⟩ | ⟨arg, r, hg⟩
    · exact stamp_inv_get_reg cfg _ sa s1 r mode hr ha hlen1 hun hg
    · exact stamp_inv_get_reg_arg cfg _ sa s1 arg r hr ha hlen1 hg
  obtain ⟨hinv1, i, t, hi, hhr, _, hnew⟩ := h1
  refine ⟨hinv1.2.2.1, i, t, hi, hhr, hnew, ?_⟩
  intro k s2 he
  have ho := rcache_evict_oldest_at s1 s2 k hinv1.2.2.1 he
  exact ⟨ho, fun hl hnf => newest_not_oldest s1.reg_temp i k hl hinv1.2.2.2 hnf hnew ho⟩

/-- Witness for `rcache_stamps_distinct`: on the ARM pool, `rcache_get_reg(R5, READ)`,
`rcache_get_reg_arg(0, R6)` and then `rcache_get_reg(R7, RMW)`, which returns host r2. -/
theorem rcache_stamps_distinct_witness :
    ∃ sa s1 : RCache,
      rc_run arm_cfg (rcache_invalidate ⟨reg_temp_arm, 0, []⟩)
        [.get_reg 5 .RC_GR_READ, .get_reg_arg 0 6] = some sa ∧
      rcache_get_reg arm_cfg sa 7 .RC_GR_RMW = some (2, s1) ∧
      stamps_distinct sa.reg_temp ∧ stamps_distinct s1.reg_temp ∧
      (∃ i t, s1.reg_temp[i]? = some t ∧ (2 : Int) = t.reg ∧ newest_at s1.reg_temp i ∧
        ∀ k s2, rcache_evict s1 = some (k, s2) →
          oldest_at s1.reg_temp k ∧
          (2 ≤ s1.reg_temp.length →
            (∀ (j : Nat) (u : temp_reg_t), s1.reg_temp[j]? = some u → is_free u = false) →
            k ≠ i)) := by
  have h1 : rc_run arm_cfg (rcache_invalidate ⟨reg_temp_arm, 0, []⟩)
      [.get_reg 5 .RC_GR_READ, .get_reg_arg 0 6] =
      some ⟨[⟨0, .HR_CACHED, 2, 6⟩, ⟨1, .HR_FREE, 0, 0⟩, ⟨12, .HR_FREE, 0, 0⟩,
        ⟨14, .HR_FREE, 0, 0⟩, ⟨2, .HR_FREE, 0, 0⟩, ⟨3, .HR_CACHED, 1, 5⟩], 2,
        [⟨.ctx_read, [3, 20]⟩, ⟨.ctx_read, [0, 24]⟩]⟩ := by decide
  have h2 : rcache_get_reg arm_cfg
      ⟨[⟨0, .HR_CACHED, 2, 6⟩, ⟨1, .HR_FREE, 0, 0⟩, ⟨12, .HR_FREE, 0, 0⟩,
        ⟨14, .HR_FREE, 0, 0⟩, ⟨2, .HR_FREE, 0, 0⟩, ⟨3, .HR_CACHED, 1, 5⟩], 2,
        [⟨.ctx_read, [3, 20]⟩, ⟨.ctx_read, [0, 24]⟩]⟩ 7 .RC_GR_RMW =
      some (2, ⟨[⟨0, .HR_CACHED, 2, 6⟩, ⟨1, .HR_FREE, 0, 0⟩, ⟨12, .HR_FREE, 0, 0⟩,
        ⟨14, .HR_FREE, 0, 0⟩, ⟨2, .HR_CACHED_DIRTY, 3, 7⟩, ⟨3, .HR_CACHED, 1, 5⟩], 3,
        [⟨.ctx_read, [3, 20]⟩, ⟨.ctx_read, [0, 24]⟩, ⟨.ctx_read, [2, 28]⟩]⟩) := by decide
  have h3 := rcache_stamps_distinct arm_cfg ⟨reg_temp_arm, 0, []⟩ _
    [.get_reg 5 .RC_GR_READ, .get_reg_arg 0 6] (by decide) (by decide) h1
  have h4 := h3.2.2 2 _ (by decide) (Or.inl ⟨7, .RC_GR_RMW, by decide, h2⟩)
  exact ⟨_, _, h1, h2, h3.1, h4.1, h4.2⟩

/-! ## Block counts and bitmap ids in reachable states -/

theorem inv_flush (d : Drc) (r : Nat) (h : DrcInv d) : DrcInv (flush_tcache d r) := by
  obtain ⟨h1, h2, h3⟩ := h
  have hc : ∀ k, (flush_tcache d r).block_counts k = if k = r then 0 else d.block_counts k := by
    intro k
    unfold flush_tcache
    split <;> simp [Function.update]
  refine ⟨?_, ?_, ?_⟩
  · intro k
    rw [hc]
    split
    · exact Nat.zero_le _
    · exact h1 k
  · intro i hi
    by_cases hr : r = 0
    · subst hr
      simp [flush_tcache] at hi
    · have e : (flush_tcache d r).drcblk_ram = d.drcblk_ram := by simp [flush_tcache, hr]
      rw [e] at hi ⊢
      rw [hc, if_neg (fun e0 => hr e0.symm)]
      exact h2 i hi
  · intro cpu i hi
    by_cases hr : r = 0
    · subst hr
      have e : (flush_tcache d 0).drcblk_da = d.drcblk_da := by simp [flush_tcache]
      rw [e] at hi ⊢
      rw [hc, if_neg (by omega)]
      exact h3 cpu i hi
    · by_cases hcpu : cpu = r - 1
      · subst hcpu
        simp [flush_tcache, hr] at hi
      · have e : (flush_tcache d r).drcblk_da cpu = d.drcblk_da cpu := by
          simp [flush_tcache, hr, Function.update, hcpu]
        rw [e] at hi ⊢
        rw [hc, if_neg (by omega)]
        exact h3 cpu i hi

theorem dr_add_block_counts (d : Drc) (ptr pc r : Nat) :
    (dr_add_block d ptr pc r).2.drcblk_ram = d.drcblk_ram ∧
    (dr_add_block d ptr pc r).2.drcblk_da = d.drcblk_da ∧
    (∀ k, d.block_counts k ≤ (dr_add_block d ptr pc r).2.block_counts k) ∧
    ((∀ k, d.block_counts k ≤ block_max_counts k) →
      ∀ k, (dr_add_block d ptr pc r).2.block_counts k ≤ block_max_counts k) ∧
    (∀ tb blkid, (dr_add_block d ptr pc r).1 = some (tb, blkid) →
      blkid < (dr_add_block d ptr pc r).2.block_counts r ∧ blkid < block_max_counts r) := by
  unfold dr_add_block
  by_cases hc : d.block_counts r ≥ block_max_counts r
  · simp only [hc, if_true]
    exact ⟨trivial, trivial, fun _ => Nat.le_refl _, fun h => h, fun _ _ h => by simp at h⟩
  · simp only [hc, if_false]
    refine ⟨trivial, trivial, ?_, ?_, ?_⟩
    · intro k
      by_cases e : k = r
      · subst e; simp
      · simp [Function.update, e]
    · intro h k
      by_cases e : k = r
      · subst e; simp; omega
      · simp [Function.update, e, h k]
    · intro tb blkid h
      simp only [Option.some.injEq, Prod.mk.injEq] at h
      obtain ⟨_, rfl⟩ := h
      simp
      omega

theorem inv_dr_add_block (d : Drc) (ptr pc r : Nat) (h : DrcInv d) :
    DrcInv (dr_add_block d ptr pc r).2 := by
  obtain ⟨h1, h2, h3⟩ := h
  obtain ⟨e1, e2, hmono, hmax, _⟩ := dr_add_block_counts d ptr pc r
  refine ⟨hmax h1, ?_, ?_⟩
  · intro i hi
    rw [e1] at hi ⊢
    exact Nat.lt_of_lt_of_le (h2 i hi) (hmono 0)
  · intro cpu i hi
    rw [e2] at hi ⊢
    exact Nat.lt_of_lt_of_le (h3 cpu i hi) (hmono (1 + cpu))

theorem block_max_counts_le (r : Nat) : block_max_counts r ≤ 4096 := by
  unfold block_max_counts
  match r with
  | 0 => decide
  | 1 => decide
  | 2 => decide
  | _ + 3 => simp

theorem inv_translate_alloc (cfg : Config) (d : Drc) (pc r : Nat) (other : Option Nat)
    (d2 : Drc) (tb blkid ptr : Nat) (other2 : Option Nat) (hinv : DrcInv d)
    (h : translate_alloc cfg d pc r other = some (d2, tb, blkid, ptr, other2)) :
    DrcInv d2 ∧ blkid < d2.block_counts r ∧ blkid < 32768 := by
  have hle := block_max_counts_le r
  unfold translate_alloc at h
  simp only at h
  split at h
  · simp only [Option.map_eq_some'] at h
    obtain ⟨⟨tb2, id2⟩, hb, he⟩ := h
    simp only [Prod.mk.injEq] at he
    obtain ⟨rfl, _, rfl, _, _⟩ := he
    have hi2 := inv_dr_add_block
      (flush_tcache (dr_add_block d (d.tcache_ptrs r) pc r).2 r)
      ((flush_tcache (dr_add_block d (d.tcache_ptrs r) pc r).2 r).tcache_ptrs r) pc r
      (inv_flush _ r (inv_dr_add_block d _ pc r hinv))
    have hb2 := (dr_add_block_counts _ _ pc r).2.2.2.2 tb2 id2 hb
    exact ⟨hi2, hb2.1, by omega⟩
  · simp only [Option.map_eq_some'] at h
    obtain ⟨⟨tb2, id2⟩, hb, he⟩ := h
    simp only [Prod.mk.injEq] at he
    obtain ⟨rfl, _, rfl, _, _⟩ := he
    have hb2 := (dr_add_block_counts _ _ pc r).2.2.2.2 tb2 id2 hb
    exact ⟨inv_dr_add_block d _ pc r hinv, hb2.1, by omega⟩

theorem inv_translate_begin (cfg : Config) (d : Drc) (sh2 : SH2) (other : Option Nat)
    (d1 : Drc) (tcid tb blkid entry : Nat) (hinv : DrcInv d)
    (h : translate_begin cfg d sh2 other = some (d1, tcid, tb, blkid, entry)) :
    DrcInv d1 ∧ blkid < d1.block_counts (tcache_id_of sh2.pc sh2.is_slave) ∧ blkid < 32768 := by
  unfold translate_begin at h
  split at h
  · simp at h
  · split at h
    · simp at h
    · rename_i d2 tb2 id2 ptr2 o2 ha
      obtain ⟨hi, hlt, hb⟩ := inv_translate_alloc cfg d sh2.pc _ other d2 tb2 id2 ptr2 o2 hinv ha
      simp only [Option.some.injEq, Prod.mk.injEq] at h
      obtain ⟨rfl, _, _, rfl, _⟩ := h
      refine ⟨?_, ?_, hb⟩
      · split <;> exact hi
      · split <;> exact hlt

theorem smc_mark_rest_values (v e : Nat) :
    ∀ (fuel : Nat) (bm : Nat → Nat) (t i : Nat),
      smc_mark_rest v e fuel bm t i = bm i ∨ smc_mark_rest v e fuel bm t i = v := by
  intro fuel
  induction fuel with
  | zero => intro bm t i; left; rfl
  | succ fuel ih =>
    intro bm t i
    unfold smc_mark_rest
    split
    · split
      · left; rfl
      · rcases ih (Function.update bm t v) (t + 1) i with h | h
        · by_cases e : i = t
          · right; rw [h, e]; simp
          · left; rw [h]; simp [Function.update, e]
        · right; exact h
    · left; rfl

/-- Every slot after the marking of block `b` is as before or holds id `b`. -/
theorem smc_mark_values (bm : Nat → Nat) (b s e : Nat) (hb : b < 32768) (i : Nat) :
    smc_mark bm b s e i = bm i ∨ smc_mark bm b s e i >>> 1 = b := by
  have hv1 : ((b <<< 1) % 65536) >>> 1 = b := by
    rw [Nat.shiftLeft_eq, Nat.shiftRight_eq_div_pow]
    omega
  have hv2 : (((b <<< 1) ||| 1) % 65536) >>> 1 = b := by
    have h0 : (b <<< 1) ||| 1 = 2 * b + 1 := by
      have := Nat.mul_add_lt_is_or (i := 1) (b := 1) (by decide) b
      rw [Nat.shiftLeft_eq, Nat.mul_comm]
      exact this.symm
    rw [h0, Nat.shiftRight_eq_div_pow]
    omega
  unfold smc_mark
  rcases smc_mark_rest_values ((b <<< 1) % 65536) e (e - s)
      (Function.update bm s (((b <<< 1) ||| 1) % 65536)) (s + 1) i with h | h
  · by_cases e0 : i = s
    · right; rw [h, e0]; simpa using hv2
    · left; rw [h]; simp [Function.update, e0]
  · right; rw [h]; exact hv1

theorem inv_translate_mark (cfg : Config) (d : Drc) (sh2 : SH2) (tb blkid pc : Nat)
    (hinv : DrcInv d) (hlt : blkid < d.block_counts (tcache_id_of sh2.pc sh2.is_slave))
    (hb : blkid < 32768) : DrcInv (translate_mark cfg d sh2 tb blkid pc) := by
  obtain ⟨h1, h2, h3⟩ := hinv
  unfold translate_mark
  dsimp only
  by_cases hda : is_da_bios sh2.pc = true
  · rw [if_pos hda]
    have hid : tcache_id_of sh2.pc sh2.is_slave = 1 + sh2.is_slave := by simp [tcache_id_of, hda]
    rw [hid] at hlt
    refine ⟨h1, h2, ?_⟩
    intro cpu i hi
    by_cases hc : cpu = sh2.is_slave
    · subst hc
      simp only [Function.update_same] at hi ⊢
      rcases smc_mark_values (d.drcblk_da sh2.is_slave) blkid _ _ hb i with e | e
      · rw [e] at hi ⊢
        exact h3 _ i hi
      · rw [e]; exact hlt
    · simp only [Function.update, hc, dif_neg, not_false_eq_true] at hi ⊢
      exact h3 cpu i hi
  · rw [if_neg hda]
    have hid : tcache_id_of sh2.pc sh2.is_slave = 0 := by simp [tcache_id_of, hda]
    rw [hid] at hlt
    split
    · refine ⟨h1, ?_, h3⟩
      intro i hi
      simp only at hi ⊢
      rcases smc_mark_values d.drcblk_ram blkid _ _ hb i with e | e
      · rw [e] at hi ⊢
        exact h2 i hi
      · rw [e]; exact hlt
    · exact ⟨h1, h2, h3⟩

theorem inv_sh2_translate (cfg : Config) (mem : Nat → Nat) (fuel : Nat) (d : Drc) (sh2 : SH2)
    (other : Option Nat) (t : Translated) (hinv : DrcInv d)
    (h : sh2_translate cfg mem fuel d sh2 other = some t) : DrcInv t.drc := by
  obtain ⟨d1, tcid, st1, st2, hb, _, _, _, _, _, hd⟩ := sh2_translate_some cfg mem fuel d sh2 other t h
  obtain ⟨hi, hlt, hb2⟩ := inv_translate_begin cfg d sh2 other d1 tcid _ _ _ hinv hb
  have hm := inv_translate_mark cfg d1 sh2 t.this_block t.blkid st1.pc hi hlt hb2
  rw [hd]
  exact hm

theorem inv_smc_slots (len c : Nat) (bm : Nat → Nat) (nbr m1 : Int → Nat)
    (hbm : ∀ i, bm i ≠ 0 → bm i >>> 1 < c)
    (h : ∀ i, m1 i = smc_mem len bm nbr i ∨ m1 i = 0) :
    ∀ i, smc_slots len bm m1 i ≠ 0 → smc_slots len bm m1 i >>> 1 < c := by
  intro i hi
  rcases smc_slots_frame len bm nbr m1 h i with e | e
  · rw [e] at hi ⊢
    exact hbm i hi
  · exact absurd e hi

theorem inv_wcheck_ram (cfg : Config) (fuel : Nat) (nbr : Int → Nat) (d d1 : Drc) (a : Nat)
    (m1 : Int → Nat) (hinv : DrcInv d)
    (h : sh2_drc_wcheck_ram cfg fuel nbr d a = some (d1, m1)) : DrcInv d1 := by
  obtain ⟨h1, h2, h3⟩ := hinv
  obtain ⟨hr, hd⟩ := wcheck_ram_frame cfg fuel nbr d d1 a m1 h
  have hf := (sh2_smc_rm_block_frame _ _ _ _ _ _ _ _ hr).1
  rw [hd]
  exact ⟨h1, inv_smc_slots _ _ _ nbr m1 h2 hf, h3⟩

theorem inv_wcheck_da (cfg : Config) (fuel : Nat) (nbr : Int → Nat) (d d1 : Drc)
    (a cpuid : Nat) (m1 : Int → Nat) (hinv : DrcInv d)
    (h : sh2_drc_wcheck_da cfg fuel nbr d a cpuid = some (d1, m1)) : DrcInv d1 := by
  obtain ⟨h1, h2, h3⟩ := hinv
  obtain ⟨hr, hd⟩ := wcheck_da_frame cfg fuel nbr d d1 a cpuid m1 h
  have hf := (sh2_smc_rm_block_frame _ _ _ _ _ _ _ _ hr).1
  rw [hd]
  refine ⟨h1, h2, ?_⟩
  intro cpu i hi
  by_cases hc : cpu = cpuid
  · subst hc
    simp only [Function.update_same] at hi ⊢
    exact inv_smc_slots _ _ _ nbr m1 (h3 cpu) hf i hi
  · simp only [Function.update, hc, dif_neg, not_false_eq_true] at hi ⊢
    exact h3 cpu i hi

theorem inv_spill (d : Drc) (zr : Nat → Bool) (zd : Nat → Nat → Bool) (hinv : DrcInv d) :
    DrcInv { d with drcblk_ram := fun i => if zr i then 0 else d.drcblk_ram i
                    drcblk_da := fun c i => if zd c i then 0 else d.drcblk_da c i } := by
  obtain ⟨h1, h2, h3⟩ := hinv
  refine ⟨h1, ?_, ?_⟩
  · intro i hi
    simp only at hi ⊢
    split at hi
    · exact absurd rfl hi
    · rename_i hz
      rw [if_neg hz]
      exact h2 i hi
  · intro cpu i hi
    simp only at hi ⊢
    split at hi
    · exact absurd rfl hi
    · rename_i hz
      rw [if_neg hz]
      exact h3 cpu i hi

theorem inv_drc_init (cfg : Config) (base : Nat) (rt : List temp_reg_t) :
    DrcInv (drc_init cfg base rt) := by
  unfold drc_init sh2_drc_flush_all
  apply inv_flush
  apply inv_flush
  apply inv_flush
  exact ⟨fun _ => Nat.zero_le _, fun i hi => absurd rfl hi, fun cpu i hi => absurd rfl hi⟩

theorem inv_step (cfg : Config) (d d1 : Drc) (hinv : DrcInv d) (hs : DrcStep cfg d d1) :
    DrcInv d1 := by
  cases hs with
  | translate mem fuel _ sh2 other t h => exact inv_sh2_translate cfg mem fuel d sh2 other t hinv h
  | wcheck_ram fuel nbr _ a _ m1 h => exact inv_wcheck_ram cfg fuel nbr d d1 a m1 hinv h
  | wcheck_da fuel nbr _ a cpuid _ m1 h => exact inv_wcheck_da cfg fuel nbr d d1 a cpuid m1 hinv h
  | flush _ tcid => exact inv_flush d tcid hinv
  | spill _ zr zd => exact inv_spill d zr zd hinv

theorem inv_reach (cfg : Config) (d0 d : Drc) (h0 : DrcInv d0) (h : DrcReach cfg d0 d) :
    DrcInv d := by
  induction h with
  | init => exact h0
  | step d1 d2 _ hs ih => exact inv_step cfg d1 d2 ih hs

/-- A descriptor the lookup takes from a bitmap is below the block count of its region. -/
theorem dispatcher_lookup_allocated (cfg : Config) (d : Drc) (sh2 : SH2) (block bd : Nat)
    (hinv : DrcInv d)
    (hp : ((sh2.pc &&& 0xff000000) = 0xc0000000 ∨ (sh2.pc &&& 0xfffff000) = 0) ∨
      (sh2.pc &&& 0xc6000000) = 0x06000000)
    (h : dispatcher_lookup cfg d sh2 = some (block, some bd)) :
    ∃ r id, bd = block_tables_base r + id ∧ id < d.block_counts r ∧
      id < block_max_counts r := by
  obtain ⟨h1, h2, h3⟩ := hinv
  have hnz : ∀ v : Nat, v &&& 1 ≠ 0 → v ≠ 0 := by
    intro v hv e
    rw [e] at hv
    exact hv (by decide)
  unfold dispatcher_lookup at h
  by_cases hda : (sh2.pc &&& 0xff000000) = 0xc0000000 ∨ (sh2.pc &&& 0xfffff000) = 0
  · rw [if_pos hda] at h
    simp only at h
    split at h
    · rename_i hodd
      split at h
      · simp only [Option.some.injEq, Prod.mk.injEq] at h
        have hlt := h3 sh2.is_slave _ (hnz _ hodd)
        exact ⟨1 + sh2.is_slave, _, h.2.symm, hlt, Nat.lt_of_lt_of_le hlt (h1 _)⟩
      · simp at h
    · simp at h
  · rw [if_neg hda] at h
    have hram : (sh2.pc &&& 0xc6000000) = 0x06000000 := by
      rcases hp with hp | hp
      · exact absurd hp hda
      · exact hp
    rw [if_pos hram] at h
    simp only at h
    split at h
    · rename_i hodd
      split at h
      · simp only [Option.some.injEq, Prod.mk.injEq] at h
        have hlt := h2 _ (hnz _ hodd)
        exact ⟨0, _, h.2.symm, hlt, Nat.lt_of_lt_of_le hlt (h1 _)⟩
      · simp at h
    · simp at h

theorem smc_walk_back_le (bm : Nat → Nat) (id : Nat) : ∀ p : Nat, smc_walk_back bm id p ≤ p := by
  intro p
  induction p with
  | zero => simp [smc_walk_back]
  | succ p ih =>
    unfold smc_walk_back
    split
    · omega
    · omega

/-- A call of `sh2_smc_rm_block` at a non-zero slot `p` of a bitmap whose non-zero slots up to
`p` hold ids below `c`, the word before the bitmap being zero, changes only descriptors
numbered below `c`. -/
theorem smc_rm_block_changes_allocated (btab c : Nat) :
    ∀ (fuel : Nat) (m : Int → Nat) (bt : Nat → block_desc) (p : Int) (a : Nat)
      (m1 : Int → Nat) (bt1 : Nat → block_desc),
      (∀ i : Int, 0 ≤ i → i ≤ p → m i ≠ 0 → m i >>> 1 < c) → m (-1) = 0 → 0 ≤ p → m p ≠ 0 →
      sh2_smc_rm_block btab fuel (m, bt) p a = some (m1, bt1) →
      ∀ k, bt1 k ≠ bt k → ∃ id, k = btab + id ∧ id < c := by
  intro fuel
  induction fuel with
  | zero => intro m bt p a m1 bt1 _ _ _ _ h; simp [sh2_smc_rm_block] at h
  | succ fuel ih =>
    intro m bt p a m1 bt1 hinv hb hp hnz h k hk
    rw [sh2_smc_rm_block_succ] at h
    have hrange : 0 ≤ (if 0 < p then
        ((smc_walk_back (fun n : Nat => m n) (m p >>> 1) p.toNat : Nat) : Int) else p) ∧
        (if 0 < p then
        ((smc_walk_back (fun n : Nat => m n) (m p >>> 1) p.toNat : Nat) : Int) else p) ≤ p := by
      split
      · have := smc_walk_back_le (fun n : Nat => m n) (m p >>> 1) p.toNat
        omega
      · omega
    have hz : ∀ j, j ≠ btab + (m p >>> 1) → Function.update bt (btab + (m p >>> 1))
        { bt (btab + (m p >>> 1)) with addr := 0, end_addr := 0 } j = bt j := by
      intro j hj
      simp [Function.update, hj]
    generalize hbtk : Function.update bt (btab + (m p >>> 1))
        { bt (btab + (m p >>> 1)) with addr := 0, end_addr := 0 } = btk at h hz
    generalize hp1 : (if 0 < p then
        ((smc_walk_back (fun n : Nat => m n) (m p >>> 1) p.toNat : Nat) : Int) else p) = p1
      at h hrange
    split at h
    · simp at h
    · rename_i m2 bt2 hinner
      simp only [Option.map_eq_some', Prod.mk.injEq] at h
      obtain ⟨m3, _, _, rfl⟩ := h
      have hin : ∀ j, bt2 j ≠ btk j → ∃ id, j = btab + id ∧ id < c := by
        split at hinner
        · rename_i hprev
          split at hinner
          · have hp1pos : 0 ≤ p1 - 1 := by
              by_contra hneg
              have e : p1 - 1 = -1 := by omega
              rw [e] at hprev
              exact hprev hb
            exact ih m btk (p1 - 1) a m2 bt2
              (fun i hi0 hi1 hi => hinv i hi0 (by omega) hi) hb hp1pos hprev hinner
          · simp only [Option.some.injEq, Prod.mk.injEq] at hinner
            obtain ⟨_, rfl⟩ := hinner
            intro j hj
            exact absurd rfl hj
        · simp only [Option.some.injEq, Prod.mk.injEq] at hinner
          obtain ⟨_, rfl⟩ := hinner
          intro j hj
          exact absurd rfl hj
      by_cases e : bt2 k = btk k
      · have hk2 : k = btab + (m p >>> 1) := by
          by_contra hne
          rw [e, hz k hne] at hk
          exact hk rfl
        exact ⟨m p >>> 1, hk2, hinv p hp (by omega) hnz⟩
      · exact hin k e

theorem shift_slot_lt (x s b : Nat) (hs : s ≤ b) (hx : x < 2 ^ b) : x >>> s < 2 ^ b >>> s := by
  rw [Nat.shiftRight_eq_div_pow, Nat.shiftRight_eq_div_pow, Nat.pow_div hs (by decide)]
  apply (Nat.div_lt_iff_lt_mul (Nat.two_pow_pos s)).mpr
  rw [← Nat.pow_add, Nat.sub_add_cancel hs]
  exact hx

/-- A write check of the DRAM bitmap at a non-zero slot, with the word before the bitmap
zero, changes only allocated descriptors of region 0. -/
theorem wcheck_ram_changes_allocated (cfg : Config) (fuel : Nat) (nbr : Int → Nat)
    (d d1 : Drc) (a : Nat) (m1 : Int → Nat) (hinv : DrcInv d)
    (hs : cfg.SH2_DRCBLK_RAM_SHIFT ≤ 18) (hb : nbr (-1) = 0)
    (hnz : d.drcblk_ram ((a &&& 0x3ffff) >>> cfg.SH2_DRCBLK_RAM_SHIFT) ≠ 0)
    (h : sh2_drc_wcheck_ram cfg fuel nbr d a = some (d1, m1)) :
    ∀ k, d1.block_tab k ≠ d.block_tab k →
      ∃ id, k = block_tables_base 0 + id ∧ id < d.block_counts 0 ∧ id < block_max_counts 0 := by
  obtain ⟨h1, h2, _⟩ := hinv
  obtain ⟨hr, _⟩ := wcheck_ram_frame cfg fuel nbr d d1 a m1 h
  have hlt : (a &&& 0x3ffff) >>> cfg.SH2_DRCBLK_RAM_SHIFT < drcblk_ram_len cfg := by
    have hx : a &&& 0x3ffff < 2 ^ 18 := Nat.and_lt_two_pow a (by decide)
    exact shift_slot_lt _ _ 18 hs hx
  intro k hk
  generalize (a &&& 0x3ffff) >>> cfg.SH2_DRCBLK_RAM_SHIFT = s at hr hlt hnz
  obtain ⟨id, e, hid⟩ := smc_rm_block_changes_allocated (block_tables_base 0) (d.block_counts 0)
    fuel _ _ _ a m1 d1.block_tab
    (by
      intro i hi0 hi1 hi
      have e : i = ((i.toNat : Nat) : Int) := by omega
      rw [e] at hi ⊢
      rw [smc_mem_inside _ _ _ _ (by omega)] at hi ⊢
      exact h2 _ hi)
    (by rw [smc_mem_before _ _ _ _ (by omega)]; exact hb)
    (by omega)
    (by rw [smc_mem_inside _ _ _ _ hlt]; exact hnz)
    hr k hk
  exact ⟨id, e, hid, Nat.lt_of_lt_of_le hid (h1 0)⟩

/-- A write check of a data-array bitmap at a non-zero slot, with the word before the
bitmap zero, changes only allocated descriptors of the region of that cpu. -/
theorem wcheck_da_changes_allocated (cfg : Config) (fuel : Nat) (nbr : Int → Nat)
    (d d1 : Drc) (a cpuid : Nat) (m1 : Int → Nat) (hinv : DrcInv d)
    (hs : cfg.SH2_DRCBLK_DA_SHIFT ≤ 12) (hb : nbr (-1) = 0)
    (hnz : d.drcblk_da cpuid ((a &&& 0xfff) >>> cfg.SH2_DRCBLK_DA_SHIFT) ≠ 0)
    (h : sh2_drc_wcheck_da cfg fuel nbr d a cpuid = some (d1, m1)) :
    ∀ k, d1.block_tab k ≠ d.block_tab k →
      ∃ id, k = block_tables_base (1 + cpuid) + id ∧ id < d.block_counts (1 + cpuid) ∧
        id < block_max_counts (1 + cpuid) := by
  obtain ⟨h1, _, h3⟩ := hinv
  obtain ⟨hr, _⟩ := wcheck_da_frame cfg fuel nbr d d1 a cpuid m1 h
  have hlt : (a &&& 0xfff) >>> cfg.SH2_DRCBLK_DA_SHIFT < drcblk_da_len cfg := by
    have hx : a &&& 0xfff < 2 ^ 12 := Nat.and_lt_two_pow a (by decide)
    exact shift_slot_lt _ _ 12 hs hx
  intro k hk
  generalize (a &&& 0xfff) >>> cfg.SH2_DRCBLK_DA_SHIFT = s at hr hlt hnz
  obtain ⟨id, e, hid⟩ := smc_rm_block_changes_allocated (block_tables_base (1 + cpuid))
    (d.block_counts (1 + cpuid)) fuel _ _ _ a m1 d1.block_tab
    (by
      intro i hi0 hi1 hi
      have e : i = ((i.toNat : Nat) : Int) := by omega
      rw [e] at hi ⊢
      rw [smc_mem_inside _ _ _ _ (by omega)] at hi ⊢
      exact h3 cpuid _ hi)
    (by rw [smc_mem_before _ _ _ _ (by omega)]; exact hb)
    (by omega)
    (by rw [smc_mem_inside _ _ _ _ hlt]; exact hnz)
    hr k hk
  exact ⟨id, e, hid, Nat.lt_of_lt_of_le hid (h1 _)⟩

/-- On an all-zero bitmap of `len` slots, with the word before it zero and the word behind it
holding another id than 0, a call of `sh2_smc_rm_block` at slot 0 returns, descriptor 0 of the
region zeroed. -/
theorem smc_rm_block_zero_bitmap (btab len : Nat) (nbr : Int → Nat) (bt : Nat → block_desc)
    (a : Nat) (hlen : 0 < len) (hb : nbr (-1) = 0) (he : nbr (len : Int) >>> 1 ≠ 0) :
    ∃ m1, sh2_smc_rm_block btab (len + 1) (smc_mem len (fun _ => 0) nbr, bt) 0 a =
      some (m1, Function.update bt btab { bt btab with addr := 0, end_addr := 0 }) := by
  rw [sh2_smc_rm_block_succ]
  have hp : ¬ (0 : Int) < 0 := by omega
  generalize hp1 : (if (0 : Int) < 0 then
      ((smc_walk_back (fun n : Nat => smc_mem len (fun _ => 0) nbr n)
        (smc_mem len (fun _ => 0) nbr 0 >>> 1) (0 : Int).toNat : Nat) : Int)
      else 0) = p1
  rw [if_neg hp] at hp1
  subst hp1
  have e0 : smc_mem len (fun _ => 0) nbr 0 = 0 := smc_mem_inside len (fun _ => 0) nbr 0 hlen
  have e1 : smc_mem len (fun _ => 0) nbr ((0 : Int) - 1) = 0 := by
    rw [smc_mem_before _ _ _ _ (by omega)]
    exact hb
  rw [e0, e1]
  have hf : ¬ ((0 : Nat) ≠ 0) := by simp
  rw [if_neg hf]
  obtain ⟨m1, hm1⟩ := smc_zero_fwd_run (0 >>> 1) (len - 1) (len + 1)
    (smc_mem len (fun _ => 0) nbr) 0 (by omega)
    (by
      intro j _ hj
      rw [Int.zero_add, smc_mem_inside _ _ _ _ (by omega)])
    (by
      have e : (0 : Int) + ((len - 1 + 1 : Nat) : Int) = (len : Int) := by omega
      rw [e]
      have e2 : smc_mem len (fun _ => 0) nbr (len : Int) = nbr (len : Int) := by
        unfold smc_mem
        rw [if_neg (by omega)]
      rw [e2]
      exact he)
  refine ⟨m1, ?_⟩
  simp only [hm1, Option.map_some']
  rfl

theorem flush_tcache_zero (d : Drc) :
    (flush_tcache d 0).drcblk_ram = (fun _ => 0) ∧ (flush_tcache d 0).block_tab = d.block_tab ∧
      (flush_tcache d 0).block_counts 0 = 0 := by
  simp [flush_tcache]

set_option maxRecDepth 100000 in
/-- C38, counterexample: the DRAM block at `0x06000010` is translated on the fresh ARM state
(descriptor 0 of region 0) and cache 0 is flushed: the block count of region 0 is 0, no
descriptor of it is allocated, and the DRAM bitmap is all zero.  Every call of
`sh2_drc_wcheck_ram` that returns in this state, whatever the address and the words next to
the bitmap, has zeroed `addr` and `end_addr` of descriptor 0: the invalidator has indexed a
descriptor that is not allocated.  Such a call does return: for a write to `0x06000000`,
with the word before the bitmap zero and the word behind it holding 2, the zeroing loop
sweeps the whole bitmap and stops behind it. -/
theorem wcheck_kills_unallocated :
    ∃ t, sh2_translate arm_cfg (fun _ => 0x0009) 200 drc0 { pc := 0x06000010 } none = some t ∧
      DrcReach arm_cfg drc0 (flush_tcache t.drc 0) ∧
      (flush_tcache t.drc 0).block_counts 0 = 0 ∧
      (∀ i, (flush_tcache t.drc 0).drcblk_ram i = 0) ∧
      ((flush_tcache t.drc 0).block_tab 0).addr = 0x06000010 ∧
      (∀ (fuel : Nat) (nbr : Int → Nat) (a : Nat) (d1 : Drc) (m1 : Int → Nat),
        sh2_drc_wcheck_ram arm_cfg fuel nbr (flush_tcache t.drc 0) a = some (d1, m1) →
        (d1.block_tab 0).addr = 0 ∧ (d1.block_tab 0).end_addr = 0) ∧
      ∃ d1 m1,
        sh2_drc_wcheck_ram arm_cfg (drcblk_ram_len arm_cfg + 1)
          (fun i => if i < 0 then 0 else 2) (flush_tcache t.drc 0) 0x06000000 =
          some (d1, m1) ∧
        (d1.block_tab 0).addr = 0 ∧ (d1.block_tab 0).end_addr = 0 := by
  cases e : sh2_translate arm_cfg (fun _ => 0x0009) 200 drc0 { pc := 0x06000010 } none with
  | none =>
    have : (sh2_translate arm_cfg (fun _ => 0x0009) 200 drc0
        { pc := 0x06000010 } none).isSome = true := by decide!
    rw [e] at this
    simp at this
  | some t =>
    have ha : (match sh2_translate arm_cfg (fun _ => 0x0009) 200 drc0
        { pc := 0x06000010 } none with
        | none => false
        | some t => decide ((t.drc.block_tab 0).addr = 0x06000010)) = true := by decide!
    rw [e] at ha
    obtain ⟨hz1, hz2, hz3⟩ := flush_tcache_zero t.drc
    obtain ⟨m1, hm1⟩ := smc_rm_block_zero_bitmap (block_tables_base 0) (drcblk_ram_len arm_cfg)
      (fun i => if i < 0 then 0 else 2) t.drc.block_tab 0x06000000 (by decide) (by decide)
      (by decide)
    refine ⟨t, rfl,
      DrcReach.step _ _ (DrcReach.step _ _ DrcReach.init (DrcStep.translate _ _ _ _ _ t e))
        (DrcStep.flush _ 0),
      hz3, fun i => by rw [hz1], by rw [hz2]; exact of_decide_eq_true ha, ?_, ?_⟩
    · intro fuel nbr a d1 m2 hw
      obtain ⟨hr, _⟩ := wcheck_ram_frame arm_cfg fuel nbr _ d1 a m2 hw
      obtain ⟨_, _, h3, h4, _⟩ := sh2_smc_rm_block_frame _ _ _ _ _ _ _ _ hr
      have hlt : (a &&& 0x3ffff) >>> arm_cfg.SH2_DRCBLK_RAM_SHIFT < drcblk_ram_len arm_cfg :=
        shift_slot_lt _ _ 18 (by decide) (Nat.and_lt_two_pow a (by decide))
      rw [smc_mem_inside _ _ _ _ hlt, hz1] at h3 h4
      have e0 : block_tables_base 0 + (0 >>> 1) = 0 := by decide
      dsimp only at h3 h4
      rw [e0] at h3 h4
      exact ⟨h3, h4⟩
    · have hw : ∃ d1,
          sh2_drc_wcheck_ram arm_cfg (drcblk_ram_len arm_cfg + 1)
            (fun i => if i < 0 then 0 else 2) (flush_tcache t.drc 0) 0x06000000 =
            some (d1, m1) ∧
          d1.block_tab = Function.update t.drc.block_tab (block_tables_base 0)
            { t.drc.block_tab (block_tables_base 0) with addr := 0, end_addr := 0 } := by
        unfold sh2_drc_wcheck_ram
        have ep : ((((0x06000000 &&& 0x3ffff) >>> arm_cfg.SH2_DRCBLK_RAM_SHIFT : Nat) :
            Int)) = 0 := by
          decide
        rw [hz1, hz2, ep, hm1]
        exact ⟨_, rfl, rfl⟩
      obtain ⟨d1, hw1, hw2⟩ := hw
      refine ⟨d1, m1, hw1, ?_, ?_⟩
      · rw [hw2]
        simp [block_tables_base]
      · rw [hw2]
        simp [block_tables_base]

/-- C38 (as the code has it): in every state reached from the initial state (`sh2_drc_init`
and `sh2_drc_flush_all`) through `sh2_translate`, `sh2_drc_wcheck_ram`, `sh2_drc_wcheck_da`
and `flush_tcache` (every returning call of a write check, whatever lies next to its bitmap),
each block count is at most the cap of its region, every non-zero slot of the DRAM bitmap
holds an id below the block count of region 0 and every non-zero slot of the data-array
bitmap of `cpu` an id below the block count of region `1 + cpu`; so a descriptor that the
dispatcher's lookup takes from a bitmap is an allocated one of that region, and a write check
entered at a non-zero slot, with the word before the bitmap zero, changes only allocated
descriptors of its region. -/
theorem drc_reach_inv (cfg : Config) (base : Nat) (rt : List temp_reg_t) (d : Drc)
    (h : DrcReach cfg (drc_init cfg base rt) d) :
    (∀ r, d.block_counts r ≤ block_max_counts r) ∧
    (∀ i, d.drcblk_ram i ≠ 0 → d.drcblk_ram i >>> 1 < d.block_counts 0) ∧
    (∀ cpu i, d.drcblk_da cpu i ≠ 0 → d.drcblk_da cpu i >>> 1 < d.block_counts (1 + cpu)) ∧
    (∀ (sh2 : SH2) (block bd : Nat),
      ((sh2.pc &&& 0xff000000) = 0xc0000000 ∨ (sh2.pc &&& 0xfffff000) = 0) ∨
        (sh2.pc &&& 0xc6000000) = 0x06000000 →
      dispatcher_lookup cfg d sh2 = some (block, some bd) →
      ∃ r id, bd = block_tables_base r + id ∧ id < d.block_counts r ∧
        id < block_max_counts r) ∧
    (∀ (fuel : Nat) (nbr : Int → Nat) (a : Nat) (d1 : Drc) (m1 : Int → Nat),
      cfg.SH2_DRCBLK_RAM_SHIFT ≤ 18 → nbr (-1) = 0 →
      d.drcblk_ram ((a &&& 0x3ffff) >>> cfg.SH2_DRCBLK_RAM_SHIFT) ≠ 0 →
      sh2_drc_wcheck_ram cfg fuel nbr d a = some (d1, m1) →
      ∀ k, d1.block_tab k ≠ d.block_tab k →
        ∃ id, k = block_tables_base 0 + id ∧ id < d.block_counts 0 ∧
          id < block_max_counts 0) ∧
    (∀ (fuel : Nat) (nbr : Int → Nat) (a cpuid : Nat) (d1 : Drc) (m1 : Int → Nat),
      cfg.SH2_DRCBLK_DA_SHIFT ≤ 12 → nbr (-1) = 0 →
      d.drcblk_da cpuid ((a &&& 0xfff) >>> cfg.SH2_DRCBLK_DA_SHIFT) ≠ 0 →
      sh2_drc_wcheck_da cfg fuel nbr d a cpuid = some (d1, m1) →
      ∀ k, d1.block_tab k ≠ d.block_tab k →
        ∃ id, k = block_tables_base (1 + cpuid) + id ∧ id < d.block_counts (1 + cpuid) ∧
          id < block_max_counts (1 + cpuid)) := by
  have hinv := inv_reach cfg _ d (inv_drc_init cfg base rt) h
  exact ⟨hinv.1, hinv.2.1, hinv.2.2,
    fun sh2 block bd hp hl => dispatcher_lookup_allocated cfg d sh2 block bd hinv hp hl,
    fun fuel nbr a d1 m1 hs hb hnz hw =>
      wcheck_ram_changes_allocated cfg fuel nbr d d1 a m1 hinv hs hb hnz hw,
    fun fuel nbr a cpuid d1 m1 hs hb hnz hw =>
      wcheck_da_changes_allocated cfg fuel nbr d d1 a cpuid m1 hinv hs hb hnz hw⟩

set_option maxRecDepth 100000 in
/-- Witness for `drc_reach_inv`: the state after translating the DRAM block at `0x06000010`
and then flushing cache 1. -/
theorem drc_reach_inv_witness :
    ∃ t, sh2_translate arm_cfg (fun _ => 0x0009) 200 drc0 { pc := 0x06000010 } none = some t ∧
      (∀ r, (flush_tcache t.drc 1).block_counts r ≤ block_max_counts r) ∧
      (∀ i, (flush_tcache t.drc 1).drcblk_ram i ≠ 0 →
        (flush_tcache t.drc 1).drcblk_ram i >>> 1 < (flush_tcache t.drc 1).block_counts 0) ∧
      (∀ cpu i, (flush_tcache t.drc 1).drcblk_da cpu i ≠ 0 →
        (flush_tcache t.drc 1).drcblk_da cpu i >>> 1 <
          (flush_tcache t.drc 1).block_counts (1 + cpu)) ∧
      (∀ (sh2 : SH2) (block bd : Nat),
        ((sh2.pc &&& 0xff000000) = 0xc0000000 ∨ (sh2.pc &&& 0xfffff000) = 0) ∨
          (sh2.pc &&& 0xc6000000) = 0x06000000 →
        dispatcher_lookup arm_cfg (flush_tcache t.drc 1) sh2 = some (block, some bd) →
        ∃ r id, bd = block_tables_base r + id ∧ id < (flush_tcache t.drc 1).block_counts r ∧
          id < block_max_counts r) ∧
      (∀ (fuel : Nat) (nbr : Int → Nat) (a : Nat) (d1 : Drc) (m1 : Int → Nat),
        arm_cfg.SH2_DRCBLK_RAM_SHIFT ≤ 18 → nbr (-1) = 0 →
        (flush_tcache t.drc 1).drcblk_ram
          ((a &&& 0x3ffff) >>> arm_cfg.SH2_DRCBLK_RAM_SHIFT) ≠ 0 →
        sh2_drc_wcheck_ram arm_cfg fuel nbr (flush_tcache t.drc 1) a = some (d1, m1) →
        ∀ k, d1.block_tab k ≠ (flush_tcache t.drc 1).block_tab k →
          ∃ id, k = block_tables_base 0 + id ∧ id < (flush_tcache t.drc 1).block_counts 0 ∧
            id < block_max_counts 0) ∧
      (∀ (fuel : Nat) (nbr : Int → Nat) (a cpuid : Nat) (d1 : Drc) (m1 : Int → Nat),
        arm_cfg.SH2_DRCBLK_DA_SHIFT ≤ 12 → nbr (-1) = 0 →
        (flush_tcache t.drc 1).drcblk_da cpuid
          ((a &&& 0xfff) >>> arm_cfg.SH2_DRCBLK_DA_SHIFT) ≠ 0 →
        sh2_drc_wcheck_da arm_cfg fuel nbr (flush_tcache t.drc 1) a cpuid = some (d1, m1) →
        ∀ k, d1.block_tab k ≠ (flush_tcache t.drc 1).block_tab k →
          ∃ id, k = block_tables_base (1 + cpuid) + id ∧
            id < (flush_tcache t.drc 1).block_counts (1 + cpuid) ∧
            id < block_max_counts (1 + cpuid)) := by
  cases e : sh2_translate arm_cfg (fun _ => 0x0009) 200 drc0 { pc := 0x06000010 } none with
  | none =>
    have : (sh2_translate arm_cfg (fun _ => 0x0009) 200 drc0
        { pc := 0x06000010 } none).isSome = true := by decide!
    rw [e] at this
    simp at this
  | some t =>
    exact ⟨t, rfl,
      drc_reach_inv arm_cfg 0x1000000 reg_temp_arm (flush_tcache t.drc 1)
        (DrcReach.step _ _
          (DrcReach.step _ _ DrcReach.init (DrcStep.translate _ _ _ _ _ t e))
          (DrcStep.flush _ 1))⟩

/-! ## The `test_irq` frame -/

theorem rti_refl (st : TState) : Rti st st := Or.inl rfl

theorem rti_trans (a b c : TState) (h1 : Rti a b) (h2 : Rti b c) : Rti a c := by
  unfold Rti at *
  rcases h2 with h2 | h2
  · rcases h1 with h1 | h1
    · left; rw [h2, h1]
    · right; rw [h2, h1]
  · right; exact h2

theorem rti_lift_rc {α : Type} (f : RCache → Option (α × RCache)) : Steps Rti (lift_rc f) := by
  intro st a st1 h
  unfold lift_rc at h
  split at h
  · simp at h
  · simp only [Option.some.injEq, Prod.mk.injEq] at h
    rw [← h.2]
    exact Or.inl rfl

theorem rti_of_eq {α : Type} (m : TM α)
    (h : ∀ st a st1, m st = some (a, st1) → st1.test_irq = st.test_irq) : Steps Rti m :=
  fun st a st1 hm => Or.inl (h st a st1 hm)

theorem rti_E (op : EmitOp) (args : List Int) : Steps Rti (E op args) := by
  apply rti_of_eq
  intro st a st1 h
  simp only [E, Option.some.injEq, Prod.mk.injEq] at h
  rw [← h.2]

theorem rti_get_reg (cfg : Config) (r : Nat) (mode : rc_gr_mode) :
    Steps Rti (get_reg cfg r mode) := rti_lift_rc _

theorem rti_get_tmp : Steps Rti get_tmp := rti_lift_rc _

theorem rti_get_tmp_arg (cfg : Config) (arg : Nat) : Steps Rti (get_tmp_arg cfg arg) :=
  rti_lift_rc _

theorem rti_get_reg_arg (cfg : Config) (arg r : Nat) : Steps Rti (get_reg_arg cfg arg r) :=
  rti_lift_rc _

theorem rti_free_tmp (hr : Int) : Steps Rti (free_tmp hr) := by
  apply rti_of_eq
  intro st a st1 h
  simp only [free_tmp, Option.some.injEq, Prod.mk.injEq] at h
  rw [← h.2]

theorem rti_clean : Steps Rti clean := by
  apply rti_of_eq
  intro st a st1 h
  simp only [clean, Option.some.injEq, Prod.mk.injEq] at h
  rw [← h.2]

theorem rti_invalidate : Steps Rti invalidate := by
  apply rti_of_eq
  intro st a st1 h
  simp only [invalidate, Option.some.injEq, Prod.mk.injEq] at h
  rw [← h.2]

theorem rti_flush : Steps Rti flush := by
  apply rti_of_eq
  intro st a st1 h
  simp only [flush, Option.some.injEq, Prod.mk.injEq] at h
  rw [← h.2]

theorem rti_add_cycles (n : Int) : Steps Rti (add_cycles n) := by
  apply rti_of_eq
  intro st a st1 h
  simp only [add_cycles, Option.some.injEq, Prod.mk.injEq] at h
  rw [← h.2]

theorem rti_set_cycles (n : Int) : Steps Rti (set_cycles n) := by
  apply rti_of_eq
  intro st a st1 h
  simp only [set_cycles, Option.some.injEq, Prod.mk.injEq] at h
  rw [← h.2]

theorem rti_set_test_irq : Steps Rti set_test_irq := by
  intro st a st1 h
  simp only [set_test_irq, Option.some.injEq, Prod.mk.injEq] at h
  rw [← h.2]
  exact Or.inr rfl

theorem rti_get_pc : Steps Rti get_pc := by
  apply rti_of_eq
  intro st a st1 h
  simp only [get_pc, Option.some.injEq, Prod.mk.injEq] at h
  rw [← h.2]

theorem rti_get_delayed_op : Steps Rti get_delayed_op := by
  apply rti_of_eq
  intro st a st1 h
  simp only [get_delayed_op, Option.some.injEq, Prod.mk.injEq] at h
  rw [← h.2]

theorem rti_DELAYED_OP : Steps Rti DELAYED_OP := by
  apply rti_of_eq
  intro st a st1 h
  simp only [DELAYED_OP, Option.some.injEq, Prod.mk.injEq] at h
  rw [← h.2]

theorem rti_emit_move_r_imm32 (cfg : Config) (dst i : Nat) :
    Steps Rti (emit_move_r_imm32 cfg dst i) := by
  unfold emit_move_r_imm32
  repeat' with_reducible first
    | exact rti_E _ _
    | exact rti_get_reg _ _ _
    | exact rti_get_tmp
    | exact rti_get_tmp_arg _ _
    | exact rti_get_reg_arg _ _ _
    | exact rti_free_tmp _
    | exact rti_clean
    | exact rti_invalidate
    | exact rti_flush
    | exact rti_add_cycles _
    | exact rti_set_cycles _
    | exact rti_set_test_irq
    | exact rti_get_pc
    | exact rti_get_delayed_op
    | exact rti_DELAYED_OP
    | apply steps_pure Rti rti_refl
    | apply steps_bind Rti rti_trans
    | apply steps_ite Rti
    | intro _
    | dsimp only
    | split

theorem rti_emit_move_r_r (cfg : Config) (dst src : Nat) :
    Steps Rti (emit_move_r_r cfg dst src) := by
  unfold emit_move_r_r
  repeat' with_reducible first
    | exact rti_E _ _
    | exact rti_get_reg _ _ _
    | exact rti_get_tmp
    | exact rti_get_tmp_arg _ _
    | exact rti_get_reg_arg _ _ _
    | exact rti_free_tmp _
    | exact rti_clean
    | exact rti_invalidate
    | exact rti_flush
    | exact rti_add_cycles _
    | exact rti_set_cycles _
    | exact rti_set_test_irq
    | exact rti_get_pc
    | exact rti_get_delayed_op
    | exact rti_DELAYED_OP
    | exact rti_emit_move_r_imm32 _ _ _
    | apply steps_pure Rti rti_refl
    | apply steps_bind Rti rti_trans
    | apply steps_ite Rti
    | intro _
    | dsimp only
    | split

theorem rti_emit_or_t_if_eq (srr : Int) :
    Steps Rti (emit_or_t_if_eq srr) := by
  unfold emit_or_t_if_eq
  repeat' with_reducible first
    | exact rti_E _ _
    | exact rti_get_reg _ _ _
    | exact rti_get_tmp
    | exact rti_get_tmp_arg _ _
    | exact rti_get_reg_arg _ _ _
    | exact rti_free_tmp _
    | exact rti_clean
    | exact rti_invalidate
    | exact rti_flush
    | exact rti_add_cycles _
    | exact rti_set_cycles _
    | exact rti_set_test_irq
    | exact rti_get_pc
    | exact rti_get_delayed_op
    | exact rti_DELAYED_OP
    | exact rti_emit_move_r_imm32 _ _ _
    | exact rti_emit_move_r_r _ _ _
    | apply steps_pure Rti rti_refl
    | apply steps_bind Rti rti_trans
    | apply steps_ite Rti
    | intro _
    | dsimp only
    | split

theorem rti_emit_or_bit_c (skip c sr : Int) (bit : Nat) :
    Steps Rti (emit_or_bit_c skip c sr bit) := by
  unfold emit_or_bit_c
  repeat' with_reducible first
    | exact rti_E _ _
    | exact rti_get_reg _ _ _
    | exact rti_get_tmp
    | exact rti_get_tmp_arg _ _
    | exact rti_get_reg_arg _ _ _
    | exact rti_free_tmp _
    | exact rti_clean
    | exact rti_invalidate
    | exact rti_flush
    | exact rti_add_cycles _
    | exact rti_set_cycles _
    | exact rti_set_test_irq
    | exact rti_get_pc
    | exact rti_get_delayed_op
    | exact rti_DELAYED_OP
    | exact rti_emit_move_r_imm32 _ _ _
    | exact rti_emit_move_r_r _ _ _
    | exact rti_emit_or_t_if_eq _
    | apply steps_pure Rti rti_refl
    | apply steps_bind Rti rti_trans
    | apply steps_ite Rti
    | intro _
    | dsimp only
    | split

theorem rti_emit_memcall (f8 f16 f32 : Int) (size : Nat) :
    Steps Rti (emit_memcall f8 f16 f32 size) := by
  unfold emit_memcall
  repeat' with_reducible first
    | exact rti_E _ _
    | exact rti_get_reg _ _ _
    | exact rti_get_tmp
    | exact rti_get_tmp_arg _ _
    | exact rti_get_reg_arg _ _ _
    | exact rti_free_tmp _
    | exact rti_clean
    | exact rti_invalidate
    | exact rti_flush
    | exact rti_add_cycles _
    | exact rti_set_cycles _
    | exact rti_set_test_irq
    | exact rti_get_pc
    | exact rti_get_delayed_op
    | exact rti_DELAYED_OP
    | exact rti_emit_move_r_imm32 _ _ _
    | exact rti_emit_move_r_r _ _ _
    | exact rti_emit_or_t_if_eq _
    | exact rti_emit_or_bit_c _ _ _ _
    | apply steps_pure Rti rti_refl
    | apply steps_bind Rti rti_trans
    | apply steps_ite Rti
    | intro _
    | dsimp only
    | split

theorem rti_emit_memhandler_read (cfg : Config) (size : Nat) :
    Steps Rti (emit_memhandler_read cfg size) := by
  unfold emit_memhandler_read
  repeat' with_reducible first
    | exact rti_E _ _
    | exact rti_get_reg _ _ _
    | exact rti_get_tmp
    | exact rti_get_tmp_arg _ _
    | exact rti_get_reg_arg _ _ _
    | exact rti_free_tmp _
    | exact rti_clean
    | exact rti_invalidate
    | exact rti_flush
    | exact rti_add_cycles _
    | exact rti_set_cycles _
    | exact rti_set_test_irq
    | exact rti_get_pc
    | exact rti_get_delayed_op
    | exact rti_DELAYED_OP
    | exact rti_emit_move_r_imm32 _ _ _
    | exact rti_emit_move_r_r _ _ _
    | exact rti_emit_or_t_if_eq _
    | exact rti_emit_or_bit_c _ _ _ _
    | exact rti_emit_memcall _ _ _ _
    | apply steps_pure Rti rti_refl
    | apply steps_bind Rti rti_trans
    | apply steps_ite Rti
    | intro _
    | dsimp only
    | split

theorem rti_emit_memhandler_write (cfg : Config) (size : Nat) :
    Steps Rti (emit_memhandler_write cfg size) := by
  unfold emit_memhandler_write
  repeat' with_reducible first
    | exact rti_E _ _
    | exact rti_get_reg _ _ _
    | exact rti_get_tmp
    | exact rti_get_tmp_arg _ _
    | exact rti_get_reg_arg _ _ _
    | exact rti_free_tmp _
    | exact rti_clean
    | exact rti_invalidate
    | exact rti_flush
    | exact rti_add_cycles _
    | exact rti_set_cycles _
    | exact rti_set_test_irq
    | exact rti_get_pc
    | exact rti_get_delayed_op
    | exact rti_DELAYED_OP
    | exact rti_emit_move_r_imm32 _ _ _
    | exact rti_emit_move_r_r _ _ _
    | exact rti_emit_or_t_if_eq _
    | exact rti_emit_or_bit_c _ _ _ _
    | exact rti_emit_memcall _ _ _ _
    | exact rti_emit_memhandler_read _ _
    | apply steps_pure Rti rti_refl
    | apply steps_bind Rti rti_trans
    | apply steps_ite Rti
    | intro _
    | dsimp only
    | split

theorem rti_emit_indirect_indexed_read (cfg : Config) (rx ry size : Nat) :
    Steps Rti (emit_indirect_indexed_read cfg rx ry size) := by
  unfold emit_indirect_indexed_read
  repeat' with_reducible first
    | exact rti_E _ _
    | exact rti_get_reg _ _ _
    | exact rti_get_tmp
    | exact rti_get_tmp_arg _ _
    | exact rti_get_reg_arg _ _ _
    | exact rti_free_tmp _
    | exact rti_clean
    | exact rti_invalidate
    | exact rti_flush
    | exact rti_add_cycles _
    | exact rti_set_cycles _
    | exact rti_set_test_irq
    | exact rti_get_pc
    | exact rti_get_delayed_op
    | exact rti_DELAYED_OP
    | exact rti_emit_move_r_imm32 _ _ _
    | exact rti_emit_move_r_r _ _ _
    | exact rti_emit_or_t_if_eq _
    | exact rti_emit_or_bit_c _ _ _ _
    | exact rti_emit_memcall _ _ _ _
    | exact rti_emit_memhandler_read _ _
    | exact rti_emit_memhandler_write _ _
    | apply steps_pure Rti rti_refl
    | apply steps_bind Rti rti_trans
    | apply steps_ite Rti
    | intro _
    | dsimp only
    | split

theorem rti_emit_indirect_indexed_write (cfg : Config) (tmp_wr : Int) (rx ry size : Nat) :
    Steps Rti (emit_indirect_indexed_write cfg tmp_wr rx ry size) := by
  unfold emit_indirect_indexed_write
  repeat' with_reducible first
    | exact rti_E _ _
    | exact rti_get_reg _ _ _
    | exact rti_get_tmp
    | exact rti_get_tmp_arg _ _
    | exact rti_get_reg_arg _ _ _
    | exact rti_free_tmp _
    | exact rti_clean
    | exact rti_invalidate
    | exact rti_flush
    | exact rti_add_cycles _
    | exact rti_set_cycles _
    | exact rti_set_test_irq
    | exact rti_get_pc
    | exact rti_get_delayed_op
    | exact rti_DELAYED_OP
    | exact rti_emit_move_r_imm32 _ _ _
    | exact rti_emit_move_r_r _ _ _
    | exact rti_emit_or_t_if_eq _
    | exact rti_emit_or_bit_c _ _ _ _
    | exact rti_emit_memcall _ _ _ _
    | exact rti_emit_memhandler_read _ _
    | exact rti_emit_memhandler_write _ _
    | exact rti_emit_indirect_indexed_read _ _ _ _
    | apply steps_pure Rti rti_refl
    | apply steps_bind Rti rti_trans
    | apply steps_ite Rti
    | intro _
    | dsimp only
    | split

theorem rti_emit_indirect_read_double (cfg : Config) (rn rm size : Nat) :
    Steps Rti (emit_indirect_read_double cfg rn rm size) := by
  unfold emit_indirect_read_double
  repeat' with_reducible first
    | exact rti_E _ _
    | exact rti_get_reg _ _ _
    | exact rti_get_tmp
    | exact rti_get_tmp_arg _ _
    | exact rti_get_reg_arg _ _ _
    | exact rti_free_tmp _
    | exact rti_clean
    | exact rti_invalidate
    | exact rti_flush
    | exact rti_add_cycles _
    | exact rti_set_cycles _
    | exact rti_set_test_irq
    | exact rti_get_pc
    | exact rti_get_delayed_op
    | exact rti_DELAYED_OP
    | exact rti_emit_move_r_imm32 _ _ _
    | exact rti_emit_move_r_r _ _ _
    | exact rti_emit_or_t_if_eq _
    | exact rti_emit_or_bit_c _ _ _ _
    | exact rti_emit_memcall _ _ _ _
    | exact rti_emit_memhandler_read _ _
    | exact rti_emit_memhandler_write _ _
    | exact rti_emit_indirect_indexed_read _ _ _ _
    | exact rti_emit_indirect_indexed_write _ _ _ _ _
    | apply steps_pure Rti rti_refl
    | apply steps_bind Rti rti_trans
    | apply steps_ite Rti
    | intro _
    | dsimp only
    | split

theorem rti_default_ (cfg : Config) (op : Nat) :
    Steps Rti (default_ cfg op) := by
  unfold default_
  repeat' with_reducible first
    | exact rti_E _ _
    | exact rti_get_reg _ _ _
    | exact rti_get_tmp
    | exact rti_get_tmp_arg _ _
    | exact rti_get_reg_arg _ _ _
    | exact rti_free_tmp _
    | exact rti_clean
    | exact rti_invalidate
    | exact rti_flush
    | exact rti_add_cycles _
    | exact rti_set_cycles _
    | exact rti_set_test_irq
    | exact rti_get_pc
    | exact rti_get_delayed_op
    | exact rti_DELAYED_OP
    | exact rti_emit_move_r_imm32 _ _ _
    | exact rti_emit_move_r_r _ _ _
    | exact rti_emit_or_t_if_eq _
    | exact rti_emit_or_bit_c _ _ _ _
    | exact rti_emit_memcall _ _ _ _
    | exact rti_emit_memhandler_read _ _
    | exact rti_emit_memhandler_write _ _
    | exact rti_emit_indirect_indexed_read _ _ _ _
    | exact rti_emit_indirect_indexed_write _ _ _ _ _
    | exact rti_emit_indirect_read_double _ _ _ _
    | apply steps_pure Rti rti_refl
    | apply steps_bind Rti rti_trans
    | apply steps_ite Rti
    | intro _
    | dsimp only
    | split

theorem rti_op_0 (cfg : Config) (op : Nat) :
    Steps Rti (op_0 cfg op) := by
  unfold op_0
  repeat' with_reducible first
    | exact rti_E _ _
    | exact rti_get_reg _ _ _
    | exact rti_get_tmp
    | exact rti_get_tmp_arg _ _
    | exact rti_get_reg_arg _ _ _
    | exact rti_free_tmp _
    | exact rti_clean
    | exact rti_invalidate
    | exact rti_flush
    | exact rti_add_cycles _
    | exact rti_set_cycles _
    | exact rti_set_test_irq
    | exact rti_get_pc
    | exact rti_get_delayed_op
    | exact rti_DELAYED_OP
    | exact rti_emit_move_r_imm32 _ _ _
    | exact rti_emit_move_r_r _ _ _
    | exact rti_emit_or_t_if_eq _
    | exact rti_emit_or_bit_c _ _ _ _
    | exact rti_emit_memcall _ _ _ _
    | exact rti_emit_memhandler_read _ _
    | exact rti_emit_memhandler_write _ _
    | exact rti_emit_indirect_indexed_read _ _ _ _
    | exact rti_emit_indirect_indexed_write _ _ _ _ _
    | exact rti_emit_indirect_read_double _ _ _ _
    | exact rti_default_ _ _
    | apply steps_pure Rti rti_refl
    | apply steps_bind Rti rti_trans
    | apply steps_ite Rti
    | intro _
    | dsimp only
    | split

theorem rti_op_1 (cfg : Config) (op : Nat) :
    Steps Rti (op_1 cfg op) := by
  unfold op_1
  repeat' with_reducible first
    | exact rti_E _ _
    | exact rti_get_reg _ _ _
    | exact rti_get_tmp
    | exact rti_get_tmp_arg _ _
    | exact rti_get_reg_arg _ _ _
    | exact rti_free_tmp _
    | exact rti_clean
    | exact rti_invalidate
    | exact rti_flush
    | exact rti_add_cycles _
    | exact rti_set_cycles _
    | exact rti_set_test_irq
    | exact rti_get_pc
    | exact rti_get_delayed_op
    | exact rti_DELAYED_OP
    | exact rti_emit_move_r_imm32 _ _ _
    | exact rti_emit_move_r_r _ _ _
    | exact rti_emit_or_t_if_eq _
    | exact rti_emit_or_bit_c _ _ _ _
    | exact rti_emit_memcall _ _ _ _
    | exact rti_emit_memhandler_read _ _
    | exact rti_emit_memhandler_write _ _
    | exact rti_emit_indirect_indexed_read _ _ _ _
    | exact rti_emit_indirect_indexed_write _ _ _ _ _
    | exact rti_emit_indirect_read_double _ _ _ _
    | exact rti_default_ _ _
    | exact rti_op_0 _ _
    | apply steps_pure Rti rti_refl
    | apply steps_bind Rti rti_trans
    | apply steps_ite Rti
    | intro _
    | dsimp only
    | split

theorem rti_op_2 (cfg : Config) (op : Nat) :
    Steps Rti (op_2 cfg op) := by
  unfold op_2
  repeat' with_reducible first
    | exact rti_E _ _
    | exact rti_get_reg _ _ _
    | exact rti_get_tmp
    | exact rti_get_tmp_arg _ _
    | exact rti_get_reg_arg _ _ _
    | exact rti_free_tmp _
    | exact rti_clean
    | exact rti_invalidate
    | exact rti_flush
    | exact rti_add_cycles _
    | exact rti_set_cycles _
    | exact rti_set_test_irq
    | exact rti_get_pc
    | exact rti_get_delayed_op
    | exact rti_DELAYED_OP
    | exact rti_emit_move_r_imm32 _ _ _
    | exact rti_emit_move_r_r _ _ _
    | exact rti_emit_or_t_if_eq _
    | exact rti_emit_or_bit_c _ _ _ _
    | exact rti_emit_memcall _ _ _ _
    | exact rti_emit_memhandler_read _ _
    | exact rti_emit_memhandler_write _ _
    | exact rti_emit_indirect_indexed_read _ _ _ _
    | exact rti_emit_indirect_indexed_write _ _ _ _ _
    | exact rti_emit_indirect_read_double _ _ _ _
    | exact rti_default_ _ _
    | exact rti_op_0 _ _
    | exact rti_op_1 _ _
    | apply steps_pure Rti rti_refl
    | apply steps_bind Rti rti_trans
    | apply steps_ite Rti
    | intro _
    | dsimp only
    | split

theorem rti_op_3 (cfg : Config) (op : Nat) :
    Steps Rti (op_3 cfg op) := by
  unfold op_3
  repeat' with_reducible first
    | exact rti_E _ _
    | exact rti_get_reg _ _ _
    | exact rti_get_tmp
    | exact rti_get_tmp_arg _ _
    | exact rti_get_reg_arg _ _ _
    | exact rti_free_tmp _
    | exact rti_clean
    | exact rti_invalidate
    | exact rti_flush
    | exact rti_add_cycles _
    | exact rti_set_cycles _
    | exact rti_set_test_irq
    | exact rti_get_pc
    | exact rti_get_delayed_op
    | exact rti_DELAYED_OP
    | exact rti_emit_move_r_imm32 _ _ _
    | exact rti_emit_move_r_r _ _ _
    | exact rti_emit_or_t_if_eq _
    | exact rti_emit_or_bit_c _ _ _ _
    | exact rti_emit_memcall _ _ _ _
    | exact rti_emit_memhandler_read _ _
    | exact rti_emit_memhandler_write _ _
    | exact rti_emit_indirect_indexed_read _ _ _ _
    | exact rti_emit_indirect_indexed_write _ _ _ _ _
    | exact rti_emit_indirect_read_double _ _ _ _
    | exact rti_default_ _ _
    | exact rti_op_0 _ _
    | exact rti_op_1 _ _
    | exact rti_op_2 _ _
    | apply steps_pure Rti rti_refl
    | apply steps_bind Rti rti_trans
    | apply steps_ite Rti
    | intro _
    | dsimp only
    | split

theorem rti_op_4 (cfg : Config) (mem : Nat → Nat) (op : Nat) :
    Steps Rti (op_4 cfg mem op) := by
  unfold op_4
  repeat' with_reducible first
    | exact rti_E _ _
    | exact rti_get_reg _ _ _
    | exact rti_get_tmp
    | exact rti_get_tmp_arg _ _
    | exact rti_get_reg_arg _ _ _
    | exact rti_free_tmp _
    | exact rti_clean
    | exact rti_invalidate
    | exact rti_flush
    | exact rti_add_cycles _
    | exact rti_set_cycles _
    | exact rti_set_test_irq
    | exact rti_get_pc
    | exact rti_get_delayed_op
    | exact rti_DELAYED_OP
    | exact rti_emit_move_r_imm32 _ _ _
    | exact rti_emit_move_r_r _ _ _
    | exact rti_emit_or_t_if_eq _
    | exact rti_emit_or_bit_c _ _ _ _
    | exact rti_emit_memcall _ _ _ _
    | exact rti_emit_memhandler_read _ _
    | exact rti_emit_memhandler_write _ _
    | exact rti_emit_indirect_indexed_read _ _ _ _
    | exact rti_emit_indirect_indexed_write _ _ _ _ _
    | exact rti_emit_indirect_read_double _ _ _ _
    | exact rti_default_ _ _
    | exact rti_op_0 _ _
    | exact rti_op_1 _ _
    | exact rti_op_2 _ _
    | exact rti_op_3 _ _
    | apply steps_pure Rti rti_refl
    | apply steps_bind Rti rti_trans
    | apply steps_ite Rti
    | intro _
    | dsimp only
    | split

theorem rti_op_5 (cfg : Config) (op : Nat) :
    Steps Rti (op_5 cfg op) := by
  unfold op_5
  repeat' with_reducible first
    | exact rti_E _ _
    | exact rti_get_reg _ _ _
    | exact rti_get_tmp
    | exact rti_get_tmp_arg _ _
    | exact rti_get_reg_arg _ _ _
    | exact rti_free_tmp _
    | exact rti_clean
    | exact rti_invalidate
    | exact rti_flush
    | exact rti_add_cycles _
    | exact rti_set_cycles _
    | exact rti_set_test_irq
    | exact rti_get_pc
    | exact rti_get_delayed_op
    | exact rti_DELAYED_OP
    | exact rti_emit_move_r_imm32 _ _ _
    | exact rti_emit_move_r_r _ _ _
    | exact rti_emit_or_t_if_eq _
    | exact rti_emit_or_bit_c _ _ _ _
    | exact rti_emit_memcall _ _ _ _
    | exact rti_emit_memhandler_read _ _
    | exact rti_emit_memhandler_write _ _
    | exact rti_emit_indirect_indexed_read _ _ _ _
    | exact rti_emit_indirect_indexed_write _ _ _ _ _
    | exact rti_emit_indirect_read_double _ _ _ _
    | exact rti_default_ _ _
    | exact rti_op_0 _ _
    | exact rti_op_1 _ _
    | exact rti_op_2 _ _
    | exact rti_op_3 _ _
    | exact rti_op_4 _ _ _
    | apply steps_pure Rti rti_refl
    | apply steps_bind Rti rti_trans
    | apply steps_ite Rti
    | intro _
    | dsimp only
    | split

theorem rti_op_6 (cfg : Config) (op : Nat) :
    Steps Rti (op_6 cfg op) := by
  unfold op_6
  repeat' with_reducible first
    | exact rti_E _ _
    | exact rti_get_reg _ _ _
    | exact rti_get_tmp
    | exact rti_get_tmp_arg _ _
    | exact rti_get_reg_arg _ _ _
    | exact rti_free_tmp _
    | exact rti_clean
    | exact rti_invalidate
    | exact rti_flush
    | exact rti_add_cycles _
    | exact rti_set_cycles _
    | exact rti_set_test_irq
    | exact rti_get_pc
    | exact rti_get_delayed_op
    | exact rti_DELAYED_OP
    | exact rti_emit_move_r_imm32 _ _ _
    | exact rti_emit_move_r_r _ _ _
    | exact rti_emit_or_t_if_eq _
    | exact rti_emit_or_bit_c _ _ _ _
    | exact rti_emit_memcall _ _ _ _
    | exact rti_emit_memhandler_read _ _
    | exact rti_emit_memhandler_write _ _
    | exact rti_emit_indirect_indexed_read _ _ _ _
    | exact rti_emit_indirect_indexed_write _ _ _ _ _
    | exact rti_emit_indirect_read_double _ _ _ _
    | exact rti_default_ _ _
    | exact rti_op_0 _ _
    | exact rti_op_1 _ _
    | exact rti_op_2 _ _
    | exact rti_op_3 _ _
    | exact rti_op_4 _ _ _
    | exact rti_op_5 _ _
    | apply steps_pure Rti rti_refl
    | apply steps_bind Rti rti_trans
    | apply steps_ite Rti
    | intro _
    | dsimp only
    | split

theorem rti_op_7 (cfg : Config) (op : Nat) :
    Steps Rti (op_7 cfg op) := by
  unfold op_7
  repeat' with_reducible first
    | exact rti_E _ _
    | exact rti_get_reg _ _ _
    | exact rti_get_tmp
    | exact rti_get_tmp_arg _ _
    | exact rti_get_reg_arg _ _ _
    | exact rti_free_tmp _
    | exact rti_clean
    | exact rti_invalidate
    | exact rti_flush
    | exact rti_add_cycles _
    | exact rti_set_cycles _
    | exact rti_set_test_irq
    | exact rti_get_pc
    | exact rti_get_delayed_op
    | exact rti_DELAYED_OP
    | exact rti_emit_move_r_imm32 _ _ _
    | exact rti_emit_move_r_r _ _ _
    | exact rti_emit_or_t_if_eq _
    | exact rti_emit_or_bit_c _ _ _ _
    | exact rti_emit_memcall _ _ _ _
    | exact rti_emit_memhandler_read _ _
    | exact rti_emit_memhandler_write _ _
    | exact rti_emit_indirect_indexed_read _ _ _ _
    | exact rti_emit_indirect_indexed_write _ _ _ _ _
    | exact rti_emit_indirect_read_double _ _ _ _
    | exact rti_default_ _ _
    | exact rti_op_0 _ _
    | exact rti_op_1 _ _
    | exact rti_op_2 _ _
    | exact rti_op_3 _ _
    | exact rti_op_4 _ _ _
    | exact rti_op_5 _ _
    | exact rti_op_6 _ _
    | apply steps_pure Rti rti_refl
    | apply steps_bind Rti rti_trans
    | apply steps_ite Rti
    | intro _
    | dsimp only
    | split

theorem rti_op_8_branch (cfg : Config) (op : Nat) :
    Steps Rti (op_8_branch cfg op) := by
  unfold op_8_branch
  repeat' with_reducible first
    | exact rti_E _ _
    | exact rti_get_reg _ _ _
    | exact rti_get_tmp
    | exact rti_get_tmp_arg _ _
    | exact rti_get_reg_arg _ _ _
    | exact rti_free_tmp _
    | exact rti_clean
    | exact rti_invalidate
    | exact rti_flush
    | exact rti_add_cycles _
    | exact rti_set_cycles _
    | exact rti_set_test_irq
    | exact rti_get_pc
    | exact rti_get_delayed_op
    | exact rti_DELAYED_OP
    | exact rti_emit_move_r_imm32 _ _ _
    | exact rti_emit_move_r_r _ _ _
    | exact rti_emit_or_t_if_eq _
    | exact rti_emit_or_bit_c _ _ _ _
    | exact rti_emit_memcall _ _ _ _
    | exact rti_emit_memhandler_read _ _
    | exact rti_emit_memhandler_write _ _
    | exact rti_emit_indirect_indexed_read _ _ _ _
    | exact rti_emit_indirect_indexed_write _ _ _ _ _
    | exact rti_emit_indirect_read_double _ _ _ _
    | exact rti_default_ _ _
    | exact rti_op_0 _ _
    | exact rti_op_1 _ _
    | exact rti_op_2 _ _
    | exact rti_op_3 _ _
    | exact rti_op_4 _ _ _
    | exact rti_op_5 _ _
    | exact rti_op_6 _ _
    | exact rti_op_7 _ _
    | apply steps_pure Rti rti_refl
    | apply steps_bind Rti rti_trans
    | apply steps_ite Rti
    | intro _
    | dsimp only
    | split

theorem rti_op_8 (cfg : Config) (op : Nat) :
    Steps Rti (op_8 cfg op) := by
  unfold op_8
  repeat' with_reducible first
    | exact rti_E _ _
    | exact rti_get_reg _ _ _
    | exact rti_get_tmp
    | exact rti_get_tmp_arg _ _
    | exact rti_get_reg_arg _ _ _
    | exact rti_free_tmp _
    | exact rti_clean
    | exact rti_invalidate
    | exact rti_flush
    | exact rti_add_cycles _
    | exact rti_set_cycles _
    | exact rti_set_test_irq
    | exact rti_get_pc
    | exact rti_get_delayed_op
    | exact rti_DELAYED_OP
    | exact rti_emit_move_r_imm32 _ _ _
    | exact rti_emit_move_r_r _ _ _
    | exact rti_emit_or_t_if_eq _
    | exact rti_emit_or_bit_c _ _ _ _
    | exact rti_emit_memcall _ _ _ _
    | exact rti_emit_memhandler_read _ _
    | exact rti_emit_memhandler_write _ _
    | exact rti_emit_indirect_indexed_read _ _ _ _
    | exact rti_emit_indirect_indexed_write _ _ _ _ _
    | exact rti_emit_indirect_read_double _ _ _ _
    | exact rti_default_ _ _
    | exact rti_op_0 _ _
    | exact rti_op_1 _ _
    | exact rti_op_2 _ _
    | exact rti_op_3 _ _
    | exact rti_op_4 _ _ _
    | exact rti_op_5 _ _
    | exact rti_op_6 _ _
    | exact rti_op_7 _ _
    | exact rti_op_8_branch _ _
    | apply steps_pure Rti rti_refl
    | apply steps_bind Rti rti_trans
    | apply steps_ite Rti
    | intro _
    | dsimp only
    | split

theorem rti_op_9 (cfg : Config) (op : Nat) :
    Steps Rti (op_9 cfg op) := by
  unfold op_9
  repeat' with_reducible first
    | exact rti_E _ _
    | exact rti_get_reg _ _ _
    | exact rti_get_tmp
    | exact rti_get_tmp_arg _ _
    | exact rti_get_reg_arg _ _ _
    | exact rti_free_tmp _
    | exact rti_clean
    | exact rti_invalidate
    | exact rti_flush
    | exact rti_add_cycles _
    | exact rti_set_cycles _
    | exact rti_set_test_irq
    | exact rti_get_pc
    | exact rti_get_delayed_op
    | exact rti_DELAYED_OP
    | exact rti_emit_move_r_imm32 _ _ _
    | exact rti_emit_move_r_r _ _ _
    | exact rti_emit_or_t_if_eq _
    | exact rti_emit_or_bit_c _ _ _ _
    | exact rti_emit_memcall _ _ _ _
    | exact rti_emit_memhandler_read _ _
    | exact rti_emit_memhandler_write _ _
    | exact rti_emit_indirect_indexed_read _ _ _ _
    | exact rti_emit_indirect_indexed_write _ _ _ _ _
    | exact rti_emit_indirect_read_double _ _ _ _
    | exact rti_default_ _ _
    | exact rti_op_0 _ _
    | exact rti_op_1 _ _
    | exact rti_op_2 _ _
    | exact rti_op_3 _ _
    | exact rti_op_4 _ _ _
    | exact rti_op_5 _ _
    | exact rti_op_6 _ _
    | exact rti_op_7 _ _
    | exact rti_op_8 _ _
    | apply steps_pure Rti rti_refl
    | apply steps_bind Rti rti_trans
    | apply steps_ite Rti
    | intro _
    | dsimp only
    | split

theorem rti_do_bra (cfg : Config) (op : Nat) :
    Steps Rti (do_bra cfg op) := by
  unfold do_bra
  repeat' with_reducible first
    | exact rti_E _ _
    | exact rti_get_reg _ _ _
    | exact rti_get_tmp
    | exact rti_get_tmp_arg _ _
    | exact rti_get_reg_arg _ _ _
    | exact rti_free_tmp _
    | exact rti_clean
    | exact rti_invalidate
    | exact rti_flush
    | exact rti_add_cycles _
    | exact rti_set_cycles _
    | exact rti_set_test_irq
    | exact rti_get_pc
    | exact rti_get_delayed_op
    | exact rti_DELAYED_OP
    | exact rti_emit_move_r_imm32 _ _ _
    | exact rti_emit_move_r_r _ _ _
    | exact rti_emit_or_t_if_eq _
    | exact rti_emit_or_bit_c _ _ _ _
    | exact rti_emit_memcall _ _ _ _
    | exact rti_emit_memhandler_read _ _
    | exact rti_emit_memhandler_write _ _
    | exact rti_emit_indirect_indexed_read _ _ _ _
    | exact rti_emit_indirect_indexed_write _ _ _ _ _
    | exact rti_emit_indirect_read_double _ _ _ _
    | exact rti_default_ _ _
    | exact rti_op_0 _ _
    | exact rti_op_1 _ _
    | exact rti_op_2 _ _
    | exact rti_op_3 _ _
    | exact rti_op_4 _ _ _
    | exact rti_op_5 _ _
    | exact rti_op_6 _ _
    | exact rti_op_7 _ _
    | exact rti_op_8 _ _
    | exact rti_op_9 _ _
    | apply steps_pure Rti rti_refl
    | apply steps_bind Rti rti_trans
    | apply steps_ite Rti
    | intro _
    | dsimp only
    | split

theorem rti_op_A (cfg : Config) (op : Nat) :
    Steps Rti (op_A cfg op) := by
  unfold op_A
  repeat' with_reducible first
    | exact rti_E _ _
    | exact rti_get_reg _ _ _
    | exact rti_get_tmp
    | exact rti_get_tmp_arg _ _
    | exact rti_get_reg_arg _ _ _
    | exact rti_free_tmp _
    | exact rti_clean
    | exact rti_invalidate
    | exact rti_flush
    | exact rti_add_cycles _
    | exact rti_set_cycles _
    | exact rti_set_test_irq
    | exact rti_get_pc
    | exact rti_get_delayed_op
    | exact rti_DELAYED_OP
    | exact rti_emit_move_r_imm32 _ _ _
    | exact rti_emit_move_r_r _ _ _
    | exact rti_emit_or_t_if_eq _
    | exact rti_emit_or_bit_c _ _ _ _
    | exact rti_emit_memcall _ _ _ _
    | exact rti_emit_memhandler_read _ _
    | exact rti_emit_memhandler_write _ _
    | exact rti_emit_indirect_indexed_read _ _ _ _
    | exact rti_emit_indirect_indexed_write _ _ _ _ _
    | exact rti_emit_indirect_read_double _ _ _ _
    | exact rti_default_ _ _
    | exact rti_op_0 _ _
    | exact rti_op_1 _ _
    | exact rti_op_2 _ _
    | exact rti_op_3 _ _
    | exact rti_op_4 _ _ _
    | exact rti_op_5 _ _
    | exact rti_op_6 _ _
    | exact rti_op_7 _ _
    | exact rti_op_8 _ _
    | exact rti_op_9 _ _
    | exact rti_do_bra _ _
    | apply steps_pure Rti rti_refl
    | apply steps_bind Rti rti_trans
    | apply steps_ite Rti
    | intro _
    | dsimp only
    | split

theorem rti_op_B (cfg : Config) (op : Nat) :
    Steps Rti (op_B cfg op) := by
  unfold op_B
  repeat' with_reducible first
    | exact rti_E _ _
    | exact rti_get_reg _ _ _
    | exact rti_get_tmp
    | exact rti_get_tmp_arg _ _
    | exact rti_get_reg_arg _ _ _
    | exact rti_free_tmp _
    | exact rti_clean
    | exact rti_invalidate
    | exact rti_flush
    | exact rti_add_cycles _
    | exact rti_set_cycles _
    | exact rti_set_test_irq
    | exact rti_get_pc
    | exact rti_get_delayed_op
    | exact rti_DELAYED_OP
    | exact rti_emit_move_r_imm32 _ _ _
    | exact rti_emit_move_r_r _ _ _
    | exact rti_emit_or_t_if_eq _
    | exact rti_emit_or_bit_c _ _ _ _
    | exact rti_emit_memcall _ _ _ _
    | exact rti_emit_memhandler_read _ _
    | exact rti_emit_memhandler_write _ _
    | exact rti_emit_indirect_indexed_read _ _ _ _
    | exact rti_emit_indirect_indexed_write _ _ _ _ _
    | exact rti_emit_indirect_read_double _ _ _ _
    | exact rti_default_ _ _
    | exact rti_op_0 _ _
    | exact rti_op_1 _ _
    | exact rti_op_2 _ _
    | exact rti_op_3 _ _
    | exact rti_op_4 _ _ _
    | exact rti_op_5 _ _
    | exact rti_op_6 _ _
    | exact rti_op_7 _ _
    | exact rti_op_8 _ _
    | exact rti_op_9 _ _
    | exact rti_do_bra _ _
    | exact rti_op_A _ _
    | apply steps_pure Rti rti_refl
    | apply steps_bind Rti rti_trans
    | apply steps_ite Rti
    | intro _
    | dsimp only
    | split

theorem rti_end_rmw_op (cfg : Config) (tmp : Int) :
    Steps Rti (end_rmw_op cfg tmp) := by
  unfold end_rmw_op
  repeat' with_reducible first
    | exact rti_E _ _
    | exact rti_get_reg _ _ _
    | exact rti_get_tmp
    | exact rti_get_tmp_arg _ _
    | exact rti_get_reg_arg _ _ _
    | exact rti_free_tmp _
    | exact rti_clean
    | exact rti_invalidate
    | exact rti_flush
    | exact rti_add_cycles _
    | exact rti_set_cycles _
    | exact rti_set_test_irq
    | exact rti_get_pc
    | exact rti_get_delayed_op
    | exact rti_DELAYED_OP
    | exact rti_emit_move_r_imm32 _ _ _
    | exact rti_emit_move_r_r _ _ _
    | exact rti_emit_or_t_if_eq _
    | exact rti_emit_or_bit_c _ _ _ _
    | exact rti_emit_memcall _ _ _ _
    | exact rti_emit_memhandler_read _ _
    | exact rti_emit_memhandler_write _ _
    | exact rti_emit_indirect_indexed_read _ _ _ _
    | exact rti_emit_indirect_indexed_write _ _ _ _ _
    | exact rti_emit_indirect_read_double _ _ _ _
    | exact rti_default_ _ _
    | exact rti_op_0 _ _
    | exact rti_op_1 _ _
    | exact rti_op_2 _ _
    | exact rti_op_3 _ _
    | exact rti_op_4 _ _ _
    | exact rti_op_5 _ _
    | exact rti_op_6 _ _
    | exact rti_op_7 _ _
    | exact rti_op_8 _ _
    | exact rti_op_9 _ _
    | exact rti_do_bra _ _
    | exact rti_op_A _ _
    | exact rti_op_B _ _
    | apply steps_pure Rti rti_refl
    | apply steps_bind Rti rti_trans
    | apply steps_ite Rti
    | intro _
    | dsimp only
    | split

theorem rti_op_C (cfg : Config) (op : Nat) :
    Steps Rti (op_C cfg op) := by
  unfold op_C
  repeat' with_reducible first
    | exact rti_E _ _
    | exact rti_get_reg _ _ _
    | exact rti_get_tmp
    | exact rti_get_tmp_arg _ _
    | exact rti_get_reg_arg _ _ _
    | exact rti_free_tmp _
    | exact rti_clean
    | exact rti_invalidate
    | exact rti_flush
    | exact rti_add_cycles _
    | exact rti_set_cycles _
    | exact rti_set_test_irq
    | exact rti_get_pc
    | exact rti_get_delayed_op
    | exact rti_DELAYED_OP
    | exact rti_emit_move_r_imm32 _ _ _
    | exact rti_emit_move_r_r _ _ _
    | exact rti_emit_or_t_if_eq _
    | exact rti_emit_or_bit_c _ _ _ _
    | exact rti_emit_memcall _ _ _ _
    | exact rti_emit_memhandler_read _ _
    | exact rti_emit_memhandler_write _ _
    | exact rti_emit_indirect_indexed_read _ _ _ _
    | exact rti_emit_indirect_indexed_write _ _ _ _ _
    | exact rti_emit_indirect_read_double _ _ _ _
    | exact rti_default_ _ _
    | exact rti_op_0 _ _
    | exact rti_op_1 _ _
    | exact rti_op_2 _ _
    | exact rti_op_3 _ _
    | exact rti_op_4 _ _ _
    | exact rti_op_5 _ _
    | exact rti_op_6 _ _
    | exact rti_op_7 _ _
    | exact rti_op_8 _ _
    | exact rti_op_9 _ _
    | exact rti_do_bra _ _
    | exact rti_op_A _ _
    | exact rti_op_B _ _
    | exact rti_end_rmw_op _ _
    | apply steps_pure Rti rti_refl
    | apply steps_bind Rti rti_trans
    | apply steps_ite Rti
    | intro _
    | dsimp only
    | split

theorem rti_op_D (cfg : Config) (op : Nat) :
    Steps Rti (op_D cfg op) := by
  unfold op_D
  repeat' with_reducible first
    | exact rti_E _ _
    | exact rti_get_reg _ _ _
    | exact rti_get_tmp
    | exact rti_get_tmp_arg _ _
    | exact rti_get_reg_arg _ _ _
    | exact rti_free_tmp _
    | exact rti_clean
    | exact rti_invalidate
    | exact rti_flush
    | exact rti_add_cycles _
    | exact rti_set_cycles _
    | exact rti_set_test_irq
    | exact rti_get_pc
    | exact rti_get_delayed_op
    | exact rti_DELAYED_OP
    | exact rti_emit_move_r_imm32 _ _ _
    | exact rti_emit_move_r_r _ _ _
    | exact rti_emit_or_t_if_eq _
    | exact rti_emit_or_bit_c _ _ _ _
    | exact rti_emit_memcall _ _ _ _
    | exact rti_emit_memhandler_read _ _
    | exact rti_emit_memhandler_write _ _
    | exact rti_emit_indirect_indexed_read _ _ _ _
    | exact rti_emit_indirect_indexed_write _ _ _ _ _
    | exact rti_emit_indirect_read_double _ _ _ _
    | exact rti_default_ _ _
    | exact rti_op_0 _ _
    | exact rti_op_1 _ _
    | exact rti_op_2 _ _
    | exact rti_op_3 _ _
    | exact rti_op_4 _ _ _
    | exact rti_op_5 _ _
    | exact rti_op_6 _ _
    | exact rti_op_7 _ _
    | exact rti_op_8 _ _
    | exact rti_op_9 _ _
    | exact rti_do_bra _ _
    | exact rti_op_A _ _
    | exact rti_op_B _ _
    | exact rti_end_rmw_op _ _
    | exact rti_op_C _ _
    | apply steps_pure Rti rti_refl
    | apply steps_bind Rti rti_trans
    | apply steps_ite Rti
    | intro _
    | dsimp only
    | split

theorem rti_op_E (cfg : Config) (op : Nat) :
    Steps Rti (op_E cfg op) := by
  unfold op_E
  repeat' with_reducible first
    | exact rti_E _ _
    | exact rti_get_reg _ _ _
    | exact rti_get_tmp
    | exact rti_get_tmp_arg _ _
    | exact rti_get_reg_arg _ _ _
    | exact rti_free_tmp _
    | exact rti_clean
    | exact rti_invalidate
    | exact rti_flush
    | exact rti_add_cycles _
    | exact rti_set_cycles _
    | exact rti_set_test_irq
    | exact rti_get_pc
    | exact rti_get_delayed_op
    | exact rti_DELAYED_OP
    | exact rti_emit_move_r_imm32 _ _ _
    | exact rti_emit_move_r_r _ _ _
    | exact rti_emit_or_t_if_eq _
    | exact rti_emit_or_bit_c _ _ _ _
    | exact rti_emit_memcall _ _ _ _
    | exact rti_emit_memhandler_read _ _
    | exact rti_emit_memhandler_write _ _
    | exact rti_emit_indirect_indexed_read _ _ _ _
    | exact rti_emit_indirect_indexed_write _ _ _ _ _
    | exact rti_emit_indirect_read_double _ _ _ _
    | exact rti_default_ _ _
    | exact rti_op_0 _ _
    | exact rti_op_1 _ _
    | exact rti_op_2 _ _
    | exact rti_op_3 _ _
    | exact rti_op_4 _ _ _
    | exact rti_op_5 _ _
    | exact rti_op_6 _ _
    | exact rti_op_7 _ _
    | exact rti_op_8 _ _
    | exact rti_op_9 _ _
    | exact rti_do_bra _ _
    | exact rti_op_A _ _
    | exact rti_op_B _ _
    | exact rti_end_rmw_op _ _
    | exact rti_op_C _ _
    | exact rti_op_D _ _
    | apply steps_pure Rti rti_refl
    | apply steps_bind Rti rti_trans
    | apply steps_ite Rti
    | intro _
    | dsimp only
    | split

theorem rti_to_end_op (m : TM Unit) (h : Steps Rti m) : Steps Rti (to_end_op m) := by
  intro st a st2 hm
  simp only [to_end_op, TM.bind, TM.pure] at hm
  split at hm
  · simp at hm
  · rename_i u st1 h1
    simp only [Option.some.injEq, Prod.mk.injEq] at hm
    rw [← hm.2]
    exact h _ _ _ h1

theorem rti_translate_op (cfg : Config) (mem : Nat → Nat) (op : Nat) :
    Steps Rti (translate_op cfg mem op) := by
  unfold translate_op
  split
  all_goals with_reducible first
    | exact rti_op_8 _ _
    | exact rti_op_C _ _
    | (apply rti_to_end_op
       first
        | exact rti_op_0 _ _ | exact rti_op_1 _ _ | exact rti_op_2 _ _ | exact rti_op_3 _ _
        | exact rti_op_4 _ _ _ | exact rti_op_5 _ _ | exact rti_op_6 _ _ | exact rti_op_7 _ _
        | exact rti_op_9 _ _ | exact rti_op_A _ _ | exact rti_op_B _ _ | exact rti_op_D _ _
        | exact rti_op_E _ _ | exact rti_default_ _ _)

/-! ## Opcodes that set `test_irq` -/

theorem rti_keep (st st1 : TState) (h : Rti st st1) (h1 : st.test_irq = 1) :
    st1.test_irq = 1 := by
  rcases h with e | e
  · rw [e]; exact h1
  · exact e

theorem rt1_bind {α β : Type} (m : TM α) (f : α → TM β) (h1 : Steps Rt1 m)
    (h2 : ∀ a, Steps Rti (f a)) : Steps Rt1 (m >>= f) := by
  intro st b st2 h
  rw [tm_bind_eq_some] at h
  obtain ⟨a, st1, hm, h⟩ := h
  exact rti_keep _ _ (h2 a _ _ _ h) (h1 _ _ _ hm)

theorem rt1_last_bind {α β : Type} (m : TM α) (f : α → TM β)
    (h : ∀ a, Steps Rt1 (f a)) : Steps Rt1 (m >>= f) := by
  intro st b st2 hm
  rw [tm_bind_eq_some] at hm
  obtain ⟨a, st1, _, hm⟩ := hm
  exact h a st1 b st2 hm

theorem rt1_set_test_irq : Steps Rt1 set_test_irq := by
  intro st a st1 h
  simp only [set_test_irq, Option.some.injEq, Prod.mk.injEq] at h
  rw [← h.2]
  rfl

theorem rt1_op_0 (cfg : Config) (op : Nat)
    (hb : op &&& 0x0f = 0x0b ∧ op &&& 0xf00 = 0 ∧ (GET_Fx op = 1 ∨ GET_Fx op = 2)) :
    Steps Rt1 (op_0 cfg op) := by
  unfold op_0
  split
  all_goals first
    | (exfalso; omega)
    | (exfalso; simp only [imp_false] at *; omega)
    | skip
  all_goals apply steps_ite_hyp
  all_goals intro hc
  all_goals first
    | (exfalso; omega)
    | (exfalso; simp only [imp_false] at *; omega)
    | skip
  all_goals try split
  all_goals first
    | (exfalso; omega)
    | (exfalso; simp only [imp_false] at *; omega)
    | skip
  all_goals
    repeat' with_reducible first
      | exact rt1_set_test_irq
      | apply rt1_bind _ _ rt1_set_test_irq
      | exact rti_add_cycles _
      | exact rti_set_cycles _
      | apply rt1_last_bind
      | refine fun _ => ?_
      | dsimp only

theorem rt1_op_4 (cfg : Config) (mem : Nat → Nat) (op : Nat)
    (hb : (op &&& 0x0f = 0x0e ∧ GET_Fx op = 0) ∨ (op &&& 0x0f = 0x07 ∧ op &&& 0x3f = 0x07)) :
    Steps Rt1 (op_4 cfg mem op) := by
  unfold op_4
  rcases hb with ⟨h1, h2⟩ | ⟨h1, h2⟩
  · simp only [h1, h2]
    repeat' with_reducible first
      | exact rt1_set_test_irq
      | apply rt1_bind _ _ rt1_set_test_irq
      | apply rt1_last_bind
      | refine fun _ => ?_
      | rw [if_pos True.intro]
      | dsimp only
  · simp only [h1, h2]
    repeat' with_reducible first
      | exact rt1_set_test_irq
      | apply rt1_bind _ _ rt1_set_test_irq
      | exact rti_E _ _
      | exact rti_get_reg _ _ _
      | exact rti_free_tmp _
      | apply steps_bind Rti rti_trans
      | apply rt1_last_bind
      | refine fun _ => ?_
      | rw [if_pos True.intro]
      | dsimp only

theorem translate_op_sets_test_irq (cfg : Config) (mem : Nat → Nat) (op : Nat)
    (h : is_sleep op ∨ is_rte op ∨ is_ldc_sr op ∨ is_ldcl_sr op) :
    Steps Rt1 (translate_op cfg mem op) := by
  unfold is_sleep is_rte is_ldc_sr is_ldcl_sr at h
  unfold translate_op
  split
  all_goals first
    | (exfalso; omega)
    | (exfalso; simp only [imp_false] at *; omega)
    | skip
  · exact steps_to_end_op _ _ (rt1_op_0 cfg op (by omega))
  · exact steps_to_end_op _ _ (rt1_op_4 cfg mem op (by omega))

/-- The `end_op:` part when `test_irq` is set outside a delay slot. -/
theorem end_op_irq (cfg : Config) (st : TState) (hd : st.delayed_op = 0)
    (hq : st.test_irq = 1) :
    end_op cfg st =
      (emit_move_r_imm32 cfg SHR_PC st.pc >>= fun _ => irq_end cfg >>= fun e =>
        (pure (some e) : TM (Option LoopExit))) st := by
  unfold end_op irq_end
  cases he : emit_move_r_imm32 cfg SHR_PC st.pc st with
  | none => simp [bind, TM.bind, pure, TM.pure, get_delayed_op, get_test_irq, get_pc, hd, hq, he]
  | some r =>
    simp [bind, TM.bind, pure, TM.pure, get_delayed_op, get_test_irq, get_pc, hd, hq, he,
      flush, E]

/-- The loop on an opcode that sets `test_irq`, is no branch and is not in a delay slot. -/
theorem test_irq_loop (cfg : Config) (mem : Nat → Nat) (fuel : Nat) (st0 : TState)
    (hd : st0.delayed_op = 0) (hcy : st0.cycles < BLOCK_CYCLE_LIMIT)
    (h1 : is_sleep (mem st0.pc) ∨ is_ldc_sr (mem st0.pc) ∨ is_ldcl_sr (mem st0.pc)) :
    translate_loop cfg mem (fuel + 1) st0 = test_irq_seq cfg mem st0 := by
  have hcl : is_sleep (mem st0.pc) ∨ is_rte (mem st0.pc) ∨ is_ldc_sr (mem st0.pc) ∨
      is_ldcl_sr (mem st0.pc) := by
    rcases h1 with h | h | h
    · exact Or.inl h
    · exact Or.inr (Or.inr (Or.inl h))
    · exact Or.inr (Or.inr (Or.inr h))
  have hnb : ¬is_delayed_branch (mem st0.pc) ∧ ¬is_bt_bf (mem st0.pc) ∧
      ¬is_trapa (mem st0.pc) := by
    unfold is_sleep is_ldc_sr is_ldcl_sr at h1
    unfold is_delayed_branch is_bt_bf is_trapa
    omega
  unfold test_irq_seq
  conv => lhs; unfold translate_loop
  rw [if_pos (Or.inl hcy)]
  simp only [bind, TM.bind, fetch_op, hd, gt_iff_lt, lt_self_iff_false, if_false]
  cases hm : translate_op cfg mem (mem st0.pc)
      { st0 with pc := (st0.pc + 2) % 4294967296, cycles := st0.cycles + 1, delayed_op := 0 } with
  | none => rfl
  | some r =>
    obtain ⟨ex1, s2⟩ := r
    obtain rfl := translate_op_exit cfg mem _ hnb.2.1 hnb.2.2 _ _ _ hm
    have hq : s2.test_irq = 1 := translate_op_sets_test_irq cfg mem _ hcl _ _ _ hm
    have hd2 : s2.delayed_op = 0 := by
      rcases (rop_translate_op cfg mem _ _ _ _ hm).2.1 with d | d
      · exact absurd d hnb.1
      · exact d
    simp only [end_op_irq cfg s2 hd2 hq, bind, TM.bind, get_pc, pure, TM.pure]
    cases emit_move_r_imm32 cfg SHR_PC s2.pc s2 with
    | none => rfl
    | some r2 =>
      simp only
      cases irq_end cfg r2.2 with
      | none => rfl
      | some r3 => rfl

/-- The loop on a delayed branch and its delay slot when one of the two sets `test_irq`. -/
theorem rte_loop (cfg : Config) (mem : Nat → Nat) (fuel : Nat) (st0 : TState)
    (hd : st0.delayed_op = 0) (hcy : st0.cycles < BLOCK_CYCLE_LIMIT)
    (h1 : is_delayed_branch (mem st0.pc))
    (h2 : is_plain_op (mem ((st0.pc + 2) % 4294967296)))
    (h3 : is_rte (mem st0.pc) ∨ is_sleep (mem ((st0.pc + 2) % 4294967296)) ∨
      is_ldc_sr (mem ((st0.pc + 2) % 4294967296)) ∨
      is_ldcl_sr (mem ((st0.pc + 2) % 4294967296))) :
    translate_loop cfg mem (fuel + 2) st0 = rte_seq cfg mem st0 := by
  rw [delayed_branch_loop cfg mem fuel st0 hd hcy h1 h2]
  unfold delay_slot_seq rte_seq
  simp only [bind, TM.bind, fetch_op]
  cases hm : translate_op cfg mem (mem st0.pc)
      { st0 with
        delayed_op := if st0.delayed_op > 0 then st0.delayed_op - 1 else st0.delayed_op
        pc := (st0.pc + 2) % 4294967296
        cycles := st0.cycles + 1 } with
  | none => rfl
  | some r =>
    obtain ⟨ex1, s2⟩ := r
    have hpc2 : s2.pc = (st0.pc + 2) % 4294967296 := (rop_translate_op cfg mem _ _ _ _ hm).1
    simp only
    cases hm2 : translate_op cfg mem (mem s2.pc)
        { s2 with
          delayed_op := if s2.delayed_op > 0 then s2.delayed_op - 1 else s2.delayed_op
          pc := (s2.pc + 2) % 4294967296
          cycles := s2.cycles + 1 } with
    | none => rfl
    | some r2 =>
      obtain ⟨ex2, s4⟩ := r2
      have hq4 : s4.test_irq = 1 := by
        rcases h3 with h | h
        · have hq2 : s2.test_irq = 1 :=
            translate_op_sets_test_irq cfg mem _ (Or.inr (Or.inl h)) _ _ _ hm
          exact rti_keep _ _ (rti_translate_op cfg mem _ _ _ _ hm2) hq2
        · rw [hpc2] at hm2
          have hcl : is_sleep (mem ((st0.pc + 2) % 4294967296)) ∨
              is_rte (mem ((st0.pc + 2) % 4294967296)) ∨
              is_ldc_sr (mem ((st0.pc + 2) % 4294967296)) ∨
              is_ldcl_sr (mem ((st0.pc + 2) % 4294967296)) := by
            rcases h with h | h | h
            · exact Or.inl h
            · exact Or.inr (Or.inr (Or.inl h))
            · exact Or.inr (Or.inr (Or.inr h))
          exact translate_op_sets_test_irq cfg mem _ hcl _ _ _ hm2
      simp only
      cases hm3 : emit_move_r_r cfg SHR_PC SHR_PPC s4 with
      | none => rfl
      | some r3 =>
        obtain ⟨u, s5⟩ := r3
        have hq5 : s5.test_irq = 1 :=
          rti_keep _ _ (rti_emit_move_r_r cfg SHR_PC SHR_PPC _ _ _ hm3) hq4
        simp only [get_test_irq, hq5, irq_end, bind, TM.bind]
        rfl

theorem irq_end_exit (cfg : Config) (st st1 : TState) (ex : LoopExit)
    (h : irq_end cfg st = some (ex, st1)) : ex = .end_block_btf := by
  unfold irq_end at h
  simp only [bind, TM.bind, flush, E, pure, TM.pure, Option.some.injEq, Prod.mk.injEq] at h
  exact h.1.symm

/-- C31: let the loop head be outside a delay slot with `cycles < BLOCK_CYCLE_LIMIT`.
Each of LDC Rm,SR, LDC.L @Rm+,SR, SLEEP and RTE (by the translator's decode conditions)
leaves its handler through `end_op` with `test_irq = 1`.  For the three that are no branch
the loop is exactly `test_irq_seq`: the opcode is translated, the constant `pc` (the
address after the opcode, `st0.pc + 2`) is stored to `SHR_PC`, then `irq_end` (the
register-cache flush, the context pointer as argument 0, the call of `sh2_test_irq`, and
`goto end_block_btf`) ends the block.  For RTE followed by an opcode that is no branch the
loop is exactly `rte_seq`: RTE is translated, then the delay-slot opcode, then
`emit_move_r_r(SHR_PC, SHR_PPC)`, then `irq_end` ends the block. -/
theorem test_irq_ends_block (cfg : Config) (mem : Nat → Nat) (fuel : Nat) (st0 : TState)
    (hd : st0.delayed_op = 0) (hcy : st0.cycles < BLOCK_CYCLE_LIMIT) :
    (∀ op, is_sleep op ∨ is_rte op ∨ is_ldc_sr op ∨ is_ldcl_sr op →
      ∀ st ex st1, translate_op cfg mem op st = some (ex, st1) →
        ex = .end_op ∧ st1.test_irq = 1) ∧
    (is_sleep (mem st0.pc) ∨ is_ldc_sr (mem st0.pc) ∨ is_ldcl_sr (mem st0.pc) →
      translate_loop cfg mem (fuel + 1) st0 = test_irq_seq cfg mem st0) ∧
    (is_rte (mem st0.pc) → is_plain_op (mem ((st0.pc + 2) % 4294967296)) →
      translate_loop cfg mem (fuel + 2) st0 = rte_seq cfg mem st0) ∧
    (∀ ex s1, (fetch_op mem >>= fun op => translate_op cfg mem op) st0 = some (ex, s1) →
      s1.pc = (st0.pc + 2) % 4294967296) ∧
    (∀ st st1 ex, irq_end cfg st = some (ex, st1) →
      ex = .end_block_btf ∧
      st1.rc = ((rcache_flush st.rc).emit ⟨.pass_arg_r, [0, cfg.CONTEXT_REG]⟩).emit
        ⟨.call, [sh2_test_irq_fn]⟩) := by
  refine ⟨?_, fun h1 => test_irq_loop cfg mem fuel st0 hd hcy h1, ?_, ?_, ?_⟩
  · intro op hop st ex st1 h
    have hnb : ¬is_bt_bf op ∧ ¬is_trapa op := by
      unfold is_sleep is_rte is_ldc_sr is_ldcl_sr at hop
      unfold is_bt_bf is_trapa
      omega
    exact ⟨translate_op_exit cfg mem op hnb.1 hnb.2 _ _ _ h,
      translate_op_sets_test_irq cfg mem op hop _ _ _ h⟩
  · intro h1 h2
    have hb : is_delayed_branch (mem st0.pc) := by
      unfold is_rte at h1
      unfold is_delayed_branch
      omega
    exact rte_loop cfg mem fuel st0 hd hcy hb h2 (Or.inl h1)
  · intro ex s1 h
    exact (fetch_translate_cycles cfg mem st0 s1 ex h).1
  · intro st st1 ex h
    refine ⟨irq_end_exit cfg st st1 ex h, ?_⟩
    unfold irq_end at h
    simp only [bind, TM.bind, flush, E, pure, TM.pure, Option.some.injEq, Prod.mk.injEq] at h
    rw [← h.2]

set_option maxRecDepth 100000 in
/-- Witness for `test_irq_ends_block`: the block `LDC R1,SR` at `0x06000010` on the ARM
build, and the code the loop emits for it. -/
theorem test_irq_ends_block_witness :
    ((0 : Int) < BLOCK_CYCLE_LIMIT) ∧ is_ldc_sr 0x410e ∧
    translate_loop arm_cfg (fun a => if a = 0x06000010 then 0x410e else 0x0009) (0 + 1)
        { rc := ⟨drc0.reg_temp, drc0.rcache_counter, []⟩
          pc := 0x06000010, cycles := 0, delayed_op := 0, test_irq := 0 } =
      test_irq_seq arm_cfg (fun a => if a = 0x06000010 then 0x410e else 0x0009)
        { rc := ⟨drc0.reg_temp, drc0.rcache_counter, []⟩
          pc := 0x06000010, cycles := 0, delayed_op := 0, test_irq := 0 } ∧
    (test_irq_seq arm_cfg (fun a => if a = 0x06000010 then 0x410e else 0x0009)
        { rc := ⟨drc0.reg_temp, drc0.rcache_counter, []⟩
          pc := 0x06000010, cycles := 0, delayed_op := 0, test_irq := 0 }).map
        (fun r => (r.1, r.2.pc, r.2.rc.code)) =
      some (.end_block_btf, 0x06000012,
        [⟨.write_sr, [5]⟩, ⟨.move_r_imm, [3, 0x06000012]⟩, ⟨.ctx_write, [3, 64]⟩,
          ⟨.pass_arg_r, [0, 11]⟩, ⟨.call, [8]⟩]) :=
  ⟨by decide, by decide,
    (test_irq_ends_block arm_cfg (fun a => if a = 0x06000010 then 0x410e else 0x0009) 0
      { rc := ⟨drc0.reg_temp, drc0.rcache_counter, []⟩
        pc := 0x06000010, cycles := 0, delayed_op := 0, test_irq := 0 }
      rfl (by decide)).2.1 (Or.inr (Or.inl (by decide))), by decide!⟩

/-! ## Copies of SR -/

theorem pool_avoids_set (hr : Int) (rt : List temp_reg_t) (i : Nat) (t t1 : temp_reg_t)
    (h : pool_avoids hr rt) (hi : rt[i]? = some t) (h1 : t1.reg = t.reg) :
    pool_avoids hr (rt.set i t1) := by
  intro a ta ha
  rcases getElem?_set_cases rt i a t1 ta ha with ⟨_, rfl⟩ | ⟨_, ha2⟩
  · rw [h1]; exact h i t hi
  · exact h a ta ha2

theorem pool_avoids_get_reg (cfg : Config) (hr0 : Int) (s s1 : RCache) (r : Nat)
    (mode : rc_gr_mode) (hr : Int) (h : pool_avoids hr0 s.reg_temp)
    (hg : rcache_get_reg cfg s r mode = some (hr, s1)) :
    pool_avoids hr0 s1.reg_temp ∧ (cfg.reg_map_g2h r = -1 → hr ≠ hr0) := by
  rcases rcache_get_reg_shape cfg s s1 r mode hr hg with
    ⟨hst, e, _⟩ | ⟨_, _, i, t, ht, hhr, hupd⟩
  · rw [e]
    exact ⟨h, fun hc => absurd hc hst⟩
  · have hne : hr ≠ hr0 := by rw [hhr]; exact h i t ht
    rcases hupd with ⟨_, _, e⟩ | ⟨_, _, e⟩
    · rw [e]
      exact ⟨pool_avoids_set hr0 _ i t _ h ht rfl, fun _ => hne⟩
    · rw [e]
      exact ⟨pool_avoids_set hr0 _ i t _ h ht rfl, fun _ => hne⟩

theorem pool_avoids_get_reg_arg (cfg : Config) (hr0 : Int) (s s1 : RCache) (arg r : Nat)
    (hr : Int) (h : pool_avoids hr0 s.reg_temp)
    (hg : rcache_get_reg_arg cfg s arg r = some (hr, s1)) :
    pool_avoids hr0 s1.reg_temp ∧ hr ≠ hr0 := by
  obtain ⟨i, t, ht, hhr, _, e⟩ := rcache_get_reg_arg_touch cfg s s1 arg r hr hg
  rw [e, hhr]
  exact ⟨pool_avoids_set hr0 _ i t _ h ht rfl, h i t ht⟩

theorem pool_avoids_clean (hr0 : Int) (s : RCache) (h : pool_avoids hr0 s.reg_temp) :
    pool_avoids hr0 (rcache_clean s).reg_temp := by
  intro i t hi
  rw [rcache_clean_reg_temp] at hi
  simp only [List.getElem?_map, Option.map_eq_some'] at hi
  obtain ⟨u, hu, rfl⟩ := hi
  have := h i u hu
  split <;> exact this

/-- The code `rcache_get_reg_arg(arg, r)` emits for a statically mapped `r`: a write-back of
the argument slot if it was dirty, then the move from the static register. -/
theorem rcache_get_reg_arg_static_code (cfg : Config) (s s1 : RCache) (arg r : Nat) (a : Int)
    (hst : cfg.reg_map_g2h r ≠ -1) (hne : a ≠ cfg.reg_map_g2h r)
    (h : rcache_get_reg_arg cfg s arg r = some (a, s1)) :
    ∃ pre, s1.code = s.code ++ pre ++ [⟨.move_r_r, [a, cfg.reg_map_g2h r]⟩] := by
  unfold rcache_get_reg_arg at h
  split at h
  · simp at h
  · rename_i id s2 hid
    obtain ⟨pre, hpre⟩ := cm_rcache_get_arg_id cfg s s2 arg id hid
    split at h
    · simp at h
    · rename_i t ht
      simp only [Option.some.injEq, Prod.mk.injEq] at h
      obtain ⟨hhr, rfl⟩ := h
      refine ⟨pre, ?_⟩
      have hne2 : ¬ cfg.reg_map_g2h r = (t.reg : Int) := by
        rw [hhr]; exact fun e => hne e.symm
      have hne3 : ¬ cfg.reg_map_g2h r = a := fun e => hne e.symm
      simp [hst, hne2, hne3, RCache.emit, hpre, hhr]

theorem emit_memhandler_write_code (cfg : Config) (st st1 : TState)
    (h : emit_memhandler_write cfg 2 st = some ((), st1)) :
    st1.rc.code = st.rc.code ++ write32_call cfg := by
  unfold emit_memhandler_write emit_memcall at h
  simp only [bind, TM.bind, E, invalidate, Option.some.injEq, Prod.mk.injEq, true_and] at h
  rw [← h]
  simp [RCache.emit, rcache_invalidate, write32_call]

theorem get_reg_static (cfg : Config) (r : Nat) (mode : rc_gr_mode) (st : TState)
    (hst : cfg.reg_map_g2h r ≠ -1) :
    get_reg cfg r mode st = some (cfg.reg_map_g2h r, st) := by
  simp [get_reg, lift_rc, rcache_get_reg, hst]

/-- The two calls of an SR copy, run on the host: the copy gets the low 12 bits of SR, SR
keeps its value, and so does every other register. -/
theorem sr_copy_run (a sr : Int) (hne : a ≠ sr) (h : Int → Nat) :
    ∃ h1, host_copy_run (sr_copy a sr) h = some h1 ∧ h1 a = h sr % 4096 ∧ h1 sr = h sr ∧
      ∀ r, r ≠ a → h1 r = h r := by
  refine ⟨Function.update (Function.update h a (h sr)) a
    (Function.update h a (h sr) a % 4294967296 % 2 ^ (32 - (20 : Int).toNat)), ?_, ?_, ?_, ?_⟩
  · simp [sr_copy, host_copy_run]
  · simp only [Function.update_same]
    have e : (2 : Nat) ^ (32 - (20 : Int).toNat) = 4096 := by decide
    rw [e]
    omega
  · rw [Function.update_noteq (fun e => hne e.symm), Function.update_noteq (fun e => hne e.symm)]
  · intro r hr
    rw [Function.update_noteq hr, Function.update_noteq hr]

/-- STC SR,Rn: the handler's code ends with the SR copy into the host register of Rn. -/
theorem stc_sr_code (cfg : Config) (mem : Nat → Nat) (op : Nat)
    (hst : cfg.reg_map_g2h SHR_SR ≠ -1) (hop : is_stc_sr op)
    (hrn : cfg.reg_map_g2h (GET_Rn op) ≠ cfg.reg_map_g2h SHR_SR)
    (st st1 : TState) (ex : OpExit)
    (hpool : pool_avoids (cfg.reg_map_g2h SHR_SR) st.rc.reg_temp)
    (h : translate_op cfg mem op st = some (ex, st1)) :
    ∃ tmp rc1 pre, rcache_get_reg cfg st.rc (GET_Rn op) .RC_GR_WRITE = some (tmp, rc1) ∧
      tmp ≠ cfg.reg_map_g2h SHR_SR ∧
      st1.rc.code = st.rc.code ++ pre ++ sr_copy tmp (cfg.reg_map_g2h SHR_SR) := by
  obtain ⟨h1, h2, h3⟩ := hop
  unfold translate_op at h
  simp only [h1] at h
  simp only [to_end_op, TM.bind] at h
  split at h
  · simp at h
  · rename_i u s9 hm
    simp only [TM.pure, Option.some.injEq, Prod.mk.injEq] at h
    obtain ⟨_, rfl⟩ := h
    unfold op_0 at hm
    simp only [h2, h3] at hm
    rw [tm_bind_eq_some] at hm
    obtain ⟨tmp, s1, hg, hm⟩ := hm
    rw [tm_bind_eq_some] at hm
    obtain ⟨tmp3, s2, hg2, hm⟩ := hm
    rw [get_reg_static cfg SHR_SR _ s1 hst] at hg2
    simp only [Option.some.injEq, Prod.mk.injEq] at hg2
    obtain ⟨rfl, rfl⟩ := hg2
    simp only [bind, TM.bind, E, if_true, Option.some.injEq, Prod.mk.injEq, true_and] at hm
    simp only [get_reg, lift_rc] at hg
    split at hg
    · simp at hg
    · rename_i hr rc1 hgr
      simp only [Option.some.injEq, Prod.mk.injEq] at hg
      obtain ⟨rfl, rfl⟩ := hg
      obtain ⟨pre, hpre⟩ := cm_rcache_get_reg cfg st.rc rc1 _ _ _ hgr
      have hne : hr ≠ cfg.reg_map_g2h SHR_SR := by
        by_cases hs : cfg.reg_map_g2h (GET_Rn op) = -1
        · exact (pool_avoids_get_reg cfg _ st.rc rc1 _ _ hr hpool hgr).2 hs
        · rcases rcache_get_reg_shape cfg st.rc rc1 _ _ hr hgr with ⟨_, _, e⟩ | ⟨e, _⟩
          · rw [e]; exact hrn
          · exact absurd e hs
      refine ⟨hr, rc1, pre, hgr, hne, ?_⟩
      rw [← hm]
      simp [RCache.emit, hpre, sr_copy]

theorem rpa_get_reg (cfg : Config) (hr0 : Int) (r : Nat) (mode : rc_gr_mode) :
    Steps (Rpa hr0) (get_reg cfg r mode) := by
  intro st a st1 h hp
  simp only [get_reg, lift_rc] at h
  split at h
  · simp at h
  · rename_i hr rc1 hg
    simp only [Option.some.injEq, Prod.mk.injEq] at h
    rw [← h.2]
    exact (pool_avoids_get_reg cfg hr0 _ _ _ _ _ hp hg).1

theorem rpa_get_reg_arg (cfg : Config) (hr0 : Int) (arg r : Nat) :
    Steps (Rpa hr0) (get_reg_arg cfg arg r) := by
  intro st a st1 h hp
  simp only [get_reg_arg, lift_rc] at h
  split at h
  · simp at h
  · rename_i hr rc1 hg
    simp only [Option.some.injEq, Prod.mk.injEq] at h
    rw [← h.2]
    exact (pool_avoids_get_reg_arg cfg hr0 _ _ _ _ _ hp hg).1

theorem rpa_E (hr0 : Int) (op : EmitOp) (args : List Int) : Steps (Rpa hr0) (E op args) := by
  intro st a st1 h hp
  simp only [E, Option.some.injEq, Prod.mk.injEq] at h
  rw [← h.2]
  exact hp

theorem rpa_clean (hr0 : Int) : Steps (Rpa hr0) clean := by
  intro st a st1 h hp
  simp only [clean, Option.some.injEq, Prod.mk.injEq] at h
  rw [← h.2]
  exact pool_avoids_clean hr0 _ hp

theorem rcm_get_pc : Steps Rcm get_pc := by
  intro st a st1 h
  simp only [get_pc, Option.some.injEq, Prod.mk.injEq] at h
  rw [← h.2]
  exact cm_refl _

theorem rcm_emit_memhandler_write (cfg : Config) (size : Nat) :
    Steps Rcm (emit_memhandler_write cfg size) := by
  unfold emit_memhandler_write emit_memcall
  repeat' with_reducible first
    | apply steps_bind Rcm rcm_trans
    | refine fun _ => ?_
    | exact rcm_E _ _
    | exact rcm_invalidate
    | apply steps_pure Rcm rcm_refl
    | split

theorem pool_has_set (hr : Nat) (rt : List temp_reg_t) (i : Nat) (t t1 : temp_reg_t)
    (h : pool_has hr rt) (hi : rt[i]? = some t) (h1 : t1.reg = t.reg) :
    pool_has hr (rt.set i t1) := by
  obtain ⟨j, u, hj, hu⟩ := h
  by_cases e : j = i
  · subst e
    rw [hi] at hj
    simp only [Option.some.injEq] at hj
    subst hj
    exact ⟨j, t1, getElem?_set_self_of_some rt j t t1 hi, by rw [h1, hu]⟩
  · refine ⟨j, u, ?_, hu⟩
    rw [List.getElem?_set_ne (fun e2 => e e2.symm)]
    exact hj

theorem pool_has_get_reg (cfg : Config) (hr0 : Nat) (r : Nat) (mode : rc_gr_mode)
    (st : TState) (a : Int) (st1 : TState) (h : get_reg cfg r mode st = some (a, st1))
    (hp : pool_has hr0 st.rc.reg_temp) : pool_has hr0 st1.rc.reg_temp := by
  simp only [get_reg, lift_rc] at h
  split at h
  · simp at h
  · rename_i hr rc1 hg
    simp only [Option.some.injEq, Prod.mk.injEq] at h
    rw [← h.2]
    rcases rcache_get_reg_shape cfg st.rc rc1 r mode hr hg with
      ⟨_, e, _⟩ | ⟨_, _, i, t, ht, _, hupd⟩
    · rw [e]
      exact hp
    · rcases hupd with ⟨_, _, e⟩ | ⟨_, _, e⟩
      · rw [e]
        exact pool_has_set hr0 _ i t _ hp ht rfl
      · rw [e]
        exact pool_has_set hr0 _ i t _ hp ht rfl

theorem pool_has_get_reg_arg (cfg : Config) (hr0 : Nat) (arg r : Nat)
    (st : TState) (a : Int) (st1 : TState) (h : get_reg_arg cfg arg r st = some (a, st1))
    (hp : pool_has hr0 st.rc.reg_temp) : pool_has hr0 st1.rc.reg_temp := by
  simp only [get_reg_arg, lift_rc] at h
  split at h
  · simp at h
  · rename_i hr rc1 hg
    simp only [Option.some.injEq, Prod.mk.injEq] at h
    rw [← h.2]
    obtain ⟨i, t, ht, _, _, e⟩ := rcache_get_reg_arg_touch cfg st.rc rc1 arg r hr hg
    rw [e]
    exact pool_has_set hr0 _ i t _ hp ht rfl

theorem pool_has_E (hr0 : Nat) (op : EmitOp) (args : List Int) (st : TState) (a : Unit)
    (st1 : TState) (h : E op args st = some (a, st1)) (hp : pool_has hr0 st.rc.reg_temp) :
    pool_has hr0 st1.rc.reg_temp := by
  simp only [E, Option.some.injEq, Prod.mk.injEq] at h
  rw [← h.2]
  exact hp

theorem pool_has_clean (hr0 : Nat) (st : TState) (a : Unit) (st1 : TState)
    (h : clean st = some (a, st1)) (hp : pool_has hr0 st.rc.reg_temp) :
    pool_has hr0 st1.rc.reg_temp := by
  simp only [clean, Option.some.injEq, Prod.mk.injEq] at h
  rw [← h.2]
  obtain ⟨i, t, hi, ht⟩ := hp
  show pool_has hr0 (rcache_clean st.rc).reg_temp
  rw [rcache_clean_reg_temp]
  refine ⟨i, _, by rw [List.getElem?_map, hi]; rfl, ?_⟩
  dsimp only
  split <;> exact ht

/-- The register `rcache_get_reg_arg(arg, r)` returns is the host register of C argument
`arg`, when the pool holds that register. -/
theorem rcache_get_reg_arg_reg (cfg : Config) (s s1 : RCache) (arg r : Nat) (a : Int)
    (hp : pool_has (cfg.host_arg2reg arg) s.reg_temp)
    (h : rcache_get_reg_arg cfg s arg r = some (a, s1)) :
    a = (cfg.host_arg2reg arg : Int) := by
  unfold rcache_get_reg_arg at h
  split at h
  · simp at h
  · rename_i dstid s2 hid
    have hrt := (rcache_get_arg_id_shape cfg s s2 arg dstid hid).1
    have hdst : ∀ t, s.reg_temp[dstid]? = some t → t.reg = cfg.host_arg2reg arg := by
      intro t ht
      unfold rcache_get_arg_id at hid
      simp only at hid
      split at hid
      · rename_i hnone
        obtain ⟨i, u, hi, hu⟩ := hp
        have := scan_up_none_spec _ _ _ hnone u (List.getElem?_mem hi)
        simp [hu] at this
      · rename_i i hsome
        obtain ⟨u, hu, hpu, _⟩ := scan_up_some_spec _ _ _ _ hsome
        simp only [Nat.sub_zero] at hu
        have hi : dstid = i := by
          rw [hu] at hid
          simp only at hid
          split at hid
          · simp only [Option.some.injEq, Prod.mk.injEq] at hid
            exact hid.1.symm
          · split at hid
            · simp at hid
            · simp only [Option.some.injEq, Prod.mk.injEq] at hid
              exact hid.1.symm
        rw [hi, hu] at ht
        simp only [Option.some.injEq] at ht
        rw [← ht]
        simpa using hpu
    split at h
    · simp at h
    · rename_i dt hdt
      simp only [Option.some.injEq, Prod.mk.injEq] at h
      rw [hrt] at hdt
      rw [← h.1, hdst dt hdt]

/-- The SR push shared by STC.L SR,@-Rn and TRAPA: `rcache_get_reg_arg(1, SHR_SR)`,
`emith_clear_msb(tmp, tmp, 20)` and `emit_memhandler_write(2)`.  The copy is made in the host
register of C argument 1, the value argument of the write handler. -/
theorem sr_push_code (cfg : Config) (hst : cfg.reg_map_g2h SHR_SR ≠ -1) (st st1 : TState)
    (hpool : pool_avoids (cfg.reg_map_g2h SHR_SR) st.rc.reg_temp)
    (hhas : pool_has (cfg.host_arg2reg 1) st.rc.reg_temp)
    (h : (get_reg_arg cfg 1 SHR_SR >>= fun tmp => E .clear_msb [tmp, tmp, 20] >>= fun _ =>
      emit_memhandler_write cfg 2) st = some ((), st1)) :
    (cfg.host_arg2reg 1 : Int) ≠ cfg.reg_map_g2h SHR_SR ∧
    ∃ pre, st1.rc.code = st.rc.code ++ pre ++
      sr_copy (cfg.host_arg2reg 1) (cfg.reg_map_g2h SHR_SR) ++ write32_call cfg := by
  rw [tm_bind_eq_some] at h
  obtain ⟨a, s1, hg, h⟩ := h
  rw [tm_bind_eq_some] at h
  obtain ⟨_, s2, he, h⟩ := h
  simp only [get_reg_arg, lift_rc] at hg
  split at hg
  · simp at hg
  · rename_i hr rc1 hgr
    simp only [Option.some.injEq, Prod.mk.injEq] at hg
    obtain ⟨rfl, rfl⟩ := hg
    have hne := (pool_avoids_get_reg_arg cfg _ _ _ _ _ _ hpool hgr).2
    have hreg := rcache_get_reg_arg_reg cfg st.rc rc1 1 SHR_SR hr hhas hgr
    obtain ⟨pre, hpre⟩ := rcache_get_reg_arg_static_code cfg st.rc rc1 1 SHR_SR hr hst hne hgr
    simp only [E, Option.some.injEq, Prod.mk.injEq, true_and] at he
    have hw := emit_memhandler_write_code cfg s2 st1 h
    rw [hreg] at hne hpre he
    refine ⟨hne, pre, ?_⟩
    rw [hw, ← he]
    simp [RCache.emit, hpre, sr_copy]

/-- STC.L SR,@-Rn: the handler's code ends with the SR copy into the value argument register
and the call of the 32-bit write handler. -/
theorem stcl_sr_code (cfg : Config) (mem : Nat → Nat) (op : Nat)
    (hst : cfg.reg_map_g2h SHR_SR ≠ -1) (hop : is_stcl_sr op)
    (st st1 : TState) (ex : OpExit)
    (hpool : pool_avoids (cfg.reg_map_g2h SHR_SR) st.rc.reg_temp)
    (hhas : pool_has (cfg.host_arg2reg 1) st.rc.reg_temp)
    (h : translate_op cfg mem op st = some (ex, st1)) :
    (cfg.host_arg2reg 1 : Int) ≠ cfg.reg_map_g2h SHR_SR ∧
    ∃ pre, st1.rc.code = st.rc.code ++ pre ++
      sr_copy (cfg.host_arg2reg 1) (cfg.reg_map_g2h SHR_SR) ++ write32_call cfg := by
  obtain ⟨h1, h2, h3⟩ := hop
  unfold translate_op at h
  simp only [h1] at h
  simp only [to_end_op, TM.bind] at h
  split at h
  · simp at h
  · rename_i u s9 hm
    simp only [TM.pure, Option.some.injEq, Prod.mk.injEq] at h
    obtain ⟨_, rfl⟩ := h
    unfold op_4 at hm
    simp only [h2, h3, if_true] at hm
    rw [tm_bind_eq_some] at hm
    obtain ⟨tmp2, s1, hg1, hm⟩ := hm
    rw [tm_bind_eq_some] at hm
    obtain ⟨_, s2, hg2, hm⟩ := hm
    rw [tm_bind_eq_some] at hm
    obtain ⟨_, s3, hg3, hm⟩ := hm
    rw [tm_bind_eq_some] at hm
    obtain ⟨_, s4, hg4, hm⟩ := hm
    have hp4 : pool_avoids (cfg.reg_map_g2h SHR_SR) s4.rc.reg_temp :=
      rpa_get_reg_arg cfg _ _ _ _ _ _ hg4
        (rpa_clean _ _ _ _ hg3 (rpa_E _ _ _ _ _ _ hg2 (rpa_get_reg cfg _ _ _ _ _ _ hg1 hpool)))
    have hh4 : pool_has (cfg.host_arg2reg 1) s4.rc.reg_temp :=
      pool_has_get_reg_arg cfg _ _ _ _ _ _ hg4
        (pool_has_clean _ _ _ _ hg3
          (pool_has_E _ _ _ _ _ _ hg2 (pool_has_get_reg cfg _ _ _ _ _ _ hg1 hhas)))
    have hc4 : Cm st.rc s4.rc :=
      cm_trans _ _ _ (cm_trans _ _ _ (cm_trans _ _ _ (rcm_get_reg cfg _ _ _ _ _ hg1)
        (rcm_E _ _ _ _ _ hg2)) (rcm_clean _ _ _ hg3)) (rcm_get_reg_arg cfg _ _ _ _ _ hg4)
    obtain ⟨l, hl⟩ := hc4
    obtain ⟨hne, pre, hcode⟩ := sr_push_code cfg hst s4 s9 hp4 hh4 hm
    refine ⟨hne, l ++ pre, ?_⟩
    rw [hcode, hl]
    simp

/-- TRAPA: the handler's code holds the SR copy into the value argument register followed by
the call of the 32-bit write handler (the SR push), then the rest of the handler. -/
theorem trapa_sr_code (cfg : Config) (mem : Nat → Nat) (op : Nat)
    (hst : cfg.reg_map_g2h SHR_SR ≠ -1) (hop : is_trapa op)
    (st st1 : TState) (ex : OpExit)
    (hpool : pool_avoids (cfg.reg_map_g2h SHR_SR) st.rc.reg_temp)
    (hhas : pool_has (cfg.host_arg2reg 1) st.rc.reg_temp)
    (h : translate_op cfg mem op st = some (ex, st1)) :
    (cfg.host_arg2reg 1 : Int) ≠ cfg.reg_map_g2h SHR_SR ∧
    ∃ pre post, st1.rc.code = st.rc.code ++ pre ++
      sr_copy (cfg.host_arg2reg 1) (cfg.reg_map_g2h SHR_SR) ++ write32_call cfg ++ post := by
  obtain ⟨h1, h2⟩ := hop
  unfold translate_op at h
  simp only [h1] at h
  unfold op_C at h
  simp only [h2] at h
  rw [tm_bind_eq_some] at h
  obtain ⟨tmp, s1, hg1, h⟩ := h
  rw [tm_bind_eq_some] at h
  obtain ⟨_, s2, hg2, h⟩ := h
  rw [tm_bind_eq_some] at h
  obtain ⟨_, s3, hg3, h⟩ := h
  rw [tm_bind_eq_some] at h
  obtain ⟨tmp4, s4, hg4, h⟩ := h
  rw [tm_bind_eq_some] at h
  obtain ⟨_, s5, hg5, h⟩ := h
  rw [tm_bind_eq_some] at h
  obtain ⟨a, s6, hg6, h⟩ := h
  rw [tm_bind_eq_some] at h
  obtain ⟨_, s7, hg7, h⟩ := h
  rw [tm_bind_eq_some] at h
  obtain ⟨_, s8, hg8, h⟩ := h
  have hp5 : pool_avoids (cfg.reg_map_g2h SHR_SR) s5.rc.reg_temp :=
    rpa_E _ _ _ _ _ _ hg5 (rpa_get_reg_arg cfg _ _ _ _ _ _ hg4
      (rpa_clean _ _ _ _ hg3 (rpa_E _ _ _ _ _ _ hg2 (rpa_get_reg cfg _ _ _ _ _ _ hg1 hpool))))
  have hh5 : pool_has (cfg.host_arg2reg 1) s5.rc.reg_temp :=
    pool_has_E _ _ _ _ _ _ hg5 (pool_has_get_reg_arg cfg _ _ _ _ _ _ hg4
      (pool_has_clean _ _ _ _ hg3
        (pool_has_E _ _ _ _ _ _ hg2 (pool_has_get_reg cfg _ _ _ _ _ _ hg1 hhas))))
  have hc5 : Cm st.rc s5.rc :=
    cm_trans _ _ _ (cm_trans _ _ _ (cm_trans _ _ _ (cm_trans _ _ _
      (rcm_get_reg cfg _ _ _ _ _ hg1) (rcm_E _ _ _ _ _ hg2)) (rcm_clean _ _ _ hg3))
      (rcm_get_reg_arg cfg _ _ _ _ _ hg4)) (rcm_E _ _ _ _ _ hg5)
  have hpush : (get_reg_arg cfg 1 SHR_SR >>= fun tmp => E .clear_msb [tmp, tmp, 20] >>= fun _ =>
      emit_memhandler_write cfg 2) s5 = some ((), s8) := by
    rw [tm_bind_eq_some]
    refine ⟨a, s6, hg6, ?_⟩
    rw [tm_bind_eq_some]
    exact ⟨_, s7, hg7, hg8⟩
  have hsuf : Rcm s8 st1 := by
    refine (?_ : Steps Rcm _) _ _ _ h
    repeat' with_reducible first
      | apply steps_bind Rcm rcm_trans
      | refine fun _ => ?_
      | exact rcm_E _ _
      | exact rcm_get_reg _ _ _
      | exact rcm_get_tmp_arg _ _
      | exact rcm_get_reg_arg _ _ _
      | exact rcm_free_tmp _
      | exact rcm_add_cycles _
      | exact rcm_get_pc
      | exact rcm_emit_memhandler_read _ _
      | exact rcm_emit_memhandler_write _ _
      | apply steps_pure Rcm rcm_refl
  obtain ⟨l, hl⟩ := hc5
  obtain ⟨post, hpost⟩ := hsuf
  obtain ⟨hne, pre, hcode⟩ := sr_push_code cfg hst s5 s8 hp5 hh5 hpush
  refine ⟨hne, l ++ pre, post, ?_⟩
  rw [hpost, hcode, hl]
  simp

/-- The SR copy into the value argument register followed by the move that loads the context
argument, run on the host: at the call of the write handler the value argument register holds
the low 12 bits of SR. -/
theorem sr_push_run (cfg : Config) (h : Int → Nat)
    (hne : (cfg.host_arg2reg 1 : Int) ≠ cfg.reg_map_g2h SHR_SR)
    (h21 : cfg.host_arg2reg 2 ≠ cfg.host_arg2reg 1) :
    ∃ h1, host_copy_run (sr_copy (cfg.host_arg2reg 1) (cfg.reg_map_g2h SHR_SR) ++
        [⟨.move_r_r, [(cfg.host_arg2reg 2 : Int), cfg.CONTEXT_REG]⟩]) h = some h1 ∧
      h1 (cfg.host_arg2reg 1) = h (cfg.reg_map_g2h SHR_SR) % 4096 := by
  have h21i : ((cfg.host_arg2reg 1 : Nat) : Int) ≠ ((cfg.host_arg2reg 2 : Nat) : Int) := by
    intro e
    exact h21 (by omega)
  refine ⟨_, by simp [sr_copy, host_copy_run]; rfl, ?_⟩
  rw [Function.update_noteq h21i]
  simp only [Function.update_same]
  omega

/-- C32: let SR be statically mapped to host register `sr` (as in both builds) and let no slot
of the register pool be `sr`.  Then the handler of STC SR,Rn ends its code with
`sr_copy a sr`, i.e. `move a, sr; clear_msb a, a, 20`, where `a` is the host register it got
for Rn, and `a` is not `sr`.  When the pool holds the host register `v` of C argument 1, the
value argument of the write handlers (as in both builds), the handlers of STC.L SR,@-Rn and
TRAPA emit `sr_copy v sr`, followed at once by the move that loads the context argument and
the call of the 32-bit write handler, and `v` is not `sr`.  On the host (emitter calls
modelled from the specification) `sr_copy a sr` leaves in `a` the low 12 bits of SR, so two
runs whose SR differs only in bits 12..31 leave the same value in `a`, and it leaves `sr` as
it was; and at the call of the write handler `v` holds the low 12 bits of SR, the same for
two such runs. -/
theorem sr_copy_hides_cycles (cfg : Config) (mem : Nat → Nat) (op : Nat) (st st1 : TState)
    (ex : OpExit) (hst : cfg.reg_map_g2h SHR_SR ≠ -1)
    (hpool : pool_avoids (cfg.reg_map_g2h SHR_SR) st.rc.reg_temp)
    (h : translate_op cfg mem op st = some (ex, st1)) :
    (is_stc_sr op → cfg.reg_map_g2h (GET_Rn op) ≠ cfg.reg_map_g2h SHR_SR →
      ∃ a rc1 pre, rcache_get_reg cfg st.rc (GET_Rn op) .RC_GR_WRITE = some (a, rc1) ∧
        a ≠ cfg.reg_map_g2h SHR_SR ∧
        st1.rc.code = st.rc.code ++ pre ++ sr_copy a (cfg.reg_map_g2h SHR_SR)) ∧
    (is_stcl_sr op → pool_has (cfg.host_arg2reg 1) st.rc.reg_temp →
      (cfg.host_arg2reg 1 : Int) ≠ cfg.reg_map_g2h SHR_SR ∧
      ∃ pre, st1.rc.code = st.rc.code ++ pre ++
        sr_copy (cfg.host_arg2reg 1) (cfg.reg_map_g2h SHR_SR) ++ write32_call cfg) ∧
    (is_trapa op → pool_has (cfg.host_arg2reg 1) st.rc.reg_temp →
      (cfg.host_arg2reg 1 : Int) ≠ cfg.reg_map_g2h SHR_SR ∧
      ∃ pre post, st1.rc.code = st.rc.code ++ pre ++
        sr_copy (cfg.host_arg2reg 1) (cfg.reg_map_g2h SHR_SR) ++ write32_call cfg ++ post) ∧
    (∀ (a : Int) (h0 h0' : Int → Nat), a ≠ cfg.reg_map_g2h SHR_SR →
      h0 (cfg.reg_map_g2h SHR_SR) % 4096 = h0' (cfg.reg_map_g2h SHR_SR) % 4096 →
      ∃ h1 h1', host_copy_run (sr_copy a (cfg.reg_map_g2h SHR_SR)) h0 = some h1 ∧
        host_copy_run (sr_copy a (cfg.reg_map_g2h SHR_SR)) h0' = some h1' ∧
        h1 a = h1' a ∧ h1 a = h0 (cfg.reg_map_g2h SHR_SR) % 4096 ∧ h1 a < 4096 ∧
        h1 (cfg.reg_map_g2h SHR_SR) = h0 (cfg.reg_map_g2h SHR_SR) ∧
        h1' (cfg.reg_map_g2h SHR_SR) = h0' (cfg.reg_map_g2h SHR_SR)) ∧
    (∀ (h0 h0' : Int → Nat), (cfg.host_arg2reg 1 : Int) ≠ cfg.reg_map_g2h SHR_SR →
      cfg.host_arg2reg 2 ≠ cfg.host_arg2reg 1 →
      h0 (cfg.reg_map_g2h SHR_SR) % 4096 = h0' (cfg.reg_map_g2h SHR_SR) % 4096 →
      ∃ h1 h1',
        host_copy_run (sr_copy (cfg.host_arg2reg 1) (cfg.reg_map_g2h SHR_SR) ++
          (write32_call cfg).take 1) h0 = some h1 ∧
        host_copy_run (sr_copy (cfg.host_arg2reg 1) (cfg.reg_map_g2h SHR_SR) ++
          (write32_call cfg).take 1) h0' = some h1' ∧
        (write32_call cfg).drop 1 = [⟨.call, [p32x_sh2_write32]⟩] ∧
        h1 (cfg.host_arg2reg 1) = h1' (cfg.host_arg2reg 1) ∧
        h1 (cfg.host_arg2reg 1) = h0 (cfg.reg_map_g2h SHR_SR) % 4096 ∧
        h1 (cfg.host_arg2reg 1) < 4096) := by
  refine ⟨fun hop hrn => stc_sr_code cfg mem op hst hop hrn st st1 ex hpool h,
    fun hop hhas => stcl_sr_code cfg mem op hst hop st st1 ex hpool hhas h,
    fun hop hhas => trapa_sr_code cfg mem op hst hop st st1 ex hpool hhas h, ?_, ?_⟩
  · intro a h0 h0' hne heq
    obtain ⟨h1, e1, v1, s1, _⟩ := sr_copy_run a (cfg.reg_map_g2h SHR_SR) hne h0
    obtain ⟨h1', e1', v1', s1', _⟩ := sr_copy_run a (cfg.reg_map_g2h SHR_SR) hne h0'
    refine ⟨h1, h1', e1, e1', by rw [v1, v1', heq], v1, ?_, s1, s1'⟩
    rw [v1]
    exact Nat.mod_lt _ (by decide)
  · intro h0 h0' hne h21 heq
    obtain ⟨h1, e1, v1⟩ := sr_push_run cfg h0 hne h21
    obtain ⟨h1', e1', v1'⟩ := sr_push_run cfg h0' hne h21
    refine ⟨h1, h1', e1, e1', rfl, by rw [v1, v1', heq], v1, ?_⟩
    rw [v1]
    exact Nat.mod_lt _ (by decide)

set_option maxRecDepth 100000 in
/-- Witness for `sr_copy_hides_cycles` on the ARM build, where SR is host r10 and the value
argument register is r1, a pool register: STC SR,R5 (`0x0502`), for which R5 gets the pool
register r3, and STC.L SR,@-R5 (`0x4503`), whose code ends with `move r1, r10`,
`clear_msb r1, r1, 20`, `move r2, r11` and the call of the 32-bit write handler. -/
theorem sr_copy_hides_cycles_witness :
    arm_cfg.reg_map_g2h SHR_SR ≠ -1 ∧ is_stc_sr 0x0502 ∧ is_stcl_sr 0x4503 ∧
    pool_has (arm_cfg.host_arg2reg 1) tstate0.rc.reg_temp ∧
    (∃ st1, translate_op arm_cfg (fun _ => 0x0009) 0x0502 tstate0 = some (.end_op, st1) ∧
      st1.rc.code = [⟨.move_r_r, [3, 10]⟩, ⟨.clear_msb, [3, 3, 20]⟩] ∧
      ∃ a rc1 pre,
        rcache_get_reg arm_cfg tstate0.rc (GET_Rn 0x0502) .RC_GR_WRITE = some (a, rc1) ∧
        a ≠ arm_cfg.reg_map_g2h SHR_SR ∧
        st1.rc.code = tstate0.rc.code ++ pre ++ sr_copy a (arm_cfg.reg_map_g2h SHR_SR)) ∧
    (∃ st1, translate_op arm_cfg (fun _ => 0x0009) 0x4503 tstate0 = some (.end_op, st1) ∧
      st1.rc.code = [⟨.ctx_read, [3, 20]⟩, ⟨.sub_r_imm, [3, 4]⟩, ⟨.ctx_write, [3, 20]⟩,
        ⟨.move_r_r, [0, 3]⟩, ⟨.move_r_r, [1, 10]⟩, ⟨.clear_msb, [1, 1, 20]⟩,
        ⟨.move_r_r, [2, 11]⟩, ⟨.call, [p32x_sh2_write32]⟩] ∧
      (arm_cfg.host_arg2reg 1 : Int) ≠ arm_cfg.reg_map_g2h SHR_SR ∧
      ∃ pre, st1.rc.code = tstate0.rc.code ++ pre ++
        sr_copy (arm_cfg.host_arg2reg 1) (arm_cfg.reg_map_g2h SHR_SR) ++
        write32_call arm_cfg) := by
  have hav : pool_avoids (arm_cfg.reg_map_g2h SHR_SR) tstate0.rc.reg_temp :=
    fun i t hi =>
      (by decide : ∀ t ∈ tstate0.rc.reg_temp, (t.reg : Int) ≠ arm_cfg.reg_map_g2h SHR_SR)
        t (List.getElem?_mem hi)
  have hhas : pool_has (arm_cfg.host_arg2reg 1) tstate0.rc.reg_temp :=
    ⟨1, ⟨1, .HR_FREE, 0, 0⟩, by decide, by decide⟩
  refine ⟨by decide, by decide, by decide, hhas, ?_, ?_⟩
  · cases e : translate_op arm_cfg (fun _ => 0x0009) 0x0502 tstate0 with
    | none =>
      have : (translate_op arm_cfg (fun _ => 0x0009) 0x0502 tstate0).isSome = true := by decide
      rw [e] at this
      simp at this
    | some r =>
      obtain ⟨ex, st1⟩ := r
      have hx : (translate_op arm_cfg (fun _ => 0x0009) 0x0502 tstate0).map
          (fun r => (r.1, r.2.rc.code)) =
          some (.end_op, [⟨.move_r_r, [3, 10]⟩, ⟨.clear_msb, [3, 3, 20]⟩]) := by decide
      rw [e] at hx
      simp only [Option.map_some', Option.some.injEq, Prod.mk.injEq] at hx
      obtain ⟨rfl, hcode⟩ := hx
      exact ⟨st1, rfl, hcode,
        (sr_copy_hides_cycles arm_cfg (fun _ => 0x0009) 0x0502 tstate0 st1 .end_op (by decide)
          hav e).1 (by decide) (by decide)⟩
  · cases e : translate_op arm_cfg (fun _ => 0x0009) 0x4503 tstate0 with
    | none =>
      have : (translate_op arm_cfg (fun _ => 0x0009) 0x4503 tstate0).isSome = true := by decide
      rw [e] at this
      simp at this
    | some r =>
      obtain ⟨ex, st1⟩ := r
      have hx : (translate_op arm_cfg (fun _ => 0x0009) 0x4503 tstate0).map
          (fun r => (r.1, r.2.rc.code)) =
          some (.end_op, [⟨.ctx_read, [3, 20]⟩, ⟨.sub_r_imm, [3, 4]⟩, ⟨.ctx_write, [3, 20]⟩,
            ⟨.move_r_r, [0, 3]⟩, ⟨.move_r_r, [1, 10]⟩, ⟨.clear_msb, [1, 1, 20]⟩,
            ⟨.move_r_r, [2, 11]⟩, ⟨.call, [p32x_sh2_write32]⟩]) := by decide
      rw [e] at hx
      simp only [Option.map_some', Option.some.injEq, Prod.mk.injEq] at hx
      obtain ⟨rfl, hcode⟩ := hx
      exact ⟨st1, rfl, hcode,
        (sr_copy_hides_cycles arm_cfg (fun _ => 0x0009) 0x4503 tstate0 st1 .end_op (by decide)
          hav e).2.1 (by decide) hhas⟩

end Sh2Drc
